import Mathlib

/-!
# ClusterGroupUpgrade reconciler: planning and batch progression

A shallow embedding of `controllers/clustergroupupgrade_controller.go`.
Go maps with string keys are association lists, Go `int` values are `Int`,
calls that may return an error or panic return `Except Fault`, and the
results of reads from the API server are fields of an environment.
-/

namespace Cgu

/-! ## Basic types -/

/-- How a Go call can fail: a returned `error`, or a runtime panic (nil
dereference, index out of range). -/
inductive Fault where
  | error (msg : String)
  | panic
  deriving DecidableEq

/-- A Go `map[string]α`: an association list with at most one pair per key. -/
abbrev GoMap (α : Type) := List (String × α)

/-- Map read `m[k]` with the presence flag (`v, ok := m[k]`). -/
def mapGet? {α : Type} (m : GoMap α) (k : String) : Option α :=
  match m with
  | [] => none
  | (k', v) :: rest => if k' = k then some v else mapGet? rest k

/-- Map write `m[k] = v`: replaces the value of an existing key, adds a new key otherwise. -/
def mapSet {α : Type} (m : GoMap α) (k : String) (v : α) : GoMap α :=
  match m with
  | [] => [(k, v)]
  | (k', v') :: rest => if k' = k then (k, v) :: rest else (k', v') :: mapSet rest k v

/-- Read of a `map[string]bool`: a missing key reads as `false`. -/
def mapGetBool (m : GoMap Bool) (k : String) : Bool :=
  (mapGet? m k).getD false

/-! ## Policies and compliance -/

/-- Modelled from the spec: the constant `utils.ClusterStatusCompliant` (package `utils` is not
part of the source file); the value is the one named in the doc comment of
`getClusterComplianceWithPolicy`. -/
def ClusterStatusCompliant : String := "Compliant"

/-- Modelled from the spec: the constant `utils.ClusterStatusNonCompliant`. -/
def ClusterStatusNonCompliant : String := "NonCompliant"

/-- Modelled from the spec: the constant `utils.ClusterNotMatchedWithPolicy`. -/
def ClusterNotMatchedWithPolicy : String := "NotMatchedWithPolicy"

/-- One element of a policy's `status.status` list. The `compliant` field is `none` when the key
is absent (Go `nil`); any value that is not a string behaves like a string different from the
two compliance constants. -/
structure ClusterComplianceEntry where
  clustername : String
  compliant : Option String := none
  deriving DecidableEq

/-- The `status` object of a policy: the overall `compliant` field (only logged) and the
per-cluster list `status.status` (`none` is Go `nil`). -/
structure PolicyStatus where
  compliant : Option String := none
  status : Option (List ClusterComplianceEntry) := none
  deriving DecidableEq

/-- A well-formed policy object, as far as the controller reads it. -/
structure Policy where
  name : String
  status : Option PolicyStatus := none
  deriving DecidableEq

/-- Source `getPolicyClusterStatus`: the per-cluster status list, or nil when the policy has no
status or no list. -/
def getPolicyClusterStatus (policy : Policy) : Option (List ClusterComplianceEntry) :=
  match policy.status with
  | none => none
  | some statusObject =>
    match statusObject.status with
    | none => none
    | some subStatus => some subStatus

/-- The loop of `getClusterComplianceWithPolicy` over the entries of `status.status`. -/
def complianceLoop (clusterName : String) : List ClusterComplianceEntry → String
  | [] => ClusterNotMatchedWithPolicy
  | crt :: rest =>
    if clusterName = crt.clustername then
      if crt.compliant = some ClusterStatusCompliant then ClusterStatusCompliant
      else if crt.compliant = some ClusterStatusNonCompliant then ClusterStatusNonCompliant
      else if crt.compliant = none then ClusterStatusNonCompliant
      else complianceLoop clusterName rest
    else complianceLoop clusterName rest

/-- Source `getClusterComplianceWithPolicy`. -/
def getClusterComplianceWithPolicy (clusterName : String) (policy : Policy) : String :=
  match getPolicyClusterStatus policy with
  | none => ClusterStatusNonCompliant
  | some subStatus => complianceLoop clusterName subStatus

/-- The inner loop of `getClustersNonCompliantWithManagedPolicies` for one cluster: the first
policy with which the cluster is NonCompliant marks the cluster and ends the loop. -/
def markIfNonCompliant (m : GoMap Bool) (clusterName : String) : List Policy → GoMap Bool
  | [] => m
  | managedPolicy :: rest =>
    if getClusterComplianceWithPolicy clusterName managedPolicy = ClusterStatusNonCompliant then
      mapSet m clusterName true
    else markIfNonCompliant m clusterName rest

/-- The outer loop of `getClustersNonCompliantWithManagedPolicies`. -/
def nonCompliantLoop (managedPolicies : List Policy) : List String → GoMap Bool → GoMap Bool
  | [], m => m
  | clusterName :: rest, m =>
    nonCompliantLoop managedPolicies rest (markIfNonCompliant m clusterName managedPolicies)

/-- Source `getClustersNonCompliantWithManagedPolicies`; `allClustersForUpgrade` is what the call
of `getAllClustersForUpgrade` returned. -/
def getClustersNonCompliantWithManagedPolicies
    (allClustersForUpgrade : Except Fault (List String)) (managedPolicies : List Policy) :
    Except Fault (GoMap Bool) :=
  match allClustersForUpgrade with
  | .error err => .error err
  | .ok all => .ok (nonCompliantLoop managedPolicies all [])

/-! ## The remediation plan -/

/-- The canary loop of `buildRemediationPlan`: every canary that the map marks non-compliant gets
a batch of its own and is recorded in `isCanary`. -/
def canaryLoop (nonCompliant : GoMap Bool) :
    List String → List (List String) × GoMap Bool → List (List String) × GoMap Bool
  | [], acc => acc
  | canary :: rest, (remediationPlan, isCanary) =>
    if mapGetBool nonCompliant canary then
      canaryLoop nonCompliant rest (remediationPlan ++ [[canary]], mapSet isCanary canary true)
    else canaryLoop nonCompliant rest (remediationPlan, isCanary)

/-- The test of the batching loop of `buildRemediationPlan`: the site has no canary batch and is
non-compliant. -/
def batchTest (isCanary nonCompliant : GoMap Bool) (site : String) : Bool :=
  !mapGetBool isCanary site && mapGetBool nonCompliant site

/-- The batching loop of `buildRemediationPlan` over the clusters still to visit; `rest = []`
after the current site is the test `i == len(allClustersForUpgrade)-1`. -/
def batchLoop (isCanary nonCompliant : GoMap Bool) (computedMaxConcurrency : Int) :
    List String → List String → Int → List (List String) → List (List String)
  | [], _, _, remediationPlan => remediationPlan
  | site :: rest, batch, clusterCount, remediationPlan =>
    let add := batchTest isCanary nonCompliant site
    let batch1 := if add then batch ++ [site] else batch
    let clusterCount1 := if add then clusterCount + 1 else clusterCount
    if clusterCount1 = computedMaxConcurrency ∨ rest = [] then
      if batch1.length > 0 then
        batchLoop isCanary nonCompliant computedMaxConcurrency rest [] 0 (remediationPlan ++ [batch1])
      else
        batchLoop isCanary nonCompliant computedMaxConcurrency rest batch1 clusterCount1 remediationPlan
    else
      batchLoop isCanary nonCompliant computedMaxConcurrency rest batch1 clusterCount1 remediationPlan

/-- The body of `buildRemediationPlan` once the non-compliance map and the target list are
known: canary batches first, then the batches of the other clusters. -/
def remediationPlanOf (nonCompliant : GoMap Bool) (canaries allClustersForUpgrade : List String)
    (computedMaxConcurrency : Int) : List (List String) :=
  let start := canaryLoop nonCompliant canaries ([], [])
  batchLoop start.2 nonCompliant computedMaxConcurrency allClustersForUpgrade [] 0 start.1

/-! ## The ClusterGroupUpgrade object -/

/-- An entry of `status.managedPoliciesForUpgrade`. -/
structure ManagedPolicyForUpgrade where
  name : String
  nameSpace : String := ""
  deriving DecidableEq

/-- An entry of `spec.blockingCRs`. -/
structure BlockingCR where
  name : String
  nameSpace : String := ""
  deriving DecidableEq

/-- The field `spec.remediationStrategy`; `timeout` is in minutes. -/
structure RemediationStrategy where
  canaries : List String := []
  maxConcurrency : Int := 0
  timeout : Int := 0
  deriving DecidableEq

/-- One requirement of a label selector (`metav1.LabelSelectorRequirement`). -/
structure LabelSelectorRequirement where
  key : String
  operator : String
  values : List String := []
  deriving DecidableEq

/-- A structured label selector (`metav1.LabelSelector`), an entry of
`spec.clusterLabelSelectors`. -/
structure LabelSelector where
  matchLabels : GoMap String := []
  matchExpressions : List LabelSelectorRequirement := []
  deriving DecidableEq

/-- The spec of a ClusterGroupUpgrade, as far as the controller reads it. The field `enable` is
a `*bool` in the source and is read as the value it points to; a nil pointer, on which the
dereference at line 241 of `Reconcile` would panic, is not modelled. -/
structure ClusterGroupUpgradeSpec where
  clusters : List String := []
  clusterSelector : List String := []
  clusterLabelSelectors : List LabelSelector := []
  managedPolicies : List String := []
  enable : Bool := false
  blockingCRs : List BlockingCR := []
  remediationStrategy : RemediationStrategy := {}
  batchTimeoutAction : String := ""
  deriving DecidableEq

/-- The status of a condition (`metav1.ConditionStatus`). -/
inductive ConditionStatus where
  | condTrue
  | condFalse
  | condUnknown
  deriving DecidableEq

/-- A status condition (`metav1.Condition`) without its timestamps. -/
structure Condition where
  type : String
  status : ConditionStatus
  reason : String
  message : String := ""
  deriving DecidableEq

/-- Modelled from the spec: the states of a cluster in the current batch, the constants
`ranv1alpha1.NotStarted`, `InProgress` and `Completed` (the API package is not part of the
source file). -/
inductive RemediationState where
  | NotStarted
  | InProgress
  | Completed
  deriving DecidableEq

/-- The progress of one cluster of the current batch; `policyIndex` is the Go `*int`. -/
structure ClusterRemediationProgress where
  state : RemediationState
  policyIndex : Option Int := none
  deriving DecidableEq

/-- The field `status.status` of a ClusterGroupUpgrade. A time (`metav1.Time`) is a number of
nanoseconds, and `0` is the zero time. -/
structure UpgradeStatus where
  startedAt : Int := 0
  completedAt : Int := 0
  currentBatch : Int := 0
  currentBatchStartedAt : Int := 0
  currentBatchRemediationProgress : GoMap ClusterRemediationProgress := []
  deriving DecidableEq

/-- The status of a ClusterGroupUpgrade. The map `safeResourceNames` is `none` when it is the
nil map of Go: a read of a nil map finds nothing, and a write to it is a panic. -/
structure ClusterGroupUpgradeStatus where
  conditions : List Condition := []
  remediationPlan : List (List String) := []
  managedPoliciesForUpgrade : List ManagedPolicyForUpgrade := []
  managedPoliciesCompliantBeforeUpgrade : List String := []
  managedPoliciesContent : GoMap String := []
  managedPoliciesNs : GoMap String := []
  safeResourceNames : Option (GoMap String) := none
  placementRules : List String := []
  placementBindings : List String := []
  copiedPolicies : List String := []
  computedMaxConcurrency : Int := 0
  status : UpgradeStatus := {}
  deriving DecidableEq

/-- The ClusterGroupUpgrade custom resource. -/
structure ClusterGroupUpgrade where
  name : String := ""
  nameSpace : String := ""
  spec : ClusterGroupUpgradeSpec := {}
  status : ClusterGroupUpgradeStatus := {}
  deriving DecidableEq

/-- Source `buildRemediationPlan`; `getAllClustersForUpgrade` is what the calls of that function
return during this reconcile. -/
def buildRemediationPlan (getAllClustersForUpgrade : Except Fault (List String))
    (clusterGroupUpgrade : ClusterGroupUpgrade) (managedPolicies : List Policy) :
    Except Fault ClusterGroupUpgrade :=
  match getClustersNonCompliantWithManagedPolicies getAllClustersForUpgrade managedPolicies with
  | .error err => .error err
  | .ok clusterNonCompliantWithManagedPoliciesMap =>
    match getAllClustersForUpgrade with
    | .error err => .error err
    | .ok allClustersForUpgrade =>
      .ok { clusterGroupUpgrade with
            status := { clusterGroupUpgrade.status with
              remediationPlan :=
                remediationPlanOf clusterNonCompliantWithManagedPoliciesMap
                  clusterGroupUpgrade.spec.remediationStrategy.canaries allClustersForUpgrade
                  clusterGroupUpgrade.status.computedMaxConcurrency } }

/-- The total number of clusters in a plan: the sum of the sizes of its batches. -/
def planSize (remediationPlan : List (List String)) : Nat :=
  (remediationPlan.map List.length).sum

/-- The claim's reading of non-compliance: the cluster is NonCompliant with at least one of the
managed policies. -/
def nonCompliantWithSome (managedPolicies : List Policy) (clusterName : String) : Bool :=
  managedPolicies.any
    (fun p => decide (getClusterComplianceWithPolicy clusterName p = ClusterStatusNonCompliant))

/-! ## Per-cluster policy cursor -/

/-- Modelled from the spec: `utils.GetManagedPolicyForUpgradeByIndex` (package `utils` is not part
of the source file), the entry of `status.managedPoliciesForUpgrade` at the index. There is no
entry at an index outside the list; the caller dereferences the result, which is a panic then. -/
def GetManagedPolicyForUpgradeByIndex (policyIndex : Int)
    (clusterGroupUpgrade : ClusterGroupUpgrade) : Option ManagedPolicyForUpgrade :=
  if policyIndex < 0 then none
  else clusterGroupUpgrade.status.managedPoliciesForUpgrade[policyIndex.toNat]?

/-- The `for` loop of `getNextNonCompliantPolicyForCluster`. The first argument counts the
iterations left, `numberOfPolicies - currentPolicyIndex`, so the loop condition fails when it
is `0`. -/
def nextNonCompliantLoop (getPolicyByName : String → String → Except Fault Policy)
    (clusterGroupUpgrade : ClusterGroupUpgrade) (clusterName : String) :
    Nat → Int → Except Fault Int
  | 0, currentPolicyIndex => .ok currentPolicyIndex
  | left + 1, currentPolicyIndex =>
    if currentPolicyIndex < clusterGroupUpgrade.status.managedPoliciesForUpgrade.length then
      match GetManagedPolicyForUpgradeByIndex currentPolicyIndex clusterGroupUpgrade with
      | none => .error .panic
      | some currentManagedPolicyInfo =>
        match getPolicyByName currentManagedPolicyInfo.name currentManagedPolicyInfo.nameSpace with
        | .error err => .error err
        | .ok currentManagedPolicy =>
          let clusterStatus := getClusterComplianceWithPolicy clusterName currentManagedPolicy
          if clusterStatus = ClusterStatusCompliant ∨ clusterStatus = ClusterNotMatchedWithPolicy then
            nextNonCompliantLoop getPolicyByName clusterGroupUpgrade clusterName left
              (currentPolicyIndex + 1)
          else if clusterStatus = ClusterStatusNonCompliant then .ok currentPolicyIndex
          else
            nextNonCompliantLoop getPolicyByName clusterGroupUpgrade clusterName left
              (currentPolicyIndex + 1)
    else .ok currentPolicyIndex

/-- Source `getNextNonCompliantPolicyForCluster`; `getPolicyByName` is the read of a policy from
the API server. -/
def getNextNonCompliantPolicyForCluster (getPolicyByName : String → String → Except Fault Policy)
    (clusterGroupUpgrade : ClusterGroupUpgrade) (clusterName : String) (startIndex : Int) :
    Except Fault Int :=
  nextNonCompliantLoop getPolicyByName clusterGroupUpgrade clusterName
    ((clusterGroupUpgrade.status.managedPoliciesForUpgrade.length : Int) - startIndex).toNat
    startIndex

/-! ## Batch progress -/

/-- The loop of `initializeRemediationPolicyForBatch`: a fresh `NotStarted` entry per cluster. -/
def initializeLoop :
    List String → GoMap ClusterRemediationProgress → GoMap ClusterRemediationProgress
  | [], m => m
  | batchClusterName :: rest, m =>
    initializeLoop rest (mapSet m batchClusterName { state := RemediationState.NotStarted })

/-- The batch `status.remediationPlan[batchIndex]`; an index out of range is a panic. -/
def planBatch (clusterGroupUpgrade : ClusterGroupUpgrade) (batchIndex : Int) :
    Except Fault (List String) :=
  if batchIndex < 0 then .error .panic
  else
    match clusterGroupUpgrade.status.remediationPlan[batchIndex.toNat]? with
    | none => .error .panic
    | some batch => .ok batch

/-- Source `initializeRemediationPolicyForBatch`. -/
def initializeRemediationPolicyForBatch (clusterGroupUpgrade : ClusterGroupUpgrade) :
    Except Fault ClusterGroupUpgrade :=
  match planBatch clusterGroupUpgrade (clusterGroupUpgrade.status.status.currentBatch - 1) with
  | .error err => .error err
  | .ok batch =>
    .ok { clusterGroupUpgrade with
          status := { clusterGroupUpgrade.status with
            status := { clusterGroupUpgrade.status.status with
              currentBatchRemediationProgress := initializeLoop batch [] } } }

/-- The first branch of the loop body of `getNextRemediationPoliciesForBatch`: a cluster that is
`NotStarted` becomes `InProgress` with policy index 0. -/
def startProgress (progress : ClusterRemediationProgress) : ClusterRemediationProgress :=
  if progress.state = RemediationState.NotStarted then
    { state := RemediationState.InProgress, policyIndex := some 0 }
  else progress

/-- The part of the loop body of `getNextRemediationPoliciesForBatch` after the state test: the
cursor of the cluster moves to the next NonCompliant policy, or the cluster is Completed. The
second component tells whether the cluster is Completed. -/
def advanceFromIndex (getPolicyByName : String → String → Except Fault Policy)
    (clusterGroupUpgrade : ClusterGroupUpgrade) (batchClusterName : String)
    (progress : ClusterRemediationProgress) : Except Fault (ClusterRemediationProgress × Bool) :=
  match progress.policyIndex with
  | none => .error .panic
  | some startIndex =>
    match getNextNonCompliantPolicyForCluster getPolicyByName clusterGroupUpgrade batchClusterName
        startIndex with
    | .error err => .error err
    | .ok currentPolicyIndex =>
      if currentPolicyIndex ≥ clusterGroupUpgrade.status.managedPoliciesForUpgrade.length then
        .ok ({ state := RemediationState.Completed, policyIndex := none }, true)
      else .ok ({ progress with policyIndex := some currentPolicyIndex }, false)

/-- The loop of `getNextRemediationPoliciesForBatch` over the clusters of the batch, on the
progress map and the flag `isBatchComplete`. Reading the entry of a cluster that has none is a
nil dereference; a `Completed` cluster is skipped (`continue`). -/
def batchProgressLoop (getPolicyByName : String → String → Except Fault Policy)
    (clusterGroupUpgrade : ClusterGroupUpgrade) :
    List String → GoMap ClusterRemediationProgress → Bool →
      Except Fault (GoMap ClusterRemediationProgress × Bool)
  | [], progressMap, isBatchComplete => .ok (progressMap, isBatchComplete)
  | batchClusterName :: rest, progressMap, isBatchComplete =>
    match mapGet? progressMap batchClusterName with
    | none => .error .panic
    | some progress =>
      if progress.state = RemediationState.Completed then
        batchProgressLoop getPolicyByName clusterGroupUpgrade rest progressMap isBatchComplete
      else
        match advanceFromIndex getPolicyByName clusterGroupUpgrade batchClusterName
            (startProgress progress) with
        | .error err => .error err
        | .ok (progress1, completed) =>
          batchProgressLoop getPolicyByName clusterGroupUpgrade rest
            (mapSet progressMap batchClusterName progress1) (isBatchComplete && completed)

/-- Source `getNextRemediationPoliciesForBatch`: the flag `isBatchComplete` and the object with
its updated progress map. -/
def getNextRemediationPoliciesForBatch (getPolicyByName : String → String → Except Fault Policy)
    (clusterGroupUpgrade : ClusterGroupUpgrade) : Except Fault (Bool × ClusterGroupUpgrade) :=
  match planBatch clusterGroupUpgrade (clusterGroupUpgrade.status.status.currentBatch - 1) with
  | .error err => .error err
  | .ok batch =>
    match batchProgressLoop getPolicyByName clusterGroupUpgrade batch
        clusterGroupUpgrade.status.status.currentBatchRemediationProgress true with
    | .error err => .error err
    | .ok (progressMap, isBatchComplete) =>
      .ok (isBatchComplete,
        { clusterGroupUpgrade with
          status := { clusterGroupUpgrade.status with
            status := { clusterGroupUpgrade.status.status with
              currentBatchRemediationProgress := progressMap } } })

/-- What one iteration of the loop of `getNextRemediationPoliciesForBatch` makes of the entry of
its cluster, and whether the cluster is Completed after it. -/
def advanceCluster (getPolicyByName : String → String → Except Fault Policy)
    (clusterGroupUpgrade : ClusterGroupUpgrade) (batchClusterName : String)
    (progress : ClusterRemediationProgress) : Except Fault (ClusterRemediationProgress × Bool) :=
  if progress.state = RemediationState.Completed then .ok (progress, true)
  else advanceFromIndex getPolicyByName clusterGroupUpgrade batchClusterName (startProgress progress)

/-- The compliance the controller observes for a cluster with the policy at an index of
`status.managedPoliciesForUpgrade`: `none` when there is no such policy or its read fails. -/
def policyComplianceAt (getPolicyByName : String → String → Except Fault Policy)
    (clusterGroupUpgrade : ClusterGroupUpgrade) (clusterName : String) (policyIndex : Int) :
    Option String :=
  match GetManagedPolicyForUpgradeByIndex policyIndex clusterGroupUpgrade with
  | none => none
  | some info =>
    match getPolicyByName info.name info.nameSpace with
    | .error _ => none
    | .ok policy => some (getClusterComplianceWithPolicy clusterName policy)

/-- The invariant of one progress entry: the policy index is present exactly in state
`InProgress`, and a present index is an index into a list of `numberOfPolicies` policies. -/
def ProgressEntryOk (numberOfPolicies : Nat) (progress : ClusterRemediationProgress) : Prop :=
  (progress.policyIndex.isSome = true ↔ progress.state = RemediationState.InProgress) ∧
  ∀ i, progress.policyIndex = some i → 0 ≤ i ∧ i < numberOfPolicies

/-- The invariant of the progress map: every cluster of the active batch has an entry that
satisfies `ProgressEntryOk`. -/
def ProgressInvariant (clusterGroupUpgrade : ClusterGroupUpgrade) : Prop :=
  ∀ batch,
    planBatch clusterGroupUpgrade (clusterGroupUpgrade.status.status.currentBatch - 1) = .ok batch →
    ∀ c ∈ batch, ∃ progress,
      mapGet? clusterGroupUpgrade.status.status.currentBatchRemediationProgress c = some progress ∧
      ProgressEntryOk clusterGroupUpgrade.status.managedPoliciesForUpgrade.length progress

/-- Every policy of `status.managedPoliciesForUpgrade` can be read from the policy store. -/
def PoliciesReadable (getPolicyByName : String → String → Except Fault Policy)
    (clusterGroupUpgrade : ClusterGroupUpgrade) : Prop :=
  ∀ info ∈ clusterGroupUpgrade.status.managedPoliciesForUpgrade,
    ∃ policy, getPolicyByName info.name info.nameSpace = .ok policy

/-- The inner loop of `isUpgradeComplete` over the clusters of an earlier batch: `false` as soon
as a cluster has a NonCompliant policy. -/
def previousClustersLoop (getPolicyByName : String → String → Except Fault Policy)
    (clusterGroupUpgrade : ClusterGroupUpgrade) : List String → Except Fault Bool
  | [] => .ok true
  | batchClusterName :: rest =>
    match getNextNonCompliantPolicyForCluster getPolicyByName clusterGroupUpgrade batchClusterName
        0 with
    | .error err => .error err
    | .ok nextNonCompliantPolicyIndex =>
      if nextNonCompliantPolicyIndex <
          clusterGroupUpgrade.status.managedPoliciesForUpgrade.length then .ok false
      else previousClustersLoop getPolicyByName clusterGroupUpgrade rest

/-- The outer loop of `isUpgradeComplete` over the earlier batches. -/
def previousBatchesLoop (getPolicyByName : String → String → Except Fault Policy)
    (clusterGroupUpgrade : ClusterGroupUpgrade) : List (List String) → Except Fault Bool
  | [] => .ok true
  | batch :: rest =>
    match previousClustersLoop getPolicyByName clusterGroupUpgrade batch with
    | .error err => .error err
    | .ok false => .ok false
    | .ok true => previousBatchesLoop getPolicyByName clusterGroupUpgrade rest

/-- Source `isUpgradeComplete`: the result and the object with its updated progress map. -/
def isUpgradeComplete (getPolicyByName : String → String → Except Fault Policy)
    (clusterGroupUpgrade : ClusterGroupUpgrade) : Except Fault (Bool × ClusterGroupUpgrade) :=
  match getNextRemediationPoliciesForBatch getPolicyByName clusterGroupUpgrade with
  | .error err => .error err
  | .ok (isBatchComplete, cgu) =>
    if isBatchComplete then
      match previousBatchesLoop getPolicyByName cgu
          (cgu.status.remediationPlan.take (cgu.status.remediationPlan.length - 1)) with
      | .error err => .error err
      | .ok complete => .ok (complete, cgu)
    else .ok (false, cgu)

/-! ## Time, requeue results and conditions -/

/-- A Go `int64` wraps around on overflow. -/
def wrapInt64 (x : Int) : Int :=
  (x + 9223372036854775808) % 18446744073709551616 - 9223372036854775808

/-- The difference `t.Sub(u)` of two times as a `time.Duration`: it is cut off at the least and
the greatest `int64`. -/
def timeSub (t u : Int) : Int :=
  if t - u < -9223372036854775808 then -9223372036854775808
  else if t - u > 9223372036854775807 then 9223372036854775807
  else t - u

/-- The duration `time.Second` in nanoseconds. -/
def Second : Int := 1000000000

/-- The duration `time.Minute` in nanoseconds. -/
def Minute : Int := 60000000000

/-- The result `ctrl.Result` of a reconcile. -/
structure Result where
  requeue : Bool := false
  requeueAfter : Int := 0
  deriving DecidableEq

/-- Source `doNotRequeue`. -/
def doNotRequeue : Result := {}

/-- Source `requeueImmediately`. -/
def requeueImmediately : Result := { requeue := true }

/-- Source `requeueWithCustomInterval`. -/
def requeueWithCustomInterval (interval : Int) : Result := { requeueAfter := interval }

/-- Source `requeueWithShortInterval`. -/
def requeueWithShortInterval : Result := requeueWithCustomInterval (30 * Second)

/-- Source `requeueWithMediumInterval`. -/
def requeueWithMediumInterval : Result := requeueWithCustomInterval (1 * Minute)

/-- Source `requeueWithLongInterval`. -/
def requeueWithLongInterval : Result := requeueWithCustomInterval (5 * Minute)

/-- The library function `meta.FindStatusCondition`: the first condition of the type. -/
def FindStatusCondition (conditions : List Condition) (conditionType : String) :
    Option Condition :=
  match conditions with
  | [] => none
  | c :: rest => if c.type = conditionType then some c else FindStatusCondition rest conditionType

/-- The library function `meta.SetStatusCondition`: the first condition of the type takes the
status, reason and message of the new one; without such a condition the new one is appended. -/
def SetStatusCondition (conditions : List Condition) (newCondition : Condition) :
    List Condition :=
  match conditions with
  | [] => [newCondition]
  | c :: rest =>
    if c.type = newCondition.type then
      { c with status := newCondition.status, reason := newCondition.reason,
               message := newCondition.message } :: rest
    else c :: SetStatusCondition rest newCondition

/-- The reason of the Ready condition, which encodes the phase of the upgrade. -/
def readyReason (clusterGroupUpgrade : ClusterGroupUpgrade) : Option String :=
  (FindStatusCondition clusterGroupUpgrade.status.conditions "Ready").map (fun c => c.reason)

/-- The call `meta.SetStatusCondition(&clusterGroupUpgrade.Status.Conditions, ...)` for the
Ready condition. -/
def setReadyCondition (clusterGroupUpgrade : ClusterGroupUpgrade) (status : ConditionStatus)
    (reason message : String) : ClusterGroupUpgrade :=
  { clusterGroupUpgrade with
    status := { clusterGroupUpgrade.status with
      conditions := SetStatusCondition clusterGroupUpgrade.status.conditions
        { type := "Ready", status := status, reason := reason, message := message } } }

/-- The message of the `UpgradeTimedOut` condition. -/
def timedOutMessage : String := "The ClusterGroupUpgrade CR policies are taking too long to complete"

/-- Modelled from the spec: the constant `ranv1alpha1.BatchTimeoutAction.Abort` (the API package
is not part of the source file), the value `Abort` of `spec.batchTimeoutAction`. -/
def BatchTimeoutActionAbort : String := "Abort"

/-! ## The reconcile step in phase UpgradeNotCompleted -/

/-- Modelled from the spec: `utils.CalculateBatchTimeout` (the package `utils` is not part of
the source file), the budget of a batch, described as a share of the remaining overall budget
across the remaining batches: the overall timeout less the time from the start of the upgrade
to the start of the batch, divided by the number of batches from the current one to the last.
On the last batch it is the whole remaining overall budget. -/
def CalculateBatchTimeout (timeoutMinutes numBatches currentBatch currentBatchStartTime
    cguStartTime : Int) : Int :=
  (wrapInt64 (timeoutMinutes * Minute) - timeSub currentBatchStartTime cguStartTime).tdiv
    (numBatches - currentBatch + 1)

/-- What a reconcile of one ClusterGroupUpgrade observes outside the object: the policy store,
the clock at each of its readings, and the outcome of the calls that act on other objects.
The field `CalculateBatchTimeout` is the function `utils.CalculateBatchTimeout` that the
reconcile calls, which is not part of the source file: it is applied to
`spec.remediationStrategy.timeout`, the number of batches, `currentBatch`,
`currentBatchStartedAt` and `startedAt`. -/
structure Env where
  getPolicyByName : String → String → Except Fault Policy
  /-- The reading `time.Now()` for the requeue interval (line 312). -/
  nowRequeue : Int := 0
  /-- The reading `metav1.Now()` when a batch starts (line 324). -/
  nowBatchStart : Int := 0
  /-- The clock read by `time.Since` in the overall timeout test (line 328). -/
  nowOverallCheck : Int := 0
  /-- The clock read by `time.Since` in the batch timeout test (line 372). -/
  nowBatchCheck : Int := 0
  CalculateBatchTimeout : Int → Int → Int → Int → Int → Int
  /-- The error returned by `updatePlacementRules`, if any. -/
  updatePlacementRules : ClusterGroupUpgrade → Option Fault := fun _ => none
  /-- The pair `reconcileSooner, err` returned by `approveInstallPlan`. -/
  approveInstallPlan : ClusterGroupUpgrade → Bool × Option Fault := fun _ => (false, none)

/-- How the reconcile ends: it returns an error before the status is written, or it reaches the
final `updateStatus` with the object and the requeue result. -/
inductive Outcome where
  | returned (nextReconcile : Result) (err : Fault)
  | updateStatus (clusterGroupUpgrade : ClusterGroupUpgrade) (nextReconcile : Result)

/-- Source `remediateCurrentBatch`: the requeue result and the error returned. -/
def remediateCurrentBatch (env : Env) (clusterGroupUpgrade : ClusterGroupUpgrade)
    (nextReconcile : Result) : Result × Option Fault :=
  match env.updatePlacementRules clusterGroupUpgrade with
  | some err => (nextReconcile, some err)
  | none =>
    let approved := env.approveInstallPlan clusterGroupUpgrade
    if approved.1 then (requeueWithShortInterval, approved.2) else (nextReconcile, approved.2)

/-- Lines 303-306 of `Reconcile`: a current batch of 0 is shown as 1. -/
def showFirstBatch (clusterGroupUpgrade : ClusterGroupUpgrade) : ClusterGroupUpgrade :=
  if clusterGroupUpgrade.status.status.currentBatch = 0 then
    { clusterGroupUpgrade with
      status := { clusterGroupUpgrade.status with
        status := { clusterGroupUpgrade.status.status with currentBatch := 1 } } }
  else clusterGroupUpgrade

/-- Lines 308-317 of `Reconcile`: the first value of `nextReconcile` in this phase. -/
def batchRequeue (env : Env) (clusterGroupUpgrade : ClusterGroupUpgrade) : Result :=
  if clusterGroupUpgrade.status.status.currentBatchStartedAt = 0 then requeueImmediately
  else
    let requeueAfter :=
      timeSub (clusterGroupUpgrade.status.status.currentBatchStartedAt + 5 * Minute) env.nowRequeue
    if requeueAfter < 0 then requeueWithCustomInterval (5 * Minute)
    else requeueWithCustomInterval requeueAfter

/-- Lines 319-325 of `Reconcile`: a batch that has not started gets its progress map and its
start time. -/
def startBatch (env : Env) (clusterGroupUpgrade : ClusterGroupUpgrade) :
    Except Fault ClusterGroupUpgrade :=
  if clusterGroupUpgrade.status.status.currentBatchStartedAt = 0 then
    match initializeRemediationPolicyForBatch clusterGroupUpgrade with
    | .error err => .error err
    | .ok cgu =>
      .ok { cgu with
            status := { cgu.status with
              status := { cgu.status.status with currentBatchStartedAt := env.nowBatchStart } } }
  else .ok clusterGroupUpgrade

/-- The default case of the switch on `spec.batchTimeoutAction` (lines 397-403 of `Reconcile`):
the start time of the batch is reset and the next batch, if there is one, becomes current. -/
def continueAfterBatchTimeout (clusterGroupUpgrade : ClusterGroupUpgrade) : ClusterGroupUpgrade :=
  { clusterGroupUpgrade with
    status := { clusterGroupUpgrade.status with
      status := { clusterGroupUpgrade.status.status with
        currentBatchStartedAt := 0
        currentBatch :=
          if clusterGroupUpgrade.status.status.currentBatch <
              clusterGroupUpgrade.status.remediationPlan.length then
            clusterGroupUpgrade.status.status.currentBatch + 1
          else clusterGroupUpgrade.status.status.currentBatch } } }

/-- Lines 372-405 of `Reconcile`: what happens to a batch whose timeout is exceeded. -/
def batchTimedOut (clusterGroupUpgrade : ClusterGroupUpgrade) : Outcome :=
  if clusterGroupUpgrade.spec.remediationStrategy.canaries.length ≠ 0 ∧
      clusterGroupUpgrade.status.status.currentBatch ≤
        clusterGroupUpgrade.spec.remediationStrategy.canaries.length then
    .updateStatus
      (setReadyCondition clusterGroupUpgrade ConditionStatus.condFalse "UpgradeTimedOut"
        timedOutMessage)
      requeueImmediately
  else if clusterGroupUpgrade.spec.batchTimeoutAction = BatchTimeoutActionAbort then
    .updateStatus
      (setReadyCondition clusterGroupUpgrade ConditionStatus.condFalse "UpgradeTimedOut"
        timedOutMessage)
      requeueImmediately
  else .updateStatus (continueAfterBatchTimeout clusterGroupUpgrade) requeueImmediately

/-- Lines 327-429 of `Reconcile`: the overall timeout, then the current batch (or, on the last
batch, the whole plan) is checked and driven. The call of `cleanupPlacementRules` for a complete
batch acts on placement rules only and its error is dropped, so it does not appear here. -/
def driveBatch (env : Env) (clusterGroupUpgrade : ClusterGroupUpgrade) (nextReconcile : Result) :
    Outcome :=
  if timeSub env.nowOverallCheck clusterGroupUpgrade.status.status.startedAt >
      wrapInt64 (clusterGroupUpgrade.spec.remediationStrategy.timeout * Minute) then
    .updateStatus
      (setReadyCondition clusterGroupUpgrade ConditionStatus.condFalse "UpgradeTimedOut"
        timedOutMessage)
      requeueImmediately
  else if clusterGroupUpgrade.status.status.currentBatch <
      clusterGroupUpgrade.status.remediationPlan.length then
    match getNextRemediationPoliciesForBatch env.getPolicyByName clusterGroupUpgrade with
    | .error err => .returned nextReconcile err
    | .ok (isBatchComplete, cgu) =>
      if isBatchComplete then
        .updateStatus
          { cgu with
            status := { cgu.status with
              status := { cgu.status.status with
                currentBatchStartedAt := 0
                currentBatch := cgu.status.status.currentBatch + 1 } } }
          requeueImmediately
      else
        match remediateCurrentBatch env cgu nextReconcile with
        | (nextReconcile1, some err) => .returned nextReconcile1 err
        | (nextReconcile1, none) =>
          if cgu.status.status.currentBatchStartedAt ≠ 0 then
            let currentBatchTimeout :=
              env.CalculateBatchTimeout cgu.spec.remediationStrategy.timeout
                cgu.status.remediationPlan.length cgu.status.status.currentBatch
                cgu.status.status.currentBatchStartedAt cgu.status.status.startedAt
            if timeSub env.nowBatchCheck cgu.status.status.currentBatchStartedAt >
                currentBatchTimeout then
              batchTimedOut cgu
            else .updateStatus cgu nextReconcile1
          else .updateStatus cgu nextReconcile1
  else
    match isUpgradeComplete env.getPolicyByName clusterGroupUpgrade with
    | .error err => .returned nextReconcile err
    | .ok (complete, cgu) =>
      if complete then
        .updateStatus
          (setReadyCondition cgu ConditionStatus.condTrue "UpgradeCompleted"
            "The ClusterGroupUpgrade CR has all clusters compliant with all the managed policies")
          requeueImmediately
      else
        match remediateCurrentBatch env cgu nextReconcile with
        | (nextReconcile1, some err) => .returned nextReconcile1 err
        | (nextReconcile1, none) => .updateStatus cgu nextReconcile1

/-- The arm of `Reconcile` for a Ready condition with status False and reason
`UpgradeNotCompleted` (lines 300-429), up to the final `updateStatus`. -/
def reconcileUpgradeNotCompleted (env : Env) (clusterGroupUpgrade : ClusterGroupUpgrade) :
    Outcome :=
  let shown := showFirstBatch clusterGroupUpgrade
  let nextReconcile := batchRequeue env shown
  match startBatch env shown with
  | .error err => .returned nextReconcile err
  | .ok cgu => driveBatch env cgu nextReconcile

/-! ## The target clusters -/

/-- The loop of `strings.Split(s, "=")` over the characters that are left; `current` holds the
characters of the piece being read, last first. -/
def splitLoop : List Char → List Char → List String
  | [], current => [String.mk current.reverse]
  | c :: rest, current =>
    if c = '=' then String.mk current.reverse :: splitLoop rest []
    else splitLoop rest (c :: current)

/-- The library call `strings.Split(s, "=")`. -/
def splitOnEquals (s : String) : List String :=
  splitLoop s.data []

/-- The label of a `spec.clusterSelector` entry: `k=v` selects label `k` with value `v`, `k`
selects label `k` with the empty value, anything else is malformed and ignored. -/
def selectorLabel (clusterSelector : String) : Option (String × String) :=
  match splitOnEquals clusterSelector with
  | [k, v] => some (k, v)
  | [k] => some (k, "")
  | _ => none

/-- The lists of managed clusters that the API server returns: for a label with a value
(`client.MatchingLabels`) and for a structured selector (the conversion
`metav1.LabelSelectorAsSelector` followed by the list call). The names come in any order and
may repeat. -/
structure ClusterListing where
  listByLabel : String → String → Except Fault (List String)
  listBySelector : LabelSelector → Except Fault (List String)

/-- The loop over the items of a cluster list in `getAllClustersForUpgrade`: a name that is not
yet a key of `keys` is recorded and appended. -/
def addClusterNames : List String → List String × GoMap Bool → List String × GoMap Bool
  | [], acc => acc
  | name :: rest, (clusterNames, keys) =>
    match mapGet? keys name with
    | none => addClusterNames rest (clusterNames ++ [name], mapSet keys name true)
    | some _ => addClusterNames rest (clusterNames, keys)

/-- The first loop of `getAllClustersForUpgrade`, over `spec.clusterSelector`. -/
def clusterSelectorLoop (listing : ClusterListing) :
    List String → List String × GoMap Bool → Except Fault (List String × GoMap Bool)
  | [], acc => .ok acc
  | clusterSelector :: rest, acc =>
    match selectorLabel clusterSelector with
    | none => clusterSelectorLoop listing rest acc
    | some (k, v) =>
      match listing.listByLabel k v with
      | .error err => .error err
      | .ok items => clusterSelectorLoop listing rest (addClusterNames items acc)

/-- The second loop of `getAllClustersForUpgrade`, over `spec.clusterLabelSelectors`. -/
def clusterLabelSelectorLoop (listing : ClusterListing) :
    List LabelSelector → List String × GoMap Bool → Except Fault (List String × GoMap Bool)
  | [], acc => .ok acc
  | clusterLabelSelector :: rest, acc =>
    match listing.listBySelector clusterLabelSelector with
    | .error err => .error err
    | .ok items => clusterLabelSelectorLoop listing rest (addClusterNames items acc)

/-- The lexicographic order of two strings, on their characters: the order `<=` of Go strings
(the order of the bytes of a valid UTF-8 string is the order of its characters). -/
def charsLe : List Char → List Char → Bool
  | [], _ => true
  | _ :: _, [] => false
  | x :: xs, y :: ys =>
    if x.toNat < y.toNat then true
    else if y.toNat < x.toNat then false
    else charsLe xs ys

/-- The order `a <= b` of Go strings. -/
def stringLe (a b : String) : Prop :=
  charsLe a.data b.data = true

/-- The order `a < b` of Go strings. -/
def stringLt (a b : String) : Prop :=
  stringLe a b ∧ a ≠ b

/-- The order of Go strings is decidable. -/
instance stringLeDecidable : DecidableRel stringLe :=
  fun a b => inferInstanceAs (Decidable (charsLe a.data b.data = true))

/-- The library call `sort.Strings`: the names in increasing order. -/
def sortStrings (names : List String) : List String :=
  names.insertionSort stringLe

/-- Source `getAllClustersForUpgrade`. -/
def getAllClustersForUpgrade (listing : ClusterListing)
    (clusterGroupUpgrade : ClusterGroupUpgrade) : Except Fault (List String) :=
  match clusterSelectorLoop listing clusterGroupUpgrade.spec.clusterSelector ([], []) with
  | .error err => .error err
  | .ok acc1 =>
    match clusterLabelSelectorLoop listing clusterGroupUpgrade.spec.clusterLabelSelectors acc1 with
    | .error err => .error err
    | .ok acc2 =>
      .ok (sortStrings (addClusterNames clusterGroupUpgrade.spec.clusters acc2).1)

/-- The names that the spec selects: the names listed for a well-formed `clusterSelector` entry,
the names listed for a `clusterLabelSelectors` entry, and the names of `spec.clusters`. -/
def SelectedCluster (listing : ClusterListing) (clusterGroupUpgrade : ClusterGroupUpgrade)
    (name : String) : Prop :=
  (∃ clusterSelector ∈ clusterGroupUpgrade.spec.clusterSelector, ∃ k v items,
    selectorLabel clusterSelector = some (k, v) ∧ listing.listByLabel k v = .ok items ∧
      name ∈ items) ∨
  (∃ clusterLabelSelector ∈ clusterGroupUpgrade.spec.clusterLabelSelectors, ∃ items,
    listing.listBySelector clusterLabelSelector = .ok items ∧ name ∈ items) ∨
  name ∈ clusterGroupUpgrade.spec.clusters

/-- The invariant of the loops of `getAllClustersForUpgrade`: the keys of the map are the names
collected, and no name is collected twice. -/
def ClusterNamesOk (acc : List String × GoMap Bool) : Prop :=
  acc.1.Nodup ∧ ∀ x, (mapGet? acc.2 x).isSome = true ↔ x ∈ acc.1

/-! ## The validator -/

/-- The calls of `validateCR` on the API server: the lists of managed clusters, the error of
`r.Client.Get` for a ManagedCluster by name (none when the object is read), and the error of
`updateStatus` for the object it is given (none when the status is written). -/
structure ValidationApi where
  listing : ClusterListing
  getManagedCluster : String → Option Fault
  updateStatus : ClusterGroupUpgrade → Option Fault

/-- The call `fmt.Errorf(text + "%s", err)`: the text of the error follows the new text. -/
def wrapError (text : String) : Fault → Fault
  | .error msg => .error (text ++ msg)
  | .panic => .panic

/-- The first loop of `validateCR`: every cluster is read as a ManagedCluster, and the first
read that fails ends the validation. -/
def managedClusterLoop (getManagedCluster : String → Option Fault) : List String → Option Fault
  | [] => none
  | cluster :: rest =>
    match getManagedCluster cluster with
    | some _ => some (.error ("cluster " ++ cluster ++ " is not a ManagedCluster"))
    | none => managedClusterLoop getManagedCluster rest

/-- The inner loop of the canary check of `validateCR`: the value of `foundCanary`. -/
def foundCanary (canary : String) : List String → Bool
  | [] => false
  | cluster :: rest => if canary = cluster then true else foundCanary canary rest

/-- The second loop of `validateCR`: the first canary that is not in the list of clusters ends
the validation. -/
def canaryInClustersLoop (clusters : List String) : List String → Option Fault
  | [] => none
  | canary :: rest =>
    if foundCanary canary clusters then canaryInClustersLoop clusters rest
    else some (.error ("canary cluster " ++ canary ++ " is not in the list of clusters"))

/-- The value of `newMaxConcurrency` in `validateCR`. -/
def newMaxConcurrency (clusterGroupUpgrade : ClusterGroupUpgrade) (clusters : List String) :
    Int :=
  if clusterGroupUpgrade.spec.remediationStrategy.maxConcurrency > 0 ∧
      clusterGroupUpgrade.spec.remediationStrategy.maxConcurrency < clusters.length then
    clusterGroupUpgrade.spec.remediationStrategy.maxConcurrency
  else clusters.length

/-- Source `validateCR`: the object as the function leaves it, the flag `reconcile` and the
error returned. -/
def validateCR (api : ValidationApi) (clusterGroupUpgrade : ClusterGroupUpgrade) :
    ClusterGroupUpgrade × Bool × Option Fault :=
  match getAllClustersForUpgrade api.listing clusterGroupUpgrade with
  | .error err =>
    (clusterGroupUpgrade, false,
      some (wrapError "cannot obtain all the details about the clusters in the CR: " err))
  | .ok clusters =>
    match managedClusterLoop api.getManagedCluster clusters with
    | some err => (clusterGroupUpgrade, false, some err)
    | none =>
      match canaryInClustersLoop clusters
          clusterGroupUpgrade.spec.remediationStrategy.canaries with
      | some err => (clusterGroupUpgrade, false, some err)
      | none =>
        if newMaxConcurrency clusterGroupUpgrade clusters ≠
            clusterGroupUpgrade.status.computedMaxConcurrency then
          let updated : ClusterGroupUpgrade :=
            { clusterGroupUpgrade with
              status := { clusterGroupUpgrade.status with
                computedMaxConcurrency := newMaxConcurrency clusterGroupUpgrade clusters } }
          match api.updateStatus updated with
          | some err => (updated, false, some err)
          | none => (updated, true, none)
        else (clusterGroupUpgrade, false, none)

/-- The value that the specification gives for the computed maximum concurrency:
`max(1, min(maxConcurrency, n))` for a target set of `n` clusters, where a `maxConcurrency` of
at most 0 is treated as `n`. -/
def specMaxConcurrency (maxConcurrency : Int) (n : Nat) : Int :=
  max 1 (min (if maxConcurrency ≤ 0 then (n : Int) else maxConcurrency) n)

/-! ## Blocking CRs -/

/-- The result of a `Get` on the API server: the object, the error for which
`errors.IsNotFound` holds, or another error. -/
inductive GetResult (α : Type) where
  | found (object : α)
  | notFound
  | failed (err : Fault)

/-- What `blockingCRsNotCompleted` reads of a blocking ClusterGroupUpgrade: its name and its
`status.conditions`, where `none` is the nil slice. -/
structure BlockingCGU where
  name : String
  conditions : Option (List Condition)
  deriving DecidableEq

/-- The loop of `blockingCRsNotCompleted` over the conditions of one blocking CR: the name is
appended for every condition whose reason is not `UpgradeCompleted`. -/
def notCompletedConditionsLoop (name : String) : List Condition → List String → List String
  | [], blockingCRsNotCompleted => blockingCRsNotCompleted
  | condition :: rest, blockingCRsNotCompleted =>
    if condition.reason ≠ "UpgradeCompleted" then
      notCompletedConditionsLoop name rest (blockingCRsNotCompleted ++ [name])
    else notCompletedConditionsLoop name rest blockingCRsNotCompleted

/-- The loop of `blockingCRsNotCompleted` over `spec.blockingCRs`; the result is the pair
`blockingCRsNotCompleted, blockingCRsMissing`. -/
def blockingCRsLoop (getCGU : BlockingCR → GetResult BlockingCGU) :
    List BlockingCR → List String → List String → Except Fault (List String × List String)
  | [], blockingCRsNotCompleted, blockingCRsMissing =>
    .ok (blockingCRsNotCompleted, blockingCRsMissing)
  | blockingCR :: rest, blockingCRsNotCompleted, blockingCRsMissing =>
    match getCGU blockingCR with
    | .failed err => .error err
    | .notFound =>
      blockingCRsLoop getCGU rest blockingCRsNotCompleted (blockingCRsMissing ++ [blockingCR.name])
    | .found cgu =>
      match cgu.conditions with
      | none => blockingCRsLoop getCGU rest (blockingCRsNotCompleted ++ [cgu.name])
          blockingCRsMissing
      | some conditions =>
        blockingCRsLoop getCGU rest
          (notCompletedConditionsLoop cgu.name conditions blockingCRsNotCompleted)
          blockingCRsMissing

/-- Source `blockingCRsNotCompleted`: the pair `blockingCRsNotCompleted, blockingCRsMissing`, or
the error of a read. -/
def blockingCRsNotCompleted (getCGU : BlockingCR → GetResult BlockingCGU)
    (clusterGroupUpgrade : ClusterGroupUpgrade) : Except Fault (List String × List String) :=
  blockingCRsLoop getCGU clusterGroupUpgrade.spec.blockingCRs [] []

/-- A blocking CR that is read and counts as not completed: its conditions are nil, or one of
them has a reason other than `UpgradeCompleted`. -/
def NotCompletedCGU (cgu : BlockingCGU) : Prop :=
  cgu.conditions = none ∨
    ∃ conditions, cgu.conditions = some conditions ∧
      ∃ condition ∈ conditions, condition.reason ≠ "UpgradeCompleted"

/-! ## Placement rules -/

/-- A value of a field of an unstructured object, as far as `updatePlacementRuleWithClusters`
tells values apart: a string, or a value of another type. -/
inductive FieldValue where
  | str (s : String)
  | other (text : String)
  deriving DecidableEq

/-- An entry of the list `spec.clusters` of a PlacementRule: an object with its fields, or a
value that is not an object. -/
inductive ClusterEntry where
  | object (fields : GoMap FieldValue)
  | other (text : String)
  deriving DecidableEq

/-- The value of `spec["clusters"]` of a PlacementRule: nil, a list, or a value that is not a
list. -/
inductive ClustersField where
  | absent
  | list (entries : List ClusterEntry)
  | other (text : String)
  deriving DecidableEq

/-- The map `Object["spec"]` of a PlacementRule: the keys `clusters` and `clusterReplicas`, and
the other keys, which the update does not read. -/
structure PlacementRuleSpec where
  clusters : ClustersField := ClustersField.absent
  clusterReplicas : Option Int := none
  others : GoMap String := []
  deriving DecidableEq

/-- An unstructured PlacementRule; `spec` is `none` when `Object["spec"]` is not a map. -/
structure PlacementRule where
  name : String
  nameSpace : String := ""
  spec : Option PlacementRuleSpec := none
  deriving DecidableEq

/-- The calls of `updatePlacementRuleWithClusters` on the API server: `r.Client.Get` for a
PlacementRule by name and namespace, and the error of `r.Client.Update`, if any. -/
structure PlacementRuleApi where
  get : String → String → Except Fault PlacementRule
  update : PlacementRule → Option Fault

/-- The first loop of `updatePlacementRuleWithClusters`: every current entry is kept, and its
name is recorded; an entry that is not a map, or whose `name` is not a string, stops the
function with a panic of the type assertion. -/
def currentClustersLoop :
    List ClusterEntry → List ClusterEntry → List String →
      Except Fault (List ClusterEntry × List String)
  | [], updatedClusters, prClusterNames => .ok (updatedClusters, prClusterNames)
  | clusterEntry :: rest, updatedClusters, prClusterNames =>
    match clusterEntry with
    | .other _ => .error .panic
    | .object clusterMap =>
      match mapGet? clusterMap "name" with
      | some (.str name) =>
        currentClustersLoop rest (updatedClusters ++ [.object clusterMap])
          (prClusterNames ++ [name])
      | _ => .error .panic

/-- The inner loop of the second loop: the value of `isCurrentClusterAlreadyPresent`. -/
def isCurrentClusterAlreadyPresent (clusterName : String) : List String → Bool
  | [] => false
  | prClusterName :: rest =>
    if prClusterName = clusterName then true
    else isCurrentClusterAlreadyPresent clusterName rest

/-- The second loop of `updatePlacementRuleWithClusters`: a cluster name that is not among the
recorded names gets a new entry with the single key `name`. -/
def clusterNamesLoop (prClusterNames : List String) :
    List String → List ClusterEntry → List ClusterEntry
  | [], updatedClusters => updatedClusters
  | clusterName :: rest, updatedClusters =>
    if isCurrentClusterAlreadyPresent clusterName prClusterNames then
      clusterNamesLoop prClusterNames rest updatedClusters
    else
      clusterNamesLoop prClusterNames rest
        (updatedClusters ++ [.object [("name", .str clusterName)]])

/-- The value of `updatedClusters` that `updatePlacementRuleWithClusters` stores in
`spec["clusters"]`. -/
def updatedClusters (currentClusters : ClustersField) (clusterNames : List String) :
    Except Fault (List ClusterEntry) :=
  match currentClusters with
  | .other _ => .error .panic
  | .absent => .ok (clusterNamesLoop [] clusterNames [])
  | .list entries =>
    match currentClustersLoop entries [] [] with
    | .error err => .error err
    | .ok (updated, prClusterNames) => .ok (clusterNamesLoop prClusterNames clusterNames updated)

/-- The value of `spec["clusters"]` after the assignment of the slice `updatedClusters`: the
slice is declared with `var` and stays nil when nothing is appended to it, and a nil slice is
written as `null`, which a later read finds as nil; a slice with entries is a list. -/
def storedClusters (updated : List ClusterEntry) : ClustersField :=
  match updated with
  | [] => .absent
  | entry :: rest => .list (entry :: rest)

/-- The object that `updatePlacementRuleWithClusters` passes to `r.Client.Update`. -/
def updatedPlacementRule (placementRule : PlacementRule) (clusterNames : List String) :
    Except Fault PlacementRule :=
  match placementRule.spec with
  | none => .error .panic
  | some placementRuleSpecClusters =>
    match updatedClusters placementRuleSpecClusters.clusters clusterNames with
    | .error err => .error err
    | .ok updated =>
      .ok { placementRule with
            spec := some { placementRuleSpecClusters with
              clusters := storedClusters updated
              clusterReplicas := none } }

/-- Source `updatePlacementRuleWithClusters`: the error returned, if any. -/
def updatePlacementRuleWithClusters (api : PlacementRuleApi)
    (clusterGroupUpgrade : ClusterGroupUpgrade) (clusterNames : List String) (prName : String) :
    Option Fault :=
  match api.get prName clusterGroupUpgrade.nameSpace with
  | .error err => some err
  | .ok placementRule =>
    match updatedPlacementRule placementRule clusterNames with
    | .error err => some err
    | .ok updated => api.update updated

/-- The name of an entry of the cluster list: the string under the key `name`. -/
def entryName : ClusterEntry → Option String
  | .object fields =>
    match mapGet? fields "name" with
    | some (.str name) => some name
    | _ => none
  | .other _ => none

/-- The names of the entries of a cluster list, in order. -/
def entryNames (entries : List ClusterEntry) : List String :=
  entries.filterMap entryName

/-- The cluster list that `updatePlacementRuleWithClusters` finds in `spec["clusters"]`: a nil
value, which is the state of a rule that was just created or cleaned up, is the empty list; a
value that is not a list has none. -/
def currentEntries : ClustersField → Option (List ClusterEntry)
  | .absent => some []
  | .list entries => some entries
  | .other _ => none

/-! ## The dispatcher -/

/-- Modelled from the spec: the constant `utils.CannotStart` (the package `utils` is not part
of the source file), the reason `CannotStart` of the Ready condition. -/
def CannotStart : String := "CannotStart"

/-- The verb `%s` of `fmt.Sprintf` for a slice of strings: the strings in brackets, separated
by spaces. -/
def formatStrings (names : List String) : String :=
  "[" ++ " ".intercalate names ++ "]"

/-- The status fields that `doManagedPoliciesExist`, `reconcileResources` and
`processManagedPolicyForUpgradeContent` write in the object: the policy lists and maps, and the
names of the child resources. -/
structure ResourceStatus where
  managedPoliciesForUpgrade : List ManagedPolicyForUpgrade := []
  managedPoliciesCompliantBeforeUpgrade : List String := []
  managedPoliciesContent : GoMap String := []
  managedPoliciesNs : GoMap String := []
  safeResourceNames : Option (GoMap String) := none
  placementRules : List String := []
  placementBindings : List String := []
  copiedPolicies : List String := []

/-- The object after one of these functions has written its status fields. -/
def setResourceStatus (clusterGroupUpgrade : ClusterGroupUpgrade) (resources : ResourceStatus) :
    ClusterGroupUpgrade :=
  { clusterGroupUpgrade with
    status := { clusterGroupUpgrade.status with
      managedPoliciesForUpgrade := resources.managedPoliciesForUpgrade
      managedPoliciesCompliantBeforeUpgrade := resources.managedPoliciesCompliantBeforeUpgrade
      managedPoliciesContent := resources.managedPoliciesContent
      managedPoliciesNs := resources.managedPoliciesNs
      safeResourceNames := resources.safeResourceNames
      placementRules := resources.placementRules
      placementBindings := resources.placementBindings
      copiedPolicies := resources.copiedPolicies } }

/-- What a reconcile observes outside the object in the phases other than UpgradeNotCompleted,
on top of `Env`. The functions `doManagedPoliciesExist`, `reconcileResources` and
`processManagedPolicyForUpgradeContent` read and write other objects; of the
ClusterGroupUpgrade they write the fields of `ResourceStatus` only, so each is given by what it
returns and the values it leaves in these fields. -/
structure World extends Env where
  /-- The lists of managed clusters read by `getAllClustersForUpgrade`. -/
  listing : ClusterListing
  /-- The values `allManagedPoliciesExist, managedPoliciesMissing, managedPoliciesPresent`
  returned by `doManagedPoliciesExist`, and the status fields it leaves. -/
  doManagedPoliciesExist :
    ClusterGroupUpgrade → Except Fault (Bool × List String × List Policy × ResourceStatus)
  /-- The status fields that `reconcileResources` leaves. -/
  reconcileResources : ClusterGroupUpgrade → List Policy → Except Fault ResourceStatus
  /-- The status fields that `processManagedPolicyForUpgradeContent` leaves. -/
  processManagedPolicyForUpgradeContent :
    ClusterGroupUpgrade → List Policy → Except Fault ResourceStatus
  /-- The read of a blocking CR by `blockingCRsNotCompleted`. -/
  getBlockingCGU : BlockingCR → GetResult BlockingCGU
  /-- Modelled from the spec: the function `takeActionsBeforeEnable` is not part of the source
  file; it acts on other objects, and this is the error it returns, if any. -/
  takeActionsBeforeEnable : ClusterGroupUpgrade → Option Fault
  /-- Modelled from the spec: the function `takeActionsAfterCompletion` is not part of the
  source file; it acts on other objects, and this is the error it returns, if any. -/
  takeActionsAfterCompletion : ClusterGroupUpgrade → Option Fault
  /-- Modelled from the spec: the function `deleteResources` is not part of the source file; it
  deletes the child objects, and this is the error it returns, if any. -/
  deleteResources : ClusterGroupUpgrade → Option Fault
  /-- The reading `metav1.Now()` when the upgrade starts (line 273). -/
  nowStarted : Int
  /-- The reading `metav1.Now()` when the upgrade is completed (line 449). -/
  nowCompleted : Int

/-- Lines 241-281 of `Reconcile`: an enabled object whose resources are in place is held back
by its blocking CRs, or it starts; an object that is not enabled stays in `UpgradeNotStarted`. -/
def enableUpgrade (w : World) (clusterGroupUpgrade : ClusterGroupUpgrade) : Outcome :=
  if clusterGroupUpgrade.spec.enable then
    match blockingCRsNotCompleted w.getBlockingCGU clusterGroupUpgrade with
    | .error err => .returned doNotRequeue err
    | .ok (blockingCRsNotCompleted, blockingCRsMissing) =>
      if blockingCRsMissing.length > 0 then
        .updateStatus
          (setReadyCondition clusterGroupUpgrade ConditionStatus.condFalse CannotStart
            ("The ClusterGroupUpgrade CR has blocking CRs that are missing: " ++
              formatStrings blockingCRsMissing))
          requeueWithMediumInterval
      else if blockingCRsNotCompleted.length > 0 then
        .updateStatus
          (setReadyCondition clusterGroupUpgrade ConditionStatus.condFalse CannotStart
            ("The ClusterGroupUpgrade CR is blocked by other CRs that have not yet completed: " ++
              formatStrings blockingCRsNotCompleted))
          requeueWithMediumInterval
      else
        match w.takeActionsBeforeEnable clusterGroupUpgrade with
        | some err => .returned doNotRequeue err
        | none =>
          if clusterGroupUpgrade.status.remediationPlan = [] then
            .updateStatus
              (setReadyCondition clusterGroupUpgrade ConditionStatus.condTrue "UpgradeCompleted"
                ("The ClusterGroupUpgrade CR has all clusters already compliant with the " ++
                  "specified managed policies"))
              requeueImmediately
          else
            .updateStatus
              (setReadyCondition
                { clusterGroupUpgrade with
                  status := { clusterGroupUpgrade.status with
                    status := { clusterGroupUpgrade.status.status with
                      startedAt := w.nowStarted } } }
                ConditionStatus.condFalse "UpgradeNotCompleted"
                "The ClusterGroupUpgrade CR has upgrade policies that are still non compliant")
              requeueImmediately
  else
    .updateStatus
      (setReadyCondition clusterGroupUpgrade ConditionStatus.condFalse "UpgradeNotStarted"
        "The ClusterGroupUpgrade CR is not enabled")
      requeueWithLongInterval

/-- The arm of `Reconcile` for a Ready condition with status False and reason
`UpgradeNotStarted` or `CannotStart` (lines 205-299), up to the final `updateStatus`. -/
def startUpgrade (w : World) (clusterGroupUpgrade : ClusterGroupUpgrade) : Outcome :=
  match w.doManagedPoliciesExist clusterGroupUpgrade with
  | .error err => .returned doNotRequeue err
  | .ok (allManagedPoliciesExist, managedPoliciesMissing, managedPoliciesPresent, resources) =>
    if allManagedPoliciesExist then
      match buildRemediationPlan
          (getAllClustersForUpgrade w.listing (setResourceStatus clusterGroupUpgrade resources))
          (setResourceStatus clusterGroupUpgrade resources) managedPoliciesPresent with
      | .error err => .returned doNotRequeue err
      | .ok planned =>
        match w.reconcileResources planned managedPoliciesPresent with
        | .error err => .returned doNotRequeue err
        | .ok created =>
          match w.processManagedPolicyForUpgradeContent (setResourceStatus planned created)
              managedPoliciesPresent with
          | .error err => .returned doNotRequeue err
          | .ok content =>
            enableUpgrade w (setResourceStatus (setResourceStatus planned created) content)
    else
      .updateStatus
        (setReadyCondition (setResourceStatus clusterGroupUpgrade resources)
          ConditionStatus.condFalse CannotStart
          ("The ClusterGroupUpgrade CR has managed policies that are missing: " ++
            formatStrings managedPoliciesMissing))
        requeueWithMediumInterval

/-- The arm of `Reconcile` for a Ready condition whose status is not False (lines 439-451): on
the first pass the batch fields are reset, the actions after completion are taken, and the
completion time is set. -/
def completeUpgrade (w : World) (clusterGroupUpgrade : ClusterGroupUpgrade) : Outcome :=
  if clusterGroupUpgrade.status.status.completedAt = 0 then
    match w.takeActionsAfterCompletion
        { clusterGroupUpgrade with
          status := { clusterGroupUpgrade.status with
            status := { clusterGroupUpgrade.status.status with
              currentBatch := 0
              currentBatchStartedAt := 0 } } } with
    | some err => .returned doNotRequeue err
    | none =>
      .updateStatus
        { clusterGroupUpgrade with
          status := { clusterGroupUpgrade.status with
            status := { clusterGroupUpgrade.status.status with
              currentBatch := 0
              currentBatchStartedAt := 0
              completedAt := w.nowCompleted } } }
        doNotRequeue
  else .updateStatus clusterGroupUpgrade doNotRequeue

/-- Lines 192-455 of `Reconcile`: the dispatch on the Ready condition, up to the final
`updateStatus`. -/
def reconcileDispatch (w : World) (clusterGroupUpgrade : ClusterGroupUpgrade) : Outcome :=
  match FindStatusCondition clusterGroupUpgrade.status.conditions "Ready" with
  | none =>
    .updateStatus
      (setReadyCondition clusterGroupUpgrade ConditionStatus.condFalse "UpgradeNotStarted"
        "The ClusterGroupUpgrade CR is not enabled")
      requeueImmediately
  | some readyCondition =>
    if readyCondition.status = ConditionStatus.condFalse then
      if readyCondition.reason = "PrecachingRequired" then
        .updateStatus clusterGroupUpgrade requeueWithLongInterval
      else if readyCondition.reason = "UpgradeNotStarted" ∨
          readyCondition.reason = CannotStart then
        startUpgrade w clusterGroupUpgrade
      else if readyCondition.reason = "UpgradeNotCompleted" then
        reconcileUpgradeNotCompleted w.toEnv clusterGroupUpgrade
      else if readyCondition.reason = "UpgradeTimedOut" then
        match w.deleteResources clusterGroupUpgrade with
        | some err => .returned doNotRequeue err
        | none => .updateStatus clusterGroupUpgrade doNotRequeue
      else .updateStatus clusterGroupUpgrade doNotRequeue
    else completeUpgrade w clusterGroupUpgrade

/-- The status and the reason of the Ready condition: the phase of the upgrade. -/
def readyPhase (clusterGroupUpgrade : ClusterGroupUpgrade) : Option (ConditionStatus × String) :=
  (FindStatusCondition clusterGroupUpgrade.status.conditions "Ready").map
    (fun c => (c.status, c.reason))

/-- The phases before the upgrade starts: no Ready condition, or a Ready condition with status
False and reason `UpgradeNotStarted`, `CannotStart` or `PrecachingRequired`. -/
def PreStart (clusterGroupUpgrade : ClusterGroupUpgrade) : Prop :=
  readyPhase clusterGroupUpgrade = none ∨
  readyPhase clusterGroupUpgrade = some (ConditionStatus.condFalse, "UpgradeNotStarted") ∨
  readyPhase clusterGroupUpgrade = some (ConditionStatus.condFalse, CannotStart) ∨
  readyPhase clusterGroupUpgrade = some (ConditionStatus.condFalse, "PrecachingRequired")

/-- Modelled from the spec: what happens to the persisted object between two dispatches. The
user edits the spec, the validator writes `computedMaxConcurrency`, and the backup and
precaching collaborators (not part of the source file) write their own status fields; none of
them writes `status.status` or the remediation plan, and the Ready condition keeps its status
and reason, except that before the start the precaching collaborator moves it among the phases
before the start. -/
def Collaborate (before after : ClusterGroupUpgrade) : Prop :=
  after.status.status = before.status.status ∧
  after.status.remediationPlan = before.status.remediationPlan ∧
  (readyPhase after = readyPhase before ∨ (PreStart before ∧ PreStart after))

/-- A run of one object: any number of steps, each either a change between two dispatches or a
dispatch that reaches the final `updateStatus`, with a clock that never reads the zero time. -/
inductive Run : ClusterGroupUpgrade → ClusterGroupUpgrade → Prop where
  | start (cgu : ClusterGroupUpgrade) : Run cgu cgu
  | collaborate (first before after : ClusterGroupUpgrade) :
      Run first before → Collaborate before after → Run first after
  | dispatch (w : World) (first before after : ClusterGroupUpgrade) (nextReconcile : Result) :
      Run first before → w.nowStarted ≠ 0 → w.nowCompleted ≠ 0 →
      reconcileDispatch w before = .updateStatus after nextReconcile → Run first after

/-- A reachable persisted object: the end of a run that starts from a new object, whose status
is empty. -/
def Reachable (clusterGroupUpgrade : ClusterGroupUpgrade) : Prop :=
  ∃ created : ClusterGroupUpgrade, created.status = {} ∧ Run created clusterGroupUpgrade

/-- The invariant of the reachable objects: what each phase says about `currentBatch`,
`startedAt` and `completedAt`. -/
def PhaseInvariant (cgu : ClusterGroupUpgrade) : Prop :=
  (PreStart cgu ∧ cgu.status.status.currentBatch = 0 ∧ cgu.status.status.startedAt = 0 ∧
    cgu.status.status.completedAt = 0) ∨
  (readyPhase cgu = some (ConditionStatus.condFalse, "UpgradeNotCompleted") ∧
    0 ≤ cgu.status.status.currentBatch ∧
    cgu.status.status.currentBatch ≤ cgu.status.remediationPlan.length ∧
    cgu.status.remediationPlan ≠ [] ∧ cgu.status.status.startedAt ≠ 0 ∧
    cgu.status.status.completedAt = 0) ∨
  (readyPhase cgu = some (ConditionStatus.condFalse, "UpgradeTimedOut") ∧
    1 ≤ cgu.status.status.currentBatch ∧
    cgu.status.status.currentBatch ≤ cgu.status.remediationPlan.length ∧
    cgu.status.status.startedAt ≠ 0 ∧ cgu.status.status.completedAt = 0) ∨
  (readyPhase cgu = some (ConditionStatus.condTrue, "UpgradeCompleted") ∧
    0 ≤ cgu.status.status.currentBatch ∧
    cgu.status.status.currentBatch ≤ cgu.status.remediationPlan.length ∧
    (cgu.status.status.completedAt ≠ 0 → cgu.status.status.currentBatch = 0))

/-- The steps of the dispatcher that reach the final `updateStatus`, by the phase before and
after: a step before the start, a start on an empty plan, a start on a plan that is not empty,
a step of the batch driver, a step after a timeout, the completion, and a step after it. -/
def DispatchStep (w : World) (before written : ClusterGroupUpgrade) : Prop :=
  (PreStart before ∧ PreStart written ∧ written.status.status = before.status.status) ∨
  ((readyPhase before = some (ConditionStatus.condFalse, "UpgradeNotStarted") ∨
      readyPhase before = some (ConditionStatus.condFalse, CannotStart)) ∧
    readyPhase written = some (ConditionStatus.condTrue, "UpgradeCompleted") ∧
    written.status.remediationPlan = [] ∧ written.status.status = before.status.status) ∨
  ((readyPhase before = some (ConditionStatus.condFalse, "UpgradeNotStarted") ∨
      readyPhase before = some (ConditionStatus.condFalse, CannotStart)) ∧
    readyPhase written = some (ConditionStatus.condFalse, "UpgradeNotCompleted") ∧
    written.status.remediationPlan ≠ [] ∧
    written.status.status = { before.status.status with startedAt := w.nowStarted }) ∨
  (readyPhase before = some (ConditionStatus.condFalse, "UpgradeNotCompleted") ∧
    written.status.remediationPlan = before.status.remediationPlan ∧
    written.status.status.startedAt = before.status.status.startedAt ∧
    written.status.status.completedAt = before.status.status.completedAt ∧
    1 ≤ written.status.status.currentBatch ∧
    written.status.status.currentBatch ≤ written.status.remediationPlan.length ∧
    (readyPhase written = some (ConditionStatus.condFalse, "UpgradeNotCompleted") ∨
      readyPhase written = some (ConditionStatus.condFalse, "UpgradeTimedOut") ∨
      readyPhase written = some (ConditionStatus.condTrue, "UpgradeCompleted"))) ∨
  (readyPhase before = some (ConditionStatus.condFalse, "UpgradeTimedOut") ∧
    w.deleteResources before = none ∧ written = before) ∨
  (readyPhase before = some (ConditionStatus.condTrue, "UpgradeCompleted") ∧
    before.status.status.completedAt = 0 ∧
    w.takeActionsAfterCompletion
        { before with
          status := { before.status with
            status := { before.status.status with
              currentBatch := 0
              currentBatchStartedAt := 0 } } } = none ∧
    written =
      { before with
        status := { before.status with
          status := { before.status.status with
            currentBatch := 0
            currentBatchStartedAt := 0
            completedAt := w.nowCompleted } } }) ∨
  (readyPhase before = some (ConditionStatus.condTrue, "UpgradeCompleted") ∧
    before.status.status.completedAt ≠ 0 ∧ written = before)

/-! ## The compliance of a cluster in the words of the specification -/

/-- An entry of a status list that settles the compliance of the cluster: it names the cluster
and its `compliant` field is `Compliant`, `NonCompliant` or absent. -/
def settlesCompliance (clusterName : String) (entry : ClusterComplianceEntry) : Bool :=
  decide (entry.clustername = clusterName) &&
    (decide (entry.compliant = some ClusterStatusCompliant) ||
      decide (entry.compliant = some ClusterStatusNonCompliant) ||
      decide (entry.compliant = none))

/-- The compliance of a cluster with a policy as the specification words it: NonCompliant
without a status or without a per-cluster list; otherwise what the first entry that settles it
says, where an absent field counts as NonCompliant; NotMatchedWithPolicy without such an
entry. -/
def specClusterCompliance (clusterName : String) (policy : Policy) : String :=
  match policy.status with
  | none => ClusterStatusNonCompliant
  | some statusObject =>
    match statusObject.status with
    | none => ClusterStatusNonCompliant
    | some subStatus =>
      match subStatus.find? (settlesCompliance clusterName) with
      | none => ClusterNotMatchedWithPolicy
      | some entry =>
        if entry.compliant = some ClusterStatusCompliant then ClusterStatusCompliant
        else ClusterStatusNonCompliant

/-! ## Child resources -/

/-- A live child object (a PlacementRule, a PlacementBinding or a copied Policy) as
`checkDuplicateChildResources` reads it: its name and the value of its annotation
`utils.DesiredResourceName`, if it has this annotation. -/
structure ChildResource where
  name : String
  desiredName : Option String := none
  deriving DecidableEq

/-- The read `safeNameMap[desiredName]` of a map that may be nil. -/
def safeNameOf (safeNameMap : Option (GoMap String)) (desiredName : String) : Option String :=
  match safeNameMap with
  | none => none
  | some m => mapGet? m desiredName

/-- What the calls of `checkDuplicateChildResources` for the children of one kind work on: the
map `safeNameMap`, which they share, the list `childResourceNames`, and the children that were
passed to `r.Client.Delete` without an error. -/
structure ChildNames where
  safeNameMap : Option (GoMap String)
  childResourceNames : List String := []
  deleted : List ChildResource := []

/-- Source `checkDuplicateChildResources`; `delete` is the error of `r.Client.Delete`, if any.
The result is the state after the call and the error returned. -/
def checkDuplicateChildResources (delete : ChildResource → Option Fault) (state : ChildNames)
    (newResource : ChildResource) : ChildNames × Option Fault :=
  match newResource.desiredName with
  | some desiredName =>
    match safeNameOf state.safeNameMap desiredName with
    | some safeName =>
      if newResource.name ≠ safeName then
        match delete newResource with
        | some err => (state, some err)
        | none => ({ state with deleted := state.deleted ++ [newResource] }, none)
      else
        ({ state with childResourceNames := state.childResourceNames ++ [newResource.name] },
          none)
    | none =>
      match state.safeNameMap with
      | none => (state, some .panic)
      | some m =>
        ({ state with
            safeNameMap := some (mapSet m desiredName newResource.name)
            childResourceNames := state.childResourceNames ++ [newResource.name] }, none)
  | none =>
    ({ state with childResourceNames := state.childResourceNames ++ [newResource.name] }, none)

/-- The loop of `updateChildResourceNamesInStatus` over the children of one kind: the first
error ends it. -/
def childResourcesLoop (delete : ChildResource → Option Fault) :
    List ChildResource → ChildNames → ChildNames × Option Fault
  | [], state => (state, none)
  | child :: rest, state =>
    match checkDuplicateChildResources delete state child with
    | (state1, some err) => (state1, some err)
    | (state1, none) => childResourcesLoop delete rest state1

/-- The calls of `updateChildResourceNamesInStatus` on the API server: the live children of
each kind that carry the label of the object (`getPlacementRules`, `getPlacementBindings`,
`getCopiedPolicies`), and the error of `r.Client.Delete`, if any. -/
structure ChildApi where
  getPlacementRules : ClusterGroupUpgrade → Except Fault (List ChildResource)
  getPlacementBindings : ClusterGroupUpgrade → Except Fault (List ChildResource)
  getCopiedPolicies : ClusterGroupUpgrade → Except Fault (List ChildResource)
  delete : ChildResource → Option Fault

/-- The object with the map `status.safeResourceNames` replaced. -/
def setSafeResourceNames (clusterGroupUpgrade : ClusterGroupUpgrade)
    (safeNameMap : Option (GoMap String)) : ClusterGroupUpgrade :=
  { clusterGroupUpgrade with
    status := { clusterGroupUpgrade.status with safeResourceNames := safeNameMap } }

/-- Source `updateChildResourceNamesInStatus`: the object as the function leaves it, the
children it deleted, and the error returned. -/
def updateChildResourceNamesInStatus (api : ChildApi) (clusterGroupUpgrade : ClusterGroupUpgrade) :
    ClusterGroupUpgrade × List ChildResource × Option Fault :=
  match api.getPlacementRules clusterGroupUpgrade with
  | .error err => (clusterGroupUpgrade, [], some err)
  | .ok placementRules =>
    match childResourcesLoop api.delete placementRules
        { safeNameMap := clusterGroupUpgrade.status.safeResourceNames } with
    | (rules, some err) =>
      (setSafeResourceNames clusterGroupUpgrade rules.safeNameMap, rules.deleted, some err)
    | (rules, none) =>
      let cgu1 : ClusterGroupUpgrade :=
        { clusterGroupUpgrade with
          status := { clusterGroupUpgrade.status with
            safeResourceNames := rules.safeNameMap
            placementRules := rules.childResourceNames } }
      match api.getPlacementBindings cgu1 with
      | .error err => (cgu1, rules.deleted, some err)
      | .ok placementBindings =>
        match childResourcesLoop api.delete placementBindings
            { safeNameMap := cgu1.status.safeResourceNames } with
        | (bindings, some err) =>
          (setSafeResourceNames cgu1 bindings.safeNameMap, rules.deleted ++ bindings.deleted,
            some err)
        | (bindings, none) =>
          let cgu2 : ClusterGroupUpgrade :=
            { cgu1 with
              status := { cgu1.status with
                safeResourceNames := bindings.safeNameMap
                placementBindings := bindings.childResourceNames } }
          match api.getCopiedPolicies cgu2 with
          | .error err => (cgu2, rules.deleted ++ bindings.deleted, some err)
          | .ok copiedPolicies =>
            match childResourcesLoop api.delete copiedPolicies
                { safeNameMap := cgu2.status.safeResourceNames } with
            | (policies, some err) =>
              (setSafeResourceNames cgu2 policies.safeNameMap,
                rules.deleted ++ bindings.deleted ++ policies.deleted, some err)
            | (policies, none) =>
              ({ cgu2 with
                  status := { cgu2.status with
                    safeResourceNames := policies.safeNameMap
                    copiedPolicies := policies.childResourceNames } },
                rules.deleted ++ bindings.deleted ++ policies.deleted, none)

/-- A child whose desired name is recorded with another name: the stale child that
`checkDuplicateChildResources` deletes. -/
def StaleChild (safeNameMap : Option (GoMap String)) (child : ChildResource) : Prop :=
  ∃ desiredName safeName, child.desiredName = some desiredName ∧
    safeNameOf safeNameMap desiredName = some safeName ∧ safeName ≠ child.name

/-- The map keeps every entry: a key that has a value before has the same value after. -/
def KeepsEntries (before after : Option (GoMap String)) : Prop :=
  ∀ desiredName safeName, safeNameOf before desiredName = some safeName →
    safeNameOf after desiredName = some safeName

/-! ## Policy content -/

/-- A value of an unstructured object (an `interface{}` after JSON decoding): nil, a string, a
list, a map, or a value of another type (a number or a boolean). -/
inductive Json where
  | null
  | str (s : String)
  | other (text : String)
  | arr (items : List Json)
  | obj (fields : List (String × Json))

/-- The read `v, ok := m[key]` of a `map[string]interface{}`. -/
def jsonField? (fields : List (String × Json)) (key : String) : Option Json :=
  match fields with
  | [] => none
  | (k, v) :: rest => if k = key then some v else jsonField? rest key

/-- The read `m[key]` of a `map[string]interface{}`: nil for a key that is absent. -/
def jsonField (fields : List (String × Json)) (key : String) : Json :=
  (jsonField? fields key).getD Json.null

/-- Modelled from the spec: the constant `utils.PolicyTypeSubscription` (the package `utils` is
not part of the source file), the kind `Subscription`. -/
def PolicyTypeSubscription : String := "Subscription"

/-- Modelled from the spec: the type `ranv1alpha1.PolicyContent` (the API package is not part
of the source file): the kind, the name and the namespace of an object of a policy; `nameSpace`
is a pointer in the source. -/
structure PolicyContent where
  kind : String
  name : String
  nameSpace : Option String := none
  deriving DecidableEq

/-- A managed policy as `getPolicyContent` reads it: its name and the map `Object`. -/
structure UnstructuredPolicy where
  name : String
  object : List (String × Json)

/-- The body of the inner loop of `getPolicyContent` for one object template: the content to
append, nothing when the template is skipped, an error, or the panic of a type assertion that
fails. -/
def objectTemplateContent (managedPolicyName : String) (objectTemplate : Json) :
    Except Fault (Option PolicyContent) :=
  match objectTemplate with
  | .obj objectTemplateContent =>
    match jsonField objectTemplateContent "objectDefinition" with
    | .null =>
      .error (.error ("policy " ++ managedPolicyName ++ " is missing its " ++
        "spec.policy-templates.objectDefinition.spec.object-templates.objectDefinition"))
    | .obj innerObjectDefinitionContent =>
      match jsonField innerObjectDefinitionContent "metadata" with
      | .null => .ok none
      | .obj objectDefinitionMetadataContent =>
        match jsonField? innerObjectDefinitionContent "kind" with
        | none => .ok none
        | some (.str kind) =>
          if kind ≠ PolicyTypeSubscription then .ok none
          else
            match jsonField? objectDefinitionMetadataContent "name" with
            | none => .ok none
            | some name =>
              match jsonField? objectDefinitionMetadataContent "namespace" with
              | none => .ok none
              | some nameSpace =>
                match name, nameSpace with
                | .str nameText, .str nameSpaceText =>
                  .ok (some { kind := kind, name := nameText, nameSpace := some nameSpaceText })
                | _, _ => .error .panic
        | some _ => .ok none
      | _ => .error .panic
    | _ => .error .panic
  | _ => .error .panic

/-- The inner loop of `getPolicyContent`, over the object templates of one template. -/
def objectTemplatesLoop (managedPolicyName : String) :
    List Json → List PolicyContent → Except Fault (List PolicyContent)
  | [], policyContent => .ok policyContent
  | objectTemplate :: rest, policyContent =>
    match objectTemplateContent managedPolicyName objectTemplate with
    | .error err => .error err
    | .ok none => objectTemplatesLoop managedPolicyName rest policyContent
    | .ok (some policyContentCrt) =>
      objectTemplatesLoop managedPolicyName rest (policyContent ++ [policyContentCrt])

/-- The body of the outer loop of `getPolicyContent` for one template. -/
def templateContent (managedPolicyName : String) (template : Json)
    (policyContent : List PolicyContent) : Except Fault (List PolicyContent) :=
  match template with
  | .obj templateFields =>
    match jsonField templateFields "objectDefinition" with
    | .null =>
      .error (.error ("policy " ++ managedPolicyName ++
        " is missing its spec.policy-templates.objectDefinition"))
    | .obj objectDefinitionContent =>
      match jsonField objectDefinitionContent "spec" with
      | .null =>
        .error (.error ("policy " ++ managedPolicyName ++
          " is missing its spec.policy-templates.objectDefinition.spec"))
      | .obj specContent =>
        match jsonField specContent "object-templates" with
        | .null =>
          .error (.error ("policy " ++ managedPolicyName ++
            " is missing its spec.policy-templates.objectDefinition.spec.object-templates"))
        | .arr objectTemplatesContent =>
          objectTemplatesLoop managedPolicyName objectTemplatesContent policyContent
        | _ => .error .panic
      | _ => .error .panic
    | _ => .error .panic
  | _ => .error .panic

/-- The outer loop of `getPolicyContent`, over the policy templates. -/
def templatesLoop (managedPolicyName : String) :
    List Json → List PolicyContent → Except Fault (List PolicyContent)
  | [], policyContent => .ok policyContent
  | template :: rest, policyContent =>
    match templateContent managedPolicyName template policyContent with
    | .error err => .error err
    | .ok policyContent1 => templatesLoop managedPolicyName rest policyContent1

/-- Source `getPolicyContent`. -/
def getPolicyContent (managedPolicy : UnstructuredPolicy) : Except Fault (List PolicyContent) :=
  match jsonField managedPolicy.object "spec" with
  | .obj specObject =>
    match jsonField specObject "policy-templates" with
    | .arr policyTemplatesArr => templatesLoop managedPolicy.name policyTemplatesArr []
    | _ => .error .panic
  | _ => .error .panic

/-- The content of an object template in the words of the specification: the kind, the name and
the namespace of an object template whose kind is Subscription and that carries a name and a
namespace. -/
def subscriptionOf (objectTemplate : Json) : Option PolicyContent :=
  match objectTemplate with
  | .obj objectTemplateContent =>
    match jsonField objectTemplateContent "objectDefinition" with
    | .obj inner =>
      match jsonField? inner "kind", jsonField inner "metadata" with
      | some (.str kind), .obj metadata =>
        if kind = PolicyTypeSubscription then
          match jsonField? metadata "name", jsonField? metadata "namespace" with
          | some (.str name), some (.str nameSpace) =>
            some { kind := kind, name := name, nameSpace := some nameSpace }
          | _, _ => none
        else none
      | _, _ => none
    | _ => none
  | _ => none

/-- An object template that `getPolicyContent` reads without error: an object with an
`objectDefinition` object whose `metadata` is absent or an object in which `name` and
`namespace`, when present, are strings. -/
def WellFormedObjectTemplate (objectTemplate : Json) : Prop :=
  ∃ fields inner, objectTemplate = .obj fields ∧
    jsonField fields "objectDefinition" = .obj inner ∧
    (jsonField inner "metadata" = .null ∨
      ∃ metadata, jsonField inner "metadata" = .obj metadata ∧
        (∀ v, jsonField? metadata "name" = some v → ∃ s, v = .str s) ∧
        (∀ v, jsonField? metadata "namespace" = some v → ∃ s, v = .str s))

/-- The object templates of a policy template, when it has the list
`objectDefinition.spec.object-templates`. -/
def objectTemplatesOf (template : Json) : Option (List Json) :=
  match template with
  | .obj templateFields =>
    match jsonField templateFields "objectDefinition" with
    | .obj objectDefinitionContent =>
      match jsonField objectDefinitionContent "spec" with
      | .obj specContent =>
        match jsonField specContent "object-templates" with
        | .arr objectTemplatesContent => some objectTemplatesContent
        | _ => none
      | _ => none
    | _ => none
  | _ => none

/-- A policy template that `getPolicyContent` reads without error: it has the list
`objectDefinition.spec.object-templates`, and every object template of the list is
well formed. -/
def WellFormedTemplate (template : Json) : Prop :=
  ∃ objectTemplates, objectTemplatesOf template = some objectTemplates ∧
    ∀ objectTemplate ∈ objectTemplates, WellFormedObjectTemplate objectTemplate

/-! ## Placement updates and install plans -/

/-- The slice index `status.managedPoliciesForUpgrade[index]`: an index out of range is a
panic. -/
def policyAt (clusterGroupUpgrade : ClusterGroupUpgrade) (index : Int) :
    Except Fault ManagedPolicyForUpgrade :=
  if index < 0 then .error .panic
  else
    match clusterGroupUpgrade.status.managedPoliciesForUpgrade[index.toNat]? with
    | none => .error .panic
    | some policy => .ok policy

/-- Modelled from the spec: the outcomes of `utils.ProcessSubscriptionManagedClusterView` (the
package `utils` is not part of the source file) that `approveInstallPlan` tells apart, the
constants `utils.InstallPlanCannotBeApproved`, `utils.InstallPlanWasApproved` and
`utils.MultiCloudPendingStatus`, and any other value. -/
inductive InstallPlanStatus where
  | InstallPlanCannotBeApproved
  | InstallPlanWasApproved
  | MultiCloudPendingStatus
  | otherStatus (code : Int)
  deriving DecidableEq

/-- A ManagedClusterView as `approveInstallPlan` reads it: the object that `r.Get` returns for
a name and the namespace of a cluster. -/
structure ManagedClusterView where
  name : String
  nameSpace : String
  deriving DecidableEq

/-- What `approveInstallPlan` observes outside the object. The functions of the package
`utils`, which is not part of the source file, and the library call `json.Unmarshal` are given
by what they return. -/
structure InstallPlanApi where
  /-- The array that `json.Unmarshal` decodes from the saved content of a policy (its error is
  dropped). -/
  unmarshalPolicyContent : String → List PolicyContent
  /-- The name `utils.GetMultiCloudObjectName(clusterGroupUpgrade, kind, name)`. -/
  GetMultiCloudObjectName : ClusterGroupUpgrade → String → String → String
  /-- The read `r.Get` of a ManagedClusterView by name in the namespace of a cluster. -/
  getManagedClusterView : String → String → GetResult ManagedClusterView
  /-- The pair `installPlanStatus, err` of `utils.ProcessSubscriptionManagedClusterView`. -/
  ProcessSubscriptionManagedClusterView :
    ClusterGroupUpgrade → String → ManagedClusterView → Except Fault InstallPlanStatus

/-- The inner loop of `approveInstallPlan` over the content of the policy of one cluster, on
the flag `reconcileSooner`: the flag after the loop and no error, or the pair `false, err` that
the function returns at once. -/
def subscriptionsLoop (api : InstallPlanApi) (clusterGroupUpgrade : ClusterGroupUpgrade)
    (clusterName : String) : List PolicyContent → Bool → Bool × Option Fault
  | [], reconcileSooner => (reconcileSooner, none)
  | policyContent :: rest, reconcileSooner =>
    if policyContent.kind ≠ PolicyTypeSubscription then
      subscriptionsLoop api clusterGroupUpgrade clusterName rest reconcileSooner
    else
      match safeNameOf clusterGroupUpgrade.status.safeResourceNames
          (api.GetMultiCloudObjectName clusterGroupUpgrade policyContent.kind
            policyContent.name) with
      | none => subscriptionsLoop api clusterGroupUpgrade clusterName rest reconcileSooner
      | some safeName =>
        match api.getManagedClusterView safeName clusterName with
        | .notFound => subscriptionsLoop api clusterGroupUpgrade clusterName rest reconcileSooner
        | .failed err => (false, some err)
        | .found mcv =>
          match api.ProcessSubscriptionManagedClusterView clusterGroupUpgrade clusterName
              mcv with
          | .error _ =>
            subscriptionsLoop api clusterGroupUpgrade clusterName rest reconcileSooner
          | .ok installPlanStatus =>
            if installPlanStatus = InstallPlanStatus.InstallPlanCannotBeApproved then
              subscriptionsLoop api clusterGroupUpgrade clusterName rest true
            else if installPlanStatus = InstallPlanStatus.InstallPlanWasApproved then
              subscriptionsLoop api clusterGroupUpgrade clusterName rest reconcileSooner
            else if installPlanStatus = InstallPlanStatus.MultiCloudPendingStatus then
              subscriptionsLoop api clusterGroupUpgrade clusterName rest true
            else subscriptionsLoop api clusterGroupUpgrade clusterName rest reconcileSooner

/-- The loop of `approveInstallPlan` over the entries of the progress map, in the order in
which the `range` statement visits them. A nil `PolicyIndex` and an index out of range are
panics, reported as the error with the flag `false`. -/
def approveInstallPlanLoop (api : InstallPlanApi) (clusterGroupUpgrade : ClusterGroupUpgrade) :
    List (String × ClusterRemediationProgress) → Bool → Bool × Option Fault
  | [], reconcileSooner => (reconcileSooner, none)
  | (clusterName, clusterProgress) :: rest, reconcileSooner =>
    if clusterProgress.state ≠ RemediationState.InProgress then
      approveInstallPlanLoop api clusterGroupUpgrade rest reconcileSooner
    else
      match clusterProgress.policyIndex with
      | none => (false, some .panic)
      | some policyIndex =>
        match policyAt clusterGroupUpgrade policyIndex with
        | .error err => (false, some err)
        | .ok managedPolicy =>
          match mapGet? clusterGroupUpgrade.status.managedPoliciesContent
              managedPolicy.name with
          | none => (false, none)
          | some content =>
            match subscriptionsLoop api clusterGroupUpgrade clusterName
                (api.unmarshalPolicyContent content) reconcileSooner with
            | (flag, some err) => (flag, some err)
            | (flag, none) => approveInstallPlanLoop api clusterGroupUpgrade rest flag

/-- Source `approveInstallPlan`: the pair `reconcileSooner, err`. The order of the iteration
over a Go map is not fixed: `iteration` is the list of the entries of the progress map in the
order of this call. -/
def approveInstallPlan (api : InstallPlanApi) (clusterGroupUpgrade : ClusterGroupUpgrade)
    (iteration : List (String × ClusterRemediationProgress)) : Bool × Option Fault :=
  approveInstallPlanLoop api clusterGroupUpgrade iteration false

/-- The read `policiesToUpdate[index]` of the `map[int][]string` of `updatePlacementRules`: a
key that is absent reads as the nil slice. -/
def clusterNamesAt (policiesToUpdate : List (Int × List String)) (index : Int) : List String :=
  match policiesToUpdate with
  | [] => []
  | (k, v) :: rest => if k = index then v else clusterNamesAt rest index

/-- The write `policiesToUpdate[index] = clusterNames`. -/
def setClusterNames (policiesToUpdate : List (Int × List String)) (index : Int)
    (clusterNames : List String) : List (Int × List String) :=
  match policiesToUpdate with
  | [] => [(index, clusterNames)]
  | (k, v) :: rest =>
    if k = index then (index, clusterNames) :: rest
    else (k, v) :: setClusterNames rest index clusterNames

/-- The first loop of `updatePlacementRules`: the clusters that are InProgress, by policy
index. A nil `PolicyIndex` is a panic. -/
def policiesToUpdateLoop :
    List (String × ClusterRemediationProgress) → List (Int × List String) →
      Except Fault (List (Int × List String))
  | [], policiesToUpdate => .ok policiesToUpdate
  | (clusterName, clusterProgress) :: rest, policiesToUpdate =>
    if clusterProgress.state ≠ RemediationState.InProgress then
      policiesToUpdateLoop rest policiesToUpdate
    else
      match clusterProgress.policyIndex with
      | none => .error .panic
      | some policyIndex =>
        policiesToUpdateLoop rest
          (setClusterNames policiesToUpdate policyIndex
            (clusterNamesAt policiesToUpdate policyIndex ++ [clusterName]))

/-- What `updatePlacementRules` observes outside the object: the name
`utils.GetResourceName(clusterGroupUpgrade, name)` (the package `utils` is not part of the
source file) and the PlacementRules of `updatePlacementRuleWithClusters`. -/
structure PlacementApi where
  GetResourceName : ClusterGroupUpgrade → String → String
  rules : PlacementRuleApi

/-- The second loop of `updatePlacementRules`, over the entries of `policiesToUpdate` in the
order in which the `range` statement visits them. -/
def placementRulesLoop (api : PlacementApi) (clusterGroupUpgrade : ClusterGroupUpgrade) :
    List (Int × List String) → Option Fault
  | [] => none
  | (index, clusterNames) :: rest =>
    match policyAt clusterGroupUpgrade index with
    | .error err => some err
    | .ok managedPolicy =>
      match safeNameOf clusterGroupUpgrade.status.safeResourceNames
          (api.GetResourceName clusterGroupUpgrade (managedPolicy.name ++ "-placement")) with
      | some safeName =>
        match updatePlacementRuleWithClusters api.rules clusterGroupUpgrade clusterNames
            safeName with
        | some err => some err
        | none => placementRulesLoop api clusterGroupUpgrade rest
      | none =>
        some (.error ("placement object name " ++
          api.GetResourceName clusterGroupUpgrade (managedPolicy.name ++ "-placement") ++
          " not found in CGU " ++ clusterGroupUpgrade.name))

/-- Source `updatePlacementRules`: the error returned, if any. `iteration` is the list of the
entries of the progress map in the order of the first loop, and `reorder` gives the order in
which the second loop visits the entries of `policiesToUpdate`. -/
def updatePlacementRules (api : PlacementApi) (clusterGroupUpgrade : ClusterGroupUpgrade)
    (iteration : List (String × ClusterRemediationProgress))
    (reorder : List (Int × List String) → List (Int × List String)) : Option Fault :=
  match policiesToUpdateLoop iteration [] with
  | .error err => some err
  | .ok policiesToUpdate =>
    placementRulesLoop api clusterGroupUpgrade (reorder policiesToUpdate)

/-- A Subscription of the content of a policy whose install plan is processed for the cluster
with the outcome cannot-be-approved or pending: its ManagedClusterView has a recorded name, is
read, and is processed without error. -/
def SubscriptionAwaits (api : InstallPlanApi) (clusterGroupUpgrade : ClusterGroupUpgrade)
    (clusterName : String) (policyContent : PolicyContent) : Prop :=
  policyContent.kind = PolicyTypeSubscription ∧
  ∃ safeName mcv installPlanStatus,
    safeNameOf clusterGroupUpgrade.status.safeResourceNames
      (api.GetMultiCloudObjectName clusterGroupUpgrade policyContent.kind
        policyContent.name) = some safeName ∧
    api.getManagedClusterView safeName clusterName = .found mcv ∧
    api.ProcessSubscriptionManagedClusterView clusterGroupUpgrade clusterName mcv =
      .ok installPlanStatus ∧
    (installPlanStatus = InstallPlanStatus.InstallPlanCannotBeApproved ∨
      installPlanStatus = InstallPlanStatus.MultiCloudPendingStatus)

/-- An entry of the progress map that is InProgress and whose current policy has saved
content. -/
def HasSavedContent (clusterGroupUpgrade : ClusterGroupUpgrade)
    (entry : String × ClusterRemediationProgress) : Prop :=
  ∃ policyIndex managedPolicy content,
    entry.2.policyIndex = some policyIndex ∧
    policyAt clusterGroupUpgrade policyIndex = .ok managedPolicy ∧
    mapGet? clusterGroupUpgrade.status.managedPoliciesContent managedPolicy.name = some content

/-- A cluster of the progress map that is InProgress and for which the install plan of a
Subscription of its current policy is processed with the outcome cannot-be-approved or
pending. -/
def AwaitsInstallPlan (api : InstallPlanApi) (clusterGroupUpgrade : ClusterGroupUpgrade)
    (entry : String × ClusterRemediationProgress) : Prop :=
  entry.2.state = RemediationState.InProgress ∧
  ∃ policyIndex managedPolicy content policyContent,
    entry.2.policyIndex = some policyIndex ∧
    policyAt clusterGroupUpgrade policyIndex = .ok managedPolicy ∧
    mapGet? clusterGroupUpgrade.status.managedPoliciesContent managedPolicy.name =
      some content ∧
    policyContent ∈ api.unmarshalPolicyContent content ∧
    SubscriptionAwaits api clusterGroupUpgrade entry.1 policyContent

/-- The objects that follow a start object by any number of error-free calls of
`getNextRemediationPoliciesForBatch`, each with its own policy observations. -/
inductive Advanced (start : ClusterGroupUpgrade) : ClusterGroupUpgrade → Prop where
  | initial : Advanced start start
  | next (getPolicyByName : String → String → Except Fault Policy)
      (cgu cgu1 : ClusterGroupUpgrade) (isBatchComplete : Bool) :
      Advanced start cgu →
      getNextRemediationPoliciesForBatch getPolicyByName cgu = .ok (isBatchComplete, cgu1) →
      Advanced start cgu1

/-- The invariant of the batch driver: the current batch is a batch of the plan, every cluster
of the batch has a progress entry, and every entry of the progress map satisfies
`ProgressEntryOk`. -/
def DriverInvariant (clusterGroupUpgrade : ClusterGroupUpgrade) : Prop :=
  (∃ batch, planBatch clusterGroupUpgrade
      (clusterGroupUpgrade.status.status.currentBatch - 1) = .ok batch ∧
    ∀ c ∈ batch, ∃ progress,
      mapGet? clusterGroupUpgrade.status.status.currentBatchRemediationProgress c =
        some progress) ∧
  ∀ entry ∈ clusterGroupUpgrade.status.status.currentBatchRemediationProgress,
    ProgressEntryOk clusterGroupUpgrade.status.managedPoliciesForUpgrade.length entry.2

/-! ## Example data -/

/-- A policy `p1` with which cluster `a` is Compliant and cluster `b` is NonCompliant. -/
def examplePolicy1 : Policy :=
  { name := "p1"
    status := some { status := some [{ clustername := "a", compliant := some "Compliant" },
                                     { clustername := "b", compliant := some "NonCompliant" }] } }

/-- A policy `p2` with which cluster `a` is NonCompliant; cluster `b` is not in its status. -/
def examplePolicy2 : Policy :=
  { name := "p2"
    status := some { status := some [{ clustername := "a", compliant := some "NonCompliant" }] } }

/-- A policy store that holds `p1` and `p2`. -/
def exampleStore : String → String → Except Fault Policy :=
  fun name _ =>
    if name = "p1" then .ok examplePolicy1
    else if name = "p2" then .ok examplePolicy2
    else .error (Fault.error "not found")

/-- An upgrade of clusters `a` and `b` in one batch with policies `p1`, `p2`: `a` is at policy 0
and `b` has not started. -/
def exampleUpgrade : ClusterGroupUpgrade :=
  { spec := { clusters := ["a", "b"], managedPolicies := ["p1", "p2"],
              remediationStrategy := { maxConcurrency := 2, timeout := 10 } }
    status :=
      { conditions := [{ type := "Ready", status := ConditionStatus.condFalse,
                         reason := "UpgradeNotCompleted" }]
        remediationPlan := [["a", "b"]]
        managedPoliciesForUpgrade := [{ name := "p1", nameSpace := "ns" },
                                      { name := "p2", nameSpace := "ns" }]
        computedMaxConcurrency := 2
        status :=
          { startedAt := 1000, currentBatch := 1, currentBatchStartedAt := 1000
            currentBatchRemediationProgress :=
              [("a", { state := RemediationState.InProgress, policyIndex := some 0 }),
               ("b", { state := RemediationState.NotStarted })] } } }

/-- The progress map of `exampleUpgrade` after one cursor advancement. -/
def exampleAdvanced : ClusterGroupUpgrade :=
  { exampleUpgrade with
    status := { exampleUpgrade.status with
      status := { exampleUpgrade.status.status with
        currentBatchRemediationProgress :=
          [("a", { state := RemediationState.InProgress, policyIndex := some 1 }),
           ("b", { state := RemediationState.InProgress, policyIndex := some 0 })] } } }

/-- An upgrade of the given clusters with policies `p1`, `p2` that started at time 1000 with a
timeout of 60 minutes: batch 1 started at time 1000 and its cluster `a` is at policy 0. -/
def exampleRun (clusters canaries : List String) (remediationPlan : List (List String))
    (batchTimeoutAction : String) : ClusterGroupUpgrade :=
  { spec := { clusters := clusters, managedPolicies := ["p1", "p2"],
              remediationStrategy := { canaries := canaries, maxConcurrency := 1, timeout := 60 },
              batchTimeoutAction := batchTimeoutAction }
    status :=
      { conditions := [{ type := "Ready", status := ConditionStatus.condFalse,
                         reason := "UpgradeNotCompleted" }]
        remediationPlan := remediationPlan
        managedPoliciesForUpgrade := [{ name := "p1", nameSpace := "ns" },
                                      { name := "p2", nameSpace := "ns" }]
        computedMaxConcurrency := 1
        status :=
          { startedAt := 1000, currentBatch := 1, currentBatchStartedAt := 1000
            currentBatchRemediationProgress :=
              [("a", { state := RemediationState.InProgress, policyIndex := some 0 })] } } }

/-- An environment with the policies `p1` and `p2`, a clock that reads `now` and the batch
budget `CalculateBatchTimeout`. -/
def exampleEnv (now : Int) : Env :=
  { getPolicyByName := exampleStore
    nowRequeue := now
    nowBatchStart := now
    nowOverallCheck := now
    nowBatchCheck := now
    CalculateBatchTimeout := CalculateBatchTimeout }

/-- The object `exampleRun` after one cursor advancement: cluster `a` is at policy 1. -/
def exampleRunAdvanced (clusters canaries : List String) (remediationPlan : List (List String))
    (batchTimeoutAction : String) : ClusterGroupUpgrade :=
  { exampleRun clusters canaries remediationPlan batchTimeoutAction with
    status := { (exampleRun clusters canaries remediationPlan batchTimeoutAction).status with
      status :=
        { (exampleRun clusters canaries remediationPlan batchTimeoutAction).status.status with
        currentBatchRemediationProgress :=
          [("a", { state := RemediationState.InProgress, policyIndex := some 1 })] } } }

/-- An upgrade of the single cluster `a` whose spec names the canary `a` twice. -/
def exampleDuplicateCanaries : ClusterGroupUpgrade :=
  { spec := { clusters := ["a"], managedPolicies := ["p2"],
              remediationStrategy := { canaries := ["a", "a"], maxConcurrency := 1, timeout := 60 } }
    status := { computedMaxConcurrency := 1 } }

/-- A policy store in which every policy reports clusters `a` and `b` as Compliant. -/
def exampleCompliantStore : String → String → Except Fault Policy :=
  fun name _ =>
    .ok { name := name
          status := some { status := some [{ clustername := "a", compliant := some "Compliant" },
                                           { clustername := "b", compliant := some "Compliant" }] } }

/-- The object `exampleRun` on its last batch `[b]`, with cluster `b` at policy 0. -/
def exampleLastBatch : ClusterGroupUpgrade :=
  { exampleRun ["a", "b"] [] [["a"], ["b"]] "" with
    status := { (exampleRun ["a", "b"] [] [["a"], ["b"]] "").status with
      status := { (exampleRun ["a", "b"] [] [["a"], ["b"]] "").status.status with
        currentBatch := 2
        currentBatchRemediationProgress :=
          [("b", { state := RemediationState.InProgress, policyIndex := some 0 })] } } }

/-- The object `exampleLastBatch` after one cursor advancement: cluster `b` is Completed. -/
def exampleLastBatchDone : ClusterGroupUpgrade :=
  { exampleLastBatch with
    status := { exampleLastBatch.status with
      status := { exampleLastBatch.status.status with
        currentBatchRemediationProgress :=
          [("b", { state := RemediationState.Completed, policyIndex := none })] } } }

/-- A listing for the examples: label `site=west` lists `c`, `a`, `c`; every other label and
every structured selector lists `b`. -/
def exampleListing : ClusterListing :=
  { listByLabel := fun k v => if k = "site" ∧ v = "west" then .ok ["c", "a", "c"] else .ok ["b"]
    listBySelector := fun _ => .ok ["b"] }

/-- A spec for the examples: a selector `site=west`, a malformed selector, a structured selector
and the explicit clusters `d`, `a`. -/
def exampleSelectors : ClusterGroupUpgrade :=
  { spec := { clusters := ["d", "a"], clusterSelector := ["site=west", "x=y=z"],
              clusterLabelSelectors := [{ matchLabels := [("zone", "1")] }] } }

/-- An API server for the examples of the validator: the lists of `exampleListing`, every
cluster but `x` is a ManagedCluster, and the status is written. -/
def exampleValidation : ValidationApi :=
  { listing := exampleListing
    getManagedCluster := fun cluster =>
      if cluster = "x" then some (.error "not found") else none
    updateStatus := fun _ => none }

/-- The API server `exampleValidation` with a status update that fails. -/
def exampleValidationConflict : ValidationApi :=
  { exampleValidation with updateStatus := fun _ => some (.error "conflict") }

/-- An object without target clusters. -/
def exampleNoClusters : ClusterGroupUpgrade :=
  { spec := { remediationStrategy := { maxConcurrency := 2 } } }

/-- An object with the two target clusters `a` and `d` and a maximum concurrency of 5. -/
def exampleTwoClusters : ClusterGroupUpgrade :=
  { spec := { clusters := ["d", "a"], remediationStrategy := { maxConcurrency := 5 } } }

/-- The blocking CRs of the examples: `done` has a Ready condition with reason
`UpgradeCompleted` only, `busy` has that Ready condition and a further condition, `fresh` has
nil conditions, and no other object exists. -/
def exampleBlockingCGUs (blockingCR : BlockingCR) : GetResult BlockingCGU :=
  if blockingCR.name = "done" then
    .found { name := "done"
             conditions := some [{ type := "Ready", status := ConditionStatus.condTrue,
                                   reason := "UpgradeCompleted" }] }
  else if blockingCR.name = "busy" then
    .found { name := "busy"
             conditions := some [{ type := "Ready", status := ConditionStatus.condTrue,
                                   reason := "UpgradeCompleted" },
                                 { type := "BackupDone", status := ConditionStatus.condTrue,
                                   reason := "BackupCompleted" }] }
  else if blockingCR.name = "fresh" then .found { name := "fresh", conditions := none }
  else .notFound

/-- An object blocked by the four CRs `done`, `busy`, `fresh` and `gone`. -/
def exampleBlocked : ClusterGroupUpgrade :=
  { spec := { blockingCRs := [{ name := "done" }, { name := "busy" }, { name := "fresh" },
                              { name := "gone" }] } }

/-- A cluster list for the examples: `b` with a further field, then `a`. -/
def exampleEntries : List ClusterEntry :=
  [.object [("name", .str "b"), ("zone", .str "west")], .object [("name", .str "a")]]

/-- A PlacementRule store for the examples: every name reads as a rule with the list
`exampleEntries` and two replicas, and every update succeeds. -/
def examplePlacementRules : PlacementRuleApi :=
  { get := fun name nameSpace =>
      .ok { name := name, nameSpace := nameSpace
            spec := some { clusters := .list exampleEntries, clusterReplicas := some 2 } }
    update := fun _ => none }

/-- A PlacementRule store for the examples in which every name reads as a rule without the key
`clusters`, as `newBatchPlacementRule` creates it, and every update succeeds. -/
def exampleFreshPlacementRules : PlacementRuleApi :=
  { get := fun name nameSpace => .ok { name := name, nameSpace := nameSpace, spec := some {} }
    update := fun _ => none }

/-- The status fields that the policy resolver and the materializer leave in the examples: the
policies `p1` and `p2` are used in the upgrade. -/
def exampleResources : ResourceStatus :=
  { managedPoliciesForUpgrade := [{ name := "p1", nameSpace := "ns" },
                                  { name := "p2", nameSpace := "ns" }] }

/-- A world for the examples: the environment `exampleEnv now`, the policies `p1` and `p2`
exist, the blocking CRs are those of `exampleBlockingCGUs`, and no call fails. -/
def exampleWorld (now : Int) : World :=
  { toEnv := exampleEnv now
    listing := exampleListing
    doManagedPoliciesExist := fun _ =>
      .ok (true, [], [examplePolicy1, examplePolicy2], exampleResources)
    reconcileResources := fun _ _ => .ok exampleResources
    processManagedPolicyForUpgradeContent := fun _ _ => .ok exampleResources
    getBlockingCGU := exampleBlockingCGUs
    takeActionsBeforeEnable := fun _ => none
    takeActionsAfterCompletion := fun _ => none
    deleteResources := fun _ => none
    nowStarted := now
    nowCompleted := now }

/-- The world `exampleWorld now` in which the managed policy `p3` is missing. -/
def exampleWorldMissing (now : Int) : World :=
  { exampleWorld now with
    doManagedPoliciesExist := fun _ => .ok (false, ["p3"], [], {}) }

/-- The world `exampleWorld now` in which every cluster is compliant with every managed policy,
so that no policy is used in the upgrade. -/
def exampleWorldCompliant (now : Int) : World :=
  { exampleWorld now with
    doManagedPoliciesExist := fun _ => .ok (true, [], [], {})
    reconcileResources := fun _ _ => .ok {}
    processManagedPolicyForUpgradeContent := fun _ _ => .ok {} }

/-- A new enabled object for the clusters `a` and `b`, with an empty status. -/
def exampleNew : ClusterGroupUpgrade :=
  { spec := { clusters := ["a", "b"], managedPolicies := ["p1", "p2"], enable := true,
              remediationStrategy := { maxConcurrency := 1, timeout := 60 } } }

/-- The object `exampleNew` after the validator has written `computedMaxConcurrency`. -/
def exampleValidated : ClusterGroupUpgrade :=
  { exampleNew with status := { computedMaxConcurrency := 1 } }

/-- The object `exampleValidated` after its first dispatch: phase UpgradeNotStarted. -/
def exampleNotStarted : ClusterGroupUpgrade :=
  { exampleNew with
    status :=
      { conditions := [{ type := "Ready", status := ConditionStatus.condFalse,
                         reason := "UpgradeNotStarted",
                         message := "The ClusterGroupUpgrade CR is not enabled" }]
        computedMaxConcurrency := 1 } }

/-- The object `exampleNotStarted` after the dispatch that starts the upgrade at time 1000:
phase UpgradeNotCompleted, a plan of two batches, and a current batch of 0. -/
def exampleStarted : ClusterGroupUpgrade :=
  { exampleNew with
    status :=
      { conditions := [{ type := "Ready", status := ConditionStatus.condFalse,
                         reason := "UpgradeNotCompleted",
                         message := "The ClusterGroupUpgrade CR has upgrade policies that " ++
                           "are still non compliant" }]
        remediationPlan := [["a"], ["b"]]
        managedPoliciesForUpgrade := [{ name := "p1", nameSpace := "ns" },
                                      { name := "p2", nameSpace := "ns" }]
        computedMaxConcurrency := 1
        status := { startedAt := 1000 } } }

/-- A time more than 60 minutes after time 1000. -/
def exampleLate : Int := 1000 + 61 * Minute

/-- The object `exampleStarted` after a dispatch at time `exampleLate`: the overall timeout is
exceeded, the phase is UpgradeTimedOut, and the current batch is 1. -/
def exampleTimedOut : ClusterGroupUpgrade :=
  { exampleNew with
    status :=
      { conditions := [{ type := "Ready", status := ConditionStatus.condFalse,
                         reason := "UpgradeTimedOut", message := timedOutMessage }]
        remediationPlan := [["a"], ["b"]]
        managedPoliciesForUpgrade := [{ name := "p1", nameSpace := "ns" },
                                      { name := "p2", nameSpace := "ns" }]
        computedMaxConcurrency := 1
        status :=
          { startedAt := 1000, currentBatch := 1, currentBatchStartedAt := exampleLate
            currentBatchRemediationProgress :=
              [("a", { state := RemediationState.NotStarted })] } } }

/-- The object `exampleNotStarted` after a dispatch in the world `exampleWorldMissing`: phase
CannotStart, and no start time. -/
def exampleCannotStart : ClusterGroupUpgrade :=
  { exampleNew with
    status :=
      { conditions := [{ type := "Ready", status := ConditionStatus.condFalse,
                         reason := "CannotStart",
                         message := "The ClusterGroupUpgrade CR has managed policies that " ++
                           "are missing: [p3]" }]
        computedMaxConcurrency := 1 } }

/-- The object `exampleNotStarted` after a dispatch in the world `exampleWorldCompliant`: the
plan is empty, the phase is UpgradeCompleted, and there is no start time. -/
def exampleCompletedAtOnce : ClusterGroupUpgrade :=
  { exampleNew with
    status :=
      { conditions := [{ type := "Ready", status := ConditionStatus.condTrue,
                         reason := "UpgradeCompleted",
                         message := "The ClusterGroupUpgrade CR has all clusters already " ++
                           "compliant with the specified managed policies" }]
        computedMaxConcurrency := 1 } }

/-- The object `exampleCompletedAtOnce` after the dispatch that completes it at time 2000. -/
def exampleCompleted : ClusterGroupUpgrade :=
  { exampleCompletedAtOnce with
    status := { exampleCompletedAtOnce.status with status := { completedAt := 2000 } } }

/-- The object `exampleNotStarted` with the blocking CR `busy`, whose Ready condition has the
reason `UpgradeCompleted` and which has a further condition. -/
def exampleBlockedByBusy : ClusterGroupUpgrade :=
  { exampleNotStarted with
    spec := { exampleNotStarted.spec with blockingCRs := [{ name := "busy" }] } }

/-- The object `exampleBlockedByBusy` after a dispatch: phase CannotStart. -/
def exampleHeldBack : ClusterGroupUpgrade :=
  { exampleBlockedByBusy with
    status :=
      { conditions := [{ type := "Ready", status := ConditionStatus.condFalse,
                         reason := "CannotStart",
                         message := "The ClusterGroupUpgrade CR is blocked by other CRs that " ++
                           "have not yet completed: [busy]" }]
        remediationPlan := [["a"], ["b"]]
        managedPoliciesForUpgrade := [{ name := "p1", nameSpace := "ns" },
                                      { name := "p2", nameSpace := "ns" }]
        computedMaxConcurrency := 1 } }

/-- The object `exampleNotStarted` with the blocking CR `done`, whose only condition has the
reason `UpgradeCompleted`. -/
def exampleBlockedByDone : ClusterGroupUpgrade :=
  { exampleNotStarted with
    spec := { exampleNotStarted.spec with blockingCRs := [{ name := "done" }] } }

/-- A policy `p3` with which cluster `a` is Compliant and clusters `b` and `c` are
NonCompliant. -/
def examplePolicy3 : Policy :=
  { name := "p3"
    status := some { status := some [{ clustername := "a", compliant := some "Compliant" },
                                     { clustername := "b", compliant := some "NonCompliant" },
                                     { clustername := "c", compliant := some "NonCompliant" }] } }

/-- An upgrade of the clusters `a`, `b` and `c` with the canaries `a` and `b`, one cluster at a
time. -/
def exampleCompliantCanary : ClusterGroupUpgrade :=
  { spec := { clusters := ["a", "b", "c"], managedPolicies := ["p3"],
              remediationStrategy := { canaries := ["a", "b"], maxConcurrency := 1,
                                       timeout := 60 } }
    status := { computedMaxConcurrency := 1 } }

/-- The live children of the examples: two children made for the desired name `x`, with the
names `x-1` and `x-2`, and a child `y` without the annotation. -/
def exampleChildren : List ChildResource :=
  [{ name := "x-1", desiredName := some "x" }, { name := "x-2", desiredName := some "x" },
   { name := "y" }]

/-- The state of the examples before the loop: the desired name `x` is recorded with the name
`x-2`. -/
def exampleChildNames : ChildNames :=
  { safeNameMap := some [("x", "x-2")] }

/-- The state of the examples after the loop: `x-2` and `y` are kept and `x-1` is deleted. -/
def exampleChildNamesAfter : ChildNames :=
  { safeNameMap := some [("x", "x-2")]
    childResourceNames := ["x-2", "y"]
    deleted := [{ name := "x-1", desiredName := some "x" }] }

/-- An object template of kind Subscription with the name `sub` and the namespace `ns`. -/
def exampleSubscriptionTemplate : Json :=
  .obj [("objectDefinition",
    .obj [("kind", .str "Subscription"),
          ("metadata", .obj [("name", .str "sub"), ("namespace", .str "ns")])])]

/-- An object template of kind Namespace. -/
def exampleNamespaceTemplate : Json :=
  .obj [("objectDefinition",
    .obj [("kind", .str "Namespace"), ("metadata", .obj [("name", .str "ns")])])]

/-- A policy `p1` with one template, whose object templates are a Namespace and a
Subscription. -/
def exampleSubscriptionPolicy : UnstructuredPolicy :=
  { name := "p1"
    object := [("spec", .obj [("policy-templates", .arr [
      .obj [("objectDefinition", .obj [("spec", .obj [("object-templates",
        .arr [exampleNamespaceTemplate, exampleSubscriptionTemplate])])])]])])] }

/-- A policy `p1` whose policy-templates list holds one template without `objectDefinition`. -/
def exampleMalformedPolicy : UnstructuredPolicy :=
  { name := "p1"
    object := [("spec", .obj [("policy-templates", .arr [.obj []])])] }

/-- The install-plan observations of the examples: the saved content `subscription` decodes to
the Subscription `sub` in namespace `ns`, the ManagedClusterView is read in every cluster
namespace but that of `b`, where the read fails with a timeout, and every install plan that is
processed cannot be approved. -/
def exampleInstallPlans : InstallPlanApi :=
  { unmarshalPolicyContent := fun content =>
      if content = "subscription" then
        [{ kind := "Subscription", name := "sub", nameSpace := some "ns" }]
      else []
    GetMultiCloudObjectName := fun _ kind name => kind ++ "-" ++ name
    getManagedClusterView := fun name clusterName =>
      if clusterName = "b" then .failed (.error "timeout")
      else .found { name := name, nameSpace := clusterName }
    ProcessSubscriptionManagedClusterView := fun _ _ _ =>
      .ok InstallPlanStatus.InstallPlanCannotBeApproved }

/-- The observations `exampleInstallPlans` with reads that all succeed. -/
def exampleInstallPlansReadable : InstallPlanApi :=
  { exampleInstallPlans with
    getManagedClusterView := fun name clusterName =>
      .found { name := name, nameSpace := clusterName } }

/-- The observations `exampleInstallPlans` with reads that all succeed and a processing that
fails. -/
def exampleInstallPlansFailing : InstallPlanApi :=
  { exampleInstallPlans with
    getManagedClusterView := fun name clusterName =>
      .found { name := name, nameSpace := clusterName }
    ProcessSubscriptionManagedClusterView := fun _ _ _ => .error (.error "no install plan") }

/-- An object whose clusters `a` and `b` are InProgress at the policies `p1` and `p2`, both with
the saved content `subscription`. -/
def exampleTwoInProgress : ClusterGroupUpgrade :=
  { spec := { clusters := ["a", "b"], managedPolicies := ["p1", "p2"] }
    status :=
      { remediationPlan := [["a", "b"]]
        managedPoliciesForUpgrade := [{ name := "p1", nameSpace := "ns" },
                                      { name := "p2", nameSpace := "ns" }]
        managedPoliciesContent := [("p1", "subscription"), ("p2", "subscription")]
        safeResourceNames := some [("Subscription-sub", "view")]
        status :=
          { startedAt := 1000, currentBatch := 1, currentBatchStartedAt := 1000
            currentBatchRemediationProgress :=
              [("a", { state := RemediationState.InProgress, policyIndex := some 0 }),
               ("b", { state := RemediationState.InProgress, policyIndex := some 1 })] } } }

/-- The object `exampleTwoInProgress` without saved content for the policy `p2` of
cluster `b`. -/
def exampleNoContent : ClusterGroupUpgrade :=
  { exampleTwoInProgress with
    status := { exampleTwoInProgress.status with
      managedPoliciesContent := [("p1", "subscription")] } }

/-- The object `exampleTwoInProgress` with the single cluster `b` in its progress map. -/
def exampleOneInProgress : ClusterGroupUpgrade :=
  { exampleTwoInProgress with
    status := { exampleTwoInProgress.status with
      remediationPlan := [["b"]]
      status := { exampleTwoInProgress.status.status with
        currentBatchRemediationProgress :=
          [("b", { state := RemediationState.InProgress, policyIndex := some 1 })] } } }

/-- The object `exampleTwoInProgress` with the single cluster `a` in its progress map. -/
def exampleFirstInProgress : ClusterGroupUpgrade :=
  { exampleTwoInProgress with
    status := { exampleTwoInProgress.status with
      remediationPlan := [["a"]]
      status := { exampleTwoInProgress.status.status with
        currentBatchRemediationProgress :=
          [("a", { state := RemediationState.InProgress, policyIndex := some 0 })] } } }

/-- An environment of the batch driver whose placement update succeeds and whose install-plan
approval is `approveInstallPlan` on the given observations, in the order of the progress
map. -/
def exampleDriverEnv (api : InstallPlanApi) : Env :=
  { exampleEnv 1000 with
    updatePlacementRules := fun _ => none
    approveInstallPlan := fun cgu =>
      approveInstallPlan api cgu cgu.status.status.currentBatchRemediationProgress }

/-! ## Theorems -/

theorem mapGet?_mapSet {α : Type} (m : GoMap α) (k : String) (v : α) (k' : String) :
    mapGet? (mapSet m k v) k' = if k = k' then some v else mapGet? m k' := by
  induction m with
  | nil => simp [mapSet, mapGet?]
  | cons p rest ih =>
    obtain ⟨k0, v0⟩ := p
    by_cases h0 : k0 = k
    · subst h0
      by_cases h1 : k0 = k' <;> simp [mapSet, mapGet?, h1]
    · by_cases h1 : k0 = k'
      · subst h1
        have : ¬ k = k0 := fun h => h0 h.symm
        simp [mapSet, mapGet?, h0, this]
      · simp [mapSet, mapGet?, h0, h1, ih]

theorem mapGetBool_mapSet_true (m : GoMap Bool) (k k' : String) :
    mapGetBool (mapSet m k true) k' = (decide (k = k') || mapGetBool m k') := by
  unfold mapGetBool
  rw [mapGet?_mapSet]
  by_cases h : k = k' <;> simp [h]

theorem markIfNonCompliant_get (m : GoMap Bool) (c : String) (pols : List Policy) (k : String) :
    mapGetBool (markIfNonCompliant m c pols) k =
      (mapGetBool m k || (decide (c = k) && nonCompliantWithSome pols c)) := by
  induction pols with
  | nil => simp [markIfNonCompliant, nonCompliantWithSome]
  | cons p rest ih =>
    unfold markIfNonCompliant
    by_cases h : getClusterComplianceWithPolicy c p = ClusterStatusNonCompliant
    · simp only [h, if_true, mapGetBool_mapSet_true]
      simp [nonCompliantWithSome, h, Bool.or_comm]
    · simp only [h, if_false, ih]
      simp [nonCompliantWithSome, h]

theorem nonCompliantLoop_get (pols : List Policy) (cs : List String) (m : GoMap Bool)
    (k : String) :
    mapGetBool (nonCompliantLoop pols cs m) k =
      (mapGetBool m k || (decide (k ∈ cs) && nonCompliantWithSome pols k)) := by
  induction cs generalizing m with
  | nil => simp [nonCompliantLoop]
  | cons c rest ih =>
    unfold nonCompliantLoop
    rw [ih, markIfNonCompliant_get]
    by_cases h : c = k
    · subst h
      cases mapGetBool m c <;> cases nonCompliantWithSome pols c <;> simp
    · have h' : ¬ k = c := fun e => h e.symm
      simp [h, h']

theorem canaryLoop_fst (nc : GoMap Bool) (cs : List String) (plan : List (List String))
    (isC : GoMap Bool) :
    (canaryLoop nc cs (plan, isC)).1 =
      plan ++ (cs.filter (fun c => mapGetBool nc c)).map (fun c => [c]) := by
  induction cs generalizing plan isC with
  | nil => simp [canaryLoop]
  | cons c rest ih =>
    unfold canaryLoop
    by_cases h : mapGetBool nc c = true
    · simp [h, ih]
    · simp [h, ih]

theorem canaryLoop_snd (nc : GoMap Bool) (cs : List String) (plan : List (List String))
    (isC : GoMap Bool) (k : String) :
    mapGetBool (canaryLoop nc cs (plan, isC)).2 k =
      (mapGetBool isC k || (decide (k ∈ cs) && mapGetBool nc k)) := by
  induction cs generalizing plan isC with
  | nil => simp [canaryLoop]
  | cons c rest ih =>
    unfold canaryLoop
    by_cases h : mapGetBool nc c = true
    · simp only [h, if_true, ih, mapGetBool_mapSet_true]
      by_cases hk : c = k
      · subst hk
        simp [h]
      · have h' : ¬ k = c := fun e => hk e.symm
        simp [hk, h']
    · rw [if_neg h, ih]
      by_cases hk : c = k
      · subst hk
        simp at h
        simp [h]
      · have h' : ¬ k = c := fun e => hk e.symm
        simp [hk, h']

theorem batchLoop_cons_add (isC nc : GoMap Bool) (maxC : Int) (site : String)
    (rest batch : List String) (count : Int) (plan : List (List String))
    (hadd : batchTest isC nc site = true) :
    batchLoop isC nc maxC (site :: rest) batch count plan =
      if count + 1 = maxC ∨ rest = [] then
        batchLoop isC nc maxC rest [] 0 (plan ++ [batch ++ [site]])
      else batchLoop isC nc maxC rest (batch ++ [site]) (count + 1) plan := by
  simp only [batchLoop, hadd, if_true]
  by_cases h : count + 1 = maxC ∨ rest = []
  · simp [h]
  · simp [h]

theorem batchLoop_cons_skip (isC nc : GoMap Bool) (maxC : Int) (site : String)
    (rest batch : List String) (count : Int) (plan : List (List String))
    (hadd : batchTest isC nc site = false) :
    batchLoop isC nc maxC (site :: rest) batch count plan =
      if (count = maxC ∨ rest = []) ∧ batch ≠ [] then
        batchLoop isC nc maxC rest [] 0 (plan ++ [batch])
      else batchLoop isC nc maxC rest batch count plan := by
  simp only [batchLoop, hadd]
  by_cases h : count = maxC ∨ rest = []
  · by_cases hb : batch = []
    · simp [h, hb]
    · have : 0 < batch.length := List.length_pos.mpr hb
      simp [h, hb, this]
  · simp [h]

theorem batchLoop_append (isC nc : GoMap Bool) (maxC : Int) (sites batch : List String)
    (count : Int) (plan : List (List String)) :
    batchLoop isC nc maxC sites batch count plan =
      plan ++ batchLoop isC nc maxC sites batch count [] := by
  induction sites generalizing batch count plan with
  | nil => simp [batchLoop]
  | cons site rest ih =>
    cases hadd : batchTest isC nc site
    · rw [batchLoop_cons_skip _ _ _ _ _ _ _ _ hadd, batchLoop_cons_skip _ _ _ _ _ _ _ _ hadd]
      split_ifs
      · rw [ih _ _ (plan ++ [batch]), ih _ _ ([] ++ [batch])]
        simp
      · exact ih _ _ _
    · rw [batchLoop_cons_add _ _ _ _ _ _ _ _ hadd, batchLoop_cons_add _ _ _ _ _ _ _ _ hadd]
      split_ifs
      · rw [ih _ _ (plan ++ [batch ++ [site]]), ih _ _ ([] ++ [batch ++ [site]])]
        simp
      · exact ih _ _ _

theorem batchLoop_join (isC nc : GoMap Bool) (maxC : Int) (sites batch : List String)
    (count : Int) (h : sites = [] → batch = []) :
    (batchLoop isC nc maxC sites batch count []).flatten =
      batch ++ sites.filter (batchTest isC nc) := by
  induction sites generalizing batch count with
  | nil => simp [batchLoop, h rfl]
  | cons site rest ih =>
    cases hadd : batchTest isC nc site
    · rw [batchLoop_cons_skip _ _ _ _ _ _ _ _ hadd]
      split_ifs with hc
      · rw [batchLoop_append, List.flatten_append, ih [] 0 (fun _ => rfl)]
        simp [hadd]
      · rw [ih batch count]
        · simp [hadd]
        · intro hr
          by_contra hb
          exact hc ⟨Or.inr hr, hb⟩
    · rw [batchLoop_cons_add _ _ _ _ _ _ _ _ hadd]
      split_ifs with hc
      · rw [batchLoop_append, List.flatten_append, ih [] 0 (fun _ => rfl)]
        simp [hadd]
      · rw [ih (batch ++ [site]) (count + 1)]
        · simp [hadd]
        · intro hr
          exact absurd (Or.inr hr) hc

theorem batchLoop_sizes (isC nc : GoMap Bool) (maxC : Int) (hmax : 1 ≤ maxC)
    (sites batch : List String) (count : Int) (hcount : count = batch.length)
    (hlt : (batch.length : Int) < maxC) (h : sites = [] → batch = []) :
    (∀ c ∈ batchLoop isC nc maxC sites batch count [],
        1 ≤ c.length ∧ (c.length : Int) ≤ maxC) ∧
    (∀ c ∈ (batchLoop isC nc maxC sites batch count []).dropLast, (c.length : Int) = maxC) := by
  induction sites generalizing batch count with
  | nil => simp [batchLoop]
  | cons site rest ih =>
    cases hadd : batchTest isC nc site
    · rw [batchLoop_cons_skip _ _ _ _ _ _ _ _ hadd]
      split_ifs with hc
      · -- a pending batch is flushed: only at the last site, as the batch is not full
        obtain ⟨hfl, hb⟩ := hc
        have hrest : rest = [] := by
          rcases hfl with hfl | hfl
          · omega
          · exact hfl
        subst hrest
        have hpos : 0 < batch.length := List.length_pos.mpr hb
        simp only [batchLoop, List.nil_append, List.mem_singleton, List.dropLast_single,
          List.not_mem_nil, forall_eq]
        constructor
        · constructor
          · omega
          · omega
        · intro c hc
          exact absurd hc (by simp)
      · apply ih batch count hcount hlt
        intro hr
        by_contra hb
        exact hc ⟨Or.inr hr, hb⟩
    · rw [batchLoop_cons_add _ _ _ _ _ _ _ _ hadd]
      split_ifs with hc
      · rw [batchLoop_append]
        have ih0 := ih [] 0 (by simp) (by simp; omega) (fun _ => rfl)
        have hlen : (batch ++ [site]).length = batch.length + 1 := by simp
        constructor
        · intro c hcm
          simp only [List.nil_append, List.singleton_append, List.mem_cons] at hcm
          rcases hcm with hcm | hcm
          · subst hcm
            rw [hlen]
            constructor
            · omega
            · push_cast
              omega
          · exact ih0.1 c hcm
        · intro c hcm
          simp only [List.nil_append, List.singleton_append] at hcm
          cases hr : batchLoop isC nc maxC rest [] 0 [] with
          | nil =>
            rw [hr] at hcm
            simp at hcm
          | cons x xs =>
            rw [hr, List.dropLast_cons₂] at hcm
            simp only [List.mem_cons] at hcm
            rcases hcm with hcm | hcm
            · subst hcm
              rw [hlen]
              rcases hc with hc | hc
              · push_cast
                omega
              · subst hc
                simp [batchLoop] at hr
            · apply ih0.2
              rw [hr]
              exact hcm
      · have hc1 : ¬ (count + 1 = maxC) := fun e => hc (Or.inl e)
        apply ih (batch ++ [site]) (count + 1)
        · simp [hcount]
        · simp only [List.length_append, List.length_singleton]
          push_cast
          omega
        · intro hr
          exact absurd (Or.inr hr) hc

theorem batchTest_canaryLoop (nc : GoMap Bool) (canaries : List String) (s : String) :
    batchTest (canaryLoop nc canaries ([], [])).2 nc s =
      (mapGetBool nc s && !decide (s ∈ canaries)) := by
  unfold batchTest
  rw [canaryLoop_snd]
  cases mapGetBool nc s <;> simp [mapGetBool, mapGet?]

theorem remediationPlanOf_eq (nc : GoMap Bool) (canaries all : List String) (maxC : Int) :
    remediationPlanOf nc canaries all maxC =
      (canaries.filter (fun c => mapGetBool nc c)).map (fun c => [c]) ++
        batchLoop (canaryLoop nc canaries ([], [])).2 nc maxC all [] 0 [] := by
  unfold remediationPlanOf
  simp only []
  rw [batchLoop_append, canaryLoop_fst]
  simp

theorem remediationPlanOf_drop (nc : GoMap Bool) (canaries all : List String) (maxC : Int) :
    (remediationPlanOf nc canaries all maxC).drop
        (canaries.filter (fun c => mapGetBool nc c)).length =
      batchLoop (canaryLoop nc canaries ([], [])).2 nc maxC all [] 0 [] := by
  rw [remediationPlanOf_eq]
  have h : (canaries.filter (fun c => mapGetBool nc c)).length =
      ((canaries.filter (fun c => mapGetBool nc c)).map (fun c => [c])).length := by simp
  rw [h, List.drop_left]

theorem batchLoop_flatten_canary (nc : GoMap Bool) (canaries all : List String) (maxC : Int) :
    (batchLoop (canaryLoop nc canaries ([], [])).2 nc maxC all [] 0 []).flatten =
      all.filter (fun s => mapGetBool nc s && !decide (s ∈ canaries)) := by
  rw [batchLoop_join _ _ _ _ _ _ (fun _ => rfl)]
  simp only [List.nil_append]
  congr 1
  funext s
  exact batchTest_canaryLoop nc canaries s

/-- Claim C1: for every target-cluster list, non-compliance map, canary list and
computedMaxConcurrency >= 1, the part of the plan after the canary batches is the list of the
target clusters that are non-compliant and not canaries, in the order of the target list, cut
into consecutive batches: every batch but the last has exactly computedMaxConcurrency clusters,
and every batch (the last included) has between 1 and computedMaxConcurrency clusters. The plan
that `buildRemediationPlan` writes is `remediationPlanOf` of the map it computed. -/
theorem buildRemediationPlan_chunks (nonCompliant : GoMap Bool)
    (canaries allClustersForUpgrade : List String) (computedMaxConcurrency : Int)
    (hmax : 1 ≤ computedMaxConcurrency) :
    ((remediationPlanOf nonCompliant canaries allClustersForUpgrade computedMaxConcurrency).drop
        (canaries.filter (fun c => mapGetBool nonCompliant c)).length).flatten =
      allClustersForUpgrade.filter
        (fun s => mapGetBool nonCompliant s && !decide (s ∈ canaries)) ∧
    (∀ batch ∈ ((remediationPlanOf nonCompliant canaries allClustersForUpgrade
        computedMaxConcurrency).drop
          (canaries.filter (fun c => mapGetBool nonCompliant c)).length).dropLast,
      (batch.length : Int) = computedMaxConcurrency) ∧
    (∀ batch ∈ (remediationPlanOf nonCompliant canaries allClustersForUpgrade
        computedMaxConcurrency).drop (canaries.filter (fun c => mapGetBool nonCompliant c)).length,
      1 ≤ batch.length ∧ (batch.length : Int) ≤ computedMaxConcurrency) := by
  rw [remediationPlanOf_drop]
  have hs := batchLoop_sizes (canaryLoop nonCompliant canaries ([], [])).2 nonCompliant
    computedMaxConcurrency hmax allClustersForUpgrade [] 0 (by simp) (by simp; omega)
    (fun _ => rfl)
  exact ⟨batchLoop_flatten_canary _ _ _ _, hs.2, hs.1⟩

theorem getClustersNonCompliant_get (all : List String) (pols : List Policy) (k : String) :
    mapGetBool (nonCompliantLoop pols all []) k =
      (decide (k ∈ all) && nonCompliantWithSome pols k) := by
  rw [nonCompliantLoop_get]
  simp [mapGetBool, mapGet?]

theorem buildRemediationPlan_ok (all : List String) (cgu : ClusterGroupUpgrade)
    (pols : List Policy) :
    buildRemediationPlan (.ok all) cgu pols =
      .ok { cgu with
            status := { cgu.status with
              remediationPlan :=
                remediationPlanOf (nonCompliantLoop pols all [])
                  cgu.spec.remediationStrategy.canaries all cgu.status.computedMaxConcurrency } } := by
  rfl

/-- The plan written for a target list that is read without error starts with one
single-cluster batch per entry of the spec canaries that is in the target list and NonCompliant
with a managed policy, in the order of the spec, and no later batch contains a canary; nothing
but the plan changes in the object. -/
theorem buildRemediationPlan_canary_entries (allClustersForUpgrade : List String)
    (clusterGroupUpgrade : ClusterGroupUpgrade) (managedPolicies : List Policy) :
    ∃ rest : List (List String),
      buildRemediationPlan (.ok allClustersForUpgrade) clusterGroupUpgrade managedPolicies =
        .ok { clusterGroupUpgrade with
              status := { clusterGroupUpgrade.status with
                remediationPlan :=
                  (clusterGroupUpgrade.spec.remediationStrategy.canaries.filter
                    (fun c => decide (c ∈ allClustersForUpgrade) &&
                      nonCompliantWithSome managedPolicies c)).map (fun c => [c]) ++ rest } } ∧
      ∀ batch ∈ rest, ∀ c ∈ batch, c ∉ clusterGroupUpgrade.spec.remediationStrategy.canaries := by
  refine ⟨batchLoop (canaryLoop (nonCompliantLoop managedPolicies allClustersForUpgrade [])
    clusterGroupUpgrade.spec.remediationStrategy.canaries ([], [])).2
    (nonCompliantLoop managedPolicies allClustersForUpgrade [])
    clusterGroupUpgrade.status.computedMaxConcurrency allClustersForUpgrade [] 0 [], ?_, ?_⟩
  · rw [buildRemediationPlan_ok, remediationPlanOf_eq]
    have hf : (fun c => mapGetBool (nonCompliantLoop managedPolicies allClustersForUpgrade []) c) =
        (fun c => decide (c ∈ allClustersForUpgrade) && nonCompliantWithSome managedPolicies c) := by
      funext c
      exact getClustersNonCompliant_get _ _ _
    rw [hf]
  · intro batch hb c hc
    have hmem : c ∈ (batchLoop (canaryLoop (nonCompliantLoop managedPolicies allClustersForUpgrade [])
        clusterGroupUpgrade.spec.remediationStrategy.canaries ([], [])).2
        (nonCompliantLoop managedPolicies allClustersForUpgrade [])
        clusterGroupUpgrade.status.computedMaxConcurrency allClustersForUpgrade [] 0 []).flatten :=
      List.mem_flatten.mpr ⟨batch, hb, hc⟩
    rw [batchLoop_flatten_canary] at hmem
    simp only [List.mem_filter, Bool.and_eq_true, Bool.not_eq_true', decide_eq_false_iff_not] at hmem
    exact hmem.2.2

/-- Counterexample to claim C2 as stated: the spec names the canary `a` twice and `a` is the
single target cluster, NonCompliant. The plan is `[[a], [a]]`: after the one batch of the one
non-compliant canary comes a second batch that holds the canary, so the canary has two
batches. -/
theorem buildRemediationPlan_repeated_canary_batches :
    buildRemediationPlan (.ok ["a"]) exampleDuplicateCanaries [examplePolicy2] =
      .ok { exampleDuplicateCanaries with
            status := { exampleDuplicateCanaries.status with
              remediationPlan := [["a"], ["a"]] } } ∧
    (∀ c ∈ exampleDuplicateCanaries.spec.remediationStrategy.canaries, c = "a") ∧
    ([["a"], ["a"]] : List (List String)).countP (fun batch => decide ("a" ∈ batch)) = 2 ∧
    (∀ rest : List (List String), ([["a"], ["a"]] : List (List String)) = [["a"]] ++ rest →
      ∃ batch ∈ rest, ∃ c ∈ batch,
        c ∈ exampleDuplicateCanaries.spec.remediationStrategy.canaries) := by
  refine ⟨by rfl, by decide, by decide, ?_⟩
  intro rest hrest
  simp only [List.singleton_append, List.cons.injEq, true_and] at hrest
  subst hrest
  exact ⟨["a"], List.mem_singleton.mpr rfl, "a", List.mem_singleton.mpr rfl, by decide⟩

/-- Claim C2 (amended): for every input of `buildRemediationPlan` whose canary list has no
repeated entry and whose target list is read without error, the plan written starts with
exactly one single-cluster batch per spec canary that is in the target list and NonCompliant
with a managed policy, in the order of the spec: every such canary is in exactly one batch of
the plan, and no batch after this prefix contains a canary; nothing but the plan changes in the
object. -/
theorem buildRemediationPlan_canaries_first (allClustersForUpgrade : List String)
    (clusterGroupUpgrade : ClusterGroupUpgrade) (managedPolicies : List Policy)
    (hcanaries : clusterGroupUpgrade.spec.remediationStrategy.canaries.Nodup) :
    ∃ rest : List (List String),
      buildRemediationPlan (.ok allClustersForUpgrade) clusterGroupUpgrade managedPolicies =
        .ok { clusterGroupUpgrade with
              status := { clusterGroupUpgrade.status with
                remediationPlan :=
                  (clusterGroupUpgrade.spec.remediationStrategy.canaries.filter
                    (fun c => decide (c ∈ allClustersForUpgrade) &&
                      nonCompliantWithSome managedPolicies c)).map (fun c => [c]) ++ rest } } ∧
      (clusterGroupUpgrade.spec.remediationStrategy.canaries.filter
        (fun c => decide (c ∈ allClustersForUpgrade) &&
          nonCompliantWithSome managedPolicies c)).Nodup ∧
      (∀ c ∈ clusterGroupUpgrade.spec.remediationStrategy.canaries,
        c ∈ allClustersForUpgrade → nonCompliantWithSome managedPolicies c = true →
        (((clusterGroupUpgrade.spec.remediationStrategy.canaries.filter
            (fun c => decide (c ∈ allClustersForUpgrade) &&
              nonCompliantWithSome managedPolicies c)).map (fun c => [c]) ++ rest).countP
          (fun batch => decide (c ∈ batch)) = 1)) ∧
      ∀ batch ∈ rest, ∀ c ∈ batch, c ∉ clusterGroupUpgrade.spec.remediationStrategy.canaries := by
  obtain ⟨rest, hplan, hrest⟩ := buildRemediationPlan_canary_entries allClustersForUpgrade
    clusterGroupUpgrade managedPolicies
  have hnodup := hcanaries.filter (fun c => decide (c ∈ allClustersForUpgrade) &&
    nonCompliantWithSome managedPolicies c)
  refine ⟨rest, hplan, hnodup, ?_, hrest⟩
  intro c hc hall hnon
  have hmem : c ∈ clusterGroupUpgrade.spec.remediationStrategy.canaries.filter
      (fun c => decide (c ∈ allClustersForUpgrade) &&
        nonCompliantWithSome managedPolicies c) := by
    rw [List.mem_filter]
    exact ⟨hc, by simp [hall, hnon]⟩
  rw [List.countP_append]
  have hzero : rest.countP (fun batch => decide (c ∈ batch)) = 0 := by
    rw [List.countP_eq_zero]
    intro batch hb
    simp only [decide_eq_true_eq]
    intro hcb
    exact hrest batch hb c hcb hc
  rw [hzero, List.countP_map, Nat.add_zero]
  have hcount : ∀ l : List String,
      l.countP ((fun batch => decide (c ∈ batch)) ∘ fun c => [c]) = l.count c := by
    intro l
    induction l with
    | nil => rfl
    | cons x xs ih =>
      rw [List.countP_cons, List.count_cons, ih]
      by_cases hx : x = c
      · simp [hx]
      · have hx2 : ¬ c = x := fun e => hx e.symm
        simp [hx, hx2]
  rw [hcount]
  exact List.count_eq_one_of_mem hnodup hmem

/-- Witness of the amended claim C2: targets `a`, `b`, canary `a`, policies `p1`, `p2`. -/
theorem buildRemediationPlan_canaries_first_witness :
    ∃ rest : List (List String),
      buildRemediationPlan (.ok ["a", "b"]) (exampleRun ["a", "b"] ["a"] [] "")
          [examplePolicy1, examplePolicy2] =
        .ok { exampleRun ["a", "b"] ["a"] [] "" with
              status := { (exampleRun ["a", "b"] ["a"] [] "").status with
                remediationPlan :=
                  ((exampleRun ["a", "b"] ["a"] [] "").spec.remediationStrategy.canaries.filter
                    (fun c => decide (c ∈ ["a", "b"]) &&
                      nonCompliantWithSome [examplePolicy1, examplePolicy2] c)).map
                        (fun c => [c]) ++ rest } } ∧
      ((exampleRun ["a", "b"] ["a"] [] "").spec.remediationStrategy.canaries.filter
        (fun c => decide (c ∈ ["a", "b"]) &&
          nonCompliantWithSome [examplePolicy1, examplePolicy2] c)).Nodup ∧
      (∀ c ∈ (exampleRun ["a", "b"] ["a"] [] "").spec.remediationStrategy.canaries,
        c ∈ ["a", "b"] → nonCompliantWithSome [examplePolicy1, examplePolicy2] c = true →
        ((((exampleRun ["a", "b"] ["a"] [] "").spec.remediationStrategy.canaries.filter
            (fun c => decide (c ∈ ["a", "b"]) &&
              nonCompliantWithSome [examplePolicy1, examplePolicy2] c)).map
                (fun c => [c]) ++ rest).countP
          (fun batch => decide (c ∈ batch)) = 1)) ∧
      ∀ batch ∈ rest, ∀ c ∈ batch,
        c ∉ (exampleRun ["a", "b"] ["a"] [] "").spec.remediationStrategy.canaries :=
  buildRemediationPlan_canaries_first ["a", "b"] (exampleRun ["a", "b"] ["a"] [] "")
    [examplePolicy1, examplePolicy2] (by decide)

theorem planSize_append (a b : List (List String)) : planSize (a ++ b) = planSize a + planSize b := by
  simp [planSize]

theorem planSize_singletons (l : List String) : planSize (l.map (fun c => [c])) = l.length := by
  induction l with
  | nil => rfl
  | cons x xs ih =>
    simp only [planSize, List.map_cons, List.sum_cons, List.length_cons, List.length_nil] at ih ⊢
    omega

theorem planSize_eq_flatten (l : List (List String)) : planSize l = l.flatten.length := by
  induction l with
  | nil => rfl
  | cons x xs ih =>
    simp only [planSize, List.map_cons, List.sum_cons, List.flatten_cons, List.length_append] at ih ⊢
    omega

theorem filter_inter_length (l1 l2 : List String) (p : String → Bool) (h1 : l1.Nodup)
    (h2 : l2.Nodup) :
    (l1.filter (fun c => decide (c ∈ l2) && p c)).length =
      (l2.filter (fun c => p c && decide (c ∈ l1))).length := by
  apply List.Perm.length_eq
  rw [List.perm_ext_iff_of_nodup (h1.filter _) (h2.filter _)]
  intro a
  simp only [List.mem_filter, Bool.and_eq_true, decide_eq_true_eq]
  tauto

theorem filter_split_length (l : List String) (p q : String → Bool) :
    (l.filter (fun c => p c && q c)).length + (l.filter (fun c => p c && !q c)).length =
      (l.filter p).length := by
  induction l with
  | nil => rfl
  | cons x xs ih =>
    simp only [List.filter_cons]
    cases p x <;> cases q x <;> simp <;> omega

/-- Claim C3, amended: for every input of `buildRemediationPlan` whose canary list has no
repeated entry (the target list has none, as `getAllClustersForUpgrade` removes duplicates), the
sum of the sizes of the batches of the plan equals the number of target clusters that are
NonCompliant with at least one managed policy. -/
theorem buildRemediationPlan_size (allClustersForUpgrade : List String)
    (clusterGroupUpgrade : ClusterGroupUpgrade) (managedPolicies : List Policy)
    (hcanaries : clusterGroupUpgrade.spec.remediationStrategy.canaries.Nodup)
    (hall : allClustersForUpgrade.Nodup) :
    ∃ cgu, buildRemediationPlan (.ok allClustersForUpgrade) clusterGroupUpgrade managedPolicies =
        .ok cgu ∧
      planSize cgu.status.remediationPlan =
        (allClustersForUpgrade.filter (nonCompliantWithSome managedPolicies)).length := by
  refine ⟨_, buildRemediationPlan_ok _ _ _, ?_⟩
  simp only []
  rw [remediationPlanOf_eq, planSize_append, planSize_singletons, planSize_eq_flatten,
    batchLoop_flatten_canary]
  have hf : (fun c => mapGetBool (nonCompliantLoop managedPolicies allClustersForUpgrade []) c) =
      (fun c => decide (c ∈ allClustersForUpgrade) && nonCompliantWithSome managedPolicies c) := by
    funext c
    exact getClustersNonCompliant_get _ _ _
  rw [hf, filter_inter_length _ _ _ hcanaries hall]
  have hg : List.filter (fun s =>
        mapGetBool (nonCompliantLoop managedPolicies allClustersForUpgrade []) s &&
          !decide (s ∈ clusterGroupUpgrade.spec.remediationStrategy.canaries))
        allClustersForUpgrade =
      List.filter (fun s => nonCompliantWithSome managedPolicies s &&
          !decide (s ∈ clusterGroupUpgrade.spec.remediationStrategy.canaries))
        allClustersForUpgrade := by
    apply List.filter_congr
    intro s hs
    rw [getClustersNonCompliant_get]
    simp [hs]
  rw [hg]
  exact filter_split_length allClustersForUpgrade (nonCompliantWithSome managedPolicies)
    (fun c => decide (c ∈ clusterGroupUpgrade.spec.remediationStrategy.canaries))

/-- Witness of claim C1: the non-compliant clusters `a`, `b`, `c`, `e` with canary `c` and
computedMaxConcurrency 2. -/
theorem buildRemediationPlan_chunks_witness :
    ((remediationPlanOf [("a", true), ("b", true), ("c", true), ("e", true)] ["c"]
        ["a", "b", "c", "d", "e"] 2).drop
        (["c"].filter (fun c =>
          mapGetBool [("a", true), ("b", true), ("c", true), ("e", true)] c)).length).flatten =
      ["a", "b", "c", "d", "e"].filter
        (fun s => mapGetBool [("a", true), ("b", true), ("c", true), ("e", true)] s &&
          !decide (s ∈ ["c"])) ∧
    (∀ batch ∈ ((remediationPlanOf [("a", true), ("b", true), ("c", true), ("e", true)] ["c"]
        ["a", "b", "c", "d", "e"] 2).drop
          (["c"].filter (fun c =>
            mapGetBool [("a", true), ("b", true), ("c", true), ("e", true)] c)).length).dropLast,
      (batch.length : Int) = 2) ∧
    (∀ batch ∈ (remediationPlanOf [("a", true), ("b", true), ("c", true), ("e", true)] ["c"]
        ["a", "b", "c", "d", "e"] 2).drop
          (["c"].filter (fun c =>
            mapGetBool [("a", true), ("b", true), ("c", true), ("e", true)] c)).length,
      1 ≤ batch.length ∧ (batch.length : Int) ≤ 2) :=
  buildRemediationPlan_chunks [("a", true), ("b", true), ("c", true), ("e", true)] ["c"]
    ["a", "b", "c", "d", "e"] 2 (by decide)

/-- Counterexample to claim C3 as stated: with the canary `a` named twice in the spec and the
single target cluster `a` NonCompliant, the plan is `[[a], [a]]`: its batches hold 2 clusters
while 1 target cluster is non-compliant. -/
theorem buildRemediationPlan_duplicate_canary :
    buildRemediationPlan (.ok ["a"]) exampleDuplicateCanaries [examplePolicy2] =
      .ok { exampleDuplicateCanaries with
            status := { exampleDuplicateCanaries.status with
              remediationPlan := [["a"], ["a"]] } } ∧
    planSize [["a"], ["a"]] = 2 ∧
    (["a"].filter (nonCompliantWithSome [examplePolicy2])).length = 1 ∧
    planSize [["a"], ["a"]] ≠ (["a"].filter (nonCompliantWithSome [examplePolicy2])).length :=
  ⟨by rfl, by decide, by decide, by decide⟩

/-- Witness of the amended claim C3: targets `a`, `b`, canary `a`, policies `p1`, `p2`. -/
theorem buildRemediationPlan_size_witness :
    ∃ cgu, buildRemediationPlan (.ok ["a", "b"]) (exampleRun ["a", "b"] ["a"] [] "")
        [examplePolicy1, examplePolicy2] = .ok cgu ∧
      planSize cgu.status.remediationPlan =
        (["a", "b"].filter (nonCompliantWithSome [examplePolicy1, examplePolicy2])).length :=
  buildRemediationPlan_size ["a", "b"] (exampleRun ["a", "b"] ["a"] [] "") [examplePolicy1, examplePolicy2]
    (by decide) (by decide)

theorem complianceLoop_cases (c : String) (l : List ClusterComplianceEntry) :
    complianceLoop c l = ClusterStatusCompliant ∨
      complianceLoop c l = ClusterStatusNonCompliant ∨
      complianceLoop c l = ClusterNotMatchedWithPolicy := by
  induction l with
  | nil => simp [complianceLoop]
  | cons e rest ih =>
    unfold complianceLoop
    split_ifs <;> simp [ih]

theorem compliance_cases (c : String) (p : Policy) :
    getClusterComplianceWithPolicy c p = ClusterStatusCompliant ∨
      getClusterComplianceWithPolicy c p = ClusterStatusNonCompliant ∨
      getClusterComplianceWithPolicy c p = ClusterNotMatchedWithPolicy := by
  unfold getClusterComplianceWithPolicy
  split
  · simp
  · exact complianceLoop_cases c _

theorem nextNonCompliantLoop_spec (g : String → String → Except Fault Policy)
    (cgu : ClusterGroupUpgrade) (c : String) (left : Nat) (i r : Int)
    (hfuel : ((cgu.status.managedPoliciesForUpgrade.length : Int) - i).toNat ≤ left)
    (h : nextNonCompliantLoop g cgu c left i = .ok r) :
    i ≤ r ∧ (i ≤ cgu.status.managedPoliciesForUpgrade.length →
        r ≤ cgu.status.managedPoliciesForUpgrade.length) ∧
      (∀ j, i ≤ j → j < r →
        policyComplianceAt g cgu c j = some ClusterStatusCompliant ∨
        policyComplianceAt g cgu c j = some ClusterNotMatchedWithPolicy) ∧
      (r < cgu.status.managedPoliciesForUpgrade.length →
        policyComplianceAt g cgu c r = some ClusterStatusNonCompliant) := by
  induction left generalizing i with
  | zero =>
    simp only [nextNonCompliantLoop, Except.ok.injEq] at h
    subst h
    refine ⟨le_refl _, fun h => h, ?_, ?_⟩
    · intro j h1 h2
      omega
    · intro hlt
      omega
  | succ left ih =>
    unfold nextNonCompliantLoop at h
    by_cases hi : i < cgu.status.managedPoliciesForUpgrade.length
    · rw [if_pos hi] at h
      cases hget : GetManagedPolicyForUpgradeByIndex i cgu with
      | none => simp [hget] at h
      | some info =>
        cases hg : g info.name info.nameSpace with
        | error e => simp [hget, hg] at h
        | ok pol =>
          have hat : policyComplianceAt g cgu c i = some (getClusterComplianceWithPolicy c pol) := by
            simp [policyComplianceAt, hget, hg]
          simp only [hget, hg] at h
          by_cases hcont : getClusterComplianceWithPolicy c pol = ClusterStatusCompliant ∨
              getClusterComplianceWithPolicy c pol = ClusterNotMatchedWithPolicy
          · rw [if_pos hcont] at h
            obtain ⟨h1, h2, h3, h4⟩ := ih (i + 1) (by omega) h
            refine ⟨by omega, fun _ => h2 (by omega), ?_, h4⟩
            intro j hj1 hj2
            by_cases hji : j = i
            · subst hji
              rw [hat]
              rcases hcont with hc | hc
              · left; rw [hc]
              · right; rw [hc]
            · exact h3 j (by omega) hj2
          · rw [if_neg hcont] at h
            have hnc : getClusterComplianceWithPolicy c pol = ClusterStatusNonCompliant := by
              rcases compliance_cases c pol with h1 | h1 | h1
              · exact absurd (Or.inl h1) hcont
              · exact h1
              · exact absurd (Or.inr h1) hcont
            rw [if_pos hnc] at h
            simp only [Except.ok.injEq] at h
            subst h
            refine ⟨le_refl _, fun h => h, ?_, ?_⟩
            · intro j h1 h2
              omega
            · intro _
              rw [hat, hnc]
    · rw [if_neg hi] at h
      simp only [Except.ok.injEq] at h
      subst h
      refine ⟨le_refl _, fun h => h, ?_, ?_⟩
      · intro j h1 h2
        omega
      · intro hlt
        omega

theorem getNext_spec (g : String → String → Except Fault Policy)
    (cgu : ClusterGroupUpgrade) (c : String) (s r : Int)
    (h : getNextNonCompliantPolicyForCluster g cgu c s = .ok r) :
    s ≤ r ∧ (s ≤ cgu.status.managedPoliciesForUpgrade.length →
        r ≤ cgu.status.managedPoliciesForUpgrade.length) ∧
      (∀ j, s ≤ j → j < r →
        policyComplianceAt g cgu c j = some ClusterStatusCompliant ∨
        policyComplianceAt g cgu c j = some ClusterNotMatchedWithPolicy) ∧
      (r < cgu.status.managedPoliciesForUpgrade.length →
        policyComplianceAt g cgu c r = some ClusterStatusNonCompliant) :=
  nextNonCompliantLoop_spec g cgu c _ s r (le_refl _) h

/-- Searching again from an index that the search returned inside the list returns it again. -/
theorem getNext_idem (g : String → String → Except Fault Policy)
    (cgu : ClusterGroupUpgrade) (c : String) (s r : Int)
    (h : getNextNonCompliantPolicyForCluster g cgu c s = .ok r)
    (hr : r < cgu.status.managedPoliciesForUpgrade.length) :
    getNextNonCompliantPolicyForCluster g cgu c r = .ok r := by
  have hat := (getNext_spec g cgu c s r h).2.2.2 hr
  unfold policyComplianceAt at hat
  unfold getNextNonCompliantPolicyForCluster
  obtain ⟨k, hk⟩ : ∃ k, ((cgu.status.managedPoliciesForUpgrade.length : Int) - r).toNat = k + 1 :=
    ⟨((cgu.status.managedPoliciesForUpgrade.length : Int) - r).toNat - 1, by omega⟩
  rw [hk]
  unfold nextNonCompliantLoop
  rw [if_pos hr]
  cases hget : GetManagedPolicyForUpgradeByIndex r cgu with
  | none => simp [hget] at hat
  | some info =>
    cases hg : g info.name info.nameSpace with
    | error e => simp [hget, hg] at hat
    | ok pol =>
      simp only [hget, hg, Option.some.injEq] at hat
      simp only [hg, hat]
      simp [ClusterStatusNonCompliant, ClusterStatusCompliant, ClusterNotMatchedWithPolicy]

theorem startProgress_state (e : ClusterRemediationProgress)
    (h : e.state ≠ RemediationState.Completed) :
    (startProgress e).state = RemediationState.InProgress := by
  unfold startProgress
  split_ifs with h1
  · rfl
  · cases hs : e.state with
    | NotStarted => exact absurd hs h1
    | InProgress => rfl
    | Completed => exact absurd hs h

theorem startProgress_of_inProgress (e : ClusterRemediationProgress)
    (h : e.state = RemediationState.InProgress) : startProgress e = e := by
  unfold startProgress
  rw [if_neg]
  rw [h]
  decide

/-- The result of advancing an entry that is not Completed, in terms of the search. -/
theorem advanceCluster_eq (g : String → String → Except Fault Policy) (cgu : ClusterGroupUpgrade)
    (c : String) (e e' : ClusterRemediationProgress) (b : Bool)
    (hne : e.state ≠ RemediationState.Completed)
    (h : advanceCluster g cgu c e = .ok (e', b)) :
    ∃ s r, (startProgress e).policyIndex = some s ∧
      getNextNonCompliantPolicyForCluster g cgu c s = .ok r ∧
      ((cgu.status.managedPoliciesForUpgrade.length : Int) ≤ r →
        e' = { state := RemediationState.Completed, policyIndex := none } ∧ b = true) ∧
      (r < cgu.status.managedPoliciesForUpgrade.length →
        e' = { state := RemediationState.InProgress, policyIndex := some r } ∧ b = false) := by
  unfold advanceCluster at h
  rw [if_neg hne] at h
  unfold advanceFromIndex at h
  cases hidx : (startProgress e).policyIndex with
  | none => simp [hidx] at h
  | some s =>
    simp only [hidx] at h
    cases hsearch : getNextNonCompliantPolicyForCluster g cgu c s with
    | error err => simp [hsearch] at h
    | ok r =>
      simp only [hsearch] at h
      refine ⟨s, r, rfl, hsearch, ?_, ?_⟩
      · intro hr
        rw [if_pos (by omega)] at h
        simp only [Except.ok.injEq, Prod.mk.injEq] at h
        exact ⟨h.1.symm, h.2.symm⟩
      · intro hr
        rw [if_neg (by omega)] at h
        simp only [Except.ok.injEq, Prod.mk.injEq] at h
        refine ⟨?_, h.2.symm⟩
        rw [← h.1, ← startProgress_state e hne]

theorem advanceCluster_flag (g : String → String → Except Fault Policy)
    (cgu : ClusterGroupUpgrade) (c : String) (e e' : ClusterRemediationProgress) (b : Bool)
    (h : advanceCluster g cgu c e = .ok (e', b)) :
    (b = true ↔ e'.state = RemediationState.Completed) ∧
      e'.state ≠ RemediationState.NotStarted := by
  by_cases hc : e.state = RemediationState.Completed
  · unfold advanceCluster at h
    rw [if_pos hc] at h
    simp only [Except.ok.injEq, Prod.mk.injEq] at h
    rw [← h.1, ← h.2, hc]
    simp
  · obtain ⟨s, r, _, _, h1, h2⟩ := advanceCluster_eq g cgu c e e' b hc h
    by_cases hr : (cgu.status.managedPoliciesForUpgrade.length : Int) ≤ r
    · obtain ⟨he, hb⟩ := h1 hr
      rw [he, hb]
      simp
    · obtain ⟨he, hb⟩ := h2 (by omega)
      rw [he, hb]
      simp

theorem advanceCluster_idem (g : String → String → Except Fault Policy)
    (cgu : ClusterGroupUpgrade) (c : String) (e e' : ClusterRemediationProgress) (b : Bool)
    (h : advanceCluster g cgu c e = .ok (e', b)) :
    advanceCluster g cgu c e' = .ok (e', b) := by
  by_cases hc : e.state = RemediationState.Completed
  · have h0 := h
    unfold advanceCluster at h
    rw [if_pos hc] at h
    simp only [Except.ok.injEq, Prod.mk.injEq] at h
    obtain ⟨h1, _⟩ := h
    subst h1
    exact h0
  · obtain ⟨s, r, hs, hsearch, h1, h2⟩ := advanceCluster_eq g cgu c e e' b hc h
    by_cases hr : (cgu.status.managedPoliciesForUpgrade.length : Int) ≤ r
    · obtain ⟨he, hb⟩ := h1 hr
      rw [he, hb]
      simp [advanceCluster]
    · have hr' : r < cgu.status.managedPoliciesForUpgrade.length := by omega
      obtain ⟨he, hb⟩ := h2 hr'
      have hidem := getNext_idem g cgu c s r hsearch hr'
      rw [he, hb]
      unfold advanceCluster
      rw [if_neg (by simp)]
      rw [startProgress_of_inProgress _ rfl]
      unfold advanceFromIndex
      simp only [hidem]
      rw [if_neg (by omega)]

theorem batchProgressLoop_spec (g : String → String → Except Fault Policy)
    (cgu : ClusterGroupUpgrade) (batch : List String)
    (pm pm' : GoMap ClusterRemediationProgress) (done done' : Bool)
    (h : batchProgressLoop g cgu batch pm done = .ok (pm', done')) :
    (∀ c, c ∉ batch → mapGet? pm' c = mapGet? pm c) ∧
    (∀ c ∈ batch, ∃ e e' b, mapGet? pm c = some e ∧ advanceCluster g cgu c e = .ok (e', b) ∧
      mapGet? pm' c = some e') ∧
    (done' = true ↔ done = true ∧
      ∀ c ∈ batch, ∃ e', mapGet? pm' c = some e' ∧ e'.state = RemediationState.Completed) := by
  induction batch generalizing pm done with
  | nil =>
    simp only [batchProgressLoop, Except.ok.injEq, Prod.mk.injEq] at h
    obtain ⟨h1, h2⟩ := h
    subst h1
    subst h2
    simp
  | cons c0 rest ih =>
    unfold batchProgressLoop at h
    cases hget : mapGet? pm c0 with
    | none => simp [hget] at h
    | some e0 =>
      simp only [hget] at h
      by_cases hcomp : e0.state = RemediationState.Completed
      · rw [if_pos hcomp] at h
        obtain ⟨ha, hb, hd⟩ := ih pm done h
        have hadv : advanceCluster g cgu c0 e0 = .ok (e0, true) := by
          simp [advanceCluster, hcomp]
        have hkey : mapGet? pm' c0 = some e0 := by
          by_cases hin : c0 ∈ rest
          · obtain ⟨e, e', b, h1, h2, h3⟩ := hb c0 hin
            rw [hget] at h1
            simp only [Option.some.injEq] at h1
            subst h1
            rw [hadv] at h2
            simp only [Except.ok.injEq, Prod.mk.injEq] at h2
            rw [h3, ← h2.1]
          · rw [ha c0 hin, hget]
        refine ⟨?_, ?_, ?_⟩
        · intro c hc
          exact ha c (fun hin => hc (List.mem_cons_of_mem _ hin))
        · intro c hc
          rcases List.mem_cons.mp hc with hc | hc
          · subst hc
            exact ⟨e0, e0, true, hget, hadv, hkey⟩
          · exact hb c hc
        · rw [hd]
          constructor
          · rintro ⟨h1, h2⟩
            refine ⟨h1, ?_⟩
            intro c hc
            rcases List.mem_cons.mp hc with hc | hc
            · subst hc
              exact ⟨e0, hkey, hcomp⟩
            · exact h2 c hc
          · rintro ⟨h1, h2⟩
            exact ⟨h1, fun c hc => h2 c (List.mem_cons_of_mem _ hc)⟩
      · rw [if_neg hcomp] at h
        cases hadv0 : advanceFromIndex g cgu c0 (startProgress e0) with
        | error err => simp [hadv0] at h
        | ok res =>
          obtain ⟨e1, b1⟩ := res
          simp only [hadv0] at h
          obtain ⟨ha, hb, hd⟩ := ih (mapSet pm c0 e1) (done && b1) h
          have hadv : advanceCluster g cgu c0 e0 = .ok (e1, b1) := by
            unfold advanceCluster
            rw [if_neg hcomp, hadv0]
          have hset : mapGet? (mapSet pm c0 e1) c0 = some e1 := by
            rw [mapGet?_mapSet]
            simp
          have hkey : mapGet? pm' c0 = some e1 := by
            by_cases hin : c0 ∈ rest
            · obtain ⟨e, e', b, h1, h2, h3⟩ := hb c0 hin
              rw [hset] at h1
              simp only [Option.some.injEq] at h1
              subst h1
              rw [advanceCluster_idem g cgu c0 e0 e1 b1 hadv] at h2
              simp only [Except.ok.injEq, Prod.mk.injEq] at h2
              rw [h3, ← h2.1]
            · rw [ha c0 hin, hset]
          have hflag := (advanceCluster_flag g cgu c0 e0 e1 b1 hadv).1
          refine ⟨?_, ?_, ?_⟩
          · intro c hc
            have hne : ¬ c0 = c := fun e => hc (by rw [e]; exact List.mem_cons_self _ _)
            rw [ha c (fun hin => hc (List.mem_cons_of_mem _ hin)), mapGet?_mapSet, if_neg hne]
          · intro c hc
            by_cases hcc : c0 = c
            · subst hcc
              exact ⟨e0, e1, b1, hget, hadv, hkey⟩
            · rcases List.mem_cons.mp hc with hc | hc
              · exact absurd hc.symm hcc
              · obtain ⟨e, e', b, h1, h2, h3⟩ := hb c hc
                rw [mapGet?_mapSet, if_neg hcc] at h1
                exact ⟨e, e', b, h1, h2, h3⟩
          · rw [hd]
            constructor
            · rintro ⟨h1, h2⟩
              simp only [Bool.and_eq_true] at h1
              refine ⟨h1.1, ?_⟩
              intro c hc
              rcases List.mem_cons.mp hc with hc | hc
              · subst hc
                exact ⟨e1, hkey, hflag.mp h1.2⟩
              · exact h2 c hc
            · rintro ⟨h1, h2⟩
              refine ⟨?_, fun c hc => h2 c (List.mem_cons_of_mem _ hc)⟩
              obtain ⟨e', he', hst⟩ := h2 c0 (List.mem_cons_self _ _)
              rw [hkey] at he'
              simp only [Option.some.injEq] at he'
              subst he'
              simp [h1, hflag.mpr hst]

theorem getNextRemediationPoliciesForBatch_eq (g : String → String → Except Fault Policy)
    (cgu cgu' : ClusterGroupUpgrade) (done : Bool)
    (h : getNextRemediationPoliciesForBatch g cgu = .ok (done, cgu')) :
    ∃ batch pm', planBatch cgu (cgu.status.status.currentBatch - 1) = .ok batch ∧
      batchProgressLoop g cgu batch cgu.status.status.currentBatchRemediationProgress true =
        .ok (pm', done) ∧
      cgu' = { cgu with
        status := { cgu.status with
          status := { cgu.status.status with currentBatchRemediationProgress := pm' } } } := by
  unfold getNextRemediationPoliciesForBatch at h
  cases hb : planBatch cgu (cgu.status.status.currentBatch - 1) with
  | error err => simp [hb] at h
  | ok batch =>
    simp only [hb] at h
    cases hl : batchProgressLoop g cgu batch cgu.status.status.currentBatchRemediationProgress
        true with
    | error err => simp [hl] at h
    | ok res =>
      obtain ⟨pm', d⟩ := res
      simp only [hl, Except.ok.injEq, Prod.mk.injEq] at h
      refine ⟨batch, pm', rfl, ?_, h.2.symm⟩
      rw [← h.1]
      exact hl

/-- Claim C4: when `getNextNonCompliantPolicyForCluster` returns without error from a start
index `s` not beyond the number of policies, its result `i` is the least index at or after `s`
at which the cluster is NonCompliant: `s <= i <= numberOfPolicies`, the cluster is Compliant or
NotMatchedWithPolicy with every policy in `[s, i)`, and NonCompliant with policy `i` when
`i < numberOfPolicies`; when no policy at or after `s` is NonCompliant the result is the number
of policies. For a cluster of the current batch whose cursor starts at `s`, an error-free
`getNextRemediationPoliciesForBatch` then leaves the entry `Completed` without policy index when
`i` is the number of policies, and `InProgress` with policy index `i` otherwise. -/
theorem getNextNonCompliantPolicyForCluster_least
    (getPolicyByName : String → String → Except Fault Policy)
    (clusterGroupUpgrade : ClusterGroupUpgrade) (clusterName : String) (s i : Int)
    (hs : s ≤ clusterGroupUpgrade.status.managedPoliciesForUpgrade.length)
    (hsearch : getNextNonCompliantPolicyForCluster getPolicyByName clusterGroupUpgrade
      clusterName s = .ok i) :
    s ≤ i ∧ i ≤ clusterGroupUpgrade.status.managedPoliciesForUpgrade.length ∧
    (∀ j, s ≤ j → j < i →
      policyComplianceAt getPolicyByName clusterGroupUpgrade clusterName j =
          some ClusterStatusCompliant ∨
        policyComplianceAt getPolicyByName clusterGroupUpgrade clusterName j =
          some ClusterNotMatchedWithPolicy) ∧
    (i < clusterGroupUpgrade.status.managedPoliciesForUpgrade.length →
      policyComplianceAt getPolicyByName clusterGroupUpgrade clusterName i =
        some ClusterStatusNonCompliant) ∧
    ((∀ j, s ≤ j → j < clusterGroupUpgrade.status.managedPoliciesForUpgrade.length →
        policyComplianceAt getPolicyByName clusterGroupUpgrade clusterName j ≠
          some ClusterStatusNonCompliant) →
      i = clusterGroupUpgrade.status.managedPoliciesForUpgrade.length) ∧
    (∀ (batch : List String) (progress : ClusterRemediationProgress) (isBatchComplete : Bool)
        (cgu : ClusterGroupUpgrade),
      planBatch clusterGroupUpgrade (clusterGroupUpgrade.status.status.currentBatch - 1) =
        .ok batch →
      clusterName ∈ batch →
      mapGet? clusterGroupUpgrade.status.status.currentBatchRemediationProgress clusterName =
        some progress →
      progress.state ≠ RemediationState.Completed →
      (startProgress progress).policyIndex = some s →
      getNextRemediationPoliciesForBatch getPolicyByName clusterGroupUpgrade =
        .ok (isBatchComplete, cgu) →
      mapGet? cgu.status.status.currentBatchRemediationProgress clusterName =
        some (if i = clusterGroupUpgrade.status.managedPoliciesForUpgrade.length then
            { state := RemediationState.Completed, policyIndex := none }
          else { state := RemediationState.InProgress, policyIndex := some i })) := by
  obtain ⟨h1, h2, h3, h4⟩ := getNext_spec getPolicyByName clusterGroupUpgrade clusterName s i hsearch
  refine ⟨h1, h2 hs, h3, h4, ?_, ?_⟩
  · intro hnone
    by_contra hne
    have hlt : i < clusterGroupUpgrade.status.managedPoliciesForUpgrade.length := by
      have := h2 hs
      omega
    exact hnone i h1 hlt (h4 hlt)
  · intro batch progress isBatchComplete cgu hbatch hmem hentry hstate hidx hnext
    obtain ⟨batch', pm', hb', hloop, hcgu⟩ :=
      getNextRemediationPoliciesForBatch_eq getPolicyByName clusterGroupUpgrade cgu
        isBatchComplete hnext
    rw [hbatch] at hb'
    simp only [Except.ok.injEq] at hb'
    subst hb'
    obtain ⟨e, e', b, he, hadv, he'⟩ :=
      (batchProgressLoop_spec getPolicyByName clusterGroupUpgrade batch _ pm' true
        isBatchComplete hloop).2.1 clusterName hmem
    rw [hentry] at he
    simp only [Option.some.injEq] at he
    subst he
    obtain ⟨s', r, hs', hsearch', hc1, hc2⟩ :=
      advanceCluster_eq getPolicyByName clusterGroupUpgrade clusterName progress e' b hstate hadv
    rw [hidx] at hs'
    simp only [Option.some.injEq] at hs'
    subst hs'
    rw [hsearch] at hsearch'
    simp only [Except.ok.injEq] at hsearch'
    subst hsearch'
    rw [hcgu]
    simp only []
    rw [he']
    have hle := h2 hs
    by_cases hin : i = clusterGroupUpgrade.status.managedPoliciesForUpgrade.length
    · rw [if_pos hin, (hc1 (by omega)).1]
    · rw [if_neg hin, (hc2 (by omega)).1]

/-- Witness of claim C4: cluster `a` of `exampleUpgrade`, searched from index 0. -/
theorem getNextNonCompliantPolicyForCluster_least_witness :
    getNextNonCompliantPolicyForCluster exampleStore exampleUpgrade "a" 0 = .ok 1 ∧
    policyComplianceAt exampleStore exampleUpgrade "a" 1 = some ClusterStatusNonCompliant ∧
    mapGet? exampleAdvanced.status.status.currentBatchRemediationProgress "a" =
      some { state := RemediationState.InProgress, policyIndex := some 1 } :=
  have h := getNextNonCompliantPolicyForCluster_least exampleStore exampleUpgrade "a" 0 1
    (by decide) (by rfl)
  ⟨by rfl, h.2.2.2.1 (by decide),
    h.2.2.2.2.2 ["a", "b"] { state := RemediationState.InProgress, policyIndex := some 0 } false
      exampleAdvanced (by rfl) (by decide) (by rfl) (by decide) (by rfl) (by rfl)⟩

/-- Claim C5: when `getNextRemediationPoliciesForBatch` returns without error, the flag it
returns is true if and only if every cluster of the current batch is in state `Completed` in the
progress map after the call, and no cluster of the batch is in state `NotStarted` after the
call. -/
theorem getNextRemediationPoliciesForBatch_complete
    (getPolicyByName : String → String → Except Fault Policy)
    (clusterGroupUpgrade cgu : ClusterGroupUpgrade) (batch : List String)
    (isBatchComplete : Bool)
    (hbatch : planBatch clusterGroupUpgrade (clusterGroupUpgrade.status.status.currentBatch - 1) =
      .ok batch)
    (hnext : getNextRemediationPoliciesForBatch getPolicyByName clusterGroupUpgrade =
      .ok (isBatchComplete, cgu)) :
    (isBatchComplete = true ↔
      ∀ c ∈ batch, ∃ progress,
        mapGet? cgu.status.status.currentBatchRemediationProgress c = some progress ∧
        progress.state = RemediationState.Completed) ∧
    (∀ c ∈ batch, ∃ progress,
        mapGet? cgu.status.status.currentBatchRemediationProgress c = some progress ∧
        progress.state ≠ RemediationState.NotStarted) := by
  obtain ⟨batch', pm', hb', hloop, hcgu⟩ :=
    getNextRemediationPoliciesForBatch_eq getPolicyByName clusterGroupUpgrade cgu
      isBatchComplete hnext
  rw [hbatch] at hb'
  simp only [Except.ok.injEq] at hb'
  subst hb'
  obtain ⟨_, hb, hd⟩ := batchProgressLoop_spec getPolicyByName clusterGroupUpgrade batch _ pm'
    true isBatchComplete hloop
  rw [hcgu]
  simp only []
  constructor
  · rw [hd]
    simp
  · intro c hc
    obtain ⟨e, e', b, _, hadv, he'⟩ := hb c hc
    exact ⟨e', he', (advanceCluster_flag getPolicyByName clusterGroupUpgrade c e e' b hadv).2⟩

/-- Witness of claim C5: the batch `[a, b]` of `exampleUpgrade`. -/
theorem getNextRemediationPoliciesForBatch_complete_witness :
    (false = true ↔
      ∀ c ∈ ["a", "b"], ∃ progress,
        mapGet? exampleAdvanced.status.status.currentBatchRemediationProgress c = some progress ∧
        progress.state = RemediationState.Completed) ∧
    (∀ c ∈ ["a", "b"], ∃ progress,
        mapGet? exampleAdvanced.status.status.currentBatchRemediationProgress c = some progress ∧
        progress.state ≠ RemediationState.NotStarted) :=
  getNextRemediationPoliciesForBatch_complete exampleStore exampleUpgrade exampleAdvanced
    ["a", "b"] false (by rfl) (by rfl)

theorem mapSet_keys {α : Type} (m : GoMap α) (k : String) (v : α) :
    (mapSet m k v).map Prod.fst =
      if k ∈ m.map Prod.fst then m.map Prod.fst else m.map Prod.fst ++ [k] := by
  induction m with
  | nil => simp [mapSet]
  | cons p rest ih =>
    obtain ⟨k0, v0⟩ := p
    by_cases h0 : k0 = k
    · subst h0
      simp [mapSet]
    · have h0' : ¬ k = k0 := fun e => h0 e.symm
      simp only [mapSet, if_neg h0, List.map_cons, ih, List.mem_cons, h0', false_or]
      split_ifs <;> simp

theorem mapSet_keys_nodup {α : Type} (m : GoMap α) (k : String) (v : α)
    (h : (m.map Prod.fst).Nodup) : ((mapSet m k v).map Prod.fst).Nodup := by
  rw [mapSet_keys]
  split_ifs with hk
  · exact h
  · rw [List.nodup_append]
    refine ⟨h, List.nodup_singleton k, ?_⟩
    intro a ha hb
    rw [List.mem_singleton] at hb
    subst hb
    exact hk ha

theorem initializeLoop_get (batch : List String) (m : GoMap ClusterRemediationProgress)
    (c : String) :
    mapGet? (initializeLoop batch m) c =
      if c ∈ batch then some { state := RemediationState.NotStarted } else mapGet? m c := by
  induction batch generalizing m with
  | nil => simp [initializeLoop]
  | cons c0 rest ih =>
    unfold initializeLoop
    rw [ih, mapGet?_mapSet]
    by_cases h1 : c ∈ rest
    · simp [h1]
    · by_cases h2 : c0 = c
      · subst h2
        simp
      · have h2' : ¬ c = c0 := fun e => h2 e.symm
        simp [h1, h2, h2']

theorem initializeLoop_keys_nodup (batch : List String) (m : GoMap ClusterRemediationProgress)
    (h : (m.map Prod.fst).Nodup) : ((initializeLoop batch m).map Prod.fst).Nodup := by
  induction batch generalizing m with
  | nil => exact h
  | cons c0 rest ih =>
    unfold initializeLoop
    exact ih _ (mapSet_keys_nodup m c0 _ h)

theorem advanceCluster_entryOk (g : String → String → Except Fault Policy)
    (cgu : ClusterGroupUpgrade) (c : String) (e e' : ClusterRemediationProgress) (b : Bool)
    (hok : ProgressEntryOk cgu.status.managedPoliciesForUpgrade.length e)
    (h : advanceCluster g cgu c e = .ok (e', b)) :
    ProgressEntryOk cgu.status.managedPoliciesForUpgrade.length e' := by
  by_cases hc : e.state = RemediationState.Completed
  · unfold advanceCluster at h
    rw [if_pos hc] at h
    simp only [Except.ok.injEq, Prod.mk.injEq] at h
    rw [← h.1]
    exact hok
  · obtain ⟨s, r, hs, hsearch, h1, h2⟩ := advanceCluster_eq g cgu c e e' b hc h
    have hsr := (getNext_spec g cgu c s r hsearch).1
    have hs0 : 0 ≤ s := by
      unfold startProgress at hs
      split_ifs at hs with hns
      · simp only [Option.some.injEq] at hs
        omega
      · exact (hok.2 s hs).1
    by_cases hr : (cgu.status.managedPoliciesForUpgrade.length : Int) ≤ r
    · rw [(h1 hr).1]
      constructor
      · simp
      · intro i hi
        simp at hi
    · have hr' : r < cgu.status.managedPoliciesForUpgrade.length := by omega
      rw [(h2 hr').1]
      constructor
      · simp
      · intro i hi
        simp only [Option.some.injEq] at hi
        subst hi
        exact ⟨by omega, hr'⟩

theorem GetManagedPolicyForUpgradeByIndex_mem (cgu : ClusterGroupUpgrade) (i : Int)
    (h0 : 0 ≤ i) (h1 : i < cgu.status.managedPoliciesForUpgrade.length) :
    ∃ info, GetManagedPolicyForUpgradeByIndex i cgu = some info ∧
      info ∈ cgu.status.managedPoliciesForUpgrade := by
  unfold GetManagedPolicyForUpgradeByIndex
  rw [if_neg (by omega)]
  have hlt : i.toNat < cgu.status.managedPoliciesForUpgrade.length := by omega
  rw [List.getElem?_eq_getElem hlt]
  exact ⟨_, rfl, List.getElem_mem _⟩

/-- The search returns a result when the start index is not negative and the policies can be
read. -/
theorem nextNonCompliantLoop_ok (g : String → String → Except Fault Policy)
    (cgu : ClusterGroupUpgrade) (c : String) (hread : PoliciesReadable g cgu) (left : Nat)
    (i : Int) (h0 : 0 ≤ i) : ∃ r, nextNonCompliantLoop g cgu c left i = .ok r := by
  induction left generalizing i with
  | zero => exact ⟨i, rfl⟩
  | succ left ih =>
    unfold nextNonCompliantLoop
    by_cases hi : i < cgu.status.managedPoliciesForUpgrade.length
    · rw [if_pos hi]
      obtain ⟨info, hget, hmem⟩ := GetManagedPolicyForUpgradeByIndex_mem cgu i h0 hi
      obtain ⟨pol, hpol⟩ := hread info hmem
      simp only [hget, hpol]
      split_ifs
      · exact ih (i + 1) (by omega)
      · exact ⟨i, rfl⟩
      · exact ih (i + 1) (by omega)
    · rw [if_neg hi]
      exact ⟨i, rfl⟩

theorem getNextNonCompliantPolicyForCluster_ok (g : String → String → Except Fault Policy)
    (cgu : ClusterGroupUpgrade) (c : String) (hread : PoliciesReadable g cgu) (s : Int)
    (h0 : 0 ≤ s) : ∃ r, getNextNonCompliantPolicyForCluster g cgu c s = .ok r :=
  nextNonCompliantLoop_ok g cgu c hread _ s h0

theorem advanceCluster_ok (g : String → String → Except Fault Policy)
    (cgu : ClusterGroupUpgrade) (c : String) (hread : PoliciesReadable g cgu)
    (e : ClusterRemediationProgress)
    (hok : ProgressEntryOk cgu.status.managedPoliciesForUpgrade.length e) :
    ∃ e' b, advanceCluster g cgu c e = .ok (e', b) := by
  unfold advanceCluster
  by_cases hc : e.state = RemediationState.Completed
  · rw [if_pos hc]
    exact ⟨_, _, rfl⟩
  · rw [if_neg hc]
    have hidx : ∃ s, (startProgress e).policyIndex = some s ∧ 0 ≤ s := by
      unfold startProgress
      split_ifs with hns
      · exact ⟨0, rfl, le_refl _⟩
      · have hin : e.state = RemediationState.InProgress := by
          cases hs : e.state with
          | NotStarted => exact absurd hs hns
          | InProgress => rfl
          | Completed => exact absurd hs hc
        have hsome := hok.1.mpr hin
        obtain ⟨s, hs⟩ := Option.isSome_iff_exists.mp hsome
        exact ⟨s, hs, (hok.2 s hs).1⟩
    obtain ⟨s, hs, hs0⟩ := hidx
    obtain ⟨r, hr⟩ := getNextNonCompliantPolicyForCluster_ok g cgu c hread s hs0
    unfold advanceFromIndex
    simp only [hs, hr]
    split_ifs
    · exact ⟨_, _, rfl⟩
    · exact ⟨_, _, rfl⟩

theorem batchProgressLoop_ok (g : String → String → Except Fault Policy)
    (cgu : ClusterGroupUpgrade) (hread : PoliciesReadable g cgu) (batch : List String)
    (pm : GoMap ClusterRemediationProgress) (done : Bool)
    (h : ∀ c ∈ batch, ∃ e, mapGet? pm c = some e ∧
      ProgressEntryOk cgu.status.managedPoliciesForUpgrade.length e) :
    ∃ pm' done', batchProgressLoop g cgu batch pm done = .ok (pm', done') := by
  induction batch generalizing pm done with
  | nil => exact ⟨pm, done, rfl⟩
  | cons c0 rest ih =>
    obtain ⟨e0, hget, hok⟩ := h c0 (List.mem_cons_self _ _)
    unfold batchProgressLoop
    simp only [hget]
    by_cases hc : e0.state = RemediationState.Completed
    · rw [if_pos hc]
      exact ih pm done (fun c hcm => h c (List.mem_cons_of_mem _ hcm))
    · rw [if_neg hc]
      obtain ⟨e1, b1, hadv⟩ := advanceCluster_ok g cgu c0 hread e0 hok
      have hadv0 : advanceFromIndex g cgu c0 (startProgress e0) = .ok (e1, b1) := by
        unfold advanceCluster at hadv
        rw [if_neg hc] at hadv
        exact hadv
      simp only [hadv0]
      apply ih
      intro c hcm
      by_cases hcc : c0 = c
      · subst hcc
        refine ⟨e1, ?_, advanceCluster_entryOk g cgu c0 e0 e1 b1 hok hadv⟩
        rw [mapGet?_mapSet]
        simp
      · obtain ⟨e, he, heok⟩ := h c (List.mem_cons_of_mem _ hcm)
        refine ⟨e, ?_, heok⟩
        rw [mapGet?_mapSet, if_neg hcc]
        exact he

/-- The cursor advancement returns without error when the current batch is a batch of the plan,
the progress invariant holds and the policies can be read. -/
theorem getNextRemediationPoliciesForBatch_ok (g : String → String → Except Fault Policy)
    (cgu : ClusterGroupUpgrade) (batch : List String) (hread : PoliciesReadable g cgu)
    (hbatch : planBatch cgu (cgu.status.status.currentBatch - 1) = .ok batch)
    (hinv : ProgressInvariant cgu) :
    ∃ done cgu', getNextRemediationPoliciesForBatch g cgu = .ok (done, cgu') := by
  obtain ⟨pm', done', hloop⟩ := batchProgressLoop_ok g cgu hread batch
    cgu.status.status.currentBatchRemediationProgress true (hinv batch hbatch)
  unfold getNextRemediationPoliciesForBatch
  simp only [hbatch, hloop]
  exact ⟨_, _, rfl⟩

/-- Claim C6: `initializeRemediationPolicyForBatch` creates a progress map with one key per
cluster of `remediationPlan[currentBatch-1]` and no other key, every entry `NotStarted` without
policy index, so that the progress invariant holds after it; and every error-free call of
`getNextRemediationPoliciesForBatch` on an object that satisfies the invariant returns an
object that satisfies it. -/
theorem progressInvariant_initialized_and_preserved
    (getPolicyByName : String → String → Except Fault Policy)
    (fresh initialized clusterGroupUpgrade cgu : ClusterGroupUpgrade) (isBatchComplete : Bool)
    (hinit : initializeRemediationPolicyForBatch fresh = .ok initialized)
    (hinv : ProgressInvariant clusterGroupUpgrade)
    (hnext : getNextRemediationPoliciesForBatch getPolicyByName clusterGroupUpgrade =
      .ok (isBatchComplete, cgu)) :
    (∃ batch, planBatch fresh (fresh.status.status.currentBatch - 1) = .ok batch ∧
      (initialized.status.status.currentBatchRemediationProgress.map Prod.fst).Nodup ∧
      (∀ c, mapGet? initialized.status.status.currentBatchRemediationProgress c =
        if c ∈ batch then some { state := RemediationState.NotStarted, policyIndex := none }
        else none) ∧
      ProgressInvariant initialized) ∧
    ProgressInvariant cgu := by
  constructor
  · unfold initializeRemediationPolicyForBatch at hinit
    cases hb : planBatch fresh (fresh.status.status.currentBatch - 1) with
    | error err => simp [hb] at hinit
    | ok batch =>
      simp only [hb, Except.ok.injEq] at hinit
      have hget : ∀ c, mapGet? initialized.status.status.currentBatchRemediationProgress c =
          if c ∈ batch then some { state := RemediationState.NotStarted, policyIndex := none }
          else none := by
        intro c
        rw [← hinit]
        simp only []
        rw [initializeLoop_get]
        rfl
      refine ⟨batch, rfl, ?_, hget, ?_⟩
      · rw [← hinit]
        exact initializeLoop_keys_nodup batch [] (by simp)
      · intro batch' hb' c hc
        have hsame : planBatch initialized (initialized.status.status.currentBatch - 1) =
            planBatch fresh (fresh.status.status.currentBatch - 1) := by
          rw [← hinit]
          rfl
        rw [hsame, hb] at hb'
        simp only [Except.ok.injEq] at hb'
        subst hb'
        refine ⟨{ state := RemediationState.NotStarted, policyIndex := none }, ?_, ?_⟩
        · rw [hget c, if_pos hc]
        · constructor
          · simp
          · intro i hi
            simp at hi
  · obtain ⟨batch, pm', hb, hloop, hcgu⟩ :=
      getNextRemediationPoliciesForBatch_eq getPolicyByName clusterGroupUpgrade cgu
        isBatchComplete hnext
    obtain ⟨_, hspec, _⟩ := batchProgressLoop_spec getPolicyByName clusterGroupUpgrade batch _ pm'
      true isBatchComplete hloop
    intro batch' hb' c hc
    have hsame : planBatch cgu (cgu.status.status.currentBatch - 1) =
        planBatch clusterGroupUpgrade (clusterGroupUpgrade.status.status.currentBatch - 1) := by
      rw [hcgu]
      rfl
    rw [hsame, hb] at hb'
    simp only [Except.ok.injEq] at hb'
    subst hb'
    obtain ⟨e, e', b, he, hadv, he'⟩ := hspec c hc
    obtain ⟨e0, he0, hok⟩ := hinv batch hb c hc
    rw [he] at he0
    simp only [Option.some.injEq] at he0
    subst he0
    refine ⟨e', ?_, ?_⟩
    · rw [hcgu]
      exact he'
    · have hn : cgu.status.managedPoliciesForUpgrade.length =
          clusterGroupUpgrade.status.managedPoliciesForUpgrade.length := by
        rw [hcgu]
      rw [hn]
      exact advanceCluster_entryOk getPolicyByName clusterGroupUpgrade c e e' b hok hadv

theorem exampleUpgrade_invariant : ProgressInvariant exampleUpgrade := by
  intro batch hb c hc
  have hbatch : batch = ["a", "b"] := by
    have h : planBatch exampleUpgrade (exampleUpgrade.status.status.currentBatch - 1) =
        .ok ["a", "b"] := by rfl
    rw [h] at hb
    simp only [Except.ok.injEq] at hb
    exact hb.symm
  subst hbatch
  simp only [List.mem_cons, List.mem_singleton, List.not_mem_nil, or_false] at hc
  rcases hc with hc | hc
  · subst hc
    refine ⟨{ state := RemediationState.InProgress, policyIndex := some 0 }, by rfl, ?_⟩
    constructor
    · simp
    · intro i hi
      simp only [Option.some.injEq] at hi
      subst hi
      decide
  · subst hc
    refine ⟨{ state := RemediationState.NotStarted }, by rfl, ?_⟩
    constructor
    · simp
    · intro i hi
      simp at hi

/-- Witness of claim C6: `exampleUpgrade`, initialized and advanced. -/
theorem progressInvariant_initialized_and_preserved_witness :
    (∃ batch, planBatch exampleUpgrade (exampleUpgrade.status.status.currentBatch - 1) =
        .ok batch ∧
      (([("a", { state := RemediationState.NotStarted }),
          ("b", { state := RemediationState.NotStarted })] :
          GoMap ClusterRemediationProgress).map Prod.fst).Nodup ∧
      (∀ c, mapGet? ([("a", { state := RemediationState.NotStarted }),
          ("b", { state := RemediationState.NotStarted })] :
          GoMap ClusterRemediationProgress) c =
        if c ∈ batch then some { state := RemediationState.NotStarted, policyIndex := none }
        else none) ∧
      ProgressInvariant
        { exampleUpgrade with
          status := { exampleUpgrade.status with
            status := { exampleUpgrade.status.status with
              currentBatchRemediationProgress :=
                [("a", { state := RemediationState.NotStarted }),
                 ("b", { state := RemediationState.NotStarted })] } } }) ∧
    ProgressInvariant exampleAdvanced :=
  progressInvariant_initialized_and_preserved exampleStore exampleUpgrade
    { exampleUpgrade with
      status := { exampleUpgrade.status with
        status := { exampleUpgrade.status.status with
          currentBatchRemediationProgress :=
            [("a", { state := RemediationState.NotStarted }),
             ("b", { state := RemediationState.NotStarted })] } } }
    exampleUpgrade exampleAdvanced false (by rfl) exampleUpgrade_invariant (by rfl)

/-- Claim C7: for a cluster that is `InProgress` before and after an error-free call of
`getNextRemediationPoliciesForBatch`, the policy index after the call is greater than or equal
to the policy index before it, whatever the policy store returns. -/
theorem policyIndex_nondecreasing
    (getPolicyByName : String → String → Except Fault Policy)
    (clusterGroupUpgrade cgu : ClusterGroupUpgrade) (isBatchComplete : Bool) (c : String)
    (before after : ClusterRemediationProgress) (i j : Int)
    (hnext : getNextRemediationPoliciesForBatch getPolicyByName clusterGroupUpgrade =
      .ok (isBatchComplete, cgu))
    (hbefore : mapGet? clusterGroupUpgrade.status.status.currentBatchRemediationProgress c =
      some before)
    (hafter : mapGet? cgu.status.status.currentBatchRemediationProgress c = some after)
    (hs : before.state = RemediationState.InProgress)
    (hs' : after.state = RemediationState.InProgress)
    (hi : before.policyIndex = some i) (hj : after.policyIndex = some j) :
    i ≤ j := by
  obtain ⟨batch, pm', hb, hloop, hcgu⟩ :=
    getNextRemediationPoliciesForBatch_eq getPolicyByName clusterGroupUpgrade cgu
      isBatchComplete hnext
  obtain ⟨hout, hin, _⟩ := batchProgressLoop_spec getPolicyByName clusterGroupUpgrade batch _ pm'
    true isBatchComplete hloop
  rw [hcgu] at hafter
  simp only [] at hafter
  by_cases hc : c ∈ batch
  · obtain ⟨e, e', b, he, hadv, he'⟩ := hin c hc
    rw [hbefore] at he
    simp only [Option.some.injEq] at he
    subst he
    rw [hafter] at he'
    simp only [Option.some.injEq] at he'
    subst he'
    have hne : before.state ≠ RemediationState.Completed := by
      rw [hs]
      decide
    obtain ⟨s, r, hs0, hsearch, h1, h2⟩ :=
      advanceCluster_eq getPolicyByName clusterGroupUpgrade c before after b hne hadv
    rw [startProgress_of_inProgress before hs, hi] at hs0
    simp only [Option.some.injEq] at hs0
    subst hs0
    have hle := (getNext_spec getPolicyByName clusterGroupUpgrade c i r hsearch).1
    by_cases hr : (clusterGroupUpgrade.status.managedPoliciesForUpgrade.length : Int) ≤ r
    · have := (h1 hr).1
      rw [this] at hs'
      exact absurd hs' (by decide)
    · have := (h2 (by omega)).1
      rw [this] at hj
      simp only [Option.some.injEq] at hj
      omega
  · rw [hout c hc, hbefore] at hafter
    simp only [Option.some.injEq] at hafter
    subst hafter
    rw [hi] at hj
    simp only [Option.some.injEq] at hj
    omega

/-- Witness of claim C7: cluster `a` of `exampleUpgrade` moves from policy 0 to policy 1. -/
theorem policyIndex_nondecreasing_witness : (0 : Int) ≤ 1 :=
  policyIndex_nondecreasing exampleStore exampleUpgrade exampleAdvanced false "a"
    { state := RemediationState.InProgress, policyIndex := some 0 }
    { state := RemediationState.InProgress, policyIndex := some 1 } 0 1
    (by rfl) (by rfl) (by rfl) (by rfl) (by rfl) (by rfl) (by rfl)

theorem wrapInt64_le (x : Int) (h : -9223372036854775808 ≤ x) : wrapInt64 x ≤ x := by
  unfold wrapInt64
  omega

theorem wrapInt64_even_lt (x : Int) (h : x % 2 = 0) : wrapInt64 x < 9223372036854775807 := by
  unfold wrapInt64
  omega

theorem overall_timeout_test (now startedAt timeout : Int) (hT : -153722867 ≤ timeout)
    (hD : -9223372036854775808 ≤ now - startedAt) (h : now - startedAt > timeout * Minute) :
    timeSub now startedAt > wrapInt64 (timeout * Minute) := by
  have hP : -9223372036854775808 ≤ timeout * Minute := by
    unfold Minute
    omega
  have heven : (timeout * Minute) % 2 = 0 := by
    unfold Minute
    omega
  have h1 := wrapInt64_le _ hP
  have h2 := wrapInt64_even_lt _ heven
  unfold timeSub
  split_ifs <;> omega

theorem findStatusCondition_set (conditions : List Condition) (newCondition : Condition) :
    (FindStatusCondition (SetStatusCondition conditions newCondition) newCondition.type).map
      (fun c => c.reason) = some newCondition.reason := by
  induction conditions with
  | nil => simp [SetStatusCondition, FindStatusCondition]
  | cons c rest ih =>
    unfold SetStatusCondition
    by_cases h : c.type = newCondition.type
    · simp [h, FindStatusCondition]
    · simp [h, FindStatusCondition, ih]

theorem readyReason_setReadyCondition (cgu : ClusterGroupUpgrade) (status : ConditionStatus)
    (reason message : String) :
    readyReason (setReadyCondition cgu status reason message) = some reason := by
  unfold readyReason setReadyCondition
  exact findStatusCondition_set cgu.status.conditions
    { type := "Ready", status := status, reason := reason, message := message }

theorem planBatch_ok (cgu : ClusterGroupUpgrade) (i : Int) (h0 : 0 ≤ i)
    (h1 : i < cgu.status.remediationPlan.length) : ∃ batch, planBatch cgu i = .ok batch := by
  unfold planBatch
  rw [if_neg (by omega)]
  have hlt : i.toNat < cgu.status.remediationPlan.length := by omega
  rw [List.getElem?_eq_getElem hlt]
  exact ⟨_, rfl⟩

/-- What `startBatch` leaves unchanged. -/
theorem startBatch_frame (env : Env) (cgu started : ClusterGroupUpgrade)
    (h : startBatch env cgu = .ok started) :
    started.spec = cgu.spec ∧ started.status.conditions = cgu.status.conditions ∧
      started.status.remediationPlan = cgu.status.remediationPlan ∧
      started.status.managedPoliciesForUpgrade = cgu.status.managedPoliciesForUpgrade ∧
      started.status.status.startedAt = cgu.status.status.startedAt ∧
      started.status.status.currentBatch = cgu.status.status.currentBatch := by
  unfold startBatch at h
  split_ifs at h with hz
  · unfold initializeRemediationPolicyForBatch at h
    cases hb : planBatch cgu (cgu.status.status.currentBatch - 1) with
    | error err => simp [hb] at h
    | ok batch =>
      simp only [hb, Except.ok.injEq] at h
      rw [← h]
      simp
  · simp only [Except.ok.injEq] at h
    rw [← h]
    simp

theorem startBatch_ok (env : Env) (cgu : ClusterGroupUpgrade)
    (h : cgu.status.status.currentBatchStartedAt = 0 →
      1 ≤ cgu.status.status.currentBatch ∧
        cgu.status.status.currentBatch ≤ cgu.status.remediationPlan.length) :
    ∃ started, startBatch env cgu = .ok started := by
  unfold startBatch
  split_ifs with hz
  · obtain ⟨h1, h2⟩ := h hz
    obtain ⟨batch, hb⟩ := planBatch_ok cgu (cgu.status.status.currentBatch - 1) (by omega)
      (by omega)
    unfold initializeRemediationPolicyForBatch
    rw [hb]
    exact ⟨_, rfl⟩
  · exact ⟨_, rfl⟩

theorem showFirstBatch_frame (cgu : ClusterGroupUpgrade) :
    (showFirstBatch cgu).spec = cgu.spec ∧
      (showFirstBatch cgu).status.conditions = cgu.status.conditions ∧
      (showFirstBatch cgu).status.remediationPlan = cgu.status.remediationPlan ∧
      (showFirstBatch cgu).status.managedPoliciesForUpgrade =
        cgu.status.managedPoliciesForUpgrade ∧
      (showFirstBatch cgu).status.status.startedAt = cgu.status.status.startedAt ∧
      (showFirstBatch cgu).status.status.currentBatchStartedAt =
        cgu.status.status.currentBatchStartedAt ∧
      (showFirstBatch cgu).status.status.currentBatch =
        (if cgu.status.status.currentBatch = 0 then 1 else cgu.status.status.currentBatch) := by
  unfold showFirstBatch
  split_ifs <;> simp

/-- Claim C8: in phase UpgradeNotCompleted, when `now - startedAt` exceeds `spec.timeout`
minutes, the reconcile step reaches the status update with the Ready reason `UpgradeTimedOut`
and an immediate requeue, whatever the current batch, the progress map and the policy store are,
and it does not increment `currentBatch`: the value is kept, a value of 0 being shown as 1
(lines 303-306). The hypotheses say that the batch start does not index outside the plan, and
that neither the timeout in nanoseconds nor the clock difference underflows an `int64`. -/
theorem reconcile_overall_timeout (env : Env) (clusterGroupUpgrade : ClusterGroupUpgrade)
    (hrange : clusterGroupUpgrade.status.status.currentBatchStartedAt = 0 →
      0 ≤ clusterGroupUpgrade.status.status.currentBatch ∧
        clusterGroupUpgrade.status.status.currentBatch ≤
          clusterGroupUpgrade.status.remediationPlan.length ∧
        1 ≤ clusterGroupUpgrade.status.remediationPlan.length)
    (hminutes : -153722867 ≤ clusterGroupUpgrade.spec.remediationStrategy.timeout)
    (hclock : -9223372036854775808 ≤
      env.nowOverallCheck - clusterGroupUpgrade.status.status.startedAt)
    (htimeout : env.nowOverallCheck - clusterGroupUpgrade.status.status.startedAt >
      clusterGroupUpgrade.spec.remediationStrategy.timeout * Minute) :
    ∃ cgu, reconcileUpgradeNotCompleted env clusterGroupUpgrade =
        .updateStatus cgu requeueImmediately ∧
      readyReason cgu = some "UpgradeTimedOut" ∧
      cgu.status.status.currentBatch =
        (if clusterGroupUpgrade.status.status.currentBatch = 0 then 1
         else clusterGroupUpgrade.status.status.currentBatch) := by
  obtain ⟨hf1, hf2, hf3, hf4, hf5, hf6, hf7⟩ := showFirstBatch_frame clusterGroupUpgrade
  obtain ⟨started, hstart⟩ := startBatch_ok env (showFirstBatch clusterGroupUpgrade) (by
    intro hz
    rw [hf6] at hz
    obtain ⟨h1, h2, h3⟩ := hrange hz
    rw [hf7, hf3]
    split_ifs <;> omega)
  obtain ⟨hs1, hs2, hs3, hs4, hs5, hs6⟩ :=
    startBatch_frame env (showFirstBatch clusterGroupUpgrade) started hstart
  have htest : timeSub env.nowOverallCheck started.status.status.startedAt >
      wrapInt64 (started.spec.remediationStrategy.timeout * Minute) := by
    rw [hs5, hf5, hs1, hf1]
    exact overall_timeout_test _ _ _ hminutes hclock htimeout
  refine ⟨setReadyCondition started ConditionStatus.condFalse "UpgradeTimedOut" timedOutMessage,
    ?_, readyReason_setReadyCondition _ _ _ _, ?_⟩
  · unfold reconcileUpgradeNotCompleted
    simp only [hstart]
    unfold driveBatch
    rw [if_pos htest]
  · show started.status.status.currentBatch = _
    rw [hs6, hf7]

/-- Witness of claim C8: 61 minutes after the start of an upgrade with a timeout of 60. -/
theorem reconcile_overall_timeout_witness :
    ∃ cgu, reconcileUpgradeNotCompleted (exampleEnv (1000 + 61 * Minute))
        (exampleRun ["a", "b"] [] [["a"], ["b"]] "") = .updateStatus cgu requeueImmediately ∧
      readyReason cgu = some "UpgradeTimedOut" ∧
      cgu.status.status.currentBatch = (if (1 : Int) = 0 then 1 else 1) :=
  reconcile_overall_timeout (exampleEnv (1000 + 61 * Minute)) (exampleRun ["a", "b"] [] [["a"], ["b"]] "")
    (by decide) (by decide) (by decide) (by decide)

/-- What `getNextRemediationPoliciesForBatch` leaves unchanged. -/
theorem getNextRemediationPoliciesForBatch_frame (g : String → String → Except Fault Policy)
    (cgu cgu' : ClusterGroupUpgrade) (done : Bool)
    (h : getNextRemediationPoliciesForBatch g cgu = .ok (done, cgu')) :
    cgu'.spec = cgu.spec ∧ cgu'.status.conditions = cgu.status.conditions ∧
      cgu'.status.remediationPlan = cgu.status.remediationPlan ∧
      cgu'.status.status.startedAt = cgu.status.status.startedAt ∧
      cgu'.status.status.currentBatch = cgu.status.status.currentBatch ∧
      cgu'.status.status.currentBatchStartedAt = cgu.status.status.currentBatchStartedAt := by
  obtain ⟨_, _, _, _, hcgu⟩ := getNextRemediationPoliciesForBatch_eq g cgu cgu' done h
  rw [hcgu]
  simp

/-- The step of `driveBatch` on a batch before the last one that is not complete and whose
timeout is exceeded, when the overall timeout is not. -/
theorem driveBatch_batch_timeout (env : Env) (started advanced : ClusterGroupUpgrade)
    (nextReconcile nextReconcile1 : Result)
    (hoverall : ¬ timeSub env.nowOverallCheck started.status.status.startedAt >
      wrapInt64 (started.spec.remediationStrategy.timeout * Minute))
    (hlast : started.status.status.currentBatch < started.status.remediationPlan.length)
    (hnext : getNextRemediationPoliciesForBatch env.getPolicyByName started =
      .ok (false, advanced))
    (hremediate : remediateCurrentBatch env advanced nextReconcile = (nextReconcile1, none))
    (hstarted : started.status.status.currentBatchStartedAt ≠ 0)
    (hbudget : timeSub env.nowBatchCheck started.status.status.currentBatchStartedAt >
      env.CalculateBatchTimeout started.spec.remediationStrategy.timeout
        started.status.remediationPlan.length started.status.status.currentBatch
        started.status.status.currentBatchStartedAt started.status.status.startedAt) :
    driveBatch env started nextReconcile = batchTimedOut advanced := by
  obtain ⟨hf1, hf2, hf3, hf4, hf5, hf6⟩ :=
    getNextRemediationPoliciesForBatch_frame env.getPolicyByName started advanced false hnext
  unfold driveBatch
  rw [if_neg hoverall, if_pos hlast]
  simp only [hnext, hremediate]
  rw [hf1, hf3, hf4, hf5, hf6]
  simp only [Bool.false_eq_true, if_false]
  rw [if_pos hstarted, if_pos hbudget]

/-- On the last batch of the plan (and beyond it) neither the batch timeout nor the clock of the
batch timeout test is read: the step is the same for every value of them. -/
theorem driveBatch_last_batch_ignores_batch_timeout (env : Env)
    (calculate : Int → Int → Int → Int → Int → Int) (now : Int)
    (cgu : ClusterGroupUpgrade) (nextReconcile : Result)
    (hlast : ¬ cgu.status.status.currentBatch < cgu.status.remediationPlan.length) :
    driveBatch { env with CalculateBatchTimeout := calculate, nowBatchCheck := now } cgu
        nextReconcile =
      driveBatch env cgu nextReconcile := by
  unfold driveBatch
  simp only [if_neg hlast]
  rfl

/-- Claim C9: in phase UpgradeNotCompleted, for a current batch `k` with `1 <= k <= |canaries|`
that is before the last batch of the plan or is its last batch (`k <= |remediationPlan|`), whose
time since `currentBatchStartedAt` exceeds the budget of the batch, the reconcile step reaches
the status update with the Ready reason `UpgradeTimedOut`, whatever `spec.batchTimeoutAction`
is. Before
the last batch the batch is not complete, its remediation returns no error, and the time is
read by the batch timeout test, for every budget function. On the last batch, where the budget
`CalculateBatchTimeout` is the whole remaining overall budget, the time is read by the overall
timeout test, after the start of the batch, which is after the start of the upgrade. Here
`started` is the object after lines 303-325. -/
theorem reconcile_canary_batch_timeout (env : Env)
    (clusterGroupUpgrade started : ClusterGroupUpgrade)
    (hstart : startBatch env (showFirstBatch clusterGroupUpgrade) = .ok started)
    (hk : 1 ≤ started.status.status.currentBatch)
    (hcanary : started.status.status.currentBatch ≤
      started.spec.remediationStrategy.canaries.length)
    (hcase :
      (started.status.status.currentBatch < started.status.remediationPlan.length ∧
        (∃ advanced nextReconcile1,
          getNextRemediationPoliciesForBatch env.getPolicyByName started =
            .ok (false, advanced) ∧
          remediateCurrentBatch env advanced
            (batchRequeue env (showFirstBatch clusterGroupUpgrade)) = (nextReconcile1, none)) ∧
        started.status.status.currentBatchStartedAt ≠ 0 ∧
        timeSub env.nowBatchCheck started.status.status.currentBatchStartedAt >
          env.CalculateBatchTimeout started.spec.remediationStrategy.timeout
            started.status.remediationPlan.length started.status.status.currentBatch
            started.status.status.currentBatchStartedAt started.status.status.startedAt) ∨
      (started.status.status.currentBatch = started.status.remediationPlan.length ∧
        env.CalculateBatchTimeout = CalculateBatchTimeout ∧
        started.status.status.startedAt ≤ started.status.status.currentBatchStartedAt ∧
        started.status.status.currentBatchStartedAt ≤ env.nowOverallCheck ∧
        timeSub env.nowOverallCheck started.status.status.currentBatchStartedAt >
          env.CalculateBatchTimeout started.spec.remediationStrategy.timeout
            started.status.remediationPlan.length started.status.status.currentBatch
            started.status.status.currentBatchStartedAt started.status.status.startedAt)) :
    ∃ cgu, reconcileUpgradeNotCompleted env clusterGroupUpgrade =
        .updateStatus cgu requeueImmediately ∧
      readyReason cgu = some "UpgradeTimedOut" := by
  unfold reconcileUpgradeNotCompleted
  simp only [hstart]
  by_cases hoverall : timeSub env.nowOverallCheck started.status.status.startedAt >
      wrapInt64 (started.spec.remediationStrategy.timeout * Minute)
  · refine ⟨setReadyCondition started ConditionStatus.condFalse "UpgradeTimedOut"
      timedOutMessage, ?_, readyReason_setReadyCondition _ _ _ _⟩
    unfold driveBatch
    rw [if_pos hoverall]
  · rcases hcase with ⟨hlast, ⟨advanced, nextReconcile1, hnext, hremediate⟩, hstarted, hbudget⟩ |
      ⟨hlast, hmodel, hafter, hnow, hbudget⟩
    · obtain ⟨hf1, _, _, _, hf5, _⟩ :=
        getNextRemediationPoliciesForBatch_frame env.getPolicyByName started advanced false hnext
      rw [driveBatch_batch_timeout env started advanced _ nextReconcile1 hoverall hlast hnext
        hremediate hstarted hbudget]
      refine ⟨setReadyCondition advanced ConditionStatus.condFalse "UpgradeTimedOut"
        timedOutMessage, ?_, readyReason_setReadyCondition _ _ _ _⟩
      unfold batchTimedOut
      rw [if_pos]
      rw [hf1, hf5]
      constructor
      · intro h0
        rw [h0] at hcanary
        simp only [Nat.cast_zero] at hcanary
        omega
      · exact hcanary
    · exfalso
      apply hoverall
      rw [hmodel] at hbudget
      unfold CalculateBatchTimeout at hbudget
      have hone : (started.status.remediationPlan.length : Int) -
          started.status.status.currentBatch + 1 = 1 := by omega
      rw [hone, Int.tdiv_one] at hbudget
      have heven : (started.spec.remediationStrategy.timeout * Minute) % 2 = 0 := by
        unfold Minute
        omega
      have hmax := wrapInt64_even_lt _ heven
      generalize wrapInt64 (started.spec.remediationStrategy.timeout * Minute) = budget at *
      unfold timeSub at hbudget ⊢
      split_ifs at hbudget ⊢ <;> omega

/-- Witness of claim C9, with a timeout of 60 minutes: the canary batch `[a]` of the plan
`[[a], [b]]`, 40 minutes after its start with a budget of 30 minutes, and the canary batch `[a]`
that is the only batch of the plan `[[a]]`, 61 minutes after its start with a budget of 60
minutes. -/
theorem reconcile_canary_batch_timeout_witness :
    (∃ cgu, reconcileUpgradeNotCompleted (exampleEnv (1000 + 40 * Minute))
        (exampleRun ["a", "b"] ["a"] [["a"], ["b"]] "") = .updateStatus cgu requeueImmediately ∧
      readyReason cgu = some "UpgradeTimedOut") ∧
    (∃ cgu, reconcileUpgradeNotCompleted (exampleEnv (1000 + 61 * Minute))
        (exampleRun ["a"] ["a"] [["a"]] "Continue") = .updateStatus cgu requeueImmediately ∧
      readyReason cgu = some "UpgradeTimedOut") :=
  ⟨reconcile_canary_batch_timeout (exampleEnv (1000 + 40 * Minute))
      (exampleRun ["a", "b"] ["a"] [["a"], ["b"]] "")
      (exampleRun ["a", "b"] ["a"] [["a"], ["b"]] "")
      (by rfl) (by decide) (by decide)
      (Or.inl ⟨by decide,
        ⟨exampleRunAdvanced ["a", "b"] ["a"] [["a"], ["b"]] "",
          requeueWithCustomInterval (5 * Minute), by rfl, by rfl⟩,
        by decide, by decide⟩),
    reconcile_canary_batch_timeout (exampleEnv (1000 + 61 * Minute))
      (exampleRun ["a"] ["a"] [["a"]] "Continue") (exampleRun ["a"] ["a"] [["a"]] "Continue")
      (by rfl) (by decide) (by decide)
      (Or.inr ⟨by decide, rfl, by decide, by decide, by decide⟩)⟩

/-- Claim C10: in phase UpgradeNotCompleted, for a current batch `k` with
`|canaries| < k < |remediationPlan|` that is not complete and whose timeout is exceeded, the
overall timeout not being exceeded and the remediation of the batch returning no error: with
`spec.batchTimeoutAction = Abort` the Ready reason becomes `UpgradeTimedOut` and `currentBatch`
is unchanged; with any other action (Continue, unset) the Ready reason stays
`UpgradeNotCompleted`, `currentBatchStartedAt` is reset to zero and `currentBatch` becomes
`k + 1`; in both cases the step requests an immediate requeue. Here `started` is the object
after lines 303-325. -/
theorem reconcile_batch_timeout_action (env : Env)
    (clusterGroupUpgrade started advanced : ClusterGroupUpgrade) (nextReconcile1 : Result)
    (hphase : readyReason clusterGroupUpgrade = some "UpgradeNotCompleted")
    (hstart : startBatch env (showFirstBatch clusterGroupUpgrade) = .ok started)
    (hcanary : (started.spec.remediationStrategy.canaries.length : Int) <
      started.status.status.currentBatch)
    (hlast : started.status.status.currentBatch < started.status.remediationPlan.length)
    (hoverall : ¬ timeSub env.nowOverallCheck started.status.status.startedAt >
      wrapInt64 (started.spec.remediationStrategy.timeout * Minute))
    (hnext : getNextRemediationPoliciesForBatch env.getPolicyByName started =
      .ok (false, advanced))
    (hremediate : remediateCurrentBatch env advanced
      (batchRequeue env (showFirstBatch clusterGroupUpgrade)) = (nextReconcile1, none))
    (hstarted : started.status.status.currentBatchStartedAt ≠ 0)
    (hbudget : timeSub env.nowBatchCheck started.status.status.currentBatchStartedAt >
      env.CalculateBatchTimeout started.spec.remediationStrategy.timeout
        started.status.remediationPlan.length started.status.status.currentBatch
        started.status.status.currentBatchStartedAt started.status.status.startedAt) :
    (started.spec.batchTimeoutAction = BatchTimeoutActionAbort →
      ∃ cgu, reconcileUpgradeNotCompleted env clusterGroupUpgrade =
          .updateStatus cgu requeueImmediately ∧
        readyReason cgu = some "UpgradeTimedOut" ∧
        cgu.status.status.currentBatch = started.status.status.currentBatch) ∧
    (started.spec.batchTimeoutAction ≠ BatchTimeoutActionAbort →
      ∃ cgu, reconcileUpgradeNotCompleted env clusterGroupUpgrade =
          .updateStatus cgu requeueImmediately ∧
        readyReason cgu = some "UpgradeNotCompleted" ∧
        cgu.status.status.currentBatchStartedAt = 0 ∧
        cgu.status.status.currentBatch = started.status.status.currentBatch + 1) := by
  obtain ⟨hf1, hf2, hf3, hf4, hf5, hf6⟩ :=
    getNextRemediationPoliciesForBatch_frame env.getPolicyByName started advanced false hnext
  obtain ⟨_, hs2, _, _, _, _⟩ :=
    startBatch_frame env (showFirstBatch clusterGroupUpgrade) started hstart
  have hcond : advanced.status.conditions = clusterGroupUpgrade.status.conditions := by
    rw [hf2, hs2, (showFirstBatch_frame clusterGroupUpgrade).2.1]
  have hrun : reconcileUpgradeNotCompleted env clusterGroupUpgrade = batchTimedOut advanced := by
    unfold reconcileUpgradeNotCompleted
    simp only [hstart]
    exact driveBatch_batch_timeout env started advanced _ nextReconcile1 hoverall hlast hnext
      hremediate hstarted hbudget
  have hnotcanary : ¬ (advanced.spec.remediationStrategy.canaries.length ≠ 0 ∧
      advanced.status.status.currentBatch ≤
        advanced.spec.remediationStrategy.canaries.length) := by
    rw [hf1, hf5]
    intro h
    omega
  constructor
  · intro habort
    refine ⟨setReadyCondition advanced ConditionStatus.condFalse "UpgradeTimedOut"
      timedOutMessage, ?_, readyReason_setReadyCondition _ _ _ _, ?_⟩
    · rw [hrun]
      unfold batchTimedOut
      rw [if_neg hnotcanary, if_pos (by rw [hf1]; exact habort)]
    · show advanced.status.status.currentBatch = _
      rw [hf5]
  · intro hcontinue
    refine ⟨continueAfterBatchTimeout advanced, ?_, ?_, ?_, ?_⟩
    · rw [hrun]
      unfold batchTimedOut
      rw [if_neg hnotcanary, if_neg (by rw [hf1]; exact hcontinue)]
    · show (FindStatusCondition advanced.status.conditions "Ready").map (fun c => c.reason) = _
      rw [hcond]
      exact hphase
    · rfl
    · show (if advanced.status.status.currentBatch < advanced.status.remediationPlan.length then
          advanced.status.status.currentBatch + 1 else advanced.status.status.currentBatch) = _
      rw [hf5, hf3, if_pos hlast]

/-- Witness of claim C10: batch 1 of the plan `[[a], [b]]` without canaries, 40 minutes after
its start with a budget of 30 minutes, with the actions `Abort` and `Continue`. -/
theorem reconcile_batch_timeout_action_witness :
    (∃ cgu, reconcileUpgradeNotCompleted (exampleEnv (1000 + 40 * Minute))
          (exampleRun ["a", "b"] [] [["a"], ["b"]] "Abort") = .updateStatus cgu requeueImmediately ∧
        readyReason cgu = some "UpgradeTimedOut" ∧
        cgu.status.status.currentBatch = 1) ∧
    (∃ cgu, reconcileUpgradeNotCompleted (exampleEnv (1000 + 40 * Minute))
          (exampleRun ["a", "b"] [] [["a"], ["b"]] "Continue") = .updateStatus cgu requeueImmediately ∧
        readyReason cgu = some "UpgradeNotCompleted" ∧
        cgu.status.status.currentBatchStartedAt = 0 ∧
        cgu.status.status.currentBatch = 1 + 1) :=
  ⟨(reconcile_batch_timeout_action (exampleEnv (1000 + 40 * Minute))
      (exampleRun ["a", "b"] [] [["a"], ["b"]] "Abort") (exampleRun ["a", "b"] [] [["a"], ["b"]] "Abort")
      (exampleRunAdvanced ["a", "b"] [] [["a"], ["b"]] "Abort") (requeueWithCustomInterval (5 * Minute))
      (by rfl) (by rfl) (by decide) (by decide) (by decide) (by rfl) (by rfl) (by decide)
      (by decide)).1 (by rfl),
   (reconcile_batch_timeout_action (exampleEnv (1000 + 40 * Minute))
      (exampleRun ["a", "b"] [] [["a"], ["b"]] "Continue") (exampleRun ["a", "b"] [] [["a"], ["b"]] "Continue")
      (exampleRunAdvanced ["a", "b"] [] [["a"], ["b"]] "Continue") (requeueWithCustomInterval (5 * Minute))
      (by rfl) (by rfl) (by decide) (by decide) (by decide) (by rfl) (by rfl) (by decide)
      (by decide)).2 (by decide)⟩

/-! ### The last batch and completion -/

theorem policyComplianceAt_congr (g : String → String → Except Fault Policy)
    (cgu1 cgu2 : ClusterGroupUpgrade)
    (h : cgu1.status.managedPoliciesForUpgrade = cgu2.status.managedPoliciesForUpgrade)
    (c : String) (j : Int) : policyComplianceAt g cgu1 c j = policyComplianceAt g cgu2 c j := by
  unfold policyComplianceAt GetManagedPolicyForUpgradeByIndex
  rw [h]

theorem getNextRemediationPoliciesForBatch_policies (g : String → String → Except Fault Policy)
    (cgu cgu' : ClusterGroupUpgrade) (done : Bool)
    (h : getNextRemediationPoliciesForBatch g cgu = .ok (done, cgu')) :
    cgu'.status.managedPoliciesForUpgrade = cgu.status.managedPoliciesForUpgrade := by
  obtain ⟨_, _, _, _, hcgu⟩ := getNextRemediationPoliciesForBatch_eq g cgu cgu' done h
  rw [hcgu]

theorem compliant_ne_nonCompliant : ClusterStatusCompliant ≠ ClusterStatusNonCompliant := by
  decide

theorem notMatched_ne_nonCompliant : ClusterNotMatchedWithPolicy ≠ ClusterStatusNonCompliant := by
  decide

/-- The search from index 0 returns the number of policies exactly when the cluster is
NonCompliant with no policy of the list. -/
theorem search_from_zero (g : String → String → Except Fault Policy) (cgu : ClusterGroupUpgrade)
    (c : String) (r : Int) (h : getNextNonCompliantPolicyForCluster g cgu c 0 = .ok r) :
    ¬ r < cgu.status.managedPoliciesForUpgrade.length ↔
      ∀ j : Int, 0 ≤ j → j < cgu.status.managedPoliciesForUpgrade.length →
        policyComplianceAt g cgu c j ≠ some ClusterStatusNonCompliant := by
  obtain ⟨h1, h2, h3, h4⟩ := getNext_spec g cgu c 0 r h
  constructor
  · intro hr j hj0 hjn
    rcases h3 j hj0 (by omega) with h5 | h5
    · rw [h5]
      intro h6
      exact compliant_ne_nonCompliant (Option.some.inj h6)
    · rw [h5]
      intro h6
      exact notMatched_ne_nonCompliant (Option.some.inj h6)
  · intro hall hr
    exact hall r h1 hr (h4 hr)

theorem previousClustersLoop_spec (g : String → String → Except Fault Policy)
    (cgu : ClusterGroupUpgrade) (batch : List String) (b : Bool)
    (h : previousClustersLoop g cgu batch = .ok b) :
    b = true ↔ ∀ c ∈ batch, ∀ j : Int, 0 ≤ j → j < cgu.status.managedPoliciesForUpgrade.length →
      policyComplianceAt g cgu c j ≠ some ClusterStatusNonCompliant := by
  induction batch with
  | nil =>
    simp only [previousClustersLoop, Except.ok.injEq] at h
    simp [← h]
  | cons c0 rest ih =>
    unfold previousClustersLoop at h
    cases hs : getNextNonCompliantPolicyForCluster g cgu c0 0 with
    | error err => simp [hs] at h
    | ok r =>
      simp only [hs] at h
      have hz := search_from_zero g cgu c0 r hs
      by_cases hr : r < cgu.status.managedPoliciesForUpgrade.length
      · rw [if_pos hr] at h
        simp only [Except.ok.injEq] at h
        subst h
        constructor
        · intro hf
          exact absurd hf (by decide)
        · intro hall
          exact absurd hr (hz.mpr (hall c0 (List.mem_cons_self _ _)))
      · rw [if_neg hr] at h
        rw [ih h]
        constructor
        · intro hall c hc
          rcases List.mem_cons.mp hc with hc | hc
          · subst hc
            exact hz.mp hr
          · exact hall c hc
        · intro hall c hc
          exact hall c (List.mem_cons_of_mem _ hc)

theorem previousBatchesLoop_spec (g : String → String → Except Fault Policy)
    (cgu : ClusterGroupUpgrade) (batches : List (List String)) (b : Bool)
    (h : previousBatchesLoop g cgu batches = .ok b) :
    b = true ↔ ∀ batch ∈ batches, ∀ c ∈ batch, ∀ j : Int, 0 ≤ j →
      j < cgu.status.managedPoliciesForUpgrade.length →
      policyComplianceAt g cgu c j ≠ some ClusterStatusNonCompliant := by
  induction batches with
  | nil =>
    simp only [previousBatchesLoop, Except.ok.injEq] at h
    simp [← h]
  | cons b0 rest ih =>
    unfold previousBatchesLoop at h
    cases hs : previousClustersLoop g cgu b0 with
    | error err => simp [hs] at h
    | ok r =>
      have hz := previousClustersLoop_spec g cgu b0 r hs
      cases r with
      | false =>
        simp only [hs, Except.ok.injEq] at h
        subst h
        constructor
        · intro hf
          exact absurd hf (by decide)
        · intro hall
          exact absurd (hz.mpr (hall b0 (List.mem_cons_self _ _))) (by decide)
      | true =>
        simp only [hs] at h
        rw [ih h]
        constructor
        · intro hall batch hb
          rcases List.mem_cons.mp hb with hb | hb
          · subst hb
            exact hz.mp rfl
          · exact hall batch hb
        · intro hall batch hb
          exact hall batch (List.mem_cons_of_mem _ hb)

/-- What `isUpgradeComplete` returns, in terms of the cursor advancement of the current batch
and of the loop over the earlier batches. -/
theorem isUpgradeComplete_eq (g : String → String → Except Fault Policy)
    (cgu cgu' : ClusterGroupUpgrade) (complete : Bool)
    (h : isUpgradeComplete g cgu = .ok (complete, cgu')) :
    ∃ isBatchComplete, getNextRemediationPoliciesForBatch g cgu = .ok (isBatchComplete, cgu') ∧
      ((isBatchComplete = false ∧ complete = false) ∨
        (isBatchComplete = true ∧
          previousBatchesLoop g cgu'
            (cgu'.status.remediationPlan.take (cgu'.status.remediationPlan.length - 1)) =
              .ok complete)) := by
  unfold isUpgradeComplete at h
  cases hn : getNextRemediationPoliciesForBatch g cgu with
  | error err => simp [hn] at h
  | ok res =>
    obtain ⟨done, cgu1⟩ := res
    simp only [hn] at h
    cases done with
    | false =>
      simp only [Bool.false_eq_true, if_false, Except.ok.injEq, Prod.mk.injEq] at h
      obtain ⟨h1, h2⟩ := h
      subst h2
      exact ⟨false, rfl, Or.inl ⟨rfl, h1.symm⟩⟩
    | true =>
      simp only [if_true] at h
      cases hp : previousBatchesLoop g cgu1
          (cgu1.status.remediationPlan.take (cgu1.status.remediationPlan.length - 1)) with
      | error err => simp [hp] at h
      | ok b =>
        simp only [hp, Except.ok.injEq, Prod.mk.injEq] at h
        obtain ⟨h1, h2⟩ := h
        subst h2
        subst h1
        exact ⟨true, rfl, Or.inr ⟨rfl, hp⟩⟩

/-- The flag of the cursor advancement is true exactly when every cluster of the batch is
`Completed` afterwards. -/
theorem batch_complete_iff (g : String → String → Except Fault Policy)
    (cgu cgu' : ClusterGroupUpgrade) (batch : List String) (done : Bool)
    (hbatch : planBatch cgu (cgu.status.status.currentBatch - 1) = .ok batch)
    (hnext : getNextRemediationPoliciesForBatch g cgu = .ok (done, cgu')) :
    done = true ↔
      ∀ c ∈ batch, ∃ progress,
        mapGet? cgu'.status.status.currentBatchRemediationProgress c = some progress ∧
        progress.state = RemediationState.Completed := by
  obtain ⟨batch', pm', hb', hloop, hcgu⟩ :=
    getNextRemediationPoliciesForBatch_eq g cgu cgu' done hnext
  rw [hbatch] at hb'
  simp only [Except.ok.injEq] at hb'
  subst hb'
  obtain ⟨_, _, hd⟩ := batchProgressLoop_spec g cgu batch _ pm' true done hloop
  rw [hcgu]
  simp only []
  rw [hd]
  simp

/-- The ways in which `driveBatch` reaches the status update. -/
theorem driveBatch_cases (env : Env) (started written : ClusterGroupUpgrade)
    (nextReconcile next : Result)
    (h : driveBatch env started nextReconcile = .updateStatus written next) :
    written = setReadyCondition started ConditionStatus.condFalse "UpgradeTimedOut"
        timedOutMessage ∨
    (∃ advanced, started.status.status.currentBatch < started.status.remediationPlan.length ∧
      getNextRemediationPoliciesForBatch env.getPolicyByName started = .ok (true, advanced) ∧
      written = { advanced with
        status := { advanced.status with
          status := { advanced.status.status with
            currentBatchStartedAt := 0
            currentBatch := advanced.status.status.currentBatch + 1 } } }) ∨
    (∃ advanced, started.status.status.currentBatch < started.status.remediationPlan.length ∧
      getNextRemediationPoliciesForBatch env.getPolicyByName started = .ok (false, advanced) ∧
      (written = advanced ∨
        written = setReadyCondition advanced ConditionStatus.condFalse "UpgradeTimedOut"
          timedOutMessage ∨
        written = continueAfterBatchTimeout advanced)) ∨
    (∃ advanced, ¬ started.status.status.currentBatch < started.status.remediationPlan.length ∧
      isUpgradeComplete env.getPolicyByName started = .ok (true, advanced) ∧
      written = setReadyCondition advanced ConditionStatus.condTrue "UpgradeCompleted"
        "The ClusterGroupUpgrade CR has all clusters compliant with all the managed policies") ∨
    (∃ advanced, ¬ started.status.status.currentBatch < started.status.remediationPlan.length ∧
      isUpgradeComplete env.getPolicyByName started = .ok (false, advanced) ∧
      written = advanced) := by
  unfold driveBatch at h
  by_cases hover : timeSub env.nowOverallCheck started.status.status.startedAt >
      wrapInt64 (started.spec.remediationStrategy.timeout * Minute)
  · rw [if_pos hover] at h
    simp only [Outcome.updateStatus.injEq] at h
    exact Or.inl h.1.symm
  · rw [if_neg hover] at h
    by_cases hlast : started.status.status.currentBatch < started.status.remediationPlan.length
    · rw [if_pos hlast] at h
      cases hn : getNextRemediationPoliciesForBatch env.getPolicyByName started with
      | error err => simp [hn] at h
      | ok res =>
        obtain ⟨done, advanced⟩ := res
        simp only [hn] at h
        cases done with
        | true =>
          simp only [if_true, Outcome.updateStatus.injEq] at h
          exact Or.inr (Or.inl ⟨advanced, hlast, rfl, h.1.symm⟩)
        | false =>
          simp only [Bool.false_eq_true, if_false] at h
          refine Or.inr (Or.inr (Or.inl ⟨advanced, hlast, rfl, ?_⟩))
          cases hr : remediateCurrentBatch env advanced nextReconcile with
          | mk n1 e1 =>
            cases e1 with
            | some err => simp [hr] at h
            | none =>
              simp only [hr] at h
              split_ifs at h with h1 h2
              · unfold batchTimedOut at h
                split_ifs at h
                · simp only [Outcome.updateStatus.injEq] at h
                  exact Or.inr (Or.inl h.1.symm)
                · simp only [Outcome.updateStatus.injEq] at h
                  exact Or.inr (Or.inl h.1.symm)
                · simp only [Outcome.updateStatus.injEq] at h
                  exact Or.inr (Or.inr h.1.symm)
              · simp only [Outcome.updateStatus.injEq] at h
                exact Or.inl h.1.symm
              · simp only [Outcome.updateStatus.injEq] at h
                exact Or.inl h.1.symm
    · rw [if_neg hlast] at h
      cases hc : isUpgradeComplete env.getPolicyByName started with
      | error err => simp [hc] at h
      | ok res =>
        obtain ⟨complete, advanced⟩ := res
        simp only [hc] at h
        cases complete with
        | true =>
          simp only [if_true, Outcome.updateStatus.injEq] at h
          exact Or.inr (Or.inr (Or.inr (Or.inl ⟨advanced, hlast, rfl, h.1.symm⟩)))
        | false =>
          simp only [Bool.false_eq_true, if_false] at h
          cases hr : remediateCurrentBatch env advanced nextReconcile with
          | mk n1 e1 =>
            cases e1 with
            | some err => simp [hr] at h
            | none =>
              simp only [hr, Outcome.updateStatus.injEq] at h
              exact Or.inr (Or.inr (Or.inr (Or.inr ⟨advanced, hlast, rfl, h.1.symm⟩)))

/-- What `isUpgradeComplete` leaves unchanged. -/
theorem isUpgradeComplete_frame (g : String → String → Except Fault Policy)
    (cgu cgu' : ClusterGroupUpgrade) (complete : Bool)
    (h : isUpgradeComplete g cgu = .ok (complete, cgu')) :
    cgu'.spec = cgu.spec ∧ cgu'.status.conditions = cgu.status.conditions ∧
      cgu'.status.remediationPlan = cgu.status.remediationPlan ∧
      cgu'.status.status.startedAt = cgu.status.status.startedAt ∧
      cgu'.status.status.currentBatch = cgu.status.status.currentBatch ∧
      cgu'.status.status.currentBatchStartedAt = cgu.status.status.currentBatchStartedAt := by
  obtain ⟨done, hnext, _⟩ := isUpgradeComplete_eq g cgu cgu' complete h
  exact getNextRemediationPoliciesForBatch_frame g cgu cgu' done hnext

theorem readyReason_of_conditions (cgu1 cgu2 : ClusterGroupUpgrade)
    (h : cgu1.status.conditions = cgu2.status.conditions) :
    readyReason cgu1 = readyReason cgu2 := by
  unfold readyReason
  rw [h]

/-- A step in phase UpgradeNotCompleted writes the reason `UpgradeCompleted` only through the
last-batch branch with a true result of `isUpgradeComplete`. -/
theorem reconcile_completed_only_if (env : Env) (before written : ClusterGroupUpgrade)
    (nextReconcile : Result)
    (hphase : readyReason before = some "UpgradeNotCompleted")
    (hrun : reconcileUpgradeNotCompleted env before = .updateStatus written nextReconcile)
    (hwritten : readyReason written = some "UpgradeCompleted") :
    ∃ started advanced, startBatch env (showFirstBatch before) = .ok started ∧
      ¬ started.status.status.currentBatch < started.status.remediationPlan.length ∧
      isUpgradeComplete env.getPolicyByName started = .ok (true, advanced) := by
  unfold reconcileUpgradeNotCompleted at hrun
  cases hs : startBatch env (showFirstBatch before) with
  | error err => simp [hs] at hrun
  | ok started =>
    simp only [hs] at hrun
    have hcond : started.status.conditions = before.status.conditions := by
      rw [(startBatch_frame env _ started hs).2.1, (showFirstBatch_frame before).2.1]
    have hstarted : readyReason started = some "UpgradeNotCompleted" := by
      rw [readyReason_of_conditions started before hcond]
      exact hphase
    rcases driveBatch_cases env started written _ nextReconcile hrun with
      h | ⟨adv, _, hn, h⟩ | ⟨adv, _, hn, h⟩ | ⟨adv, hl, hc, _⟩ | ⟨adv, _, hc, h⟩
    · rw [h, readyReason_setReadyCondition] at hwritten
      exact absurd hwritten (by decide)
    · have hf := (getNextRemediationPoliciesForBatch_frame env.getPolicyByName started adv true
        hn).2.1
      have : readyReason written = readyReason started := by
        rw [h]
        exact readyReason_of_conditions _ _ hf
      rw [this, hstarted] at hwritten
      exact absurd hwritten (by decide)
    · have hf := (getNextRemediationPoliciesForBatch_frame env.getPolicyByName started adv false
        hn).2.1
      rcases h with h | h | h
      · rw [h, readyReason_of_conditions adv started hf, hstarted] at hwritten
        exact absurd hwritten (by decide)
      · rw [h, readyReason_setReadyCondition] at hwritten
        exact absurd hwritten (by decide)
      · have : readyReason written = readyReason started := by
          rw [h]
          exact readyReason_of_conditions _ _ hf
        rw [this, hstarted] at hwritten
        exact absurd hwritten (by decide)
    · exact ⟨started, adv, rfl, hl, hc⟩
    · have hf := (isUpgradeComplete_frame env.getPolicyByName started adv false hc).2.1
      rw [h, readyReason_of_conditions adv started hf, hstarted] at hwritten
      exact absurd hwritten (by decide)
/-- Claim C11: when `currentBatch` is the last batch of the plan and `isUpgradeComplete` returns
without error, its result is true if and only if every cluster of the current batch is
`Completed` after the cursor advancement and no cluster of an earlier batch is NonCompliant with
a policy of `managedPoliciesForUpgrade`; and a reconcile step in phase UpgradeNotCompleted
writes the Ready reason `UpgradeCompleted` only when it ran `isUpgradeComplete` on the last
batch and the result was true. -/
theorem isUpgradeComplete_iff (getPolicyByName : String → String → Except Fault Policy)
    (clusterGroupUpgrade cgu : ClusterGroupUpgrade) (complete : Bool) (batch : List String)
    (hlast : clusterGroupUpgrade.status.status.currentBatch =
      clusterGroupUpgrade.status.remediationPlan.length)
    (hbatch : planBatch clusterGroupUpgrade (clusterGroupUpgrade.status.status.currentBatch - 1) =
      .ok batch)
    (hcomplete : isUpgradeComplete getPolicyByName clusterGroupUpgrade = .ok (complete, cgu)) :
    (complete = true ↔
      (∀ c ∈ batch, ∃ progress,
        mapGet? cgu.status.status.currentBatchRemediationProgress c = some progress ∧
        progress.state = RemediationState.Completed) ∧
      (∀ earlier ∈ clusterGroupUpgrade.status.remediationPlan.take
          (clusterGroupUpgrade.status.status.currentBatch - 1).toNat,
        ∀ c ∈ earlier, ∀ j : Int, 0 ≤ j →
          j < clusterGroupUpgrade.status.managedPoliciesForUpgrade.length →
          policyComplianceAt getPolicyByName clusterGroupUpgrade c j ≠
            some ClusterStatusNonCompliant)) ∧
    (∀ (env : Env) (before written : ClusterGroupUpgrade) (nextReconcile : Result),
      env.getPolicyByName = getPolicyByName →
      readyReason before = some "UpgradeNotCompleted" →
      reconcileUpgradeNotCompleted env before = .updateStatus written nextReconcile →
      readyReason written = some "UpgradeCompleted" →
      ∃ started advanced, startBatch env (showFirstBatch before) = .ok started ∧
        ¬ started.status.status.currentBatch < started.status.remediationPlan.length ∧
        isUpgradeComplete getPolicyByName started = .ok (true, advanced)) := by
  constructor
  · obtain ⟨done, hnext, hcases⟩ :=
      isUpgradeComplete_eq getPolicyByName clusterGroupUpgrade cgu complete hcomplete
    obtain ⟨hf1, hf2, hf3, hf4, hf5, hf6⟩ :=
      getNextRemediationPoliciesForBatch_frame getPolicyByName clusterGroupUpgrade cgu done hnext
    have hpol := getNextRemediationPoliciesForBatch_policies getPolicyByName clusterGroupUpgrade
      cgu done hnext
    have hdone := (batch_complete_iff getPolicyByName
      clusterGroupUpgrade cgu batch done hbatch hnext)
    have htake : (clusterGroupUpgrade.status.status.currentBatch - 1).toNat =
        clusterGroupUpgrade.status.remediationPlan.length - 1 := by
      rw [hlast]
      omega
    rcases hcases with ⟨hd, hc⟩ | ⟨hd, hprev⟩
    · subst hd
      subst hc
      constructor
      · intro hf
        exact absurd hf (by decide)
      · rintro ⟨hall, _⟩
        exact absurd (hdone.mpr hall) (by decide)
    · subst hd
      rw [previousBatchesLoop_spec getPolicyByName cgu _ complete hprev, hf3, hpol, htake]
      constructor
      · intro hall
        refine ⟨hdone.mp rfl, ?_⟩
        intro earlier he c hc j hj0 hjn
        rw [← policyComplianceAt_congr getPolicyByName cgu clusterGroupUpgrade hpol]
        exact hall earlier he c hc j hj0 hjn
      · rintro ⟨_, hall⟩ earlier he c hc j hj0 hjn
        rw [policyComplianceAt_congr getPolicyByName cgu clusterGroupUpgrade hpol]
        exact hall earlier he c hc j hj0 hjn
  · intro env before written nextReconcile henv hphase hrun hwritten
    subst henv
    exact reconcile_completed_only_if env before written nextReconcile hphase hrun hwritten

theorem isUpgradeComplete_iff_witness :
    isUpgradeComplete exampleCompliantStore exampleLastBatch =
      .ok (true, exampleLastBatchDone) ∧
    (∀ c ∈ ["b"], ∃ progress,
      mapGet? exampleLastBatchDone.status.status.currentBatchRemediationProgress c =
        some progress ∧
      progress.state = RemediationState.Completed) :=
  ⟨by rfl,
    (((isUpgradeComplete_iff exampleCompliantStore exampleLastBatch exampleLastBatchDone true
      ["b"] (by decide) (by rfl) (by rfl)).1).mp rfl).1⟩

/-! ### The target clusters -/

theorem charsLe_total (a b : List Char) : charsLe a b = true ∨ charsLe b a = true := by
  induction a generalizing b with
  | nil => left; simp [charsLe]
  | cons x xs ih =>
    cases b with
    | nil => right; simp [charsLe]
    | cons y ys =>
      simp only [charsLe]
      by_cases h1 : x.toNat < y.toNat
      · left; simp [h1]
      · by_cases h2 : y.toNat < x.toNat
        · right; simp [h2]
        · simp only [h1, h2, if_false]
          exact ih ys

theorem charsLe_trans (a b c : List Char) (h1 : charsLe a b = true) (h2 : charsLe b c = true) :
    charsLe a c = true := by
  induction a generalizing b c with
  | nil => simp [charsLe]
  | cons x xs ih =>
    cases b with
    | nil => simp [charsLe] at h1
    | cons y ys =>
      cases c with
      | nil => simp [charsLe] at h2
      | cons z zs =>
        simp only [charsLe] at h1 h2 ⊢
        by_cases hxy : x.toNat < y.toNat
        · by_cases hyz : y.toNat < z.toNat
          · rw [if_pos (by omega)]
          · by_cases hzy : z.toNat < y.toNat
            · simp [hyz, hzy] at h2
            · rw [if_pos (by omega)]
        · by_cases hyx : y.toNat < x.toNat
          · simp [hxy, hyx] at h1
          · simp only [hxy, hyx, if_false] at h1
            by_cases hyz : y.toNat < z.toNat
            · rw [if_pos (by omega)]
            · by_cases hzy : z.toNat < y.toNat
              · simp [hyz, hzy] at h2
              · simp only [hyz, hzy, if_false] at h2
                rw [if_neg (by omega), if_neg (by omega)]
                exact ih ys zs h1 h2

theorem char_toNat_inj (x y : Char) (h : x.toNat = y.toNat) : x = y := by
  rw [← Char.ofNat_toNat x, ← Char.ofNat_toNat y, h]

theorem charsLe_antisymm (a b : List Char) (h1 : charsLe a b = true) (h2 : charsLe b a = true) :
    a = b := by
  induction a generalizing b with
  | nil =>
    cases b with
    | nil => rfl
    | cons y ys => simp [charsLe] at h2
  | cons x xs ih =>
    cases b with
    | nil => simp [charsLe] at h1
    | cons y ys =>
      simp only [charsLe] at h1 h2
      by_cases hxy : x.toNat < y.toNat
      · have : ¬ y.toNat < x.toNat := by omega
        simp [hxy, this] at h2
      · by_cases hyx : y.toNat < x.toNat
        · simp [hxy, hyx] at h1
        · simp only [hxy, hyx, if_false] at h1 h2
          have hc : x = y := char_toNat_inj x y (by omega)
          rw [hc, ih ys h1 h2]

/-- The order of Go strings is total. -/
instance stringLe_isTotal : IsTotal String stringLe :=
  ⟨fun a b => charsLe_total a.data b.data⟩

/-- The order of Go strings is transitive. -/
instance stringLe_isTrans : IsTrans String stringLe :=
  ⟨fun a b c h1 h2 => charsLe_trans a.data b.data c.data h1 h2⟩

/-- The order of Go strings is antisymmetric. -/
instance stringLe_isAntisymm : IsAntisymm String stringLe :=
  ⟨fun a b h1 h2 => by
    have h := charsLe_antisymm a.data b.data h1 h2
    cases a
    cases b
    simp only at h
    rw [h]⟩

theorem sortStrings_perm (names : List String) : (sortStrings names).Perm names :=
  List.perm_insertionSort stringLe names

theorem sortStrings_sorted (names : List String) : (sortStrings names).Sorted stringLe :=
  List.sorted_insertionSort stringLe names

theorem sortStrings_strict (names : List String) (h : names.Nodup) :
    (sortStrings names).Sorted stringLt := by
  have h1 := sortStrings_sorted names
  have h2 : (sortStrings names).Nodup := (sortStrings_perm names).nodup_iff.mpr h
  unfold List.Sorted stringLt at *
  exact List.pairwise_and_iff.mpr ⟨h1, h2⟩

/-- A strictly increasing list is determined by its members. -/
theorem strictly_sorted_unique (l1 l2 : List String) (h1 : l1.Sorted stringLt)
    (h2 : l2.Sorted stringLt) (hmem : ∀ x, x ∈ l1 ↔ x ∈ l2) : l1 = l2 := by
  unfold List.Sorted stringLt at h1 h2
  obtain ⟨s1, n1⟩ := List.pairwise_and_iff.mp h1
  obtain ⟨s2, n2⟩ := List.pairwise_and_iff.mp h2
  have hperm : l1.Perm l2 := (List.perm_ext_iff_of_nodup n1 n2).mpr hmem
  exact List.eq_of_perm_of_sorted hperm s1 s2

theorem addClusterNames_spec (items : List String) (acc : List String × GoMap Bool)
    (h : ClusterNamesOk acc) :
    ClusterNamesOk (addClusterNames items acc) ∧
      ∀ x, x ∈ (addClusterNames items acc).1 ↔ x ∈ acc.1 ∨ x ∈ items := by
  induction items generalizing acc with
  | nil => simp [addClusterNames, h]
  | cons name rest ih =>
    obtain ⟨names, keys⟩ := acc
    unfold addClusterNames
    cases hk : mapGet? keys name with
    | none =>
      simp only []
      have hnot : name ∉ names := by
        intro hin
        have := (h.2 name).mpr hin
        simp only [] at this
        rw [hk] at this
        simp at this
      have hok : ClusterNamesOk (names ++ [name], mapSet keys name true) := by
        constructor
        · simp only []
          rw [List.nodup_append]
          refine ⟨h.1, List.nodup_singleton _, ?_⟩
          intro a ha hb
          rw [List.mem_singleton] at hb
          subst hb
          exact hnot ha
        · intro x
          simp only [mapGet?_mapSet, List.mem_append, List.mem_singleton]
          by_cases hx : name = x
          · subst hx
            simp
          · have hx' : ¬ x = name := fun e => hx e.symm
            simp only [if_neg hx, hx', or_false]
            exact h.2 x
      obtain ⟨h1, h2⟩ := ih _ hok
      refine ⟨h1, ?_⟩
      intro x
      rw [h2 x]
      simp only [List.mem_append, List.mem_singleton, List.mem_cons]
      tauto
    | some v =>
      simp only []
      have hin : name ∈ names := by
        apply (h.2 name).mp
        simp only []
        rw [hk]
        rfl
      obtain ⟨h1, h2⟩ := ih _ h
      refine ⟨h1, ?_⟩
      intro x
      rw [h2 x]
      simp only [List.mem_cons]
      constructor
      · rintro (hx | hx)
        · exact Or.inl hx
        · exact Or.inr (Or.inr hx)
      · rintro (hx | hx | hx)
        · exact Or.inl hx
        · subst hx
          exact Or.inl hin
        · exact Or.inr hx

theorem clusterSelectorLoop_spec (listing : ClusterListing) (selectors : List String)
    (acc acc' : List String × GoMap Bool) (hok : ClusterNamesOk acc)
    (h : clusterSelectorLoop listing selectors acc = .ok acc') :
    ClusterNamesOk acc' ∧
      ∀ x, x ∈ acc'.1 ↔ x ∈ acc.1 ∨
        ∃ clusterSelector ∈ selectors, ∃ k v items,
          selectorLabel clusterSelector = some (k, v) ∧ listing.listByLabel k v = .ok items ∧
            x ∈ items := by
  induction selectors generalizing acc with
  | nil =>
    simp only [clusterSelectorLoop, Except.ok.injEq] at h
    subst h
    simp [hok]
  | cons sel rest ih =>
    unfold clusterSelectorLoop at h
    cases hl : selectorLabel sel with
    | none =>
      simp only [hl] at h
      obtain ⟨h1, h2⟩ := ih acc hok h
      refine ⟨h1, ?_⟩
      intro x
      rw [h2 x]
      constructor
      · rintro (hx | ⟨s, hs, k, v, items, h3, h4, h5⟩)
        · exact Or.inl hx
        · exact Or.inr ⟨s, List.mem_cons_of_mem _ hs, k, v, items, h3, h4, h5⟩
      · rintro (hx | ⟨s, hs, k, v, items, h3, h4, h5⟩)
        · exact Or.inl hx
        · rcases List.mem_cons.mp hs with hs | hs
          · subst hs
            rw [hl] at h3
            exact absurd h3 (by simp)
          · exact Or.inr ⟨s, hs, k, v, items, h3, h4, h5⟩
    | some kv =>
      obtain ⟨k0, v0⟩ := kv
      simp only [hl] at h
      cases hlist : listing.listByLabel k0 v0 with
      | error err => simp [hlist] at h
      | ok items0 =>
        simp only [hlist] at h
        obtain ⟨ha1, ha2⟩ := addClusterNames_spec items0 acc hok
        obtain ⟨h1, h2⟩ := ih _ ha1 h
        refine ⟨h1, ?_⟩
        intro x
        rw [h2 x, ha2 x]
        constructor
        · rintro ((hx | hx) | ⟨s, hs, k, v, items, h3, h4, h5⟩)
          · exact Or.inl hx
          · exact Or.inr ⟨sel, List.mem_cons_self _ _, k0, v0, items0, hl, hlist, hx⟩
          · exact Or.inr ⟨s, List.mem_cons_of_mem _ hs, k, v, items, h3, h4, h5⟩
        · rintro (hx | ⟨s, hs, k, v, items, h3, h4, h5⟩)
          · exact Or.inl (Or.inl hx)
          · rcases List.mem_cons.mp hs with hs | hs
            · subst hs
              rw [hl] at h3
              simp only [Option.some.injEq, Prod.mk.injEq] at h3
              obtain ⟨hk, hv⟩ := h3
              subst hk
              subst hv
              rw [hlist] at h4
              simp only [Except.ok.injEq] at h4
              subst h4
              exact Or.inl (Or.inr h5)
            · exact Or.inr ⟨s, hs, k, v, items, h3, h4, h5⟩

theorem clusterLabelSelectorLoop_spec (listing : ClusterListing) (selectors : List LabelSelector)
    (acc acc' : List String × GoMap Bool) (hok : ClusterNamesOk acc)
    (h : clusterLabelSelectorLoop listing selectors acc = .ok acc') :
    ClusterNamesOk acc' ∧
      ∀ x, x ∈ acc'.1 ↔ x ∈ acc.1 ∨
        ∃ clusterLabelSelector ∈ selectors, ∃ items,
          listing.listBySelector clusterLabelSelector = .ok items ∧ x ∈ items := by
  induction selectors generalizing acc with
  | nil =>
    simp only [clusterLabelSelectorLoop, Except.ok.injEq] at h
    subst h
    simp [hok]
  | cons sel rest ih =>
    unfold clusterLabelSelectorLoop at h
    cases hlist : listing.listBySelector sel with
    | error err => simp [hlist] at h
    | ok items0 =>
      simp only [hlist] at h
      obtain ⟨ha1, ha2⟩ := addClusterNames_spec items0 acc hok
      obtain ⟨h1, h2⟩ := ih _ ha1 h
      refine ⟨h1, ?_⟩
      intro x
      rw [h2 x, ha2 x]
      constructor
      · rintro ((hx | hx) | ⟨s, hs, items, h4, h5⟩)
        · exact Or.inl hx
        · exact Or.inr ⟨sel, List.mem_cons_self _ _, items0, hlist, hx⟩
        · exact Or.inr ⟨s, List.mem_cons_of_mem _ hs, items, h4, h5⟩
      · rintro (hx | ⟨s, hs, items, h4, h5⟩)
        · exact Or.inl (Or.inl hx)
        · rcases List.mem_cons.mp hs with hs | hs
          · subst hs
            rw [hlist] at h4
            simp only [Except.ok.injEq] at h4
            subst h4
            exact Or.inl (Or.inr h5)
          · exact Or.inr ⟨s, hs, items, h4, h5⟩

/-- The result of `getAllClustersForUpgrade` is strictly increasing and holds exactly the
selected names. -/
theorem getAllClustersForUpgrade_spec (listing : ClusterListing) (cgu : ClusterGroupUpgrade)
    (clusters : List String) (h : getAllClustersForUpgrade listing cgu = .ok clusters) :
    clusters.Sorted stringLt ∧ ∀ name, name ∈ clusters ↔ SelectedCluster listing cgu name := by
  unfold getAllClustersForUpgrade at h
  cases h1 : clusterSelectorLoop listing cgu.spec.clusterSelector ([], []) with
  | error err => simp [h1] at h
  | ok acc1 =>
    simp only [h1] at h
    cases h2 : clusterLabelSelectorLoop listing cgu.spec.clusterLabelSelectors acc1 with
    | error err => simp [h2] at h
    | ok acc2 =>
      simp only [h2, Except.ok.injEq] at h
      have hok0 : ClusterNamesOk (([], []) : List String × GoMap Bool) := by
        constructor
        · simp
        · intro x
          simp [mapGet?]
      obtain ⟨hok1, hm1⟩ := clusterSelectorLoop_spec listing _ _ acc1 hok0 h1
      obtain ⟨hok2, hm2⟩ := clusterLabelSelectorLoop_spec listing _ _ acc2 hok1 h2
      obtain ⟨hok3, hm3⟩ := addClusterNames_spec cgu.spec.clusters acc2 hok2
      subst h
      refine ⟨sortStrings_strict _ hok3.1, ?_⟩
      intro name
      rw [(sortStrings_perm _).mem_iff, hm3 name, hm2 name, hm1 name]
      unfold SelectedCluster
      constructor
      · rintro (((hx | hx) | hx) | hx)
        · exact absurd hx (List.not_mem_nil _)
        · exact Or.inl hx
        · exact Or.inr (Or.inl hx)
        · exact Or.inr (Or.inr hx)
      · rintro (hx | hx | hx)
        · exact Or.inl (Or.inl (Or.inr hx))
        · exact Or.inl (Or.inr hx)
        · exact Or.inr hx

/-- Claim C13: a successful `getAllClustersForUpgrade` returns a strictly increasing list (in
the lexicographic order of strings, so without duplicates) whose names are exactly the names
listed for the well-formed `clusterSelector` entries, the names listed for the
`clusterLabelSelectors` entries and the names of `spec.clusters`, whatever the order and the
repetitions of the lists returned; hence two runs that select the same set of names return the
same list. -/
theorem getAllClustersForUpgrade_sorted_union (listing : ClusterListing)
    (clusterGroupUpgrade : ClusterGroupUpgrade) (clusters : List String)
    (h : getAllClustersForUpgrade listing clusterGroupUpgrade = .ok clusters) :
    clusters.Sorted stringLt ∧
    (∀ name, name ∈ clusters ↔ SelectedCluster listing clusterGroupUpgrade name) ∧
    (∀ (listing2 : ClusterListing) (cgu2 : ClusterGroupUpgrade) (clusters2 : List String),
      getAllClustersForUpgrade listing2 cgu2 = .ok clusters2 →
      (∀ name, SelectedCluster listing2 cgu2 name ↔
        SelectedCluster listing clusterGroupUpgrade name) →
      clusters2 = clusters) := by
  obtain ⟨hs, hm⟩ := getAllClustersForUpgrade_spec listing clusterGroupUpgrade clusters h
  refine ⟨hs, hm, ?_⟩
  intro listing2 cgu2 clusters2 h2 hsame
  obtain ⟨hs2, hm2⟩ := getAllClustersForUpgrade_spec listing2 cgu2 clusters2 h2
  apply strictly_sorted_unique clusters2 clusters hs2 hs
  intro x
  rw [hm2 x, hm x]
  exact hsame x

theorem getAllClustersForUpgrade_sorted_union_witness :
    getAllClustersForUpgrade exampleListing exampleSelectors = .ok ["a", "b", "c", "d"] ∧
    List.Sorted stringLt ["a", "b", "c", "d"] ∧
    (∀ name, name ∈ ["a", "b", "c", "d"] ↔ SelectedCluster exampleListing exampleSelectors name) :=
  ⟨by rfl,
    (getAllClustersForUpgrade_sorted_union exampleListing exampleSelectors ["a", "b", "c", "d"]
      (by rfl)).1,
    (getAllClustersForUpgrade_sorted_union exampleListing exampleSelectors ["a", "b", "c", "d"]
      (by rfl)).2.1⟩

/-! ### The validator -/

theorem managedClusterLoop_none (getManagedCluster : String → Option Fault)
    (clusters : List String) :
    managedClusterLoop getManagedCluster clusters = none ↔
      ∀ cluster ∈ clusters, getManagedCluster cluster = none := by
  induction clusters with
  | nil => simp [managedClusterLoop]
  | cons c rest ih =>
    unfold managedClusterLoop
    cases hc : getManagedCluster c with
    | none => simp [ih, hc]
    | some err => simp [hc]

theorem foundCanary_iff (canary : String) (clusters : List String) :
    foundCanary canary clusters = true ↔ canary ∈ clusters := by
  induction clusters with
  | nil => simp [foundCanary]
  | cons c rest ih =>
    unfold foundCanary
    by_cases h : canary = c
    · simp [h]
    · simp [h, ih]

theorem canaryInClustersLoop_none (clusters canaries : List String) :
    canaryInClustersLoop clusters canaries = none ↔ ∀ canary ∈ canaries, canary ∈ clusters := by
  induction canaries with
  | nil => simp [canaryInClustersLoop]
  | cons c rest ih =>
    unfold canaryInClustersLoop
    by_cases h : foundCanary c clusters = true
    · have hc := (foundCanary_iff c clusters).mp h
      simp [h, ih, hc]
    · have hc : c ∉ clusters := fun hin => h ((foundCanary_iff c clusters).mpr hin)
      simp [h, hc]

/-- The object that `validateCR` leaves when it returns without error. -/
theorem validateCR_ok (api : ValidationApi) (cgu : ClusterGroupUpgrade)
    (clusters : List String) (hget : getAllClustersForUpgrade api.listing cgu = .ok clusters)
    (hok : (validateCR api cgu).2.2 = none) :
    (validateCR api cgu).1.status.computedMaxConcurrency = newMaxConcurrency cgu clusters := by
  unfold validateCR at hok ⊢
  simp only [hget] at hok ⊢
  cases h1 : managedClusterLoop api.getManagedCluster clusters with
  | some err => simp [h1] at hok
  | none =>
    simp only [h1] at hok ⊢
    cases h2 : canaryInClustersLoop clusters cgu.spec.remediationStrategy.canaries with
    | some err => simp [h2] at hok
    | none =>
      simp only [h2] at hok ⊢
      by_cases hne : newMaxConcurrency cgu clusters ≠ cgu.status.computedMaxConcurrency
      · rw [if_pos hne] at hok ⊢
        cases h3 : api.updateStatus { cgu with
            status := { cgu.status with
              computedMaxConcurrency := newMaxConcurrency cgu clusters } } with
        | some err => simp [h3] at hok
        | none => simp [h3]
      · rw [if_neg hne]
        simp only [ne_eq, not_not] at hne
        exact hne.symm

/-- The counterexample to claim C12: on the empty target set a successful `validateCR` leaves
`computedMaxConcurrency` at 0, while the claimed value is 1. -/
theorem validateCR_empty_target_set :
    getAllClustersForUpgrade exampleValidation.listing exampleNoClusters = .ok [] ∧
    (validateCR exampleValidation exampleNoClusters).2.2 = none ∧
    (validateCR exampleValidation exampleNoClusters).1.status.computedMaxConcurrency = 0 ∧
    specMaxConcurrency exampleNoClusters.spec.remediationStrategy.maxConcurrency
      ([] : List String).length = 1 := by
  refine ⟨by rfl, by rfl, by rfl, by decide⟩

/-- Claim C12 (amended): when the target set resolves to `clusters`, a successful `validateCR`
leaves `status.computedMaxConcurrency` equal to `min(spec.maxConcurrency, |clusters|)`, where a
spec value of at most 0 is treated as `|clusters|`; this is the claimed value
`max(1, min(spec.maxConcurrency, |clusters|))` whenever the target set is not empty, and it is
0 for the empty target set. -/
theorem validateCR_computedMaxConcurrency (api : ValidationApi)
    (clusterGroupUpgrade : ClusterGroupUpgrade) (clusters : List String)
    (hget : getAllClustersForUpgrade api.listing clusterGroupUpgrade = .ok clusters)
    (hok : (validateCR api clusterGroupUpgrade).2.2 = none) :
    (validateCR api clusterGroupUpgrade).1.status.computedMaxConcurrency =
      min (if clusterGroupUpgrade.spec.remediationStrategy.maxConcurrency ≤ 0 then
            (clusters.length : Int)
          else clusterGroupUpgrade.spec.remediationStrategy.maxConcurrency) clusters.length ∧
    (clusters ≠ [] →
      (validateCR api clusterGroupUpgrade).1.status.computedMaxConcurrency =
        specMaxConcurrency clusterGroupUpgrade.spec.remediationStrategy.maxConcurrency
          clusters.length) ∧
    (clusters = [] →
      (validateCR api clusterGroupUpgrade).1.status.computedMaxConcurrency = 0) := by
  rw [validateCR_ok api clusterGroupUpgrade clusters hget hok]
  unfold newMaxConcurrency specMaxConcurrency
  have hlen : clusters ≠ [] → (1 : Int) ≤ clusters.length := by
    intro hne
    have := List.length_pos.mpr hne
    omega
  refine ⟨?_, ?_, ?_⟩
  · split_ifs <;> omega
  · intro hne
    have := hlen hne
    split_ifs <;> omega
  · intro he
    subst he
    simp only [List.length_nil, Nat.cast_zero]
    split_ifs <;> omega

theorem validateCR_computedMaxConcurrency_witness :
    (validateCR exampleValidation exampleTwoClusters).1.status.computedMaxConcurrency =
      min (if exampleTwoClusters.spec.remediationStrategy.maxConcurrency ≤ 0 then
            ((["a", "d"] : List String).length : Int)
          else exampleTwoClusters.spec.remediationStrategy.maxConcurrency)
        (["a", "d"] : List String).length :=
  (validateCR_computedMaxConcurrency exampleValidation exampleTwoClusters ["a", "d"]
    (by rfl) (by rfl)).1

/-- The counterexample to claim C14: every target cluster is a ManagedCluster and there is no
canary, yet `validateCR` returns an error, the error of the status update, and the object it
leaves has a new `computedMaxConcurrency`. -/
theorem validateCR_update_error :
    getAllClustersForUpgrade exampleValidationConflict.listing exampleTwoClusters =
      .ok ["a", "d"] ∧
    (∀ cluster ∈ ["a", "d"], exampleValidationConflict.getManagedCluster cluster = none) ∧
    (∀ canary ∈ exampleTwoClusters.spec.remediationStrategy.canaries, canary ∈ ["a", "d"]) ∧
    (validateCR exampleValidationConflict exampleTwoClusters).2.2 = some (.error "conflict") ∧
    (validateCR exampleValidationConflict exampleTwoClusters).1.status.computedMaxConcurrency =
      2 ∧
    exampleTwoClusters.status.computedMaxConcurrency = 0 := by
  refine ⟨by rfl, by decide, by decide, by rfl, by rfl, by rfl⟩

/-- Claim C14 (amended): when the target set resolves to `clusters`, `validateCR` returns an
error if and only if some target cluster is not read as a ManagedCluster, or some spec canary is
not in the target set, or the new `computedMaxConcurrency` differs from the one in the status
and the status update fails; in the first two cases the object is left unchanged, and in every
case of an error the flag `reconcile` is false. -/
theorem validateCR_error_iff (api : ValidationApi) (clusterGroupUpgrade : ClusterGroupUpgrade)
    (clusters : List String)
    (hget : getAllClustersForUpgrade api.listing clusterGroupUpgrade = .ok clusters) :
    ((validateCR api clusterGroupUpgrade).2.2 ≠ none ↔
      (∃ cluster ∈ clusters, api.getManagedCluster cluster ≠ none) ∨
      (∃ canary ∈ clusterGroupUpgrade.spec.remediationStrategy.canaries, canary ∉ clusters) ∨
      (newMaxConcurrency clusterGroupUpgrade clusters ≠
          clusterGroupUpgrade.status.computedMaxConcurrency ∧
        api.updateStatus
          { clusterGroupUpgrade with
            status := { clusterGroupUpgrade.status with
              computedMaxConcurrency := newMaxConcurrency clusterGroupUpgrade clusters } } ≠
          none)) ∧
    ((∃ cluster ∈ clusters, api.getManagedCluster cluster ≠ none) ∨
      (∃ canary ∈ clusterGroupUpgrade.spec.remediationStrategy.canaries, canary ∉ clusters) →
      (validateCR api clusterGroupUpgrade).1 = clusterGroupUpgrade ∧
      (validateCR api clusterGroupUpgrade).2.2 ≠ none) ∧
    ((validateCR api clusterGroupUpgrade).2.2 ≠ none →
      (validateCR api clusterGroupUpgrade).2.1 = false) := by
  have hm := managedClusterLoop_none api.getManagedCluster clusters
  have hc := canaryInClustersLoop_none clusters
    clusterGroupUpgrade.spec.remediationStrategy.canaries
  unfold validateCR
  simp only [hget]
  cases h1 : managedClusterLoop api.getManagedCluster clusters with
  | some err =>
    have hex : ∃ cluster ∈ clusters, api.getManagedCluster cluster ≠ none := by
      by_contra hno
      push_neg at hno
      have := hm.mpr hno
      rw [h1] at this
      exact absurd this (by simp)
    exact ⟨⟨fun _ => Or.inl hex, fun _ => by simp⟩, fun _ => ⟨rfl, by simp⟩, fun _ => rfl⟩
  | none =>
    have hall := hm.mp h1
    have hno1 : ¬ ∃ cluster ∈ clusters, api.getManagedCluster cluster ≠ none := by
      rintro ⟨c, hcm, hne⟩
      exact hne (hall c hcm)
    simp only []
    cases h2 : canaryInClustersLoop clusters
        clusterGroupUpgrade.spec.remediationStrategy.canaries with
    | some err =>
      have hex : ∃ canary ∈ clusterGroupUpgrade.spec.remediationStrategy.canaries,
          canary ∉ clusters := by
        by_contra hno
        push_neg at hno
        have := hc.mpr hno
        rw [h2] at this
        exact absurd this (by simp)
      exact ⟨⟨fun _ => Or.inr (Or.inl hex), fun _ => by simp⟩, fun _ => ⟨rfl, by simp⟩,
        fun _ => rfl⟩
    | none =>
      have hall2 := hc.mp h2
      have hno2 : ¬ ∃ canary ∈ clusterGroupUpgrade.spec.remediationStrategy.canaries,
          canary ∉ clusters := by
        rintro ⟨c, hcm, hne⟩
        exact hne (hall2 c hcm)
      have hno : ¬ ((∃ cluster ∈ clusters, api.getManagedCluster cluster ≠ none) ∨
          (∃ canary ∈ clusterGroupUpgrade.spec.remediationStrategy.canaries,
            canary ∉ clusters)) := by
        rintro (h | h)
        · exact hno1 h
        · exact hno2 h
      simp only []
      by_cases hne : newMaxConcurrency clusterGroupUpgrade clusters ≠
          clusterGroupUpgrade.status.computedMaxConcurrency
      · rw [if_pos hne]
        cases h3 : api.updateStatus { clusterGroupUpgrade with
            status := { clusterGroupUpgrade.status with
              computedMaxConcurrency := newMaxConcurrency clusterGroupUpgrade clusters } } with
        | some err =>
          refine ⟨⟨fun _ => Or.inr (Or.inr ⟨hne, by simp⟩), fun _ => by simp⟩,
            fun h => absurd h hno, fun _ => rfl⟩
        | none =>
          refine ⟨⟨fun h => absurd rfl h, ?_⟩, fun h => absurd h hno, fun h => absurd rfl h⟩
          rintro (h | h | h)
          · exact absurd h hno1
          · exact absurd h hno2
          · exact absurd rfl h.2
      · rw [if_neg hne]
        refine ⟨⟨fun h => absurd rfl h, ?_⟩, fun h => absurd h hno, fun h => absurd rfl h⟩
        rintro (h | h | h)
        · exact absurd h hno1
        · exact absurd h hno2
        · exact absurd h.1 hne

theorem validateCR_error_iff_witness :
    (validateCR exampleValidation
      { exampleTwoClusters with
        spec := { exampleTwoClusters.spec with clusters := ["x"] } }).2.2 ≠ none :=
  ((validateCR_error_iff exampleValidation
    { exampleTwoClusters with spec := { exampleTwoClusters.spec with clusters := ["x"] } }
    ["x"] (by rfl)).2.1 (Or.inl ⟨"x", by decide, by decide⟩)).2

/-! ### Blocking CRs -/

theorem notCompletedConditionsLoop_mem (name : String) (conditions : List Condition)
    (acc : List String) (x : String) :
    x ∈ notCompletedConditionsLoop name conditions acc ↔
      x ∈ acc ∨ (x = name ∧ ∃ condition ∈ conditions, condition.reason ≠ "UpgradeCompleted") := by
  induction conditions generalizing acc with
  | nil => simp [notCompletedConditionsLoop]
  | cons c rest ih =>
    unfold notCompletedConditionsLoop
    by_cases h : c.reason ≠ "UpgradeCompleted"
    · rw [if_pos h, ih]
      simp only [List.mem_append, List.mem_singleton]
      simp only [List.mem_cons]
      constructor
      · rintro ((hx | hx) | ⟨hx, c2, hc2, hr⟩)
        · exact Or.inl hx
        · exact Or.inr ⟨hx, c, Or.inl rfl, h⟩
        · exact Or.inr ⟨hx, c2, Or.inr hc2, hr⟩
      · rintro (hx | ⟨hx, c2, hc2, hr⟩)
        · exact Or.inl (Or.inl hx)
        · exact Or.inl (Or.inr hx)
    · rw [if_neg h, ih]
      simp only [List.mem_cons]
      constructor
      · rintro (hx | ⟨hx, c2, hc2, hr⟩)
        · exact Or.inl hx
        · exact Or.inr ⟨hx, c2, Or.inr hc2, hr⟩
      · rintro (hx | ⟨hx, c2, hc2 | hc2, hr⟩)
        · exact Or.inl hx
        · subst hc2
          exact absurd hr h
        · exact Or.inr ⟨hx, c2, hc2, hr⟩

theorem blockingCRsLoop_spec (getCGU : BlockingCR → GetResult BlockingCGU)
    (blockingCRs : List BlockingCR) (nc0 miss0 : List String)
    (hread : ∀ blockingCR ∈ blockingCRs, ∀ err, getCGU blockingCR ≠ .failed err) :
    ∃ notCompleted missing, blockingCRsLoop getCGU blockingCRs nc0 miss0 =
        .ok (notCompleted, missing) ∧
      (∀ name, name ∈ missing ↔ name ∈ miss0 ∨
        ∃ blockingCR ∈ blockingCRs, blockingCR.name = name ∧ getCGU blockingCR = .notFound) ∧
      (∀ name, name ∈ notCompleted ↔ name ∈ nc0 ∨
        ∃ blockingCR ∈ blockingCRs, ∃ cgu, getCGU blockingCR = .found cgu ∧ cgu.name = name ∧
          NotCompletedCGU cgu) := by
  induction blockingCRs generalizing nc0 miss0 with
  | nil =>
    exact ⟨nc0, miss0, rfl, by simp, by simp⟩
  | cons ref rest ih =>
    have hrest : ∀ blockingCR ∈ rest, ∀ err, getCGU blockingCR ≠ .failed err :=
      fun b hb => hread b (List.mem_cons_of_mem _ hb)
    unfold blockingCRsLoop
    cases hg : getCGU ref with
    | failed err => exact absurd hg (hread ref (List.mem_cons_self _ _) err)
    | notFound =>
      simp only []
      obtain ⟨nc, miss, hrun, hmiss, hnc⟩ := ih nc0 (miss0 ++ [ref.name]) hrest
      refine ⟨nc, miss, hrun, ?_, ?_⟩
      · intro name
        rw [hmiss name]
        simp only [List.mem_append, List.mem_singleton]
        simp only [List.mem_cons]
        constructor
        · rintro ((hx | hx) | ⟨b, hb, hn, hgb⟩)
          · exact Or.inl hx
          · exact Or.inr ⟨ref, Or.inl rfl, hx.symm, hg⟩
          · exact Or.inr ⟨b, Or.inr hb, hn, hgb⟩
        · rintro (hx | ⟨b, hb | hb, hn, hgb⟩)
          · exact Or.inl (Or.inl hx)
          · subst hb
            exact Or.inl (Or.inr hn.symm)
          · exact Or.inr ⟨b, hb, hn, hgb⟩
      · intro name
        rw [hnc name]
        simp only [List.mem_cons]
        constructor
        · rintro (hx | ⟨b, hb, cgu, hgb, hn, hnot⟩)
          · exact Or.inl hx
          · exact Or.inr ⟨b, Or.inr hb, cgu, hgb, hn, hnot⟩
        · rintro (hx | ⟨b, hb | hb, cgu, hgb, hn, hnot⟩)
          · exact Or.inl hx
          · subst hb
            rw [hg] at hgb
            exact absurd hgb (by simp)
          · exact Or.inr ⟨b, hb, cgu, hgb, hn, hnot⟩
    | found obj =>
      simp only []
      have hmissing : ∀ (miss : List String) (name : String),
          (name ∈ miss ↔ name ∈ miss0 ∨
            ∃ blockingCR ∈ rest, blockingCR.name = name ∧ getCGU blockingCR = .notFound) →
          (name ∈ miss ↔ name ∈ miss0 ∨
            ∃ blockingCR ∈ ref :: rest, blockingCR.name = name ∧
              getCGU blockingCR = .notFound) := by
        intro miss name hm
        rw [hm]
        simp only [List.mem_cons]
        constructor
        · rintro (hx | ⟨b, hb, hn, hgb⟩)
          · exact Or.inl hx
          · exact Or.inr ⟨b, Or.inr hb, hn, hgb⟩
        · rintro (hx | ⟨b, hb | hb, hn, hgb⟩)
          · exact Or.inl hx
          · subst hb
            rw [hg] at hgb
            exact absurd hgb (by simp)
          · exact Or.inr ⟨b, hb, hn, hgb⟩
      cases hc : obj.conditions with
      | none =>
        simp only []
        obtain ⟨nc, miss, hrun, hmiss, hnc⟩ := ih (nc0 ++ [obj.name]) miss0 hrest
        refine ⟨nc, miss, hrun, fun name => hmissing miss name (hmiss name), ?_⟩
        intro name
        rw [hnc name]
        simp only [List.mem_append, List.mem_singleton]
        simp only [List.mem_cons]
        constructor
        · rintro ((hx | hx) | ⟨b, hb, cgu, hgb, hn, hnot⟩)
          · exact Or.inl hx
          · exact Or.inr ⟨ref, Or.inl rfl, obj, hg, hx.symm, Or.inl hc⟩
          · exact Or.inr ⟨b, Or.inr hb, cgu, hgb, hn, hnot⟩
        · rintro (hx | ⟨b, hb | hb, cgu, hgb, hn, hnot⟩)
          · exact Or.inl (Or.inl hx)
          · subst hb
            rw [hg] at hgb
            simp only [GetResult.found.injEq] at hgb
            subst hgb
            exact Or.inl (Or.inr hn.symm)
          · exact Or.inr ⟨b, hb, cgu, hgb, hn, hnot⟩
      | some conditions =>
        simp only []
        obtain ⟨nc, miss, hrun, hmiss, hnc⟩ :=
          ih (notCompletedConditionsLoop obj.name conditions nc0) miss0 hrest
        refine ⟨nc, miss, hrun, fun name => hmissing miss name (hmiss name), ?_⟩
        intro name
        rw [hnc name, notCompletedConditionsLoop_mem]
        simp only [List.mem_cons]
        constructor
        · rintro ((hx | ⟨hx, c, hcm, hr⟩) | ⟨b, hb, cgu, hgb, hn, hnot⟩)
          · exact Or.inl hx
          · exact Or.inr ⟨ref, Or.inl rfl, obj, hg, hx.symm,
              Or.inr ⟨conditions, hc, c, hcm, hr⟩⟩
          · exact Or.inr ⟨b, Or.inr hb, cgu, hgb, hn, hnot⟩
        · rintro (hx | ⟨b, hb | hb, cgu, hgb, hn, hnot⟩)
          · exact Or.inl (Or.inl hx)
          · subst hb
            rw [hg] at hgb
            simp only [GetResult.found.injEq] at hgb
            subst hgb
            rcases hnot with hnil | ⟨conds, hconds, c, hcm, hr⟩
            · rw [hc] at hnil
              exact absurd hnil (by simp)
            · rw [hc] at hconds
              simp only [Option.some.injEq] at hconds
              subst hconds
              exact Or.inl (Or.inr ⟨hn.symm, c, hcm, hr⟩)
          · exact Or.inr ⟨b, hb, cgu, hgb, hn, hnot⟩

/-- Claim C18: when no read of a blocking CR fails with an error other than not-found,
`blockingCRsNotCompleted` returns two lists: a name is in the missing list if and only if it
is the name of a reference of `spec.blockingCRs` whose object does not exist, and a name is in
the not-completed list if and only if it is the name of an existing referenced object whose
`status.conditions` is nil or has a condition with a reason other than `UpgradeCompleted`. -/
theorem blockingCRsNotCompleted_lists (getCGU : BlockingCR → GetResult BlockingCGU)
    (clusterGroupUpgrade : ClusterGroupUpgrade)
    (hread : ∀ blockingCR ∈ clusterGroupUpgrade.spec.blockingCRs, ∀ err,
      getCGU blockingCR ≠ .failed err) :
    ∃ notCompleted missing,
      blockingCRsNotCompleted getCGU clusterGroupUpgrade = .ok (notCompleted, missing) ∧
      (∀ name, name ∈ missing ↔
        ∃ blockingCR ∈ clusterGroupUpgrade.spec.blockingCRs,
          blockingCR.name = name ∧ getCGU blockingCR = .notFound) ∧
      (∀ name, name ∈ notCompleted ↔
        ∃ blockingCR ∈ clusterGroupUpgrade.spec.blockingCRs, ∃ cgu,
          getCGU blockingCR = .found cgu ∧ cgu.name = name ∧
            (cgu.conditions = none ∨
              ∃ conditions, cgu.conditions = some conditions ∧
                ∃ condition ∈ conditions, condition.reason ≠ "UpgradeCompleted")) := by
  obtain ⟨nc, miss, hrun, hmiss, hnc⟩ :=
    blockingCRsLoop_spec getCGU clusterGroupUpgrade.spec.blockingCRs [] [] hread
  refine ⟨nc, miss, hrun, ?_, ?_⟩
  · intro name
    rw [hmiss name]
    simp
  · intro name
    rw [hnc name]
    simp only [List.not_mem_nil, false_or]
    rfl

theorem blockingCRsNotCompleted_lists_witness :
    blockingCRsNotCompleted exampleBlockingCGUs exampleBlocked =
      .ok (["busy", "fresh"], ["gone"]) ∧
    ∃ notCompleted missing,
      blockingCRsNotCompleted exampleBlockingCGUs exampleBlocked = .ok (notCompleted, missing) ∧
      (∀ name, name ∈ missing ↔
        ∃ blockingCR ∈ exampleBlocked.spec.blockingCRs,
          blockingCR.name = name ∧ exampleBlockingCGUs blockingCR = .notFound) ∧
      (∀ name, name ∈ notCompleted ↔
        ∃ blockingCR ∈ exampleBlocked.spec.blockingCRs, ∃ cgu,
          exampleBlockingCGUs blockingCR = .found cgu ∧ cgu.name = name ∧
            (cgu.conditions = none ∨
              ∃ conditions, cgu.conditions = some conditions ∧
                ∃ condition ∈ conditions, condition.reason ≠ "UpgradeCompleted")) :=
  ⟨by rfl, blockingCRsNotCompleted_lists exampleBlockingCGUs exampleBlocked (by
    intro blockingCR hmem err
    simp only [exampleBlocked, List.mem_cons, List.mem_singleton, List.not_mem_nil,
      or_false] at hmem
    rcases hmem with h | h | h | h <;> subst h <;> simp [exampleBlockingCGUs])⟩

/-! ### Placement rules -/

theorem isCurrentClusterAlreadyPresent_iff (clusterName : String) (names : List String) :
    isCurrentClusterAlreadyPresent clusterName names = true ↔ clusterName ∈ names := by
  induction names with
  | nil => simp [isCurrentClusterAlreadyPresent]
  | cons n rest ih =>
    unfold isCurrentClusterAlreadyPresent
    by_cases h : n = clusterName
    · simp [h]
    · have h2 : ¬ clusterName = n := fun e => h e.symm
      simp [h, h2, ih]

theorem clusterNamesLoop_eq (prClusterNames clusterNames : List String)
    (updated : List ClusterEntry) :
    clusterNamesLoop prClusterNames clusterNames updated =
      updated ++ (clusterNames.filter
        (fun c => !isCurrentClusterAlreadyPresent c prClusterNames)).map
          (fun c => ClusterEntry.object [("name", FieldValue.str c)]) := by
  induction clusterNames generalizing updated with
  | nil => simp [clusterNamesLoop]
  | cons c rest ih =>
    unfold clusterNamesLoop
    by_cases h : isCurrentClusterAlreadyPresent c prClusterNames = true
    · rw [if_pos h, ih, List.filter_cons_of_neg (by simp [h])]
    · rw [if_neg h, ih, List.filter_cons_of_pos (by simp [h])]
      simp

theorem currentClustersLoop_ok (entries updated : List ClusterEntry) (names : List String)
    (hwell : ∀ e ∈ entries, (entryName e).isSome = true) :
    currentClustersLoop entries updated names =
      .ok (updated ++ entries, names ++ entryNames entries) := by
  induction entries generalizing updated names with
  | nil => simp [currentClustersLoop, entryNames]
  | cons e rest ih =>
    have he := hwell e (List.mem_cons_self _ _)
    have hrest : ∀ e ∈ rest, (entryName e).isSome = true :=
      fun x hx => hwell x (List.mem_cons_of_mem _ hx)
    unfold currentClustersLoop
    cases e with
    | other text => simp [entryName] at he
    | object fields =>
      simp only []
      unfold entryName at he
      cases hf : mapGet? fields "name" with
      | none => simp [hf] at he
      | some v =>
        cases v with
        | other text => simp [hf] at he
        | str name =>
          simp only []
          rw [ih _ _ hrest]
          have hn : entryName (ClusterEntry.object fields) = some name := by
            simp [entryName, hf]
          simp [entryNames, List.filterMap_cons, hn]

theorem entryNames_append (a b : List ClusterEntry) :
    entryNames (a ++ b) = entryNames a ++ entryNames b := by
  simp [entryNames, List.filterMap_append]

theorem entryNames_new (names : List String) :
    entryNames (names.map (fun c => ClusterEntry.object [("name", FieldValue.str c)])) =
      names := by
  induction names with
  | nil => rfl
  | cons n rest ih =>
    unfold entryNames at ih ⊢
    rw [List.map_cons, List.filterMap_cons]
    have : entryName (ClusterEntry.object [("name", FieldValue.str n)]) = some n := by
      simp [entryName, mapGet?]
    simp only [this]
    rw [ih]

/-- The list written for a current list, absent or present, whose entries are well formed, in
closed form. -/
theorem updatedClusters_entries (current : ClustersField) (entries : List ClusterEntry)
    (clusterNames : List String) (hcurrent : currentEntries current = some entries)
    (hwell : ∀ e ∈ entries, (entryName e).isSome = true) :
    updatedClusters current clusterNames =
      .ok (entries ++ (clusterNames.filter
        (fun c => !isCurrentClusterAlreadyPresent c (entryNames entries))).map
          (fun c => ClusterEntry.object [("name", FieldValue.str c)])) := by
  cases current with
  | other text => simp [currentEntries] at hcurrent
  | absent =>
    simp only [currentEntries, Option.some.injEq] at hcurrent
    subst hcurrent
    unfold updatedClusters
    simp only []
    rw [clusterNamesLoop_eq]
    rfl
  | list l =>
    simp only [currentEntries, Option.some.injEq] at hcurrent
    subst hcurrent
    unfold updatedClusters
    simp only []
    rw [currentClustersLoop_ok l [] [] hwell]
    simp only [List.nil_append]
    rw [clusterNamesLoop_eq]

theorem currentEntries_storedClusters (updated : List ClusterEntry) :
    currentEntries (storedClusters updated) = some updated := by
  cases updated with
  | nil => rfl
  | cons e rest => rfl

/-- Claim C20: for every PlacementRule whose cluster list `L` (the empty list when the rule has
no `clusters` value, as after its creation or a cleanup) has entries that are objects with a
string name, and every list `C` of cluster names, `updatePlacementRuleWithClusters` passes to
the update a rule whose cluster list starts with the entries of `L`, unchanged and in order, has
as names exactly the names of `L` and the names of `C`, and is written again unchanged when the
update is applied to the written rule with the same `C`; the error returned is that of the
update. -/
theorem updatePlacementRuleWithClusters_idempotent (api : PlacementRuleApi)
    (clusterGroupUpgrade : ClusterGroupUpgrade) (prName : String) (placementRule : PlacementRule)
    (placementRuleSpec : PlacementRuleSpec) (L : List ClusterEntry) (C : List String)
    (hget : api.get prName clusterGroupUpgrade.nameSpace = .ok placementRule)
    (hspec : placementRule.spec = some placementRuleSpec)
    (hclusters : currentEntries placementRuleSpec.clusters = some L)
    (hwell : ∀ e ∈ L, (entryName e).isSome = true) :
    ∃ (written : List ClusterEntry) (writtenRule : PlacementRule),
      updatedClusters placementRuleSpec.clusters C = .ok written ∧
      writtenRule = { placementRule with
        spec := some { placementRuleSpec with
          clusters := storedClusters written
          clusterReplicas := none } } ∧
      updatePlacementRuleWithClusters api clusterGroupUpgrade C prName =
        api.update writtenRule ∧
      currentEntries (storedClusters written) = some written ∧
      L <+: written ∧
      (∀ name, name ∈ entryNames written ↔ name ∈ entryNames L ∨ name ∈ C) ∧
      updatedClusters (storedClusters written) C = .ok written ∧
      updatedPlacementRule writtenRule C = .ok writtenRule := by
  have hrun := updatedClusters_entries placementRuleSpec.clusters L C hclusters hwell
  have hwell2 : ∀ e ∈ L ++ (C.filter
      (fun c => !isCurrentClusterAlreadyPresent c (entryNames L))).map
        (fun c => ClusterEntry.object [("name", FieldValue.str c)]),
      (entryName e).isSome = true := by
    intro e he
    rcases List.mem_append.mp he with h | h
    · exact hwell e h
    · obtain ⟨c, _, hc⟩ := List.mem_map.mp h
      rw [← hc]
      simp [entryName, mapGet?]
  have hnone : C.filter (fun c => !isCurrentClusterAlreadyPresent c
      (entryNames (L ++ (C.filter
        (fun c => !isCurrentClusterAlreadyPresent c (entryNames L))).map
          (fun c => ClusterEntry.object [("name", FieldValue.str c)])))) = [] := by
    rw [List.filter_eq_nil_iff]
    intro c hc
    rw [entryNames_append, entryNames_new]
    have hin : c ∈ entryNames L ++ C.filter
        (fun c => !isCurrentClusterAlreadyPresent c (entryNames L)) := by
      by_cases hp : c ∈ entryNames L
      · exact List.mem_append_left _ hp
      · apply List.mem_append_right
        rw [List.mem_filter]
        refine ⟨hc, ?_⟩
        have : isCurrentClusterAlreadyPresent c (entryNames L) ≠ true :=
          fun hh => hp ((isCurrentClusterAlreadyPresent_iff c _).mp hh)
        simp [this]
    have := (isCurrentClusterAlreadyPresent_iff c _).mpr hin
    simp [this]
  have htwice : updatedClusters (storedClusters (L ++ (C.filter
      (fun c => !isCurrentClusterAlreadyPresent c (entryNames L))).map
        (fun c => ClusterEntry.object [("name", FieldValue.str c)]))) C =
      .ok (L ++ (C.filter
        (fun c => !isCurrentClusterAlreadyPresent c (entryNames L))).map
          (fun c => ClusterEntry.object [("name", FieldValue.str c)])) := by
    rw [updatedClusters_entries _ _ C (currentEntries_storedClusters _) hwell2, hnone]
    simp
  refine ⟨_, _, hrun, rfl, ?_, currentEntries_storedClusters _, List.prefix_append _ _, ?_,
    htwice, ?_⟩
  · unfold updatePlacementRuleWithClusters updatedPlacementRule
    simp only [hget, hspec, hrun]
  · intro name
    rw [entryNames_append, entryNames_new, List.mem_append, List.mem_filter]
    constructor
    · rintro (h | ⟨h, _⟩)
      · exact Or.inl h
      · exact Or.inr h
    · rintro (h | h)
      · exact Or.inl h
      · by_cases hp : name ∈ entryNames L
        · exact Or.inl hp
        · refine Or.inr ⟨h, ?_⟩
          have : isCurrentClusterAlreadyPresent name (entryNames L) ≠ true :=
            fun hh => hp ((isCurrentClusterAlreadyPresent_iff name _).mp hh)
          simp [this]
  · unfold updatedPlacementRule
    simp only [htwice]

theorem updatePlacementRuleWithClusters_idempotent_witness :
    (updatedClusters (.list exampleEntries) ["c", "a", "c"] =
        .ok (exampleEntries ++
          [.object [("name", .str "c")], .object [("name", .str "c")]]) ∧
      updatedClusters .absent ["c", "a"] =
        .ok [.object [("name", .str "c")], .object [("name", .str "a")]]) ∧
    (∃ (written : List ClusterEntry) (writtenRule : PlacementRule),
      updatedClusters ClustersField.absent ["c", "a"] = .ok written ∧
      writtenRule = { name := "rule", nameSpace := ""
                      spec := some { clusters := storedClusters written
                                     clusterReplicas := none } } ∧
      updatePlacementRuleWithClusters exampleFreshPlacementRules {} ["c", "a"] "rule" =
        exampleFreshPlacementRules.update writtenRule ∧
      currentEntries (storedClusters written) = some written ∧
      [] <+: written ∧
      (∀ name, name ∈ entryNames written ↔ name ∈ entryNames [] ∨ name ∈ ["c", "a"]) ∧
      updatedClusters (storedClusters written) ["c", "a"] = .ok written ∧
      updatedPlacementRule writtenRule ["c", "a"] = .ok writtenRule) ∧
    (∃ (written : List ClusterEntry) (writtenRule : PlacementRule),
      updatedClusters (ClustersField.list exampleEntries) ["c", "a", "c"] = .ok written ∧
      writtenRule = { name := "rule", nameSpace := ""
                      spec := some { clusters := storedClusters written
                                     clusterReplicas := none } } ∧
      updatePlacementRuleWithClusters examplePlacementRules {} ["c", "a", "c"] "rule" =
        examplePlacementRules.update writtenRule ∧
      currentEntries (storedClusters written) = some written ∧
      exampleEntries <+: written ∧
      (∀ name, name ∈ entryNames written ↔
        name ∈ entryNames exampleEntries ∨ name ∈ ["c", "a", "c"]) ∧
      updatedClusters (storedClusters written) ["c", "a", "c"] = .ok written ∧
      updatedPlacementRule writtenRule ["c", "a", "c"] = .ok writtenRule) :=
  ⟨⟨by rfl, by rfl⟩,
    updatePlacementRuleWithClusters_idempotent exampleFreshPlacementRules {} "rule"
      { name := "rule", nameSpace := "", spec := some {} } {} [] ["c", "a"]
      (by rfl) (by rfl) (by rfl) (by simp),
    updatePlacementRuleWithClusters_idempotent examplePlacementRules {} "rule"
      { name := "rule", nameSpace := ""
        spec := some { clusters := .list exampleEntries, clusterReplicas := some 2 } }
      { clusters := .list exampleEntries, clusterReplicas := some 2 } exampleEntries
      ["c", "a", "c"] (by rfl) (by rfl) (by rfl) (by decide)⟩

/-! ### The dispatcher -/

theorem findStatusCondition_set_phase (conditions : List Condition) (newCondition : Condition) :
    (FindStatusCondition (SetStatusCondition conditions newCondition) newCondition.type).map
      (fun c => (c.status, c.reason)) = some (newCondition.status, newCondition.reason) := by
  induction conditions with
  | nil => simp [SetStatusCondition, FindStatusCondition]
  | cons c rest ih =>
    unfold SetStatusCondition
    by_cases h : c.type = newCondition.type
    · simp [h, FindStatusCondition]
    · simp [h, FindStatusCondition, ih]

theorem readyPhase_setReadyCondition (cgu : ClusterGroupUpgrade) (status : ConditionStatus)
    (reason message : String) :
    readyPhase (setReadyCondition cgu status reason message) = some (status, reason) := by
  unfold readyPhase setReadyCondition
  exact findStatusCondition_set_phase cgu.status.conditions
    { type := "Ready", status := status, reason := reason, message := message }

theorem readyPhase_of_conditions (cgu1 cgu2 : ClusterGroupUpgrade)
    (h : cgu1.status.conditions = cgu2.status.conditions) :
    readyPhase cgu1 = readyPhase cgu2 := by
  unfold readyPhase
  rw [h]

theorem readyReason_of_phase (cgu : ClusterGroupUpgrade) :
    readyReason cgu = (readyPhase cgu).map (fun p => p.2) := by
  unfold readyReason readyPhase
  cases FindStatusCondition cgu.status.conditions "Ready" <;> rfl

theorem setReadyCondition_status (cgu : ClusterGroupUpgrade) (status : ConditionStatus)
    (reason message : String) :
    (setReadyCondition cgu status reason message).status.status = cgu.status.status ∧
    (setReadyCondition cgu status reason message).status.remediationPlan =
      cgu.status.remediationPlan ∧
    (setReadyCondition cgu status reason message).spec = cgu.spec :=
  ⟨rfl, rfl, rfl⟩

theorem setResourceStatus_status (cgu : ClusterGroupUpgrade) (resources : ResourceStatus) :
    (setResourceStatus cgu resources).status.status = cgu.status.status ∧
    (setResourceStatus cgu resources).status.remediationPlan = cgu.status.remediationPlan ∧
    (setResourceStatus cgu resources).status.conditions = cgu.status.conditions ∧
    (setResourceStatus cgu resources).spec = cgu.spec :=
  ⟨rfl, rfl, rfl, rfl⟩

theorem buildRemediationPlan_status (targets : Except Fault (List String))
    (cgu planned : ClusterGroupUpgrade) (present : List Policy)
    (h : buildRemediationPlan targets cgu present = .ok planned) :
    planned.status.status = cgu.status.status ∧
    planned.status.conditions = cgu.status.conditions ∧ planned.spec = cgu.spec := by
  cases targets with
  | error err =>
    exact absurd h (by
      unfold buildRemediationPlan getClustersNonCompliantWithManagedPolicies
      simp)
  | ok all =>
    rw [buildRemediationPlan_ok] at h
    simp only [Except.ok.injEq] at h
    rw [← h]
    exact ⟨rfl, rfl, rfl⟩

theorem startBatch_status (env : Env) (cgu started : ClusterGroupUpgrade)
    (h : startBatch env cgu = .ok started) :
    started.status.conditions = cgu.status.conditions ∧
      started.status.remediationPlan = cgu.status.remediationPlan ∧
      started.status.status.startedAt = cgu.status.status.startedAt ∧
      started.status.status.completedAt = cgu.status.status.completedAt ∧
      started.status.status.currentBatch = cgu.status.status.currentBatch := by
  unfold startBatch at h
  split_ifs at h with hz
  · unfold initializeRemediationPolicyForBatch at h
    cases hb : planBatch cgu (cgu.status.status.currentBatch - 1) with
    | error err => simp [hb] at h
    | ok batch =>
      simp only [hb, Except.ok.injEq] at h
      rw [← h]
      simp
  · simp only [Except.ok.injEq] at h
    rw [← h]
    simp

theorem getNextRemediationPoliciesForBatch_status
    (g : String → String → Except Fault Policy) (cgu cgu' : ClusterGroupUpgrade) (done : Bool)
    (h : getNextRemediationPoliciesForBatch g cgu = .ok (done, cgu')) :
    cgu'.status.conditions = cgu.status.conditions ∧
      cgu'.status.remediationPlan = cgu.status.remediationPlan ∧
      cgu'.status.status.startedAt = cgu.status.status.startedAt ∧
      cgu'.status.status.completedAt = cgu.status.status.completedAt ∧
      cgu'.status.status.currentBatch = cgu.status.status.currentBatch := by
  obtain ⟨_, _, _, _, hcgu⟩ := getNextRemediationPoliciesForBatch_eq g cgu cgu' done h
  rw [hcgu]
  simp

theorem isUpgradeComplete_status (g : String → String → Except Fault Policy)
    (cgu cgu' : ClusterGroupUpgrade) (complete : Bool)
    (h : isUpgradeComplete g cgu = .ok (complete, cgu')) :
    cgu'.status.conditions = cgu.status.conditions ∧
      cgu'.status.remediationPlan = cgu.status.remediationPlan ∧
      cgu'.status.status.startedAt = cgu.status.status.startedAt ∧
      cgu'.status.status.completedAt = cgu.status.status.completedAt ∧
      cgu'.status.status.currentBatch = cgu.status.status.currentBatch := by
  obtain ⟨done, hnext, _⟩ := isUpgradeComplete_eq g cgu cgu' complete h
  exact getNextRemediationPoliciesForBatch_status g cgu cgu' done hnext

/-- What a step in phase UpgradeNotCompleted writes: the plan and the two times of the upgrade
are kept, the current batch is shown as at least 1 and moves on by at most one batch within the
plan, and the Ready condition is kept or becomes `UpgradeTimedOut` or `UpgradeCompleted`. -/
theorem reconcileUpgradeNotCompleted_written (env : Env) (before written : ClusterGroupUpgrade)
    (next : Result)
    (h : reconcileUpgradeNotCompleted env before = .updateStatus written next) :
    written.status.remediationPlan = before.status.remediationPlan ∧
    written.status.status.startedAt = before.status.status.startedAt ∧
    written.status.status.completedAt = before.status.status.completedAt ∧
    (written.status.status.currentBatch = (showFirstBatch before).status.status.currentBatch ∨
      ((showFirstBatch before).status.status.currentBatch <
          before.status.remediationPlan.length ∧
        written.status.status.currentBatch =
          (showFirstBatch before).status.status.currentBatch + 1)) ∧
    (readyPhase written = readyPhase before ∨
      readyPhase written = some (ConditionStatus.condFalse, "UpgradeTimedOut") ∨
      readyPhase written = some (ConditionStatus.condTrue, "UpgradeCompleted")) := by
  unfold reconcileUpgradeNotCompleted at h
  cases hs : startBatch env (showFirstBatch before) with
  | error err => simp [hs] at h
  | ok started =>
    simp only [hs] at h
    obtain ⟨hc1, hp1, hs1, hd1, hb1⟩ := startBatch_status env _ started hs
    obtain ⟨_, hc0, hp0, _, hs0, _, _⟩ := showFirstBatch_frame before
    have hd0 : (showFirstBatch before).status.status.completedAt =
        before.status.status.completedAt := by
      unfold showFirstBatch
      split_ifs <;> rfl
    rw [hc0] at hc1
    rw [hp0] at hp1
    rw [hs0] at hs1
    rw [hd0] at hd1
    rcases driveBatch_cases env started written _ next h with
      hw | ⟨adv, hlt, hn, hw⟩ | ⟨adv, hlt, hn, hw⟩ | ⟨adv, hge, hn, hw⟩ | ⟨adv, hge, hn, hw⟩
    · subst hw
      refine ⟨hp1, hs1, hd1, Or.inl hb1, Or.inr (Or.inl (readyPhase_setReadyCondition _ _ _ _))⟩
    · obtain ⟨hc2, hp2, hs2, hd2, hb2⟩ :=
        getNextRemediationPoliciesForBatch_status env.getPolicyByName started adv true hn
      subst hw
      refine ⟨hp2.trans hp1, hs2.trans hs1, hd2.trans hd1, Or.inr ⟨?_, ?_⟩, Or.inl ?_⟩
      · rw [← hb1, ← hp1]
        exact hlt
      · show adv.status.status.currentBatch + 1 = _
        rw [hb2, hb1]
      · exact readyPhase_of_conditions _ _ (hc2.trans hc1)
    · obtain ⟨hc2, hp2, hs2, hd2, hb2⟩ :=
        getNextRemediationPoliciesForBatch_status env.getPolicyByName started adv false hn
      rcases hw with hw | hw | hw
      · subst hw
        exact ⟨hp2.trans hp1, hs2.trans hs1, hd2.trans hd1, Or.inl (hb2.trans hb1),
          Or.inl (readyPhase_of_conditions _ _ (hc2.trans hc1))⟩
      · subst hw
        exact ⟨hp2.trans hp1, hs2.trans hs1, hd2.trans hd1, Or.inl (hb2.trans hb1),
          Or.inr (Or.inl (readyPhase_setReadyCondition _ _ _ _))⟩
      · subst hw
        refine ⟨hp2.trans hp1, hs2.trans hs1, hd2.trans hd1, ?_,
          Or.inl (readyPhase_of_conditions _ _ (hc2.trans hc1))⟩
        unfold continueAfterBatchTimeout
        simp only []
        by_cases hl : adv.status.status.currentBatch < adv.status.remediationPlan.length
        · rw [if_pos hl]
          refine Or.inr ⟨?_, ?_⟩
          · rw [← hb1, ← hb2, ← hp1, ← hp2]
            exact hl
          · rw [hb2, hb1]
        · rw [if_neg hl]
          exact Or.inl (hb2.trans hb1)
    · obtain ⟨hc2, hp2, hs2, hd2, hb2⟩ :=
        isUpgradeComplete_status env.getPolicyByName started adv true hn
      subst hw
      exact ⟨hp2.trans hp1, hs2.trans hs1, hd2.trans hd1, Or.inl (hb2.trans hb1),
        Or.inr (Or.inr (readyPhase_setReadyCondition _ _ _ _))⟩
    · obtain ⟨hc2, hp2, hs2, hd2, hb2⟩ :=
        isUpgradeComplete_status env.getPolicyByName started adv false hn
      subst hw
      exact ⟨hp2.trans hp1, hs2.trans hs1, hd2.trans hd1, Or.inl (hb2.trans hb1),
        Or.inl (readyPhase_of_conditions _ _ (hc2.trans hc1))⟩
/-- What the start of an enabled or disabled object writes: the Ready condition becomes
`CannotStart` or `UpgradeNotStarted`, or `UpgradeCompleted` on an empty plan, with
`status.status` unchanged, or it becomes `UpgradeNotCompleted` on a plan that is not empty, with
the start time set. -/
theorem enableUpgrade_written (w : World) (cgu written : ClusterGroupUpgrade) (next : Result)
    (h : enableUpgrade w cgu = .updateStatus written next) :
    written.status.remediationPlan = cgu.status.remediationPlan ∧
    ((written.status.status = cgu.status.status ∧
        (readyPhase written = some (ConditionStatus.condFalse, CannotStart) ∨
          readyPhase written = some (ConditionStatus.condFalse, "UpgradeNotStarted"))) ∨
      (written.status.status = cgu.status.status ∧ cgu.status.remediationPlan = [] ∧
        readyPhase written = some (ConditionStatus.condTrue, "UpgradeCompleted")) ∨
      (cgu.status.remediationPlan ≠ [] ∧
        readyPhase written = some (ConditionStatus.condFalse, "UpgradeNotCompleted") ∧
        written.status.status = { cgu.status.status with startedAt := w.nowStarted })) := by
  unfold enableUpgrade at h
  by_cases he : cgu.spec.enable = true
  · rw [if_pos he] at h
    cases hb : blockingCRsNotCompleted w.getBlockingCGU cgu with
    | error err => simp [hb] at h
    | ok lists =>
      obtain ⟨nc, miss⟩ := lists
      simp only [hb] at h
      by_cases hm : miss.length > 0
      · rw [if_pos hm] at h
        simp only [Outcome.updateStatus.injEq] at h
        rw [← h.1]
        exact ⟨rfl, Or.inl ⟨rfl, Or.inl (readyPhase_setReadyCondition _ _ _ _)⟩⟩
      · rw [if_neg hm] at h
        by_cases hn : nc.length > 0
        · rw [if_pos hn] at h
          simp only [Outcome.updateStatus.injEq] at h
          rw [← h.1]
          exact ⟨rfl, Or.inl ⟨rfl, Or.inl (readyPhase_setReadyCondition _ _ _ _)⟩⟩
        · rw [if_neg hn] at h
          cases ha : w.takeActionsBeforeEnable cgu with
          | some err => simp [ha] at h
          | none =>
            simp only [ha] at h
            by_cases hp : cgu.status.remediationPlan = []
            · rw [if_pos hp] at h
              simp only [Outcome.updateStatus.injEq] at h
              rw [← h.1]
              exact ⟨rfl, Or.inr (Or.inl ⟨rfl, hp, readyPhase_setReadyCondition _ _ _ _⟩)⟩
            · rw [if_neg hp] at h
              simp only [Outcome.updateStatus.injEq] at h
              rw [← h.1]
              exact ⟨rfl, Or.inr (Or.inr ⟨hp, readyPhase_setReadyCondition _ _ _ _, rfl⟩)⟩
  · rw [if_neg he] at h
    simp only [Outcome.updateStatus.injEq] at h
    rw [← h.1]
    exact ⟨rfl, Or.inl ⟨rfl, Or.inr (readyPhase_setReadyCondition _ _ _ _)⟩⟩

/-- What the start arm writes, in terms of the object before the step. -/
theorem startUpgrade_written (w : World) (before written : ClusterGroupUpgrade) (next : Result)
    (h : startUpgrade w before = .updateStatus written next) :
    (written.status.status = before.status.status ∧
        (readyPhase written = some (ConditionStatus.condFalse, CannotStart) ∨
          readyPhase written = some (ConditionStatus.condFalse, "UpgradeNotStarted"))) ∨
      (written.status.status = before.status.status ∧ written.status.remediationPlan = [] ∧
        readyPhase written = some (ConditionStatus.condTrue, "UpgradeCompleted")) ∨
      (written.status.remediationPlan ≠ [] ∧
        readyPhase written = some (ConditionStatus.condFalse, "UpgradeNotCompleted") ∧
        written.status.status = { before.status.status with startedAt := w.nowStarted }) := by
  unfold startUpgrade at h
  cases hd : w.doManagedPoliciesExist before with
  | error err => simp [hd] at h
  | ok res =>
    obtain ⟨allExist, missing, present, resources⟩ := res
    simp only [hd] at h
    by_cases ha : allExist = true
    · rw [if_pos ha] at h
      cases hb : buildRemediationPlan
          (getAllClustersForUpgrade w.listing (setResourceStatus before resources))
          (setResourceStatus before resources) present with
      | error err => simp [hb] at h
      | ok planned =>
        simp only [hb] at h
        obtain ⟨hst, _, _⟩ := buildRemediationPlan_status _ _ planned present hb
        cases hr : w.reconcileResources planned present with
        | error err => simp [hr] at h
        | ok created =>
          simp only [hr] at h
          cases hc : w.processManagedPolicyForUpgradeContent (setResourceStatus planned created)
              present with
          | error err => simp [hc] at h
          | ok content =>
            simp only [hc] at h
            obtain ⟨hplan, hcases⟩ := enableUpgrade_written w _ written next h
            have hss : (setResourceStatus (setResourceStatus planned created) content).status.status
                = before.status.status := hst
            have hpp : (setResourceStatus (setResourceStatus planned created)
                content).status.remediationPlan = planned.status.remediationPlan := rfl
            rcases hcases with ⟨h1, h2⟩ | ⟨h1, h2, h3⟩ | ⟨h1, h2, h3⟩
            · exact Or.inl ⟨h1.trans hss, h2⟩
            · exact Or.inr (Or.inl ⟨h1.trans hss, hplan.trans h2, h3⟩)
            · refine Or.inr (Or.inr ⟨?_, h2, ?_⟩)
              · rw [hplan]
                exact h1
              · rw [h3, hss]
    · rw [if_neg ha] at h
      simp only [Outcome.updateStatus.injEq] at h
      rw [← h.1]
      exact Or.inl ⟨rfl, Or.inl (readyPhase_setReadyCondition _ _ _ _)⟩

/-- What the arm for a Ready condition that is not False does. -/
theorem completeUpgrade_cases (w : World) (before : ClusterGroupUpgrade) :
    (before.status.status.completedAt ≠ 0 ∧
      completeUpgrade w before = .updateStatus before doNotRequeue) ∨
    (before.status.status.completedAt = 0 ∧
      ∃ err, w.takeActionsAfterCompletion
          { before with
            status := { before.status with
              status := { before.status.status with
                currentBatch := 0
                currentBatchStartedAt := 0 } } } = some err ∧
        completeUpgrade w before = .returned doNotRequeue err) ∨
    (before.status.status.completedAt = 0 ∧
      w.takeActionsAfterCompletion
          { before with
            status := { before.status with
              status := { before.status.status with
                currentBatch := 0
                currentBatchStartedAt := 0 } } } = none ∧
      completeUpgrade w before =
        .updateStatus
          { before with
            status := { before.status with
              status := { before.status.status with
                currentBatch := 0
                currentBatchStartedAt := 0
                completedAt := w.nowCompleted } } }
          doNotRequeue) := by
  unfold completeUpgrade
  by_cases hz : before.status.status.completedAt = 0
  · rw [if_pos hz]
    cases ha : w.takeActionsAfterCompletion
        { before with
          status := { before.status with
            status := { before.status.status with
              currentBatch := 0
              currentBatchStartedAt := 0 } } } with
    | some err => exact Or.inr (Or.inl ⟨hz, err, rfl, rfl⟩)
    | none => exact Or.inr (Or.inr ⟨hz, rfl, rfl⟩)
  · rw [if_neg hz]
    exact Or.inl ⟨hz, rfl⟩

theorem readyPhase_find (cgu : ClusterGroupUpgrade) (c : Condition)
    (h : FindStatusCondition cgu.status.conditions "Ready" = some c) :
    readyPhase cgu = some (c.status, c.reason) := by
  unfold readyPhase
  rw [h]
  rfl

theorem readyPhase_none (cgu : ClusterGroupUpgrade)
    (h : FindStatusCondition cgu.status.conditions "Ready" = none) :
    readyPhase cgu = none := by
  unfold readyPhase
  rw [h]
  rfl

/-- The dispatch on each phase. -/
theorem reconcileDispatch_phase (w : World) (cgu : ClusterGroupUpgrade) :
    (readyPhase cgu = none →
      reconcileDispatch w cgu =
        .updateStatus
          (setReadyCondition cgu ConditionStatus.condFalse "UpgradeNotStarted"
            "The ClusterGroupUpgrade CR is not enabled")
          requeueImmediately) ∧
    (readyPhase cgu = some (ConditionStatus.condFalse, "PrecachingRequired") →
      reconcileDispatch w cgu = .updateStatus cgu requeueWithLongInterval) ∧
    (readyPhase cgu = some (ConditionStatus.condFalse, "UpgradeNotStarted") ∨
        readyPhase cgu = some (ConditionStatus.condFalse, CannotStart) →
      reconcileDispatch w cgu = startUpgrade w cgu) ∧
    (readyPhase cgu = some (ConditionStatus.condFalse, "UpgradeNotCompleted") →
      reconcileDispatch w cgu = reconcileUpgradeNotCompleted w.toEnv cgu) ∧
    (readyPhase cgu = some (ConditionStatus.condFalse, "UpgradeTimedOut") →
      reconcileDispatch w cgu =
        match w.deleteResources cgu with
        | some err => .returned doNotRequeue err
        | none => .updateStatus cgu doNotRequeue) ∧
    (∀ reason, readyPhase cgu = some (ConditionStatus.condTrue, reason) →
      reconcileDispatch w cgu = completeUpgrade w cgu) := by
  unfold reconcileDispatch readyPhase
  cases hf : FindStatusCondition cgu.status.conditions "Ready" with
  | none => simp
  | some c =>
    simp only [Option.map_some', Option.some.injEq, Prod.mk.injEq, reduceCtorEq, false_implies,
      true_and]
    refine ⟨?_, ?_, ?_, ?_, ?_⟩
    · rintro ⟨hs, hr⟩
      simp [hs, hr]
    · rintro (⟨hs, hr⟩ | ⟨hs, hr⟩)
      · simp [hs, hr]
      · have : ¬ CannotStart = "PrecachingRequired" := by decide
        simp [hs, hr, this]
    · rintro ⟨hs, hr⟩
      have h1 : ¬ "UpgradeNotCompleted" = CannotStart := by decide
      simp [hs, hr, h1]
    · rintro ⟨hs, hr⟩
      have h1 : ¬ "UpgradeTimedOut" = CannotStart := by decide
      simp [hs, hr, h1]
    · rintro reason ⟨hs, hr⟩
      simp [hs]
/-- The steps of the dispatcher from an object that satisfies the invariant. -/
theorem reconcileDispatch_cases (w : World) (before written : ClusterGroupUpgrade)
    (next : Result) (hinv : PhaseInvariant before)
    (h : reconcileDispatch w before = .updateStatus written next) :
    DispatchStep w before written := by
  obtain ⟨hnone, hpre, hstart, hdrive, htimed, hdone⟩ := reconcileDispatch_phase w before
  unfold DispatchStep
  have hstartArm : (readyPhase before = some (ConditionStatus.condFalse, "UpgradeNotStarted") ∨
      readyPhase before = some (ConditionStatus.condFalse, CannotStart)) →
      PreStart before → DispatchStep w before written := by
    intro hp hpreStart
    rw [hstart hp] at h
    rcases startUpgrade_written w before written next h with
      ⟨h1, h2⟩ | ⟨h1, h2, h3⟩ | ⟨h1, h2, h3⟩
    · refine Or.inl ⟨hpreStart, ?_, h1⟩
      rcases h2 with h2 | h2
      · exact Or.inr (Or.inr (Or.inl h2))
      · exact Or.inr (Or.inl h2)
    · exact Or.inr (Or.inl ⟨hp, h3, h2, h1⟩)
    · exact Or.inr (Or.inr (Or.inl ⟨hp, h2, h1, h3⟩))
  rcases hinv with ⟨hp, hcb, hsa, hca⟩ | ⟨hp, h0, h1, hplan, hsa, hca⟩ |
    ⟨hp, h1, h2, hsa, hca⟩ | ⟨hp, h0, h1, hca⟩
  · rcases hp with hp | hp | hp | hp
    · rw [hnone hp] at h
      simp only [Outcome.updateStatus.injEq] at h
      rw [← h.1]
      exact Or.inl ⟨Or.inl hp, Or.inr (Or.inl (readyPhase_setReadyCondition _ _ _ _)), rfl⟩
    · exact hstartArm (Or.inl hp) (Or.inr (Or.inl hp))
    · exact hstartArm (Or.inr hp) (Or.inr (Or.inr (Or.inl hp)))
    · rw [hpre hp] at h
      simp only [Outcome.updateStatus.injEq] at h
      rw [← h.1]
      exact Or.inl ⟨Or.inr (Or.inr (Or.inr hp)), Or.inr (Or.inr (Or.inr hp)), rfl⟩
  · rw [hdrive hp] at h
    obtain ⟨hwp, hws, hwd, hwb, hwr⟩ := reconcileUpgradeNotCompleted_written _ _ _ _ h
    have hshow := (showFirstBatch_frame before).2.2.2.2.2.2
    have hlen : 1 ≤ before.status.remediationPlan.length := by
      have := List.length_pos.mpr hplan
      omega
    refine Or.inr (Or.inr (Or.inr (Or.inl ⟨hp, hwp, hws, hwd, ?_, ?_, ?_⟩)))
    · rcases hwb with hwb | ⟨_, hwb⟩ <;> rw [hwb, hshow] <;> split_ifs <;> omega
    · rw [hwp]
      rcases hwb with hwb | ⟨hlt, hwb⟩
      · rw [hwb, hshow]
        split_ifs <;> omega
      · rw [hwb]
        omega
    · rcases hwr with hwr | hwr | hwr
      · exact Or.inl (hwr.trans hp)
      · exact Or.inr (Or.inl hwr)
      · exact Or.inr (Or.inr hwr)
  · rw [htimed hp] at h
    cases hd : w.deleteResources before with
    | some err => simp [hd] at h
    | none =>
      simp only [hd, Outcome.updateStatus.injEq] at h
      exact Or.inr (Or.inr (Or.inr (Or.inr (Or.inl ⟨hp, rfl, h.1.symm⟩))))
  · rw [hdone _ hp] at h
    rcases completeUpgrade_cases w before with ⟨hz, hrun⟩ | ⟨hz, err, _, hrun⟩ | ⟨hz, ha, hrun⟩
    · rw [hrun] at h
      simp only [Outcome.updateStatus.injEq] at h
      exact Or.inr (Or.inr (Or.inr (Or.inr (Or.inr (Or.inr ⟨hp, hz, h.1.symm⟩)))))
    · rw [hrun] at h
      exact absurd h (by simp)
    · rw [hrun] at h
      simp only [Outcome.updateStatus.injEq] at h
      exact Or.inr (Or.inr (Or.inr (Or.inr (Or.inr (Or.inl ⟨hp, hz, ha, h.1.symm⟩)))))

theorem phaseInvariant_dispatch (w : World) (before written : ClusterGroupUpgrade)
    (next : Result) (hinv : PhaseInvariant before) (hstarted : w.nowStarted ≠ 0)
    (h : reconcileDispatch w before = .updateStatus written next) :
    PhaseInvariant written := by
  have hinv0 := hinv
  have hstep := reconcileDispatch_cases w before written next hinv h
  unfold DispatchStep at hstep
  rcases hstep with
    ⟨ha, hb, hs⟩ | ⟨ha, hb, hplan, hs⟩ | ⟨ha, hb, hplan, hs⟩ |
    ⟨ha, hplan, hsa, hca, h1, h2, hb⟩ | ⟨ha, _, hw⟩ | ⟨ha, hz, _, hw⟩ | ⟨ha, hz, hw⟩
  · rcases hinv with ⟨hp, hcb, hsa, hca⟩ | ⟨hp, _⟩ | ⟨hp, _⟩ | ⟨hp, _⟩
    · exact Or.inl ⟨hb, by rw [hs]; exact hcb, by rw [hs]; exact hsa, by rw [hs]; exact hca⟩
    all_goals
      rcases ha with ha | ha | ha | ha <;> rw [hp] at ha <;> exact absurd ha (by decide)
  · rcases hinv with ⟨hp, hcb, hsa, hca⟩ | ⟨hp, _⟩ | ⟨hp, _⟩ | ⟨hp, _⟩
    · refine Or.inr (Or.inr (Or.inr ⟨hb, ?_, ?_, ?_⟩))
      · rw [hs, hcb]
      · rw [hs, hcb]
        omega
      · intro _
        rw [hs]
        exact hcb
    all_goals
      rcases ha with ha | ha <;> rw [hp] at ha <;> exact absurd ha (by decide)
  · rcases hinv with ⟨hp, hcb, hsa, hca⟩ | ⟨hp, _⟩ | ⟨hp, _⟩ | ⟨hp, _⟩
    · refine Or.inr (Or.inl ⟨hb, ?_, ?_, hplan, ?_, ?_⟩)
      · rw [hs]
        show 0 ≤ before.status.status.currentBatch
        omega
      · rw [hs]
        show before.status.status.currentBatch ≤ _
        omega
      · rw [hs]
        exact hstarted
      · rw [hs]
        exact hca
    all_goals
      rcases ha with ha | ha <;> rw [hp] at ha <;> exact absurd ha (by decide)
  · rcases hinv with ⟨hp, _⟩ | ⟨hp, h0, h1', hpl, hsa', hca'⟩ | ⟨hp, _⟩ | ⟨hp, _⟩
    · rcases hp with hp | hp | hp | hp <;> rw [ha] at hp <;> exact absurd hp (by decide)
    · rcases hb with hb | hb | hb
      · exact Or.inr (Or.inl ⟨hb, by omega, h2, by rw [hplan]; exact hpl, by rw [hsa]; exact hsa',
          by rw [hca]; exact hca'⟩)
      · exact Or.inr (Or.inr (Or.inl ⟨hb, h1, h2, by rw [hsa]; exact hsa',
          by rw [hca]; exact hca'⟩))
      · refine Or.inr (Or.inr (Or.inr ⟨hb, by omega, h2, ?_⟩))
        intro hne
        rw [hca, hca'] at hne
        exact absurd rfl hne
    · rw [ha] at hp
      exact absurd hp (by decide)
    · rw [ha] at hp
      exact absurd hp (by decide)
  · rw [hw]
    exact hinv0
  · rw [hw]
    refine Or.inr (Or.inr (Or.inr ⟨ha, ?_, ?_, ?_⟩))
    · show (0 : Int) ≤ 0
      omega
    · show (0 : Int) ≤ _
      omega
    · intro _
      rfl
  · rw [hw]
    exact hinv0

theorem phaseInvariant_collaborate (before after : ClusterGroupUpgrade)
    (hinv : PhaseInvariant before) (h : Collaborate before after) : PhaseInvariant after := by
  obtain ⟨hs, hp, hr⟩ := h
  unfold PhaseInvariant
  rw [hs, hp]
  rcases hr with hr | ⟨hb, ha⟩
  · unfold PreStart
    rw [hr]
    exact hinv
  · rcases hinv with ⟨_, hcb, hsa, hca⟩ | ⟨hph, _⟩ | ⟨hph, _⟩ | ⟨hph, _⟩
    · exact Or.inl ⟨ha, hcb, hsa, hca⟩
    all_goals
      rcases hb with hb | hb | hb | hb <;> rw [hph] at hb <;> exact absurd hb (by decide)

theorem phaseInvariant_run (first last : ClusterGroupUpgrade) (hrun : Run first last)
    (hinv : PhaseInvariant first) : PhaseInvariant last := by
  induction hrun with
  | start cgu => exact hinv
  | collaborate first before after _ hc ih => exact phaseInvariant_collaborate _ _ (ih hinv) hc
  | dispatch w first before after next _ hs _ hd ih =>
    exact phaseInvariant_dispatch w _ _ next (ih hinv) hs hd

theorem phaseInvariant_created (cgu : ClusterGroupUpgrade) (h : cgu.status = {}) :
    PhaseInvariant cgu := by
  refine Or.inl ⟨Or.inl ?_, ?_, ?_, ?_⟩
  · unfold readyPhase
    rw [h]
    rfl
  all_goals
    rw [h]

theorem phaseInvariant_reachable (cgu : ClusterGroupUpgrade) (h : Reachable cgu) :
    PhaseInvariant cgu := by
  obtain ⟨created, hc, hrun⟩ := h
  exact phaseInvariant_run created cgu hrun (phaseInvariant_created created hc)

theorem run_trans (a b c : ClusterGroupUpgrade) (h1 : Run a b) (h2 : Run b c) : Run a c := by
  induction h2 with
  | start cgu => exact h1
  | collaborate first before after _ hc ih => exact Run.collaborate _ _ _ (ih h1) hc
  | dispatch w first before after next _ hs hc hd ih =>
    exact Run.dispatch w _ _ _ next (ih h1) hs hc hd

theorem reachable_run (a b : ClusterGroupUpgrade) (ha : Reachable a) (h : Run a b) :
    Reachable b := by
  obtain ⟨created, hc, hrun⟩ := ha
  exact ⟨created, hc, run_trans created a b hrun h⟩

/-- The invariant, read by the reason of the Ready condition. -/
theorem phaseInvariant_by_reason (cgu : ClusterGroupUpgrade) (hinv : PhaseInvariant cgu) :
    ((readyReason cgu = none ∨ readyReason cgu = some "UpgradeNotStarted" ∨
        readyReason cgu = some CannotStart ∨ readyReason cgu = some "PrecachingRequired") →
      PreStart cgu ∧ cgu.status.status.currentBatch = 0 ∧ cgu.status.status.startedAt = 0 ∧
        cgu.status.status.completedAt = 0) ∧
    (readyReason cgu = some "UpgradeNotCompleted" →
      readyPhase cgu = some (ConditionStatus.condFalse, "UpgradeNotCompleted") ∧
        0 ≤ cgu.status.status.currentBatch ∧
        cgu.status.status.currentBatch ≤ cgu.status.remediationPlan.length ∧
        cgu.status.remediationPlan ≠ [] ∧ cgu.status.status.startedAt ≠ 0 ∧
        cgu.status.status.completedAt = 0) ∧
    (readyReason cgu = some "UpgradeTimedOut" →
      readyPhase cgu = some (ConditionStatus.condFalse, "UpgradeTimedOut") ∧
        1 ≤ cgu.status.status.currentBatch ∧
        cgu.status.status.currentBatch ≤ cgu.status.remediationPlan.length ∧
        cgu.status.status.startedAt ≠ 0 ∧ cgu.status.status.completedAt = 0) ∧
    (readyReason cgu = some "UpgradeCompleted" →
      readyPhase cgu = some (ConditionStatus.condTrue, "UpgradeCompleted") ∧
        0 ≤ cgu.status.status.currentBatch ∧
        cgu.status.status.currentBatch ≤ cgu.status.remediationPlan.length ∧
        (cgu.status.status.completedAt ≠ 0 → cgu.status.status.currentBatch = 0)) := by
  rw [readyReason_of_phase]
  rcases hinv with ⟨hp, hrest⟩ | ⟨hp, hrest⟩ | ⟨hp, hrest⟩ | ⟨hp, hrest⟩
  · refine ⟨fun _ => ⟨hp, hrest⟩, ?_, ?_, ?_⟩ <;>
    · intro h
      rcases hp with hp | hp | hp | hp <;> rw [hp] at h <;> exact absurd h (by decide)
  · rw [hp]
    refine ⟨?_, fun _ => ⟨rfl, hrest⟩, ?_, ?_⟩
    · intro h
      rcases h with h | h | h | h <;> exact absurd h (by decide)
    · intro h
      exact absurd h (by decide)
    · intro h
      exact absurd h (by decide)
  · rw [hp]
    refine ⟨?_, ?_, fun _ => ⟨rfl, hrest⟩, ?_⟩
    · intro h
      rcases h with h | h | h | h <;> exact absurd h (by decide)
    · intro h
      exact absurd h (by decide)
    · intro h
      exact absurd h (by decide)
  · rw [hp]
    refine ⟨?_, ?_, ?_, fun _ => ⟨rfl, hrest⟩⟩
    · intro h
      rcases h with h | h | h | h <;> exact absurd h (by decide)
    · intro h
      exact absurd h (by decide)
    · intro h
      exact absurd h (by decide)

/-- A start time that is set is kept by every step. -/
theorem run_startedAt (first last : ClusterGroupUpgrade) (hinv : PhaseInvariant first)
    (hrun : Run first last) (hset : first.status.status.startedAt ≠ 0) :
    last.status.status.startedAt = first.status.status.startedAt := by
  induction hrun with
  | start cgu => rfl
  | collaborate first before after hr hc ih =>
    rw [hc.1]
    exact ih hinv hset
  | dispatch w first before after next hr hs _ hd ih =>
    have hbefore := phaseInvariant_run first before hr hinv
    have hstep := reconcileDispatch_cases w before after next hbefore hd
    have hih := ih hinv hset
    unfold DispatchStep at hstep
    rcases hstep with ⟨_, _, h1⟩ | ⟨_, _, _, h1⟩ | ⟨ha, _, _, _⟩ | ⟨_, _, h1, _⟩ | ⟨_, _, h1⟩ |
      ⟨_, _, _, h1⟩ | ⟨_, _, h1⟩
    · rw [h1]
      exact hih
    · rw [h1]
      exact hih
    · have hzero : before.status.status.startedAt = 0 := by
        rcases hbefore with ⟨_, _, hz, _⟩ | ⟨hp, _⟩ | ⟨hp, _⟩ | ⟨hp, _⟩
        · exact hz
        all_goals
          rcases ha with ha | ha <;> rw [hp] at ha <;> exact absurd ha (by decide)
      rw [hih] at hzero
      exact absurd hzero hset
    · rw [h1]
      exact hih
    · rw [h1]
      exact hih
    · rw [h1]
      exact hih
    · rw [h1]
      exact hih

/-- A completion time that is set is kept by every step. -/
theorem run_completedAt (first last : ClusterGroupUpgrade) (hinv : PhaseInvariant first)
    (hrun : Run first last) (hset : first.status.status.completedAt ≠ 0) :
    last.status.status.completedAt = first.status.status.completedAt := by
  induction hrun with
  | start cgu => rfl
  | collaborate first before after hr hc ih =>
    rw [hc.1]
    exact ih hinv hset
  | dispatch w first before after next hr hs _ hd ih =>
    have hbefore := phaseInvariant_run first before hr hinv
    have hstep := reconcileDispatch_cases w before after next hbefore hd
    have hih := ih hinv hset
    unfold DispatchStep at hstep
    rcases hstep with ⟨_, _, h1⟩ | ⟨_, _, _, h1⟩ | ⟨_, _, _, h1⟩ | ⟨_, _, _, h1, _⟩ |
      ⟨_, _, h1⟩ | ⟨_, hz, _, _⟩ | ⟨_, _, h1⟩
    · rw [h1]
      exact hih
    · rw [h1]
      exact hih
    · rw [h1]
      exact hih
    · rw [h1]
      exact hih
    · rw [h1]
      exact hih
    · rw [hih] at hz
      exact absurd hz hset
    · rw [h1]
      exact hih

/-- An upgrade that timed out stays timed out, and its completion time stays unset. -/
theorem run_timedOut (first last : ClusterGroupUpgrade) (hinv : PhaseInvariant first)
    (hrun : Run first last)
    (hphase : readyPhase first = some (ConditionStatus.condFalse, "UpgradeTimedOut")) :
    readyPhase last = some (ConditionStatus.condFalse, "UpgradeTimedOut") ∧
      last.status.status.completedAt = 0 := by
  have hkey : readyPhase last = some (ConditionStatus.condFalse, "UpgradeTimedOut") := by
    induction hrun with
    | start cgu => exact hphase
    | collaborate first before after hr hc ih =>
      have hih := ih hinv hphase
      rcases hc.2.2 with h | ⟨hb, _⟩
      · rw [h]
        exact hih
      · rcases hb with hb | hb | hb | hb <;> rw [hih] at hb <;> exact absurd hb (by decide)
    | dispatch w first before after next hr hs _ hd ih =>
      have hih := ih hinv hphase
      have hbefore := phaseInvariant_run first before hr hinv
      have hstep := reconcileDispatch_cases w before after next hbefore hd
      unfold DispatchStep at hstep
      rcases hstep with ⟨ha, _⟩ | ⟨ha, _⟩ | ⟨ha, _⟩ | ⟨ha, _⟩ | ⟨_, _, h1⟩ | ⟨ha, _⟩ | ⟨ha, _⟩
      · rcases ha with ha | ha | ha | ha <;> rw [hih] at ha <;> exact absurd ha (by decide)
      · rcases ha with ha | ha <;> rw [hih] at ha <;> exact absurd ha (by decide)
      · rcases ha with ha | ha <;> rw [hih] at ha <;> exact absurd ha (by decide)
      · rw [hih] at ha
        exact absurd ha (by decide)
      · rw [h1]
        exact hih
      · rw [hih] at ha
        exact absurd ha (by decide)
      · rw [hih] at ha
        exact absurd ha (by decide)
  refine ⟨hkey, ?_⟩
  have hlast := phaseInvariant_run first last hrun hinv
  rcases hlast with ⟨_, _, _, hz⟩ | ⟨_, _, _, _, _, hz⟩ | ⟨_, _, _, _, hz⟩ | ⟨hp, _⟩
  · exact hz
  · exact hz
  · exact hz
  · rw [hkey] at hp
    exact absurd hp (by decide)

theorem exampleNotStarted_reachable : Reachable exampleNotStarted :=
  ⟨exampleNew, rfl,
    Run.dispatch (exampleWorld 1000) exampleNew exampleValidated exampleNotStarted
      requeueImmediately
      (Run.collaborate exampleNew exampleNew exampleValidated (Run.start exampleNew)
        ⟨rfl, rfl, Or.inl rfl⟩)
      (by decide) (by decide) (by rfl)⟩

theorem exampleStarted_reachable : Reachable exampleStarted :=
  reachable_run exampleNotStarted exampleStarted exampleNotStarted_reachable
    (Run.dispatch (exampleWorld 1000) exampleNotStarted exampleNotStarted exampleStarted
      requeueImmediately (Run.start exampleNotStarted) (by decide) (by decide) (by rfl))

theorem exampleTimedOut_reachable : Reachable exampleTimedOut :=
  reachable_run exampleStarted exampleTimedOut exampleStarted_reachable
    (Run.dispatch (exampleWorld exampleLate) exampleStarted exampleStarted exampleTimedOut
      requeueImmediately (Run.start exampleStarted) (by decide) (by decide) (by rfl))

theorem exampleCompletedAtOnce_reachable : Reachable exampleCompletedAtOnce :=
  reachable_run exampleNotStarted exampleCompletedAtOnce exampleNotStarted_reachable
    (Run.dispatch (exampleWorldCompliant 1000) exampleNotStarted exampleNotStarted
      exampleCompletedAtOnce requeueImmediately (Run.start exampleNotStarted) (by decide)
      (by decide) (by rfl))
/-- The counterexample to claim C15: the reachable object `exampleStarted` is in phase
UpgradeNotCompleted with a current batch of 0, outside the claimed range from 1 to the number of
batches, and the reachable object `exampleTimedOut` is in phase UpgradeTimedOut with a current
batch of 1, not 0. -/
theorem reachable_currentBatch_outside_claim :
    Reachable exampleStarted ∧ readyReason exampleStarted = some "UpgradeNotCompleted" ∧
    exampleStarted.status.status.currentBatch = 0 ∧
    Reachable exampleTimedOut ∧ readyReason exampleTimedOut = some "UpgradeTimedOut" ∧
    exampleTimedOut.status.status.currentBatch = 1 :=
  ⟨exampleStarted_reachable, by rfl, by rfl, exampleTimedOut_reachable, by rfl, by rfl⟩

/-- Claim C15 (amended): in every reachable persisted status, `currentBatch` is 0 before the
start (no Ready condition, UpgradeNotStarted, CannotStart, PrecachingRequired); in phase
UpgradeNotCompleted it lies between 0 and the number of batches, and every status that a
dispatch in this phase persists has it between 1 and the number of batches; in phase
UpgradeTimedOut it lies between 1 and the number of batches and a dispatch leaves it as it is;
in phase UpgradeCompleted it lies between 0 and the number of batches, and it is 0 once
`completedAt` is set. -/
theorem reachable_currentBatch_range (clusterGroupUpgrade : ClusterGroupUpgrade)
    (hreach : Reachable clusterGroupUpgrade) :
    ((readyReason clusterGroupUpgrade = none ∨
        readyReason clusterGroupUpgrade = some "UpgradeNotStarted" ∨
        readyReason clusterGroupUpgrade = some CannotStart ∨
        readyReason clusterGroupUpgrade = some "PrecachingRequired") →
      clusterGroupUpgrade.status.status.currentBatch = 0) ∧
    (readyReason clusterGroupUpgrade = some "UpgradeNotCompleted" →
      0 ≤ clusterGroupUpgrade.status.status.currentBatch ∧
      clusterGroupUpgrade.status.status.currentBatch ≤
        clusterGroupUpgrade.status.remediationPlan.length) ∧
    (∀ (w : World) (written : ClusterGroupUpgrade) (nextReconcile : Result),
      readyReason clusterGroupUpgrade = some "UpgradeNotCompleted" →
      reconcileDispatch w clusterGroupUpgrade = .updateStatus written nextReconcile →
      1 ≤ written.status.status.currentBatch ∧
      written.status.status.currentBatch ≤ written.status.remediationPlan.length) ∧
    (readyReason clusterGroupUpgrade = some "UpgradeTimedOut" →
      1 ≤ clusterGroupUpgrade.status.status.currentBatch ∧
      clusterGroupUpgrade.status.status.currentBatch ≤
        clusterGroupUpgrade.status.remediationPlan.length) ∧
    (∀ (w : World) (written : ClusterGroupUpgrade) (nextReconcile : Result),
      readyReason clusterGroupUpgrade = some "UpgradeTimedOut" →
      reconcileDispatch w clusterGroupUpgrade = .updateStatus written nextReconcile →
      written.status.status.currentBatch = clusterGroupUpgrade.status.status.currentBatch) ∧
    (readyReason clusterGroupUpgrade = some "UpgradeCompleted" →
      0 ≤ clusterGroupUpgrade.status.status.currentBatch ∧
      clusterGroupUpgrade.status.status.currentBatch ≤
        clusterGroupUpgrade.status.remediationPlan.length ∧
      (clusterGroupUpgrade.status.status.completedAt ≠ 0 →
        clusterGroupUpgrade.status.status.currentBatch = 0)) := by
  have hinv := phaseInvariant_reachable clusterGroupUpgrade hreach
  obtain ⟨hpre, hdrive, htimed, hdone⟩ := phaseInvariant_by_reason clusterGroupUpgrade hinv
  refine ⟨fun h => (hpre h).2.1, fun h => ⟨(hdrive h).2.1, (hdrive h).2.2.1⟩, ?_,
    fun h => ⟨(htimed h).2.1, (htimed h).2.2.1⟩, ?_,
    fun h => ⟨(hdone h).2.1, (hdone h).2.2.1, (hdone h).2.2.2⟩⟩
  · intro w written next hphase hstep
    have hp := (hdrive hphase).1
    have hcases := reconcileDispatch_cases w clusterGroupUpgrade written next hinv hstep
    unfold DispatchStep at hcases
    rcases hcases with ⟨ha, _⟩ | ⟨ha, _⟩ | ⟨ha, _⟩ | ⟨_, _, _, _, h1, h2, _⟩ | ⟨ha, _⟩ |
      ⟨ha, _⟩ | ⟨ha, _⟩
    · rcases ha with ha | ha | ha | ha <;> rw [hp] at ha <;> exact absurd ha (by decide)
    · rcases ha with ha | ha <;> rw [hp] at ha <;> exact absurd ha (by decide)
    · rcases ha with ha | ha <;> rw [hp] at ha <;> exact absurd ha (by decide)
    · exact ⟨h1, h2⟩
    · rw [hp] at ha
      exact absurd ha (by decide)
    · rw [hp] at ha
      exact absurd ha (by decide)
    · rw [hp] at ha
      exact absurd ha (by decide)
  · intro w written next hphase hstep
    have hp := (htimed hphase).1
    have hcases := reconcileDispatch_cases w clusterGroupUpgrade written next hinv hstep
    unfold DispatchStep at hcases
    rcases hcases with ⟨ha, _⟩ | ⟨ha, _⟩ | ⟨ha, _⟩ | ⟨ha, _⟩ | ⟨_, _, h1⟩ | ⟨ha, _⟩ | ⟨ha, _⟩
    · rcases ha with ha | ha | ha | ha <;> rw [hp] at ha <;> exact absurd ha (by decide)
    · rcases ha with ha | ha <;> rw [hp] at ha <;> exact absurd ha (by decide)
    · rcases ha with ha | ha <;> rw [hp] at ha <;> exact absurd ha (by decide)
    · rw [hp] at ha
      exact absurd ha (by decide)
    · rw [h1]
    · rw [hp] at ha
      exact absurd ha (by decide)
    · rw [hp] at ha
      exact absurd ha (by decide)

theorem reachable_currentBatch_range_witness :
    readyReason exampleStarted = some "UpgradeNotCompleted" ∧
    0 ≤ exampleStarted.status.status.currentBatch ∧
    exampleStarted.status.status.currentBatch ≤ exampleStarted.status.remediationPlan.length :=
  ⟨by rfl,
    (reachable_currentBatch_range exampleStarted exampleStarted_reachable).2.1 (by rfl)⟩

/-- The counterexample to claim C16: from the reachable object `exampleNotStarted` a step with
a missing managed policy changes the Ready reason from UpgradeNotStarted to CannotStart, and a
step with an empty plan changes it to UpgradeCompleted; neither step assigns `startedAt`. -/
theorem startedAt_unset_on_leaving_notStarted :
    Reachable exampleNotStarted ∧ readyReason exampleNotStarted = some "UpgradeNotStarted" ∧
    reconcileDispatch (exampleWorldMissing 1000) exampleNotStarted =
      .updateStatus exampleCannotStart requeueWithMediumInterval ∧
    readyReason exampleCannotStart = some "CannotStart" ∧
    exampleCannotStart.status.status.startedAt = 0 ∧
    reconcileDispatch (exampleWorldCompliant 1000) exampleNotStarted =
      .updateStatus exampleCompletedAtOnce requeueImmediately ∧
    readyReason exampleCompletedAtOnce = some "UpgradeCompleted" ∧
    exampleCompletedAtOnce.status.status.startedAt = 0 :=
  ⟨exampleNotStarted_reachable, by rfl, by rfl, by rfl, by rfl, by rfl, by rfl, by rfl⟩

/-- Claim C16 (amended): on a dispatch from a reachable object that reaches the status update,
`startedAt` is assigned, with the clock reading of the step, exactly when the Ready reason
changes from UpgradeNotStarted or CannotStart to UpgradeNotCompleted, and it was unset before;
every other dispatch leaves it as it is, in particular the steps to CannotStart and the step to
UpgradeCompleted on an empty plan; and a value that is set is kept over every later run, so
that it is assigned at most once. -/
theorem startedAt_assigned_on_start (w : World) (before written : ClusterGroupUpgrade)
    (nextReconcile : Result) (hreach : Reachable before)
    (hstep : reconcileDispatch w before = .updateStatus written nextReconcile) :
    (((readyReason before = some "UpgradeNotStarted" ∨ readyReason before = some CannotStart) ∧
        readyReason written = some "UpgradeNotCompleted") →
      before.status.status.startedAt = 0 ∧
      written.status.status.startedAt = w.nowStarted) ∧
    (¬ ((readyReason before = some "UpgradeNotStarted" ∨
          readyReason before = some CannotStart) ∧
        readyReason written = some "UpgradeNotCompleted") →
      written.status.status.startedAt = before.status.status.startedAt) ∧
    (∀ last : ClusterGroupUpgrade, Run before last → before.status.status.startedAt ≠ 0 →
      last.status.status.startedAt = before.status.status.startedAt) := by
  have hinv := phaseInvariant_reachable before hreach
  obtain ⟨hpre, hdrive, htimed, hdone⟩ := phaseInvariant_by_reason before hinv
  have hcases := reconcileDispatch_cases w before written nextReconcile hinv hstep
  unfold DispatchStep at hcases
  have hreason : ∀ (cgu : ClusterGroupUpgrade) (p : ConditionStatus × String),
      readyPhase cgu = some p → readyReason cgu = some p.2 := by
    intro cgu p hp
    rw [readyReason_of_phase, hp]
    rfl
  refine ⟨?_, ?_, fun last hrun hset => run_startedAt before last hinv hrun hset⟩
  · rintro ⟨hb, hw⟩
    have hb0 : before.status.status.startedAt = 0 :=
      (hpre (by
        rcases hb with hb | hb
        · exact Or.inr (Or.inl hb)
        · exact Or.inr (Or.inr (Or.inl hb)))).2.2.1
    refine ⟨hb0, ?_⟩
    rcases hcases with ⟨_, hp, _⟩ | ⟨_, hp, _⟩ | ⟨_, _, _, h1⟩ | ⟨ha, _⟩ | ⟨ha, _⟩ | ⟨ha, _⟩ |
      ⟨ha, _⟩
    · rcases hp with hp | hp | hp | hp <;> rw [readyReason_of_phase, hp] at hw <;>
        exact absurd hw (by decide)
    · rw [readyReason_of_phase, hp] at hw
      exact absurd hw (by decide)
    · rw [h1]
    · have := hreason before _ ha
      rcases hb with hb | hb <;> rw [this] at hb <;> exact absurd hb (by decide)
    · have := hreason before _ ha
      rcases hb with hb | hb <;> rw [this] at hb <;> exact absurd hb (by decide)
    · have := hreason before _ ha
      rcases hb with hb | hb <;> rw [this] at hb <;> exact absurd hb (by decide)
    · have := hreason before _ ha
      rcases hb with hb | hb <;> rw [this] at hb <;> exact absurd hb (by decide)
  · intro hnot
    rcases hcases with ⟨_, _, h1⟩ | ⟨_, _, _, h1⟩ | ⟨ha, hp, _, _⟩ | ⟨_, _, h1, _⟩ | ⟨_, _, h1⟩ |
      ⟨_, _, _, h1⟩ | ⟨_, _, h1⟩
    · rw [h1]
    · rw [h1]
    · exfalso
      apply hnot
      refine ⟨?_, hreason written _ hp⟩
      rcases ha with ha | ha
      · exact Or.inl (hreason before _ ha)
      · exact Or.inr (hreason before _ ha)
    · exact h1
    · rw [h1]
    · rw [h1]
    · rw [h1]

theorem startedAt_assigned_on_start_witness :
    exampleNotStarted.status.status.startedAt = 0 ∧
    exampleStarted.status.status.startedAt = (exampleWorld 1000).nowStarted :=
  (startedAt_assigned_on_start (exampleWorld 1000) exampleNotStarted exampleStarted
    requeueImmediately exampleNotStarted_reachable (by rfl)).1 ⟨Or.inl (by rfl), by rfl⟩

/-- The counterexample to claim C17: the reachable object `exampleTimedOut` is in the terminal
phase UpgradeTimedOut; on its next dispatch the only action, `deleteResources`, succeeds and the
status is written, yet `completedAt` stays unset. -/
theorem completedAt_unset_after_timeout :
    Reachable exampleTimedOut ∧ readyReason exampleTimedOut = some "UpgradeTimedOut" ∧
    (exampleWorld exampleLate).deleteResources exampleTimedOut = none ∧
    reconcileDispatch (exampleWorld exampleLate) exampleTimedOut =
      .updateStatus exampleTimedOut doNotRequeue ∧
    exampleTimedOut.status.status.completedAt = 0 :=
  ⟨exampleTimedOut_reachable, by rfl, by rfl, by rfl, by rfl⟩

/-- Claim C17 (amended): for a reachable object in phase UpgradeCompleted whose `completedAt`
is unset, the dispatch writes `completedAt`, with the clock reading of the step, when
`takeActionsAfterCompletion` succeeds, and returns the error without a status update when it
fails; every other dispatch leaves `completedAt` as it is; a value that is set is kept over
every later run; and from phase UpgradeTimedOut every run stays in that phase with `completedAt`
unset. -/
theorem completedAt_assigned_on_completion (w : World) (before : ClusterGroupUpgrade)
    (hreach : Reachable before) :
    (readyReason before = some "UpgradeCompleted" → before.status.status.completedAt = 0 →
      (w.takeActionsAfterCompletion
          { before with
            status := { before.status with
              status := { before.status.status with
                currentBatch := 0
                currentBatchStartedAt := 0 } } } = none →
        ∃ written, reconcileDispatch w before = .updateStatus written doNotRequeue ∧
          written.status.status.completedAt = w.nowCompleted ∧
          written.status.status.currentBatch = 0) ∧
      (∀ err, w.takeActionsAfterCompletion
          { before with
            status := { before.status with
              status := { before.status.status with
                currentBatch := 0
                currentBatchStartedAt := 0 } } } = some err →
        reconcileDispatch w before = .returned doNotRequeue err)) ∧
    (∀ (written : ClusterGroupUpgrade) (nextReconcile : Result),
      reconcileDispatch w before = .updateStatus written nextReconcile →
      (readyReason before ≠ some "UpgradeCompleted" ∨
        before.status.status.completedAt ≠ 0) →
      written.status.status.completedAt = before.status.status.completedAt) ∧
    (∀ last : ClusterGroupUpgrade, Run before last → before.status.status.completedAt ≠ 0 →
      last.status.status.completedAt = before.status.status.completedAt) ∧
    (∀ last : ClusterGroupUpgrade, Run before last →
      readyReason before = some "UpgradeTimedOut" →
      readyReason last = some "UpgradeTimedOut" ∧ last.status.status.completedAt = 0) := by
  have hinv := phaseInvariant_reachable before hreach
  obtain ⟨hpre, hdrive, htimed, hdone⟩ := phaseInvariant_by_reason before hinv
  have hreason : ∀ (cgu : ClusterGroupUpgrade) (p : ConditionStatus × String),
      readyPhase cgu = some p → readyReason cgu = some p.2 := by
    intro cgu p hp
    rw [readyReason_of_phase, hp]
    rfl
  refine ⟨?_, ?_, fun last hrun hset => run_completedAt before last hinv hrun hset, ?_⟩
  · intro hphase hunset
    have hp := (hdone hphase).1
    have hrun := (reconcileDispatch_phase w before).2.2.2.2.2 _ hp
    rw [hrun]
    rcases completeUpgrade_cases w before with ⟨hz, _⟩ | ⟨_, err, herr, hc⟩ | ⟨_, hok, hc⟩
    · exact absurd hunset hz
    · refine ⟨fun h => ?_, fun err2 h => ?_⟩
      · rw [herr] at h
        exact absurd h (by simp)
      · rw [herr] at h
        simp only [Option.some.injEq] at h
        rw [← h]
        exact hc
    · refine ⟨fun _ => ⟨_, hc, rfl, rfl⟩, fun err h => ?_⟩
      rw [hok] at h
      exact absurd h (by simp)
  · intro written next hstep hother
    have hcases := reconcileDispatch_cases w before written next hinv hstep
    unfold DispatchStep at hcases
    rcases hcases with ⟨_, _, h1⟩ | ⟨_, _, _, h1⟩ | ⟨_, _, _, h1⟩ | ⟨_, _, _, h1, _⟩ |
      ⟨_, _, h1⟩ | ⟨ha, hz, _, _⟩ | ⟨_, _, h1⟩
    · rw [h1]
    · rw [h1]
    · rw [h1]
    · exact h1
    · rw [h1]
    · rcases hother with hother | hother
      · exact absurd (hreason before _ ha) hother
      · exact absurd hz hother
    · rw [h1]
  · intro last hrun hphase
    obtain ⟨h1, h2⟩ := run_timedOut before last hinv hrun (htimed hphase).1
    exact ⟨hreason last _ h1, h2⟩

theorem completedAt_assigned_on_completion_witness :
    ∃ written, reconcileDispatch (exampleWorldCompliant 2000) exampleCompletedAtOnce =
        .updateStatus written doNotRequeue ∧
      written.status.status.completedAt = (exampleWorldCompliant 2000).nowCompleted ∧
      written.status.status.currentBatch = 0 :=
  ((completedAt_assigned_on_completion (exampleWorldCompliant 2000) exampleCompletedAtOnce
    exampleCompletedAtOnce_reachable).1 (by rfl) (by rfl)).1 (by rfl)
/-- Blocking CRs that all exist, with conditions that all have the reason `UpgradeCompleted`,
give two empty lists. -/
theorem blockingCRsNotCompleted_none (getCGU : BlockingCR → GetResult BlockingCGU)
    (cgu : ClusterGroupUpgrade)
    (hblocking : ∀ blockingCR ∈ cgu.spec.blockingCRs, ∃ blocking conditions,
      getCGU blockingCR = .found blocking ∧ blocking.conditions = some conditions ∧
        ∀ condition ∈ conditions, condition.reason = "UpgradeCompleted") :
    blockingCRsNotCompleted getCGU cgu = .ok ([], []) := by
  have hread : ∀ blockingCR ∈ cgu.spec.blockingCRs, ∀ err,
      getCGU blockingCR ≠ .failed err := by
    intro b hb err
    obtain ⟨blocking, _, hg, _⟩ := hblocking b hb
    rw [hg]
    simp
  obtain ⟨nc, miss, hrun, hmiss, hnc⟩ :=
    blockingCRsLoop_spec getCGU cgu.spec.blockingCRs [] [] hread
  have hm : miss = [] := by
    apply List.eq_nil_iff_forall_not_mem.mpr
    intro name hin
    rcases (hmiss name).mp hin with h | ⟨b, hb, _, hg⟩
    · exact absurd h (List.not_mem_nil _)
    · obtain ⟨blocking, _, hg2, _⟩ := hblocking b hb
      rw [hg2] at hg
      exact absurd hg (by simp)
  have hn : nc = [] := by
    apply List.eq_nil_iff_forall_not_mem.mpr
    intro name hin
    rcases (hnc name).mp hin with h | ⟨b, hb, obj, hg, _, hnot⟩
    · exact absurd h (List.not_mem_nil _)
    · obtain ⟨blocking, conditions, hg2, hc, hall⟩ := hblocking b hb
      rw [hg2] at hg
      simp only [GetResult.found.injEq] at hg
      subst hg
      rcases hnot with hnil | ⟨conds, hconds, c, hcm, hr⟩
      · rw [hc] at hnil
        exact absurd hnil (by simp)
      · rw [hc] at hconds
        simp only [Option.some.injEq] at hconds
        subst hconds
        exact hr (hall c hcm)
  unfold blockingCRsNotCompleted
  rw [hrun, hm, hn]

/-- The counterexample to claim C19: the enabled object `exampleBlockedByBusy` is in phase
UpgradeNotStarted, its managed policies all exist, and its only blocking CR exists and has a
Ready condition with reason `UpgradeCompleted`; the blocking CR has a further condition with
another reason, and the step sets CannotStart. -/
theorem startUpgrade_held_back_by_other_condition :
    exampleBlockedByBusy.spec.enable = true ∧
    readyReason exampleBlockedByBusy = some "UpgradeNotStarted" ∧
    (exampleWorld 1000).doManagedPoliciesExist exampleBlockedByBusy =
      .ok (true, [], [examplePolicy1, examplePolicy2], exampleResources) ∧
    (∀ blockingCR ∈ exampleBlockedByBusy.spec.blockingCRs, ∃ blocking conditions condition,
      (exampleWorld 1000).getBlockingCGU blockingCR = .found blocking ∧
      blocking.conditions = some conditions ∧
      FindStatusCondition conditions "Ready" = some condition ∧
      condition.reason = "UpgradeCompleted") ∧
    reconcileDispatch (exampleWorld 1000) exampleBlockedByBusy =
      .updateStatus exampleHeldBack requeueWithMediumInterval ∧
    readyReason exampleHeldBack = some "CannotStart" := by
  refine ⟨by rfl, by rfl, by rfl, ?_, by rfl, by rfl⟩
  intro blockingCR hmem
  simp only [exampleBlockedByBusy, List.mem_singleton] at hmem
  subst hmem
  exact ⟨_, _, _, rfl, rfl, rfl, rfl⟩

/-- Claim C19 (amended): for every enabled object in phase UpgradeNotStarted or CannotStart
whose managed policies all exist, whose target clusters and resources are obtained without
error, and whose every blocking CR exists with conditions that are not nil and that all have
the reason `UpgradeCompleted`, the step does not set CannotStart: it writes UpgradeCompleted
when the remediation plan is empty, and otherwise UpgradeNotCompleted with the start time, and
asks for an immediate requeue. -/
theorem startUpgrade_not_held_back (w : World) (clusterGroupUpgrade : ClusterGroupUpgrade)
    (managedPoliciesMissing : List String) (managedPoliciesPresent : List Policy)
    (resources : ResourceStatus) (clusters : List String)
    (hphase : readyPhase clusterGroupUpgrade =
        some (ConditionStatus.condFalse, "UpgradeNotStarted") ∨
      readyPhase clusterGroupUpgrade = some (ConditionStatus.condFalse, CannotStart))
    (henable : clusterGroupUpgrade.spec.enable = true)
    (hpolicies : w.doManagedPoliciesExist clusterGroupUpgrade =
      .ok (true, managedPoliciesMissing, managedPoliciesPresent, resources))
    (htargets : getAllClustersForUpgrade w.listing clusterGroupUpgrade = .ok clusters)
    (hresources : ∀ cgu, ∃ created, w.reconcileResources cgu managedPoliciesPresent =
      .ok created)
    (hcontent : ∀ cgu, ∃ content,
      w.processManagedPolicyForUpgradeContent cgu managedPoliciesPresent = .ok content)
    (hblocking : ∀ blockingCR ∈ clusterGroupUpgrade.spec.blockingCRs, ∃ blocking conditions,
      w.getBlockingCGU blockingCR = .found blocking ∧ blocking.conditions = some conditions ∧
        ∀ condition ∈ conditions, condition.reason = "UpgradeCompleted")
    (hactions : ∀ cgu, w.takeActionsBeforeEnable cgu = none) :
    ∃ written, reconcileDispatch w clusterGroupUpgrade =
        .updateStatus written requeueImmediately ∧
      readyReason written ≠ some CannotStart ∧
      ((written.status.remediationPlan = [] ∧
          readyPhase written = some (ConditionStatus.condTrue, "UpgradeCompleted")) ∨
        (written.status.remediationPlan ≠ [] ∧
          readyPhase written = some (ConditionStatus.condFalse, "UpgradeNotCompleted") ∧
          written.status.status.startedAt = w.nowStarted)) := by
  rw [(reconcileDispatch_phase w clusterGroupUpgrade).2.2.1 hphase]
  unfold startUpgrade
  simp only [hpolicies, if_true]
  have htargets2 : getAllClustersForUpgrade w.listing
      (setResourceStatus clusterGroupUpgrade resources) = .ok clusters := htargets
  rw [htargets2, buildRemediationPlan_ok]
  simp only []
  obtain ⟨created, hcreated⟩ := hresources
    { setResourceStatus clusterGroupUpgrade resources with
      status := { (setResourceStatus clusterGroupUpgrade resources).status with
        remediationPlan :=
          remediationPlanOf (nonCompliantLoop managedPoliciesPresent clusters [])
            (setResourceStatus clusterGroupUpgrade resources).spec.remediationStrategy.canaries
            clusters
            (setResourceStatus clusterGroupUpgrade resources).status.computedMaxConcurrency } }
  rw [hcreated]
  simp only []
  obtain ⟨content, hcontent2⟩ := hcontent (setResourceStatus
    { setResourceStatus clusterGroupUpgrade resources with
      status := { (setResourceStatus clusterGroupUpgrade resources).status with
        remediationPlan :=
          remediationPlanOf (nonCompliantLoop managedPoliciesPresent clusters [])
            (setResourceStatus clusterGroupUpgrade resources).spec.remediationStrategy.canaries
            clusters
            (setResourceStatus clusterGroupUpgrade resources).status.computedMaxConcurrency } }
    created)
  rw [hcontent2]
  simp only []
  generalize hfinal : setResourceStatus (setResourceStatus
    { setResourceStatus clusterGroupUpgrade resources with
      status := { (setResourceStatus clusterGroupUpgrade resources).status with
        remediationPlan :=
          remediationPlanOf (nonCompliantLoop managedPoliciesPresent clusters [])
            (setResourceStatus clusterGroupUpgrade resources).spec.remediationStrategy.canaries
            clusters
            (setResourceStatus clusterGroupUpgrade resources).status.computedMaxConcurrency } }
    created) content = final
  have hspec : final.spec = clusterGroupUpgrade.spec := by
    rw [← hfinal]
    rfl
  have hblocking2 : ∀ blockingCR ∈ final.spec.blockingCRs, ∃ blocking conditions,
      w.getBlockingCGU blockingCR = .found blocking ∧ blocking.conditions = some conditions ∧
        ∀ condition ∈ conditions, condition.reason = "UpgradeCompleted" := by
    rw [hspec]
    exact hblocking
  unfold enableUpgrade
  rw [hspec, if_pos henable, blockingCRsNotCompleted_none w.getBlockingCGU final hblocking2]
  simp only [List.length_nil, gt_iff_lt, lt_self_iff_false, if_false, hactions]
  by_cases hplan : final.status.remediationPlan = []
  · rw [if_pos hplan]
    refine ⟨_, rfl, ?_, Or.inl ⟨hplan, readyPhase_setReadyCondition _ _ _ _⟩⟩
    rw [readyReason_setReadyCondition]
    decide
  · rw [if_neg hplan]
    refine ⟨_, rfl, ?_, Or.inr ⟨hplan, readyPhase_setReadyCondition _ _ _ _, rfl⟩⟩
    rw [readyReason_setReadyCondition]
    decide

theorem startUpgrade_not_held_back_witness :
    ∃ written, reconcileDispatch (exampleWorld 1000) exampleBlockedByDone =
        .updateStatus written requeueImmediately ∧
      readyReason written ≠ some CannotStart ∧
      ((written.status.remediationPlan = [] ∧
          readyPhase written = some (ConditionStatus.condTrue, "UpgradeCompleted")) ∨
        (written.status.remediationPlan ≠ [] ∧
          readyPhase written = some (ConditionStatus.condFalse, "UpgradeNotCompleted") ∧
          written.status.status.startedAt = (exampleWorld 1000).nowStarted)) :=
  startUpgrade_not_held_back (exampleWorld 1000) exampleBlockedByDone []
    [examplePolicy1, examplePolicy2] exampleResources ["a", "b"] (Or.inl (by rfl)) (by rfl)
    (by rfl) (by rfl) (fun _ => ⟨exampleResources, rfl⟩) (fun _ => ⟨exampleResources, rfl⟩)
    (by
      intro blockingCR hmem
      simp only [exampleBlockedByDone, List.mem_singleton] at hmem
      subst hmem
      exact ⟨_, _, rfl, rfl, by decide⟩)
    (fun _ => rfl)

/-! ### The compliance of a cluster -/

theorem complianceLoop_find (clusterName : String) (subStatus : List ClusterComplianceEntry) :
    complianceLoop clusterName subStatus =
      match subStatus.find? (settlesCompliance clusterName) with
      | none => ClusterNotMatchedWithPolicy
      | some entry =>
        if entry.compliant = some ClusterStatusCompliant then ClusterStatusCompliant
        else ClusterStatusNonCompliant := by
  induction subStatus with
  | nil => rfl
  | cons crt rest ih =>
    unfold complianceLoop
    rw [List.find?_cons]
    by_cases hname : clusterName = crt.clustername
    · rw [if_pos hname]
      by_cases h1 : crt.compliant = some ClusterStatusCompliant
      · have hs : settlesCompliance clusterName crt = true := by
          simp [settlesCompliance, hname, h1]
        rw [if_pos h1, hs]
        simp only [h1, if_true]
      · rw [if_neg h1]
        by_cases h2 : crt.compliant = some ClusterStatusNonCompliant
        · have hs : settlesCompliance clusterName crt = true := by
            simp [settlesCompliance, hname, h2]
          rw [if_pos h2, hs]
          simp only [h1, if_false]
        · rw [if_neg h2]
          by_cases h3 : crt.compliant = none
          · have hs : settlesCompliance clusterName crt = true := by
              simp [settlesCompliance, hname, h3]
            rw [if_pos h3, hs]
            simp only [h1, if_false]
          · have hs : settlesCompliance clusterName crt = false := by
              simp [settlesCompliance, h1, h2, h3]
            rw [if_neg h3, hs]
            exact ih
    · have hs : settlesCompliance clusterName crt = false := by
        have : ¬ crt.clustername = clusterName := fun e => hname e.symm
        simp [settlesCompliance, this]
      rw [if_neg hname, hs]
      exact ih

/-- Claim C29: for every cluster name and every well-formed policy,
`getClusterComplianceWithPolicy` returns one of Compliant, NonCompliant and
NotMatchedWithPolicy, and it is the value of the specification: NonCompliant when the policy
has no status or no per-cluster list; otherwise Compliant or NonCompliant as the first entry
for the cluster whose `compliant` is Compliant, NonCompliant or absent says, absent counting as
NonCompliant; and NotMatchedWithPolicy when the list has no such entry. -/
theorem getClusterComplianceWithPolicy_spec (clusterName : String) (policy : Policy) :
    getClusterComplianceWithPolicy clusterName policy =
      specClusterCompliance clusterName policy ∧
    (getClusterComplianceWithPolicy clusterName policy = ClusterStatusCompliant ∨
      getClusterComplianceWithPolicy clusterName policy = ClusterStatusNonCompliant ∨
      getClusterComplianceWithPolicy clusterName policy = ClusterNotMatchedWithPolicy) ∧
    ClusterStatusCompliant ≠ ClusterStatusNonCompliant ∧
    ClusterStatusCompliant ≠ ClusterNotMatchedWithPolicy ∧
    ClusterStatusNonCompliant ≠ ClusterNotMatchedWithPolicy := by
  refine ⟨?_, compliance_cases clusterName policy, by decide, by decide, by decide⟩
  unfold getClusterComplianceWithPolicy getPolicyClusterStatus specClusterCompliance
  cases policy.status with
  | none => rfl
  | some statusObject =>
    cases hs : statusObject.status with
    | none => simp [hs]
    | some subStatus =>
      simp only [hs]
      exact complianceLoop_find clusterName subStatus

/-! ### The search result without a NonCompliant policy -/

/-- Claim C27: the doc comment of `getNextNonCompliantPolicyForCluster` promises -1 when no
policy is found; with two policies that both report cluster `a` as Compliant and the start
index 0, the function returns 2, the number of policies. -/
theorem getNextNonCompliantPolicyForCluster_returns_length :
    exampleLastBatch.status.managedPoliciesForUpgrade.length = 2 ∧
    (∀ j : Int, 0 ≤ j → j < 2 →
      policyComplianceAt exampleCompliantStore exampleLastBatch "a" j =
        some ClusterStatusCompliant) ∧
    getNextNonCompliantPolicyForCluster exampleCompliantStore exampleLastBatch "a" 0 = .ok 2 ∧
    getNextNonCompliantPolicyForCluster exampleCompliantStore exampleLastBatch "a" 0 ≠
      .ok (-1) := by
  refine ⟨by rfl, ?_, by rfl, ?_⟩
  · intro j h0 h2
    have hj : j = 0 ∨ j = 1 := by omega
    rcases hj with hj | hj <;> subst hj <;> rfl
  · intro h
    have h2 : getNextNonCompliantPolicyForCluster exampleCompliantStore exampleLastBatch "a" 0 =
        .ok 2 := by rfl
    rw [h2] at h
    simp at h
/-! ### Idempotence of the cursor advancement -/

theorem mapSet_same {α : Type} (m : GoMap α) (k : String) (v : α)
    (h : mapGet? m k = some v) : mapSet m k v = m := by
  induction m with
  | nil => simp [mapGet?] at h
  | cons kv rest ih =>
    obtain ⟨k', v'⟩ := kv
    unfold mapGet? at h
    unfold mapSet
    by_cases hk : k' = k
    · rw [if_pos hk] at h ⊢
      simp only [Option.some.injEq] at h
      rw [hk, h]
    · rw [if_neg hk] at h ⊢
      rw [ih h]

theorem nextNonCompliantLoop_congr (g : String → String → Except Fault Policy)
    (cgu1 cgu2 : ClusterGroupUpgrade)
    (h : cgu1.status.managedPoliciesForUpgrade = cgu2.status.managedPoliciesForUpgrade)
    (c : String) (left : Nat) (i : Int) :
    nextNonCompliantLoop g cgu1 c left i = nextNonCompliantLoop g cgu2 c left i := by
  induction left generalizing i with
  | zero => rfl
  | succ n ih =>
    unfold nextNonCompliantLoop GetManagedPolicyForUpgradeByIndex
    rw [h]
    simp only [ih]

theorem advanceCluster_congr (g : String → String → Except Fault Policy)
    (cgu1 cgu2 : ClusterGroupUpgrade)
    (h : cgu1.status.managedPoliciesForUpgrade = cgu2.status.managedPoliciesForUpgrade)
    (c : String) (e : ClusterRemediationProgress) :
    advanceFromIndex g cgu1 c e = advanceFromIndex g cgu2 c e := by
  unfold advanceFromIndex getNextNonCompliantPolicyForCluster
  rw [h]
  cases e.policyIndex with
  | none => rfl
  | some s =>
    simp only []
    rw [nextNonCompliantLoop_congr g cgu1 cgu2 h]

theorem batchProgressLoop_congr (g : String → String → Except Fault Policy)
    (cgu1 cgu2 : ClusterGroupUpgrade)
    (h : cgu1.status.managedPoliciesForUpgrade = cgu2.status.managedPoliciesForUpgrade)
    (batch : List String) (pm : GoMap ClusterRemediationProgress) (done : Bool) :
    batchProgressLoop g cgu1 batch pm done = batchProgressLoop g cgu2 batch pm done := by
  induction batch generalizing pm done with
  | nil => rfl
  | cons c rest ih =>
    unfold batchProgressLoop
    cases mapGet? pm c with
    | none => rfl
    | some e =>
      simp only []
      rw [advanceCluster_congr g cgu1 cgu2 h]
      by_cases hc : e.state = RemediationState.Completed
      · rw [if_pos hc, if_pos hc]
        exact ih pm done
      · rw [if_neg hc, if_neg hc]
        cases advanceFromIndex g cgu2 c (startProgress e) with
        | error err => rfl
        | ok res =>
          obtain ⟨e1, b⟩ := res
          simp only []
          exact ih _ _

/-- The loop over a batch leaves a progress map as it is when every cluster of the batch has an
entry that one advancement does not change. -/
theorem batchProgressLoop_fixed (g : String → String → Except Fault Policy)
    (cgu : ClusterGroupUpgrade) (batch : List String) (pm : GoMap ClusterRemediationProgress)
    (done : Bool)
    (hfix : ∀ c ∈ batch, ∃ e b, mapGet? pm c = some e ∧ advanceCluster g cgu c e = .ok (e, b)) :
    ∃ done', batchProgressLoop g cgu batch pm done = .ok (pm, done') := by
  induction batch generalizing done with
  | nil => exact ⟨done, rfl⟩
  | cons c rest ih =>
    have hrest : ∀ c ∈ rest, ∃ e b, mapGet? pm c = some e ∧
        advanceCluster g cgu c e = .ok (e, b) :=
      fun x hx => hfix x (List.mem_cons_of_mem _ hx)
    obtain ⟨e, b, hget, hadv⟩ := hfix c (List.mem_cons_self _ _)
    unfold batchProgressLoop
    rw [hget]
    simp only []
    by_cases hc : e.state = RemediationState.Completed
    · rw [if_pos hc]
      exact ih done hrest
    · rw [if_neg hc]
      unfold advanceCluster at hadv
      rw [if_neg hc] at hadv
      rw [hadv]
      simp only []
      rw [mapSet_same pm c e hget]
      exact ih _ hrest

/-- A second call of `getNextRemediationPoliciesForBatch` on the result of an error-free call
returns the same flag and the same object. -/
theorem getNextRemediationPoliciesForBatch_twice (g : String → String → Except Fault Policy)
    (cgu cgu1 : ClusterGroupUpgrade) (done : Bool)
    (h : getNextRemediationPoliciesForBatch g cgu = .ok (done, cgu1)) :
    getNextRemediationPoliciesForBatch g cgu1 = .ok (done, cgu1) := by
  obtain ⟨batch, pm1, hbatch, hloop, hcgu⟩ := getNextRemediationPoliciesForBatch_eq g cgu cgu1 done h
  obtain ⟨_, hstep, hdone⟩ := batchProgressLoop_spec g cgu batch _ pm1 true done hloop
  have hfix : ∀ c ∈ batch, ∃ e b, mapGet? pm1 c = some e ∧
      advanceCluster g cgu c e = .ok (e, b) := by
    intro c hc
    obtain ⟨e, e1, b, _, hadv, hget1⟩ := hstep c hc
    exact ⟨e1, b, hget1, advanceCluster_idem g cgu c e e1 b hadv⟩
  obtain ⟨done2, hloop2⟩ := batchProgressLoop_fixed g cgu batch pm1 true hfix
  obtain ⟨_, _, hdone2⟩ := batchProgressLoop_spec g cgu batch pm1 pm1 true done2 hloop2
  have hflag : done2 = done := by
    have hiff : done2 = true ↔ done = true := hdone2.trans hdone.symm
    cases done2 <;> cases done <;> simp_all
  have hpol : cgu1.status.managedPoliciesForUpgrade = cgu.status.managedPoliciesForUpgrade := by
    rw [hcgu]
  have hbatch1 : planBatch cgu1 (cgu1.status.status.currentBatch - 1) = .ok batch := by
    rw [hcgu]
    exact hbatch
  have hpm : cgu1.status.status.currentBatchRemediationProgress = pm1 := by
    rw [hcgu]
  unfold getNextRemediationPoliciesForBatch
  rw [hbatch1, hpm]
  simp only []
  rw [batchProgressLoop_congr g cgu1 cgu hpol, hloop2, hflag]
  simp only []
  rw [hcgu]

/-- Claim C26: for every object whose progress map satisfies the progress invariant, whose
current batch is a batch of the plan and whose policies can all be read, a call of
`getNextRemediationPoliciesForBatch` returns without error, and a second call with the same
policy observations on its result returns the same batch-complete flag and the same progress
map as the first. -/
theorem getNextRemediationPoliciesForBatch_idempotent
    (getPolicyByName : String → String → Except Fault Policy)
    (clusterGroupUpgrade : ClusterGroupUpgrade) (batch : List String)
    (hinv : ProgressInvariant clusterGroupUpgrade)
    (hbatch : planBatch clusterGroupUpgrade
      (clusterGroupUpgrade.status.status.currentBatch - 1) = .ok batch)
    (hread : PoliciesReadable getPolicyByName clusterGroupUpgrade) :
    ∃ isBatchComplete once,
      getNextRemediationPoliciesForBatch getPolicyByName clusterGroupUpgrade =
        .ok (isBatchComplete, once) ∧
      getNextRemediationPoliciesForBatch getPolicyByName once = .ok (isBatchComplete, once) := by
  obtain ⟨done, cgu1, h⟩ := getNextRemediationPoliciesForBatch_ok getPolicyByName
    clusterGroupUpgrade batch hread hbatch hinv
  exact ⟨done, cgu1, h, getNextRemediationPoliciesForBatch_twice getPolicyByName
    clusterGroupUpgrade cgu1 done h⟩

theorem getNextRemediationPoliciesForBatch_idempotent_witness :
    getNextRemediationPoliciesForBatch exampleStore exampleUpgrade =
      .ok (false, exampleAdvanced) ∧
    getNextRemediationPoliciesForBatch exampleStore exampleAdvanced =
      .ok (false, exampleAdvanced) ∧
    ∃ isBatchComplete once,
      getNextRemediationPoliciesForBatch exampleStore exampleUpgrade =
        .ok (isBatchComplete, once) ∧
      getNextRemediationPoliciesForBatch exampleStore once = .ok (isBatchComplete, once) :=
  ⟨by rfl, by rfl,
    getNextRemediationPoliciesForBatch_idempotent exampleStore exampleUpgrade ["a", "b"]
      exampleUpgrade_invariant (by rfl) (by
        intro info hinfo
        simp only [exampleUpgrade, List.mem_cons, List.mem_singleton, List.not_mem_nil,
          or_false] at hinfo
        rcases hinfo with h | h <;> subst h <;> exact ⟨_, rfl⟩)⟩

/-! ### The canary batches of the plan -/

theorem mem_of_mem_flatten_getElem {α : Type} (plan : List (List α)) (k : Nat) (batch : List α)
    (h : plan[k]? = some batch) (x : α) (hx : x ∈ batch) : x ∈ plan.flatten := by
  rw [List.mem_flatten]
  exact ⟨batch, List.getElem?_mem h, hx⟩

/-- The counterexample to claim C28: with the canaries `a` and `b`, of which `a` is compliant
when the plan is built, the plan is `[[b], [c]]`; batch 2 is within the number of canaries and
of batches, and its cluster `c` is not a canary. -/
theorem buildRemediationPlan_compliant_canary :
    (∃ written, buildRemediationPlan (.ok ["a", "b", "c"]) exampleCompliantCanary
        [examplePolicy3] = .ok written ∧
      written.status.remediationPlan = [["b"], ["c"]]) ∧
    exampleCompliantCanary.spec.remediationStrategy.canaries = ["a", "b"] ∧
    (2 : Nat) ≤ min exampleCompliantCanary.spec.remediationStrategy.canaries.length
      ([["b"], ["c"]] : List (List String)).length ∧
    ([["b"], ["c"]] : List (List String))[1]? = some ["c"] ∧
    "c" ∉ exampleCompliantCanary.spec.remediationStrategy.canaries :=
  ⟨⟨_, rfl, by rfl⟩, by rfl, by decide, by rfl, by decide⟩

/-- Claim C28 (amended): for every plan that `buildRemediationPlan` writes, let `m` be the
number of entries of the spec canaries that are target clusters NonCompliant with a managed
policy when the plan is built; `m` is at most the number of canaries and of batches, each of
the first `m` batches is the single-cluster batch of the next such canary, and no later batch
holds a canary. The test `currentBatch <= |canaries|` of the batch driver therefore holds for
every canary batch, and it holds for exactly the canary batches when no canary was compliant at
planning time or the plan has no more than `m` batches. -/
theorem buildRemediationPlan_canary_batches (allClustersForUpgrade : List String)
    (clusterGroupUpgrade written : ClusterGroupUpgrade) (managedPolicies : List Policy)
    (hplan : buildRemediationPlan (.ok allClustersForUpgrade) clusterGroupUpgrade
      managedPolicies = .ok written) :
    ((clusterGroupUpgrade.spec.remediationStrategy.canaries.filter
        (fun c => mapGetBool (nonCompliantLoop managedPolicies allClustersForUpgrade []) c)).length
      ≤ clusterGroupUpgrade.spec.remediationStrategy.canaries.length) ∧
    ((clusterGroupUpgrade.spec.remediationStrategy.canaries.filter
        (fun c => mapGetBool (nonCompliantLoop managedPolicies allClustersForUpgrade []) c)).length
      ≤ written.status.remediationPlan.length) ∧
    (∀ (k : Nat) (canary : String),
      (clusterGroupUpgrade.spec.remediationStrategy.canaries.filter
        (fun c => mapGetBool (nonCompliantLoop managedPolicies allClustersForUpgrade [])
          c))[k]? = some canary →
      written.status.remediationPlan[k]? = some [canary] ∧
      canary ∈ clusterGroupUpgrade.spec.remediationStrategy.canaries) ∧
    (∀ (k : Nat) (batch : List String),
      (clusterGroupUpgrade.spec.remediationStrategy.canaries.filter
        (fun c => mapGetBool (nonCompliantLoop managedPolicies allClustersForUpgrade [])
          c)).length ≤ k →
      written.status.remediationPlan[k]? = some batch →
      ∀ c ∈ batch, c ∉ clusterGroupUpgrade.spec.remediationStrategy.canaries) := by
  rw [buildRemediationPlan_ok] at hplan
  simp only [Except.ok.injEq] at hplan
  rw [← hplan]
  simp only []
  rw [remediationPlanOf_eq]
  generalize hnc : nonCompliantLoop managedPolicies allClustersForUpgrade [] = nc
  generalize hcan : clusterGroupUpgrade.spec.remediationStrategy.canaries = canaries
  refine ⟨List.length_filter_le _ _, ?_, ?_, ?_⟩
  · rw [List.length_append, List.length_map]
    omega
  · intro k canary hk
    have hlt : k < (canaries.filter (fun c => mapGetBool nc c)).length := by
      by_contra hge
      rw [List.getElem?_eq_none (by omega)] at hk
      exact absurd hk (by simp)
    refine ⟨?_, List.mem_of_mem_filter (List.getElem?_mem hk)⟩
    rw [List.getElem?_append_left (by rw [List.length_map]; exact hlt), List.getElem?_map, hk]
    rfl
  · intro k batch hk hbatch c hc
    rw [List.getElem?_append_right (by rw [List.length_map]; exact hk)] at hbatch
    have hmem := mem_of_mem_flatten_getElem _ _ batch hbatch c hc
    rw [batchLoop_flatten_canary, List.mem_filter] at hmem
    have h2 := hmem.2
    simp only [Bool.and_eq_true, Bool.not_eq_true', decide_eq_false_iff_not] at h2
    exact h2.2

theorem buildRemediationPlan_canary_batches_witness :
    ([["b"], ["c"]] : List (List String))[0]? = some ["b"] ∧
    "b" ∈ exampleCompliantCanary.spec.remediationStrategy.canaries :=
  (buildRemediationPlan_canary_batches ["a", "b", "c"] exampleCompliantCanary
    { exampleCompliantCanary with
      status := { exampleCompliantCanary.status with remediationPlan := [["b"], ["c"]] } }
    [examplePolicy3] (by rfl)).2.2.1 0 "b" (by rfl)

/-! ### Child resources -/

theorem keepsEntries_refl (m : Option (GoMap String)) : KeepsEntries m m :=
  fun _ _ h => h

theorem keepsEntries_trans (a b c : Option (GoMap String)) (h1 : KeepsEntries a b)
    (h2 : KeepsEntries b c) : KeepsEntries a c :=
  fun d s h => h2 d s (h1 d s h)

/-- One call of `checkDuplicateChildResources`, by cases. -/
theorem checkDuplicateChildResources_cases (delete : ChildResource → Option Fault)
    (state : ChildNames) (child : ChildResource) :
    (StaleChild state.safeNameMap child ∧
      ((∃ err, delete child = some err ∧
          checkDuplicateChildResources delete state child = (state, some err)) ∨
        (delete child = none ∧
          checkDuplicateChildResources delete state child =
            ({ state with deleted := state.deleted ++ [child] }, none)))) ∨
    (¬ StaleChild state.safeNameMap child ∧
      (∀ d, child.desiredName = some d → safeNameOf state.safeNameMap d = some child.name) ∧
      checkDuplicateChildResources delete state child =
        ({ state with childResourceNames := state.childResourceNames ++ [child.name] },
          none)) ∨
    (∃ d m, child.desiredName = some d ∧ state.safeNameMap = some m ∧ mapGet? m d = none ∧
      checkDuplicateChildResources delete state child =
        ({ state with
            safeNameMap := some (mapSet m d child.name)
            childResourceNames := state.childResourceNames ++ [child.name] }, none)) ∨
    (∃ d, child.desiredName = some d ∧ state.safeNameMap = none ∧
      checkDuplicateChildResources delete state child = (state, some .panic)) := by
  unfold checkDuplicateChildResources
  cases hd : child.desiredName with
  | none =>
    refine Or.inr (Or.inl ⟨?_, ?_, rfl⟩)
    · rintro ⟨d, s, h, _⟩
      rw [hd] at h
      exact absurd h (by simp)
    · intro d h
      exact absurd h (by simp)
  | some d =>
    simp only []
    cases hs : safeNameOf state.safeNameMap d with
    | some s =>
      simp only []
      by_cases hne : child.name ≠ s
      · rw [if_pos hne]
        have hstale : StaleChild state.safeNameMap child :=
          ⟨d, s, hd, hs, fun e => hne e.symm⟩
        cases hdel : delete child with
        | some err => exact Or.inl ⟨hstale, Or.inl ⟨err, rfl, rfl⟩⟩
        | none => exact Or.inl ⟨hstale, Or.inr ⟨rfl, rfl⟩⟩
      · rw [if_neg hne]
        simp only [ne_eq, not_not] at hne
        refine Or.inr (Or.inl ⟨?_, ?_, rfl⟩)
        · rintro ⟨d2, s2, h1, h2, h3⟩
          rw [hd] at h1
          simp only [Option.some.injEq] at h1
          subst h1
          rw [hs] at h2
          simp only [Option.some.injEq] at h2
          exact h3 (h2.symm.trans hne.symm)
        · intro d2 h
          simp only [Option.some.injEq] at h
          subst h
          rw [hs, hne]
    | none =>
      simp only []
      cases hm : state.safeNameMap with
      | none => exact Or.inr (Or.inr (Or.inr ⟨d, rfl, rfl, rfl⟩))
      | some m =>
        refine Or.inr (Or.inr (Or.inl ⟨d, m, rfl, rfl, ?_, rfl⟩))
        rw [hm] at hs
        exact hs

theorem keepsEntries_mapSet (m : GoMap String) (d name : String) (h : mapGet? m d = none) :
    KeepsEntries (some m) (some (mapSet m d name)) := by
  intro d2 s hs
  unfold safeNameOf at hs ⊢
  simp only [] at hs ⊢
  rw [mapGet?_mapSet]
  by_cases hk : d = d2
  · subst hk
    rw [h] at hs
    exact absurd hs (by simp)
  · rw [if_neg hk]
    exact hs

theorem checkDuplicateChildResources_keeps (delete : ChildResource → Option Fault)
    (state : ChildNames) (child : ChildResource) :
    KeepsEntries state.safeNameMap
      (checkDuplicateChildResources delete state child).1.safeNameMap := by
  rcases checkDuplicateChildResources_cases delete state child with
    ⟨_, ⟨err, _, h⟩ | ⟨_, h⟩⟩ | ⟨_, _, h⟩ | ⟨d, m, _, hm, hnone, h⟩ | ⟨d, _, _, h⟩
  · rw [h]
    exact keepsEntries_refl _
  · rw [h]
    exact keepsEntries_refl _
  · rw [h]
    exact keepsEntries_refl _
  · rw [h, hm]
    exact keepsEntries_mapSet m d child.name hnone
  · rw [h]
    exact keepsEntries_refl _

theorem childResourcesLoop_keeps (delete : ChildResource → Option Fault)
    (children : List ChildResource) (state : ChildNames) :
    KeepsEntries state.safeNameMap (childResourcesLoop delete children state).1.safeNameMap := by
  induction children generalizing state with
  | nil => exact keepsEntries_refl _
  | cons child rest ih =>
    unfold childResourcesLoop
    have hstep := checkDuplicateChildResources_keeps delete state child
    cases hc : checkDuplicateChildResources delete state child with
    | mk state1 err =>
      rw [hc] at hstep
      cases err with
      | some e => exact hstep
      | none => exact keepsEntries_trans _ _ _ hstep (ih state1)

/-- A key that the loop adds is the desired name of a child of the list, with the name of that
child. -/
theorem childResourcesLoop_added (delete : ChildResource → Option Fault)
    (children : List ChildResource) (state : ChildNames) (d s : String)
    (h : safeNameOf (childResourcesLoop delete children state).1.safeNameMap d = some s) :
    safeNameOf state.safeNameMap d = some s ∨
      (safeNameOf state.safeNameMap d = none ∧
        ∃ child ∈ children, child.desiredName = some d ∧ child.name = s) := by
  induction children generalizing state with
  | nil => exact Or.inl h
  | cons child rest ih =>
    unfold childResourcesLoop at h
    have hcases := checkDuplicateChildResources_cases delete state child
    cases hc : checkDuplicateChildResources delete state child with
    | mk state1 err =>
      rw [hc] at h hcases
      have hlift : (safeNameOf state1.safeNameMap d = some s ∨
          (safeNameOf state1.safeNameMap d = none ∧
            ∃ child ∈ rest, child.desiredName = some d ∧ child.name = s)) →
          state1.safeNameMap = state.safeNameMap →
          (safeNameOf state.safeNameMap d = some s ∨
            (safeNameOf state.safeNameMap d = none ∧
              ∃ c ∈ child :: rest, c.desiredName = some d ∧ c.name = s)) := by
        intro hor heq
        rw [heq] at hor
        rcases hor with h1 | ⟨h1, c, hcm, h2⟩
        · exact Or.inl h1
        · exact Or.inr ⟨h1, c, List.mem_cons_of_mem _ hcm, h2⟩
      have hres : safeNameOf state1.safeNameMap d = some s ∨
          (safeNameOf state1.safeNameMap d = none ∧
            ∃ child ∈ rest, child.desiredName = some d ∧ child.name = s) := by
        cases err with
        | some e => exact Or.inl h
        | none => exact ih state1 h
      rcases hcases with ⟨_, ⟨e, _, h1⟩ | ⟨_, h1⟩⟩ | ⟨_, _, h1⟩ | ⟨d1, m, hd1, hm, hnone, h1⟩ |
        ⟨d1, _, _, h1⟩
      · simp only [Prod.mk.injEq] at h1
        exact hlift hres (by rw [h1.1])
      · simp only [Prod.mk.injEq] at h1
        exact hlift hres (by rw [h1.1])
      · simp only [Prod.mk.injEq] at h1
        exact hlift hres (by rw [h1.1])
      · simp only [Prod.mk.injEq] at h1
        have hmap : state1.safeNameMap = some (mapSet m d1 child.name) := by rw [h1.1]
        rw [hmap] at hres
        rw [hm]
        by_cases hk : d1 = d
        · subst hk
          have hnew : safeNameOf (some (mapSet m d1 child.name)) d1 = some child.name := by
            unfold safeNameOf
            simp only []
            rw [mapGet?_mapSet, if_pos rfl]
          rcases hres with h2 | ⟨h2, _⟩
          · rw [hnew] at h2
            simp only [Option.some.injEq] at h2
            exact Or.inr ⟨hnone, child, List.mem_cons_self _ _, hd1, h2⟩
          · rw [hnew] at h2
            exact absurd h2 (by simp)
        · have hsame : safeNameOf (some (mapSet m d1 child.name)) d = safeNameOf (some m) d := by
            unfold safeNameOf
            simp only []
            rw [mapGet?_mapSet, if_neg hk]
          rw [hsame] at hres
          rcases hres with h2 | ⟨h2, c, hcm, h3⟩
          · exact Or.inl h2
          · exact Or.inr ⟨h2, c, List.mem_cons_of_mem _ hcm, h3⟩
      · simp only [Prod.mk.injEq] at h1
        exact hlift hres (by rw [h1.1])
theorem updateChildResourceNamesInStatus_keeps (api : ChildApi) (cgu : ClusterGroupUpgrade) :
    KeepsEntries cgu.status.safeResourceNames
      (updateChildResourceNamesInStatus api cgu).1.status.safeResourceNames := by
  unfold updateChildResourceNamesInStatus
  cases api.getPlacementRules cgu with
  | error err => exact keepsEntries_refl _
  | ok placementRules =>
    simp only []
    have h1 := childResourcesLoop_keeps api.delete placementRules
      { safeNameMap := cgu.status.safeResourceNames }
    cases hl1 : childResourcesLoop api.delete placementRules
        { safeNameMap := cgu.status.safeResourceNames } with
    | mk rules err1 =>
      rw [hl1] at h1
      cases err1 with
      | some e => exact h1
      | none =>
        simp only []
        cases api.getPlacementBindings
            { cgu with
              status := { cgu.status with
                safeResourceNames := rules.safeNameMap
                placementRules := rules.childResourceNames } } with
        | error err => exact h1
        | ok placementBindings =>
          simp only []
          have h2 := childResourcesLoop_keeps api.delete placementBindings
            { safeNameMap := rules.safeNameMap }
          cases hl2 : childResourcesLoop api.delete placementBindings
              { safeNameMap := rules.safeNameMap } with
          | mk bindings err2 =>
            rw [hl2] at h2
            cases err2 with
            | some e => exact keepsEntries_trans _ _ _ h1 h2
            | none =>
              simp only []
              cases api.getCopiedPolicies
                  { cgu with
                    status := { cgu.status with
                      safeResourceNames := bindings.safeNameMap
                      placementRules := rules.childResourceNames
                      placementBindings := bindings.childResourceNames } } with
              | error err => exact keepsEntries_trans _ _ _ h1 h2
              | ok copiedPolicies =>
                simp only []
                have h3 := childResourcesLoop_keeps api.delete copiedPolicies
                  { safeNameMap := bindings.safeNameMap }
                cases hl3 : childResourcesLoop api.delete copiedPolicies
                    { safeNameMap := bindings.safeNameMap } with
                | mk policies err3 =>
                  rw [hl3] at h3
                  cases err3 with
                  | some e => exact keepsEntries_trans _ _ _ (keepsEntries_trans _ _ _ h1 h2) h3
                  | none => exact keepsEntries_trans _ _ _ (keepsEntries_trans _ _ _ h1 h2) h3

/-- Claim C21: for every map `safeResourceNames` and every list of live children, a call of
`checkDuplicateChildResources`, the loop of such calls over a list of children and
`updateChildResourceNamesInStatus` keep every entry of the map, whether they return an error or
not: a desired name that has a safe name before has the same safe name after. A key that the
loop adds was absent before, and it is the desired name of a child of the list, recorded with
the name of that child. -/
theorem safeResourceNames_entries_kept (api : ChildApi)
    (clusterGroupUpgrade : ClusterGroupUpgrade) (delete : ChildResource → Option Fault)
    (state : ChildNames) (newResource : ChildResource) (children : List ChildResource) :
    (∀ desiredName safeName, safeNameOf state.safeNameMap desiredName = some safeName →
      safeNameOf (checkDuplicateChildResources delete state newResource).1.safeNameMap
        desiredName = some safeName) ∧
    (∀ desiredName safeName, safeNameOf state.safeNameMap desiredName = some safeName →
      safeNameOf (childResourcesLoop delete children state).1.safeNameMap desiredName =
        some safeName) ∧
    (∀ desiredName safeName,
      safeNameOf (childResourcesLoop delete children state).1.safeNameMap desiredName =
        some safeName →
      safeNameOf state.safeNameMap desiredName = some safeName ∨
        (safeNameOf state.safeNameMap desiredName = none ∧
          ∃ child ∈ children, child.desiredName = some desiredName ∧ child.name = safeName)) ∧
    (∀ desiredName safeName,
      safeNameOf clusterGroupUpgrade.status.safeResourceNames desiredName = some safeName →
      safeNameOf (updateChildResourceNamesInStatus api
        clusterGroupUpgrade).1.status.safeResourceNames desiredName = some safeName) :=
  ⟨checkDuplicateChildResources_keeps delete state newResource,
    childResourcesLoop_keeps delete children state,
    fun d s h => childResourcesLoop_added delete children state d s h,
    updateChildResourceNamesInStatus_keeps api clusterGroupUpgrade⟩

/-- The result of an error-free loop over the children of one kind, in terms of the map it
leaves: the names appended are those of the children that are not stale, the children deleted
are the stale ones, and a child that is not stale has its desired name recorded with its own
name. -/
theorem childResourcesLoop_spec (delete : ChildResource → Option Fault)
    (children : List ChildResource) (state final : ChildNames)
    (h : childResourcesLoop delete children state = (final, none)) :
    (∀ n, n ∈ final.childResourceNames ↔
      n ∈ state.childResourceNames ∨
        ∃ c ∈ children, c.name = n ∧ ¬ StaleChild final.safeNameMap c) ∧
    (∀ x, x ∈ final.deleted ↔
      x ∈ state.deleted ∨ (x ∈ children ∧ StaleChild final.safeNameMap x)) ∧
    (∀ c ∈ children, ¬ StaleChild final.safeNameMap c → ∀ d, c.desiredName = some d →
      safeNameOf final.safeNameMap d = some c.name) := by
  induction children generalizing state with
  | nil =>
    simp only [childResourcesLoop, Prod.mk.injEq, and_true] at h
    subst h
    simp
  | cons child rest ih =>
    unfold childResourcesLoop at h
    have hcases := checkDuplicateChildResources_cases delete state child
    cases hc : checkDuplicateChildResources delete state child with
    | mk state1 err =>
      rw [hc] at h hcases
      cases err with
      | some e =>
        simp only [Prod.mk.injEq, reduceCtorEq, and_false] at h
      | none =>
        simp only [] at h
        obtain ⟨hN, hD, hK⟩ := ih state1 h
        have hkeep : KeepsEntries state1.safeNameMap final.safeNameMap := by
          have := childResourcesLoop_keeps delete rest state1
          rw [h] at this
          exact this
        -- the status of the first child with respect to the final map
        have hfirst : (StaleChild final.safeNameMap child ∧
              state1.childResourceNames = state.childResourceNames ∧
              state1.deleted = state.deleted ++ [child]) ∨
            (¬ StaleChild final.safeNameMap child ∧
              (∀ d, child.desiredName = some d →
                safeNameOf final.safeNameMap d = some child.name) ∧
              state1.childResourceNames = state.childResourceNames ++ [child.name] ∧
              state1.deleted = state.deleted) := by
          have hnotStale : (∀ d, child.desiredName = some d →
              safeNameOf final.safeNameMap d = some child.name) →
              ¬ StaleChild final.safeNameMap child := by
            rintro hrec ⟨d, s, h1, h2, h3⟩
            rw [hrec d h1] at h2
            simp only [Option.some.injEq] at h2
            exact h3 h2.symm
          rcases hcases with ⟨⟨d, s, h1, h2, h3⟩, ⟨e, _, h4⟩ | ⟨_, h4⟩⟩ | ⟨_, hrec, h4⟩ |
            ⟨d, m, hd, hm, hnone, h4⟩ | ⟨d, _, _, h4⟩
          · simp only [Prod.mk.injEq, reduceCtorEq, and_false] at h4
          · simp only [Prod.mk.injEq, and_true] at h4
            refine Or.inl ⟨⟨d, s, h1, hkeep d s ?_, h3⟩, ?_, ?_⟩
            · rw [h4]
              exact h2
            · rw [h4]
            · rw [h4]
          · simp only [Prod.mk.injEq, and_true] at h4
            have hrec2 : ∀ d, child.desiredName = some d →
                safeNameOf final.safeNameMap d = some child.name := by
              intro d hd
              apply hkeep
              rw [h4]
              exact hrec d hd
            exact Or.inr ⟨hnotStale hrec2, hrec2, by rw [h4], by rw [h4]⟩
          · simp only [Prod.mk.injEq, and_true] at h4
            have hrec2 : ∀ d2, child.desiredName = some d2 →
                safeNameOf final.safeNameMap d2 = some child.name := by
              intro d2 hd2
              rw [hd] at hd2
              simp only [Option.some.injEq] at hd2
              subst hd2
              apply hkeep
              rw [h4]
              unfold safeNameOf
              simp only []
              rw [mapGet?_mapSet, if_pos rfl]
            exact Or.inr ⟨hnotStale hrec2, hrec2, by rw [h4], by rw [h4]⟩
          · simp only [Prod.mk.injEq, reduceCtorEq, and_false] at h4
        refine ⟨?_, ?_, ?_⟩
        · intro n
          rw [hN n]
          rcases hfirst with ⟨hst, hn1, _⟩ | ⟨hst, _, hn1, _⟩
          · rw [hn1]
            constructor
            · rintro (h1 | ⟨c, hcm, h2, h3⟩)
              · exact Or.inl h1
              · exact Or.inr ⟨c, List.mem_cons_of_mem _ hcm, h2, h3⟩
            · rintro (h1 | ⟨c, hcm, h2, h3⟩)
              · exact Or.inl h1
              · rcases List.mem_cons.mp hcm with hcm | hcm
                · subst hcm
                  exact absurd hst h3
                · exact Or.inr ⟨c, hcm, h2, h3⟩
          · rw [hn1, List.mem_append, List.mem_singleton]
            constructor
            · rintro ((h1 | h1) | ⟨c, hcm, h2, h3⟩)
              · exact Or.inl h1
              · exact Or.inr ⟨child, List.mem_cons_self _ _, h1.symm, hst⟩
              · exact Or.inr ⟨c, List.mem_cons_of_mem _ hcm, h2, h3⟩
            · rintro (h1 | ⟨c, hcm, h2, h3⟩)
              · exact Or.inl (Or.inl h1)
              · rcases List.mem_cons.mp hcm with hcm | hcm
                · subst hcm
                  exact Or.inl (Or.inr h2.symm)
                · exact Or.inr ⟨c, hcm, h2, h3⟩
        · intro x
          rw [hD x]
          rcases hfirst with ⟨hst, _, hd1⟩ | ⟨hst, _, _, hd1⟩
          · rw [hd1, List.mem_append, List.mem_singleton]
            constructor
            · rintro ((h1 | h1) | ⟨hcm, h3⟩)
              · exact Or.inl h1
              · subst h1
                exact Or.inr ⟨List.mem_cons_self _ _, hst⟩
              · exact Or.inr ⟨List.mem_cons_of_mem _ hcm, h3⟩
            · rintro (h1 | ⟨hcm, h3⟩)
              · exact Or.inl (Or.inl h1)
              · rcases List.mem_cons.mp hcm with hcm | hcm
                · exact Or.inl (Or.inr hcm)
                · exact Or.inr ⟨hcm, h3⟩
          · rw [hd1]
            constructor
            · rintro (h1 | ⟨hcm, h3⟩)
              · exact Or.inl h1
              · exact Or.inr ⟨List.mem_cons_of_mem _ hcm, h3⟩
            · rintro (h1 | ⟨hcm, h3⟩)
              · exact Or.inl h1
              · rcases List.mem_cons.mp hcm with hcm | hcm
                · subst hcm
                  exact absurd h3 hst
                · exact Or.inr ⟨hcm, h3⟩
        · intro c hcm hns d hd
          rcases List.mem_cons.mp hcm with hcm | hcm
          · subst hcm
            rcases hfirst with ⟨hst, _⟩ | ⟨_, hrec, _⟩
            · exact absurd hst hns
            · exact hrec d hd
          · exact hK c hcm hns d hd
/-- Claim C22: when `checkDuplicateChildResources` has been applied without error to every
child of a list of live children of one kind, whose names are distinct, each child with a
desired-name annotation is either kept (its name is in the returned list, it was not deleted,
and its name is the one recorded for its desired name) or deleted (it was passed to the delete
call, its name is not in the returned list, and it differs from the name recorded for its
desired name); a child without the annotation is kept; and two kept children with the same
desired name have the same name. -/
theorem checkDuplicateChildResources_kept_or_deleted (delete : ChildResource → Option Fault)
    (safeNameMap : Option (GoMap String)) (children : List ChildResource) (final : ChildNames)
    (hnames : (children.map (fun c => c.name)).Nodup)
    (hrun : childResourcesLoop delete children { safeNameMap := safeNameMap } = (final, none)) :
    (∀ c ∈ children, ∀ desiredName, c.desiredName = some desiredName →
      (c.name ∈ final.childResourceNames ∧ c ∉ final.deleted ∧
        safeNameOf final.safeNameMap desiredName = some c.name) ∨
      (c ∈ final.deleted ∧ c.name ∉ final.childResourceNames ∧
        ∃ safeName, safeNameOf final.safeNameMap desiredName = some safeName ∧
          safeName ≠ c.name)) ∧
    (∀ c ∈ children, c.desiredName = none →
      c.name ∈ final.childResourceNames ∧ c ∉ final.deleted) ∧
    (∀ c1 ∈ children, ∀ c2 ∈ children, ∀ desiredName,
      c1.desiredName = some desiredName → c2.desiredName = some desiredName →
      c1.name ∈ final.childResourceNames → c2.name ∈ final.childResourceNames →
      c1.name = c2.name) := by
  obtain ⟨hN, hD, hK⟩ := childResourcesLoop_spec delete children _ final hrun
  simp only [List.not_mem_nil, false_or] at hN hD
  have hinj : ∀ c1 ∈ children, ∀ c2 ∈ children, c1.name = c2.name → c1 = c2 :=
    fun c1 h1 c2 h2 he => List.inj_on_of_nodup_map hnames h1 h2 he
  have hkept : ∀ c ∈ children, c.name ∈ final.childResourceNames →
      ¬ StaleChild final.safeNameMap c := by
    intro c hc hin
    obtain ⟨c2, hc2, hname, hns⟩ := (hN c.name).mp hin
    rw [← hinj c2 hc2 c hc hname]
    exact hns
  refine ⟨?_, ?_, ?_⟩
  · intro c hc d hd
    by_cases hst : StaleChild final.safeNameMap c
    · right
      refine ⟨(hD c).mpr ⟨hc, hst⟩, fun hin => hkept c hc hin hst, ?_⟩
      obtain ⟨d2, s, h1, h2, h3⟩ := hst
      rw [hd] at h1
      simp only [Option.some.injEq] at h1
      subst h1
      exact ⟨s, h2, h3⟩
    · left
      exact ⟨(hN c.name).mpr ⟨c, hc, rfl, hst⟩, fun hin => hst ((hD c).mp hin).2, hK c hc hst d hd⟩
  · intro c hc hnone
    have hst : ¬ StaleChild final.safeNameMap c := by
      rintro ⟨d, s, h1, _⟩
      rw [hnone] at h1
      exact absurd h1 (by simp)
    exact ⟨(hN c.name).mpr ⟨c, hc, rfl, hst⟩, fun hin => hst ((hD c).mp hin).2⟩
  · intro c1 hc1 c2 hc2 d hd1 hd2 hin1 hin2
    have h1 := hK c1 hc1 (hkept c1 hc1 hin1) d hd1
    have h2 := hK c2 hc2 (hkept c2 hc2 hin2) d hd2
    rw [h1] at h2
    simp only [Option.some.injEq] at h2
    exact h2

theorem checkDuplicateChildResources_kept_or_deleted_witness :
    childResourcesLoop (fun _ => none) exampleChildren exampleChildNames =
      (exampleChildNamesAfter, none) ∧
    (∀ c ∈ exampleChildren, ∀ desiredName, c.desiredName = some desiredName →
      (c.name ∈ exampleChildNamesAfter.childResourceNames ∧
        c ∉ exampleChildNamesAfter.deleted ∧
        safeNameOf exampleChildNamesAfter.safeNameMap desiredName = some c.name) ∨
      (c ∈ exampleChildNamesAfter.deleted ∧
        c.name ∉ exampleChildNamesAfter.childResourceNames ∧
        ∃ safeName, safeNameOf exampleChildNamesAfter.safeNameMap desiredName =
          some safeName ∧ safeName ≠ c.name)) :=
  ⟨by rfl,
    (checkDuplicateChildResources_kept_or_deleted (fun _ => none) (some [("x", "x-2")])
      exampleChildren exampleChildNamesAfter (by decide) (by rfl)).1⟩

/-! ### Policy content -/

theorem objectTemplateContent_wellFormed (managedPolicyName : String) (objectTemplate : Json)
    (h : WellFormedObjectTemplate objectTemplate) :
    objectTemplateContent managedPolicyName objectTemplate =
      .ok (subscriptionOf objectTemplate) := by
  obtain ⟨fields, inner, hobj, hdef, hmeta⟩ := h
  subst hobj
  unfold objectTemplateContent subscriptionOf
  simp only [hdef]
  rcases hmeta with hnull | ⟨metadata, hm, hname, hns⟩
  · simp only [hnull]
    cases jsonField? inner "kind" with
    | none => rfl
    | some kind => cases kind <;> rfl
  · simp only [hm]
    cases hk : jsonField? inner "kind" with
    | none => rfl
    | some kind =>
      cases kind with
      | str kindText =>
        simp only []
        by_cases hsub : kindText = PolicyTypeSubscription
        · rw [if_neg (by simp [hsub]), if_pos hsub]
          cases hn : jsonField? metadata "name" with
          | none => rfl
          | some name =>
            obtain ⟨nameText, hnt⟩ := hname name hn
            subst hnt
            cases hs : jsonField? metadata "namespace" with
            | none => rfl
            | some nameSpace =>
              obtain ⟨nsText, hst⟩ := hns nameSpace hs
              subst hst
              rfl
        · rw [if_pos hsub, if_neg hsub]
      | null => rfl
      | other text => rfl
      | arr items => rfl
      | obj fs => rfl

theorem objectTemplatesLoop_wellFormed (managedPolicyName : String) (objectTemplates : List Json)
    (policyContent : List PolicyContent)
    (h : ∀ objectTemplate ∈ objectTemplates, WellFormedObjectTemplate objectTemplate) :
    objectTemplatesLoop managedPolicyName objectTemplates policyContent =
      .ok (policyContent ++ objectTemplates.filterMap subscriptionOf) := by
  induction objectTemplates generalizing policyContent with
  | nil => simp [objectTemplatesLoop]
  | cons objectTemplate rest ih =>
    have hrest : ∀ x ∈ rest, WellFormedObjectTemplate x :=
      fun x hx => h x (List.mem_cons_of_mem _ hx)
    unfold objectTemplatesLoop
    rw [objectTemplateContent_wellFormed managedPolicyName objectTemplate
      (h objectTemplate (List.mem_cons_self _ _)), List.filterMap_cons]
    cases subscriptionOf objectTemplate with
    | none => exact ih policyContent hrest
    | some content =>
      simp only []
      rw [ih _ hrest, List.append_assoc]
      rfl

theorem templateContent_wellFormed (managedPolicyName : String) (template : Json)
    (objectTemplates : List Json) (policyContent : List PolicyContent)
    (hlist : objectTemplatesOf template = some objectTemplates)
    (h : ∀ objectTemplate ∈ objectTemplates, WellFormedObjectTemplate objectTemplate) :
    templateContent managedPolicyName template policyContent =
      .ok (policyContent ++ objectTemplates.filterMap subscriptionOf) := by
  unfold objectTemplatesOf at hlist
  unfold templateContent
  cases template with
  | obj templateFields =>
    simp only [] at hlist ⊢
    cases h1 : jsonField templateFields "objectDefinition" with
    | obj objectDefinitionContent =>
      simp only [h1] at hlist ⊢
      cases h2 : jsonField objectDefinitionContent "spec" with
      | obj specContent =>
        simp only [h2] at hlist ⊢
        cases h3 : jsonField specContent "object-templates" with
        | arr items =>
          simp only [h3, Option.some.injEq] at hlist ⊢
          subst hlist
          exact objectTemplatesLoop_wellFormed managedPolicyName items policyContent h
        | null => simp [h3] at hlist
        | str s => simp [h3] at hlist
        | other s => simp [h3] at hlist
        | obj s => simp [h3] at hlist
      | null => simp [h2] at hlist
      | str s => simp [h2] at hlist
      | other s => simp [h2] at hlist
      | arr s => simp [h2] at hlist
    | null => simp [h1] at hlist
    | str s => simp [h1] at hlist
    | other s => simp [h1] at hlist
    | arr s => simp [h1] at hlist
  | null => simp at hlist
  | str s => simp at hlist
  | other s => simp at hlist
  | arr s => simp at hlist

theorem templatesLoop_wellFormed (managedPolicyName : String) (templates : List Json)
    (policyContent : List PolicyContent) (h : ∀ template ∈ templates, WellFormedTemplate template) :
    templatesLoop managedPolicyName templates policyContent =
      .ok (policyContent ++
        (templates.filterMap objectTemplatesOf).flatten.filterMap subscriptionOf) := by
  induction templates generalizing policyContent with
  | nil => simp [templatesLoop]
  | cons template rest ih =>
    have hrest : ∀ x ∈ rest, WellFormedTemplate x := fun x hx => h x (List.mem_cons_of_mem _ hx)
    obtain ⟨objectTemplates, hlist, hwell⟩ := h template (List.mem_cons_self _ _)
    unfold templatesLoop
    rw [templateContent_wellFormed managedPolicyName template objectTemplates policyContent
      hlist hwell]
    simp only []
    rw [ih _ hrest, List.filterMap_cons, hlist]
    simp only [List.flatten_cons, List.filterMap_append, List.append_assoc]

/-- A template without the list `objectDefinition.spec.object-templates` ends
`getPolicyContent` with an error or a panic. -/
theorem templateContent_fatal (managedPolicyName : String) (template : Json)
    (policyContent : List PolicyContent) (h : objectTemplatesOf template = none) :
    ∃ err, templateContent managedPolicyName template policyContent = .error err := by
  unfold objectTemplatesOf at h
  unfold templateContent
  cases template with
  | obj templateFields =>
    simp only [] at h ⊢
    cases h1 : jsonField templateFields "objectDefinition" with
    | obj objectDefinitionContent =>
      simp only [h1] at h ⊢
      cases h2 : jsonField objectDefinitionContent "spec" with
      | obj specContent =>
        simp only [h2] at h ⊢
        cases h3 : jsonField specContent "object-templates" with
        | arr items => simp [h3] at h
        | null => exact ⟨_, rfl⟩
        | str s => exact ⟨_, rfl⟩
        | other s => exact ⟨_, rfl⟩
        | obj s => exact ⟨_, rfl⟩
      | null => exact ⟨_, rfl⟩
      | str s => exact ⟨_, rfl⟩
      | other s => exact ⟨_, rfl⟩
      | arr s => exact ⟨_, rfl⟩
    | null => exact ⟨_, rfl⟩
    | str s => exact ⟨_, rfl⟩
    | other s => exact ⟨_, rfl⟩
    | arr s => exact ⟨_, rfl⟩
  | null => exact ⟨_, rfl⟩
  | str s => exact ⟨_, rfl⟩
  | other s => exact ⟨_, rfl⟩
  | arr s => exact ⟨_, rfl⟩

/-- The counterexample to claim C23: the spec of `exampleMalformedPolicy` carries a
policy-templates list whose template has no `objectDefinition`, and `getPolicyContent` returns
an error instead of skipping the template. -/
theorem getPolicyContent_missing_objectDefinition :
    (∃ specObject templates,
      jsonField exampleMalformedPolicy.object "spec" = .obj specObject ∧
      jsonField specObject "policy-templates" = .arr templates) ∧
    getPolicyContent exampleMalformedPolicy =
      .error (.error "policy p1 is missing its spec.policy-templates.objectDefinition") :=
  ⟨⟨_, _, rfl, rfl⟩, by rfl⟩

/-- Claim C23 (amended): for every managed policy whose spec carries a policy-templates list
in which every template has the list `objectDefinition.spec.object-templates` and every object
template is an object with an `objectDefinition` object (its metadata absent or an object, its
name and namespace strings), `getPolicyContent` returns no error, and the result is exactly the
list, in template order, of the kind, name and namespace of the object templates whose kind is
Subscription and that carry a name and a namespace; object templates without metadata, kind,
name or namespace and object templates of another kind are skipped. A template without
`objectDefinition`, `spec` or `object-templates` ends the function with an error. -/
theorem getPolicyContent_subscriptions (managedPolicy : UnstructuredPolicy)
    (specObject : List (String × Json)) (policyTemplates : List Json)
    (hspec : jsonField managedPolicy.object "spec" = .obj specObject)
    (htemplates : jsonField specObject "policy-templates" = .arr policyTemplates)
    (hwell : ∀ template ∈ policyTemplates, WellFormedTemplate template) :
    getPolicyContent managedPolicy =
      .ok ((policyTemplates.filterMap objectTemplatesOf).flatten.filterMap subscriptionOf) ∧
    (∀ (template : Json) (policyContent : List PolicyContent),
      objectTemplatesOf template = none →
      ∃ err, templateContent managedPolicy.name template policyContent = .error err) := by
  refine ⟨?_, fun template policyContent h =>
    templateContent_fatal managedPolicy.name template policyContent h⟩
  unfold getPolicyContent
  simp only [hspec, htemplates]
  rw [templatesLoop_wellFormed managedPolicy.name policyTemplates [] hwell]
  simp

theorem getPolicyContent_subscriptions_witness :
    getPolicyContent exampleSubscriptionPolicy =
      .ok [{ kind := "Subscription", name := "sub", nameSpace := some "ns" }] :=
  (getPolicyContent_subscriptions exampleSubscriptionPolicy _ _ rfl rfl (by
    intro template ht
    simp only [List.mem_singleton] at ht
    subst ht
    refine ⟨[exampleNamespaceTemplate, exampleSubscriptionTemplate], rfl, ?_⟩
    intro ot hot
    simp only [List.mem_cons, List.mem_singleton, List.not_mem_nil, or_false] at hot
    rcases hot with h | h
    · subst h
      refine ⟨_, _, rfl, rfl, Or.inr ⟨_, rfl, ?_, ?_⟩⟩
      · intro v hv
        simp only [jsonField?, if_true, Option.some.injEq] at hv
        exact ⟨_, hv.symm⟩
      · intro v hv
        simp [jsonField?] at hv
    · subst h
      refine ⟨_, _, rfl, rfl, Or.inr ⟨_, rfl, ?_, ?_⟩⟩
      · intro v hv
        simp only [jsonField?, if_true, Option.some.injEq] at hv
        exact ⟨_, hv.symm⟩
      · intro v hv
        simp [jsonField?] at hv
        exact ⟨_, hv.symm⟩)).1

/-! ### Install plans -/

/-- The inner loop of `approveInstallPlan` when no read of a ManagedClusterView of the cluster
fails: no error, and the flag is set exactly when it was set or a Subscription awaits its
install plan. -/
theorem subscriptionsLoop_flag (api : InstallPlanApi) (cgu : ClusterGroupUpgrade)
    (clusterName : String) (content : List PolicyContent) (flag : Bool)
    (hreads : ∀ safeName err, api.getManagedClusterView safeName clusterName ≠ .failed err) :
    ∃ flag1, subscriptionsLoop api cgu clusterName content flag = (flag1, none) ∧
      (flag1 = true ↔ flag = true ∨
        ∃ policyContent ∈ content, SubscriptionAwaits api cgu clusterName policyContent) := by
  induction content generalizing flag with
  | nil => exact ⟨flag, rfl, by simp⟩
  | cons pc rest ih =>
    have hskip : ¬ SubscriptionAwaits api cgu clusterName pc →
        ∃ flag1, subscriptionsLoop api cgu clusterName rest flag = (flag1, none) ∧
          (flag1 = true ↔ flag = true ∨
            ∃ policyContent ∈ pc :: rest, SubscriptionAwaits api cgu clusterName policyContent) := by
      intro hno
      obtain ⟨f1, hrun, hiff⟩ := ih flag
      refine ⟨f1, hrun, ?_⟩
      rw [hiff]
      constructor
      · rintro (h | ⟨x, hx, h⟩)
        · exact Or.inl h
        · exact Or.inr ⟨x, List.mem_cons_of_mem _ hx, h⟩
      · rintro (h | ⟨x, hx, h⟩)
        · exact Or.inl h
        · rcases List.mem_cons.mp hx with hx | hx
          · subst hx
            exact absurd h hno
          · exact Or.inr ⟨x, hx, h⟩
    have hset : SubscriptionAwaits api cgu clusterName pc →
        ∃ flag1, subscriptionsLoop api cgu clusterName rest true = (flag1, none) ∧
          (flag1 = true ↔ flag = true ∨
            ∃ policyContent ∈ pc :: rest, SubscriptionAwaits api cgu clusterName policyContent) := by
      intro hyes
      obtain ⟨f1, hrun, hiff⟩ := ih true
      refine ⟨f1, hrun, ?_⟩
      rw [hiff]
      constructor
      · intro _
        exact Or.inr ⟨pc, List.mem_cons_self _ _, hyes⟩
      · intro _
        exact Or.inl rfl
    unfold subscriptionsLoop
    by_cases hk : pc.kind ≠ PolicyTypeSubscription
    · rw [if_pos hk]
      exact hskip (fun h => hk h.1)
    · rw [if_neg hk]
      simp only [ne_eq, not_not] at hk
      cases hs : safeNameOf cgu.status.safeResourceNames
          (api.GetMultiCloudObjectName cgu pc.kind pc.name) with
      | none =>
        simp only []
        apply hskip
        rintro ⟨_, sn, mcv, st, h1, _⟩
        rw [hs] at h1
        exact absurd h1 (by simp)
      | some safeName =>
        simp only []
        cases hg : api.getManagedClusterView safeName clusterName with
        | failed err => exact absurd hg (hreads safeName err)
        | notFound =>
          simp only []
          apply hskip
          rintro ⟨_, sn, mcv, st, h1, h2, _⟩
          rw [hs] at h1
          simp only [Option.some.injEq] at h1
          subst h1
          rw [hg] at h2
          exact absurd h2 (by simp)
        | found mcv =>
          simp only []
          cases hp : api.ProcessSubscriptionManagedClusterView cgu clusterName mcv with
          | error e =>
            simp only []
            apply hskip
            rintro ⟨_, sn, mcv2, st, h1, h2, h3, _⟩
            rw [hs] at h1
            simp only [Option.some.injEq] at h1
            subst h1
            rw [hg] at h2
            simp only [GetResult.found.injEq] at h2
            subst h2
            rw [hp] at h3
            exact absurd h3 (by simp)
          | ok st =>
            simp only []
            have hchar : SubscriptionAwaits api cgu clusterName pc ↔
                (st = InstallPlanStatus.InstallPlanCannotBeApproved ∨
                  st = InstallPlanStatus.MultiCloudPendingStatus) := by
              constructor
              · rintro ⟨_, sn, mcv2, st2, h1, h2, h3, h4⟩
                rw [hs] at h1
                simp only [Option.some.injEq] at h1
                subst h1
                rw [hg] at h2
                simp only [GetResult.found.injEq] at h2
                subst h2
                rw [hp] at h3
                simp only [Except.ok.injEq] at h3
                subst h3
                exact h4
              · intro h4
                exact ⟨hk, safeName, mcv, st, hs, hg, hp, h4⟩
            by_cases h1 : st = InstallPlanStatus.InstallPlanCannotBeApproved
            · rw [if_pos h1]
              exact hset (hchar.mpr (Or.inl h1))
            · rw [if_neg h1]
              by_cases h2 : st = InstallPlanStatus.InstallPlanWasApproved
              · rw [if_pos h2]
                apply hskip
                rw [hchar, h2]
                decide
              · rw [if_neg h2]
                by_cases h3 : st = InstallPlanStatus.MultiCloudPendingStatus
                · rw [if_pos h3]
                  exact hset (hchar.mpr (Or.inr h3))
                · rw [if_neg h3]
                  apply hskip
                  rw [hchar]
                  rintro (h | h)
                  · exact h1 h
                  · exact h3 h

/-- The loop of `approveInstallPlan` when every InProgress cluster has saved content for its
policy and no read of a ManagedClusterView fails. -/
theorem approveInstallPlanLoop_flag (api : InstallPlanApi) (cgu : ClusterGroupUpgrade)
    (iteration : List (String × ClusterRemediationProgress)) (flag : Bool)
    (hcontent : ∀ entry ∈ iteration, entry.2.state = RemediationState.InProgress →
      HasSavedContent cgu entry)
    (hreads : ∀ safeName clusterName err,
      api.getManagedClusterView safeName clusterName ≠ .failed err) :
    ∃ flag1, approveInstallPlanLoop api cgu iteration flag = (flag1, none) ∧
      (flag1 = true ↔ flag = true ∨ ∃ entry ∈ iteration, AwaitsInstallPlan api cgu entry) := by
  induction iteration generalizing flag with
  | nil => exact ⟨flag, rfl, by simp⟩
  | cons entry rest ih =>
    obtain ⟨clusterName, progress⟩ := entry
    have hrest : ∀ entry ∈ rest, entry.2.state = RemediationState.InProgress →
        HasSavedContent cgu entry := fun e he => hcontent e (List.mem_cons_of_mem _ he)
    unfold approveInstallPlanLoop
    by_cases hstate : progress.state ≠ RemediationState.InProgress
    · rw [if_pos hstate]
      obtain ⟨f1, hrun, hiff⟩ := ih flag hrest
      refine ⟨f1, hrun, ?_⟩
      rw [hiff]
      constructor
      · rintro (h | ⟨x, hx, h⟩)
        · exact Or.inl h
        · exact Or.inr ⟨x, List.mem_cons_of_mem _ hx, h⟩
      · rintro (h | ⟨x, hx, h⟩)
        · exact Or.inl h
        · rcases List.mem_cons.mp hx with hx | hx
          · subst hx
            exact absurd h.1 hstate
          · exact Or.inr ⟨x, hx, h⟩
    · rw [if_neg hstate]
      simp only [ne_eq, not_not] at hstate
      obtain ⟨i, policy, content, hi, hp, hc⟩ :=
        hcontent (clusterName, progress) (List.mem_cons_self _ _) hstate
      simp only [] at hi hp hc
      simp only [hi, hp, hc]
      obtain ⟨f0, hsub, hsubiff⟩ := subscriptionsLoop_flag api cgu clusterName
        (api.unmarshalPolicyContent content) flag (fun s e => hreads s clusterName e)
      rw [hsub]
      simp only []
      obtain ⟨f1, hrun, hiff⟩ := ih f0 hrest
      refine ⟨f1, hrun, ?_⟩
      rw [hiff, hsubiff]
      constructor
      · rintro ((h | ⟨pc, hpc, h⟩) | ⟨x, hx, h⟩)
        · exact Or.inl h
        · exact Or.inr ⟨(clusterName, progress), List.mem_cons_self _ _, hstate, i, policy,
            content, pc, hi, hp, hc, hpc, h⟩
        · exact Or.inr ⟨x, List.mem_cons_of_mem _ hx, h⟩
      · rintro (h | ⟨x, hx, h⟩)
        · exact Or.inl (Or.inl h)
        · rcases List.mem_cons.mp hx with hx | hx
          · subst hx
            obtain ⟨_, i2, policy2, content2, pc, h1, h2, h3, h4, h5⟩ := h
            simp only [] at h1 h2 h3 h5
            rw [hi] at h1
            simp only [Option.some.injEq] at h1
            subst h1
            rw [hp] at h2
            simp only [Except.ok.injEq] at h2
            subst h2
            rw [hc] at h3
            simp only [Option.some.injEq] at h3
            subst h3
            exact Or.inl (Or.inr ⟨pc, h4, h5⟩)
          · exact Or.inr ⟨x, hx, h⟩

theorem policyAt_error (cgu : ClusterGroupUpgrade) (index : Int) (err : Fault)
    (h : policyAt cgu index = .error err) : err = .panic := by
  unfold policyAt at h
  split_ifs at h
  · simp only [Except.error.injEq] at h
    exact h.symm
  · cases hl : cgu.status.managedPoliciesForUpgrade[index.toNat]? with
    | none =>
      simp only [hl, Except.error.injEq] at h
      exact h.symm
    | some p => simp [hl] at h

theorem subscriptionsLoop_error (api : InstallPlanApi) (cgu : ClusterGroupUpgrade)
    (clusterName : String) (content : List PolicyContent) (flag flag1 : Bool) (err : Fault)
    (h : subscriptionsLoop api cgu clusterName content flag = (flag1, some err)) :
    flag1 = false ∧ ∃ safeName, api.getManagedClusterView safeName clusterName = .failed err := by
  induction content generalizing flag with
  | nil => simp [subscriptionsLoop] at h
  | cons pc rest ih =>
    unfold subscriptionsLoop at h
    by_cases hk : pc.kind ≠ PolicyTypeSubscription
    · rw [if_pos hk] at h
      exact ih flag h
    · rw [if_neg hk] at h
      cases hs : safeNameOf cgu.status.safeResourceNames
          (api.GetMultiCloudObjectName cgu pc.kind pc.name) with
      | none =>
        simp only [hs] at h
        exact ih flag h
      | some safeName =>
        simp only [hs] at h
        cases hg : api.getManagedClusterView safeName clusterName with
        | failed e =>
          simp only [hg, Prod.mk.injEq, Option.some.injEq] at h
          obtain ⟨h1, h2⟩ := h
          subst h2
          exact ⟨h1.symm, safeName, hg⟩
        | notFound =>
          simp only [hg] at h
          exact ih flag h
        | found mcv =>
          simp only [hg] at h
          cases hp : api.ProcessSubscriptionManagedClusterView cgu clusterName mcv with
          | error e =>
            simp only [hp] at h
            exact ih flag h
          | ok st =>
            simp only [hp] at h
            split_ifs at h
            · exact ih true h
            · exact ih flag h
            · exact ih true h
            · exact ih flag h

theorem approveInstallPlanLoop_error (api : InstallPlanApi) (cgu : ClusterGroupUpgrade)
    (iteration : List (String × ClusterRemediationProgress)) (flag flag1 : Bool) (err : Fault)
    (h : approveInstallPlanLoop api cgu iteration flag = (flag1, some err)) :
    flag1 = false ∧
      (err = .panic ∨
        ∃ safeName clusterName, api.getManagedClusterView safeName clusterName = .failed err) := by
  induction iteration generalizing flag with
  | nil => simp [approveInstallPlanLoop] at h
  | cons entry rest ih =>
    obtain ⟨clusterName, progress⟩ := entry
    unfold approveInstallPlanLoop at h
    by_cases hstate : progress.state ≠ RemediationState.InProgress
    · rw [if_pos hstate] at h
      exact ih flag h
    · rw [if_neg hstate] at h
      cases hi : progress.policyIndex with
      | none =>
        simp only [hi, Prod.mk.injEq, Option.some.injEq] at h
        exact ⟨h.1.symm, Or.inl h.2.symm⟩
      | some i =>
        simp only [hi] at h
        cases hp : policyAt cgu i with
        | error e =>
          simp only [hp, Prod.mk.injEq, Option.some.injEq] at h
          obtain ⟨h1, h2⟩ := h
          subst h2
          exact ⟨h1.symm, Or.inl (policyAt_error cgu i e hp)⟩
        | ok policy =>
          simp only [hp] at h
          cases hc : mapGet? cgu.status.managedPoliciesContent policy.name with
          | none => simp [hc] at h
          | some content =>
            simp only [hc] at h
            cases hsub : subscriptionsLoop api cgu clusterName
                (api.unmarshalPolicyContent content) flag with
            | mk f0 e0 =>
              rw [hsub] at h
              cases e0 with
              | some e =>
                simp only [Prod.mk.injEq, Option.some.injEq] at h
                obtain ⟨h1, h2⟩ := h
                subst h1
                subst h2
                obtain ⟨hf, sn, hread⟩ := subscriptionsLoop_error api cgu clusterName _ flag f0 e hsub
                exact ⟨hf, Or.inr ⟨sn, clusterName, hread⟩⟩
              | none =>
                simp only [] at h
                exact ih f0 h

/-- The counterexample to claim C24: cluster `a` is InProgress and the install plan of the
Subscription of its policy is processed with the outcome cannot-be-approved, yet
`approveInstallPlan` returns `reconcileSooner = false` in both iteration orders: when the read
for cluster `b` fails, the function returns the pair `false, err`, and when the policy of
cluster `b` has no saved content, it returns the pair `false, nil`. -/
theorem approveInstallPlan_flag_dropped_on_error :
    AwaitsInstallPlan exampleInstallPlans exampleTwoInProgress
      ("a", { state := RemediationState.InProgress, policyIndex := some 0 }) ∧
    approveInstallPlan exampleInstallPlans exampleTwoInProgress
      [("a", { state := RemediationState.InProgress, policyIndex := some 0 }),
       ("b", { state := RemediationState.InProgress, policyIndex := some 1 })] =
      (false, some (.error "timeout")) ∧
    approveInstallPlan exampleInstallPlans exampleTwoInProgress
      [("b", { state := RemediationState.InProgress, policyIndex := some 1 }),
       ("a", { state := RemediationState.InProgress, policyIndex := some 0 })] =
      (false, some (.error "timeout")) ∧
    AwaitsInstallPlan exampleInstallPlansReadable exampleNoContent
      ("a", { state := RemediationState.InProgress, policyIndex := some 0 }) ∧
    approveInstallPlan exampleInstallPlansReadable exampleNoContent
      [("a", { state := RemediationState.InProgress, policyIndex := some 0 }),
       ("b", { state := RemediationState.InProgress, policyIndex := some 1 })] =
      (false, none) ∧
    approveInstallPlan exampleInstallPlansReadable exampleNoContent
      [("b", { state := RemediationState.InProgress, policyIndex := some 1 }),
       ("a", { state := RemediationState.InProgress, policyIndex := some 0 })] =
      (false, none) :=
  ⟨⟨rfl, 0, { name := "p1", nameSpace := "ns" }, "subscription",
      { kind := "Subscription", name := "sub", nameSpace := some "ns" }, rfl, rfl, rfl,
      by decide,
      ⟨rfl, "view", { name := "view", nameSpace := "a" },
        InstallPlanStatus.InstallPlanCannotBeApproved, rfl, rfl, rfl, Or.inl rfl⟩⟩,
    by rfl, by rfl,
    ⟨rfl, 0, { name := "p1", nameSpace := "ns" }, "subscription",
      { kind := "Subscription", name := "sub", nameSpace := some "ns" }, rfl, rfl, rfl,
      by decide,
      ⟨rfl, "view", { name := "view", nameSpace := "a" },
        InstallPlanStatus.InstallPlanCannotBeApproved, rfl, rfl, rfl, Or.inl rfl⟩⟩,
    by rfl, by rfl⟩

/-- Claim C24 (amended): for every progress map and every iteration order over it, when every
InProgress cluster has saved content for its current policy and no read of a ManagedClusterView
fails with an error other than not-found, `approveInstallPlan` returns no error, and it returns
`reconcileSooner = true` if and only if for at least one InProgress cluster the install plan of
a Subscription of its current policy is processed with the outcome cannot-be-approved or
pending; `remediateCurrentBatch` then sets the next reconcile to the short interval. -/
theorem approveInstallPlan_reconcileSooner (api : InstallPlanApi)
    (clusterGroupUpgrade : ClusterGroupUpgrade)
    (iteration : List (String × ClusterRemediationProgress))
    (horder : iteration.Perm
      clusterGroupUpgrade.status.status.currentBatchRemediationProgress)
    (hcontent : ∀ entry ∈ clusterGroupUpgrade.status.status.currentBatchRemediationProgress,
      entry.2.state = RemediationState.InProgress → HasSavedContent clusterGroupUpgrade entry)
    (hreads : ∀ safeName clusterName err,
      api.getManagedClusterView safeName clusterName ≠ .failed err) :
    ∃ reconcileSooner,
      approveInstallPlan api clusterGroupUpgrade iteration = (reconcileSooner, none) ∧
      (reconcileSooner = true ↔
        ∃ entry ∈ clusterGroupUpgrade.status.status.currentBatchRemediationProgress,
          AwaitsInstallPlan api clusterGroupUpgrade entry) ∧
      (∀ (env : Env) (nextReconcile : Result),
        env.updatePlacementRules clusterGroupUpgrade = none →
        env.approveInstallPlan clusterGroupUpgrade =
          approveInstallPlan api clusterGroupUpgrade iteration →
        reconcileSooner = true →
        remediateCurrentBatch env clusterGroupUpgrade nextReconcile =
          (requeueWithShortInterval, none)) := by
  obtain ⟨f1, hrun, hiff⟩ := approveInstallPlanLoop_flag api clusterGroupUpgrade iteration false
    (fun e he => hcontent e (horder.mem_iff.mp he)) hreads
  refine ⟨f1, hrun, ?_, ?_⟩
  · rw [hiff]
    constructor
    · rintro (h | ⟨e, he, h⟩)
      · exact absurd h (by decide)
      · exact ⟨e, horder.mem_iff.mp he, h⟩
    · rintro ⟨e, he, h⟩
      exact Or.inr ⟨e, horder.mem_iff.mpr he, h⟩
  · intro env next hplace happrove hflag
    unfold remediateCurrentBatch
    have hrun2 : approveInstallPlan api clusterGroupUpgrade iteration = (f1, none) := hrun
    rw [hplace, happrove, hrun2, hflag]
    rfl

theorem approveInstallPlan_reconcileSooner_witness :
    ∃ reconcileSooner,
      approveInstallPlan exampleInstallPlansReadable exampleFirstInProgress
        [("a", { state := RemediationState.InProgress, policyIndex := some 0 })] =
          (reconcileSooner, none) ∧
      (reconcileSooner = true ↔
        ∃ entry ∈ exampleFirstInProgress.status.status.currentBatchRemediationProgress,
          AwaitsInstallPlan exampleInstallPlansReadable exampleFirstInProgress entry) ∧
      (∀ (env : Env) (nextReconcile : Result),
        env.updatePlacementRules exampleFirstInProgress = none →
        env.approveInstallPlan exampleFirstInProgress =
          approveInstallPlan exampleInstallPlansReadable exampleFirstInProgress
            [("a", { state := RemediationState.InProgress, policyIndex := some 0 })] →
        reconcileSooner = true →
        remediateCurrentBatch env exampleFirstInProgress nextReconcile =
          (requeueWithShortInterval, none)) :=
  approveInstallPlan_reconcileSooner exampleInstallPlansReadable exampleFirstInProgress
    [("a", { state := RemediationState.InProgress, policyIndex := some 0 })]
    (List.Perm.refl _)
    (by
      intro entry he _
      simp only [exampleFirstInProgress, List.mem_singleton] at he
      subst he
      exact ⟨0, { name := "p1", nameSpace := "ns" }, "subscription", rfl, rfl, rfl⟩)
    (by
      intro safeName clusterName err h
      simp [exampleInstallPlansReadable] at h)

/-- The counterexample to claim C25: the read of the ManagedClusterView of cluster `b` fails
with an error other than not-found, and `approveInstallPlan` returns this error with
`reconcileSooner = false`, which `remediateCurrentBatch` passes on without the short requeue;
and when the processing of the ManagedClusterView fails, `approveInstallPlan` returns no error
and `reconcileSooner = false`, so that no short requeue is requested. -/
theorem approveInstallPlan_read_error_returned :
    approveInstallPlan exampleInstallPlans exampleOneInProgress
      [("b", { state := RemediationState.InProgress, policyIndex := some 1 })] =
      (false, some (.error "timeout")) ∧
    remediateCurrentBatch (exampleDriverEnv exampleInstallPlans) exampleOneInProgress
      doNotRequeue = (doNotRequeue, some (.error "timeout")) ∧
    approveInstallPlan exampleInstallPlansFailing exampleOneInProgress
      [("b", { state := RemediationState.InProgress, policyIndex := some 1 })] =
      (false, none) ∧
    remediateCurrentBatch (exampleDriverEnv exampleInstallPlansFailing) exampleOneInProgress
      doNotRequeue = (doNotRequeue, none) ∧
    requeueWithShortInterval ≠ doNotRequeue :=
  ⟨by rfl, by rfl, by rfl, by rfl, by decide⟩

/-- Claim C25 (amended): for a Subscription whose ManagedClusterView has a recorded name, an
error of the read of the ManagedClusterView other than not-found makes `approveInstallPlan`
return this error with `reconcileSooner = false`, and an error returned while processing the
ManagedClusterView is not returned: the Subscription is skipped and `reconcileSooner` keeps its
value. Every error that `approveInstallPlan` returns comes with `reconcileSooner = false`, is a
failed read of a ManagedClusterView or an index out of range, and `remediateCurrentBatch`
returns it with the next reconcile unchanged. -/
theorem approveInstallPlan_errors (api : InstallPlanApi)
    (clusterGroupUpgrade : ClusterGroupUpgrade) (clusterName : String)
    (policyContent : PolicyContent) (rest : List PolicyContent) (reconcileSooner : Bool)
    (safeName : String)
    (hkind : policyContent.kind = PolicyTypeSubscription)
    (hname : safeNameOf clusterGroupUpgrade.status.safeResourceNames
      (api.GetMultiCloudObjectName clusterGroupUpgrade policyContent.kind
        policyContent.name) = some safeName) :
    (∀ err, api.getManagedClusterView safeName clusterName = .failed err →
      subscriptionsLoop api clusterGroupUpgrade clusterName (policyContent :: rest)
        reconcileSooner = (false, some err)) ∧
    (∀ mcv err, api.getManagedClusterView safeName clusterName = .found mcv →
      api.ProcessSubscriptionManagedClusterView clusterGroupUpgrade clusterName mcv =
        .error err →
      subscriptionsLoop api clusterGroupUpgrade clusterName (policyContent :: rest)
          reconcileSooner =
        subscriptionsLoop api clusterGroupUpgrade clusterName rest reconcileSooner) ∧
    (∀ (iteration : List (String × ClusterRemediationProgress)) (flag : Bool) (err : Fault),
      approveInstallPlan api clusterGroupUpgrade iteration = (flag, some err) →
      flag = false ∧
      (err = .panic ∨
        ∃ name cluster, api.getManagedClusterView name cluster = .failed err) ∧
      ∀ (env : Env) (nextReconcile : Result),
        env.updatePlacementRules clusterGroupUpgrade = none →
        env.approveInstallPlan clusterGroupUpgrade =
          approveInstallPlan api clusterGroupUpgrade iteration →
        remediateCurrentBatch env clusterGroupUpgrade nextReconcile =
          (nextReconcile, some err)) := by
  refine ⟨?_, ?_, ?_⟩
  · intro err hread
    unfold subscriptionsLoop
    rw [if_neg (not_not.mpr hkind)]
    simp only [hname, hread]
  · intro mcv err hread hprocess
    conv_lhs => unfold subscriptionsLoop
    rw [if_neg (not_not.mpr hkind)]
    simp only [hname, hread, hprocess]
  · intro iteration flag err hrun
    obtain ⟨hflag, hsource⟩ :=
      approveInstallPlanLoop_error api clusterGroupUpgrade iteration false flag err hrun
    refine ⟨hflag, hsource, ?_⟩
    intro env nextReconcile hplace happrove
    unfold remediateCurrentBatch
    rw [hplace, happrove, hrun, hflag]
    rfl

theorem approveInstallPlan_errors_witness :
    (∀ err, exampleInstallPlans.getManagedClusterView "view" "b" = .failed err →
      subscriptionsLoop exampleInstallPlans exampleOneInProgress "b"
        [{ kind := "Subscription", name := "sub", nameSpace := some "ns" }] false =
          (false, some err)) ∧
    (∀ mcv err, exampleInstallPlans.getManagedClusterView "view" "b" = .found mcv →
      exampleInstallPlans.ProcessSubscriptionManagedClusterView exampleOneInProgress "b" mcv =
        .error err →
      subscriptionsLoop exampleInstallPlans exampleOneInProgress "b"
          [{ kind := "Subscription", name := "sub", nameSpace := some "ns" }] false =
        subscriptionsLoop exampleInstallPlans exampleOneInProgress "b" [] false) ∧
    (∀ (iteration : List (String × ClusterRemediationProgress)) (flag : Bool) (err : Fault),
      approveInstallPlan exampleInstallPlans exampleOneInProgress iteration =
        (flag, some err) →
      flag = false ∧
      (err = .panic ∨
        ∃ name cluster, exampleInstallPlans.getManagedClusterView name cluster =
          .failed err) ∧
      ∀ (env : Env) (nextReconcile : Result),
        env.updatePlacementRules exampleOneInProgress = none →
        env.approveInstallPlan exampleOneInProgress =
          approveInstallPlan exampleInstallPlans exampleOneInProgress iteration →
        remediateCurrentBatch env exampleOneInProgress nextReconcile =
          (nextReconcile, some err)) :=
  approveInstallPlan_errors exampleInstallPlans exampleOneInProgress "b"
    { kind := "Subscription", name := "sub", nameSpace := some "ns" } [] false "view"
    rfl rfl

/-! ### The lookups of the batch driver -/

theorem mem_mapSet {α : Type} (m : GoMap α) (k : String) (v : α) (p : String × α)
    (h : p ∈ mapSet m k v) : p = (k, v) ∨ p ∈ m := by
  induction m with
  | nil =>
    simp only [mapSet, List.mem_singleton] at h
    exact Or.inl h
  | cons hd tl ih =>
    obtain ⟨k0, v0⟩ := hd
    unfold mapSet at h
    by_cases hk : k0 = k
    · rw [if_pos hk] at h
      rcases List.mem_cons.mp h with h | h
      · exact Or.inl h
      · exact Or.inr (List.mem_cons_of_mem _ h)
    · rw [if_neg hk] at h
      rcases List.mem_cons.mp h with h | h
      · exact Or.inr (by rw [h]; exact List.mem_cons_self _ _)
      · rcases ih h with h | h
        · exact Or.inl h
        · exact Or.inr (List.mem_cons_of_mem _ h)

theorem mapGet?_mem {α : Type} (m : GoMap α) (k : String) (v : α)
    (h : mapGet? m k = some v) : (k, v) ∈ m := by
  induction m with
  | nil => simp [mapGet?] at h
  | cons hd tl ih =>
    obtain ⟨k0, v0⟩ := hd
    unfold mapGet? at h
    by_cases hk : k0 = k
    · rw [if_pos hk] at h
      simp only [Option.some.injEq] at h
      rw [hk, h]
      exact List.mem_cons_self _ _
    · rw [if_neg hk] at h
      exact List.mem_cons_of_mem _ (ih h)

theorem initializeLoop_entries (batch : List String) (m : GoMap ClusterRemediationProgress)
    (hm : ∀ p ∈ m, p.2 = { state := RemediationState.NotStarted })
    (p : String × ClusterRemediationProgress) (hp : p ∈ initializeLoop batch m) :
    p.2 = { state := RemediationState.NotStarted } := by
  induction batch generalizing m with
  | nil => exact hm p hp
  | cons c rest ih =>
    unfold initializeLoop at hp
    refine ih _ ?_ hp
    intro q hq
    rcases mem_mapSet m c _ q hq with h | h
    · rw [h]
    · exact hm q h

theorem batchProgressLoop_entries (g : String → String → Except Fault Policy)
    (cgu : ClusterGroupUpgrade) (batch : List String)
    (pm pm1 : GoMap ClusterRemediationProgress) (done done1 : Bool)
    (hpm : ∀ p ∈ pm, ProgressEntryOk cgu.status.managedPoliciesForUpgrade.length p.2)
    (h : batchProgressLoop g cgu batch pm done = .ok (pm1, done1)) :
    ∀ p ∈ pm1, ProgressEntryOk cgu.status.managedPoliciesForUpgrade.length p.2 := by
  induction batch generalizing pm done with
  | nil =>
    simp only [batchProgressLoop, Except.ok.injEq, Prod.mk.injEq] at h
    rw [← h.1]
    exact hpm
  | cons c rest ih =>
    unfold batchProgressLoop at h
    cases hget : mapGet? pm c with
    | none => simp [hget] at h
    | some progress =>
      simp only [hget] at h
      by_cases hstate : progress.state = RemediationState.Completed
      · rw [if_pos hstate] at h
        exact ih pm done hpm h
      · rw [if_neg hstate] at h
        cases hadv : advanceFromIndex g cgu c (startProgress progress) with
        | error err => simp [hadv] at h
        | ok res =>
          obtain ⟨progress1, completed⟩ := res
          simp only [hadv] at h
          refine ih _ _ ?_ h
          intro q hq
          rcases mem_mapSet pm c progress1 q hq with hq | hq
          · rw [hq]
            have hcl : advanceCluster g cgu c progress = .ok (progress1, completed) := by
              unfold advanceCluster
              rw [if_neg hstate]
              exact hadv
            exact advanceCluster_entryOk g cgu c progress progress1 completed
              (hpm (c, progress) (mapGet?_mem pm c progress hget)) hcl
          · exact hpm q hq

theorem policyAt_ok (cgu : ClusterGroupUpgrade) (index : Int) (h0 : 0 ≤ index)
    (h1 : index < cgu.status.managedPoliciesForUpgrade.length) :
    ∃ policy, policyAt cgu index = .ok policy := by
  unfold policyAt
  rw [if_neg (by omega)]
  have hlt : index.toNat < cgu.status.managedPoliciesForUpgrade.length := by omega
  rw [List.getElem?_eq_getElem hlt]
  exact ⟨_, rfl⟩

theorem mem_setClusterNames (policiesToUpdate : List (Int × List String)) (index : Int)
    (clusterNames : List String) (p : Int × List String)
    (h : p ∈ setClusterNames policiesToUpdate index clusterNames) :
    p.1 = index ∨ p ∈ policiesToUpdate := by
  induction policiesToUpdate with
  | nil =>
    simp only [setClusterNames, List.mem_singleton] at h
    exact Or.inl (by rw [h])
  | cons hd tl ih =>
    obtain ⟨k0, v0⟩ := hd
    unfold setClusterNames at h
    by_cases hk : k0 = index
    · rw [if_pos hk] at h
      rcases List.mem_cons.mp h with h | h
      · exact Or.inl (by rw [h])
      · exact Or.inr (List.mem_cons_of_mem _ h)
    · rw [if_neg hk] at h
      rcases List.mem_cons.mp h with h | h
      · exact Or.inr (by rw [h]; exact List.mem_cons_self _ _)
      · rcases ih h with h | h
        · exact Or.inl h
        · exact Or.inr (List.mem_cons_of_mem _ h)

theorem policiesToUpdateLoop_keys (inRange : Int → Prop)
    (iteration : List (String × ClusterRemediationProgress))
    (policiesToUpdate : List (Int × List String))
    (hentries : ∀ entry ∈ iteration, entry.2.state = RemediationState.InProgress →
      ∃ i, entry.2.policyIndex = some i ∧ inRange i)
    (hacc : ∀ p ∈ policiesToUpdate, inRange p.1) :
    ∃ result, policiesToUpdateLoop iteration policiesToUpdate = .ok result ∧
      ∀ p ∈ result, inRange p.1 := by
  induction iteration generalizing policiesToUpdate with
  | nil => exact ⟨policiesToUpdate, rfl, hacc⟩
  | cons entry rest ih =>
    obtain ⟨clusterName, progress⟩ := entry
    unfold policiesToUpdateLoop
    have hrest : ∀ entry ∈ rest, entry.2.state = RemediationState.InProgress →
        ∃ i, entry.2.policyIndex = some i ∧ inRange i :=
      fun e he => hentries e (List.mem_cons_of_mem _ he)
    by_cases hstate : progress.state ≠ RemediationState.InProgress
    · rw [if_pos hstate]
      exact ih policiesToUpdate hrest hacc
    · rw [if_neg hstate]
      obtain ⟨i, hi, hr⟩ := hentries (clusterName, progress) (List.mem_cons_self _ _)
        (not_not.mp hstate)
      simp only [] at hi
      simp only [hi]
      refine ih _ hrest ?_
      intro p hp
      rcases mem_setClusterNames _ _ _ p hp with h | h
      · rw [h]
        exact hr
      · exact hacc p h

theorem driverInvariant_initialized (fresh started : ClusterGroupUpgrade)
    (hinit : initializeRemediationPolicyForBatch fresh = .ok started) :
    DriverInvariant started := by
  unfold initializeRemediationPolicyForBatch at hinit
  cases hb : planBatch fresh (fresh.status.status.currentBatch - 1) with
  | error err => simp [hb] at hinit
  | ok batch =>
    simp only [hb, Except.ok.injEq] at hinit
    subst hinit
    constructor
    · refine ⟨batch, hb, ?_⟩
      intro c hc
      refine ⟨{ state := RemediationState.NotStarted }, ?_⟩
      simp only []
      rw [initializeLoop_get, if_pos hc]
    · intro entry he
      simp only [] at he
      have h := initializeLoop_entries batch [] (by simp) entry he
      rw [h]
      constructor
      · simp
      · intro i hi
        simp at hi

theorem driverInvariant_next (g : String → String → Except Fault Policy)
    (cgu cgu1 : ClusterGroupUpgrade) (done : Bool) (hinv : DriverInvariant cgu)
    (h : getNextRemediationPoliciesForBatch g cgu = .ok (done, cgu1)) :
    DriverInvariant cgu1 := by
  obtain ⟨batch, pm1, hb, hloop, hcgu⟩ := getNextRemediationPoliciesForBatch_eq g cgu cgu1 done h
  obtain ⟨_, hspec, _⟩ := batchProgressLoop_spec g cgu batch _ pm1 true done hloop
  have hentries := batchProgressLoop_entries g cgu batch _ pm1 true done hinv.2 hloop
  subst hcgu
  constructor
  · refine ⟨batch, hb, ?_⟩
    intro c hc
    obtain ⟨e, e1, b, _, _, he1⟩ := hspec c hc
    exact ⟨e1, he1⟩
  · exact hentries

theorem driverInvariant_advanced (started cgu : ClusterGroupUpgrade)
    (hstart : DriverInvariant started) (h : Advanced started cgu) : DriverInvariant cgu := by
  induction h with
  | initial => exact hstart
  | next g cgu0 cgu1 done _ hnext ih => exact driverInvariant_next g cgu0 cgu1 done ih hnext

theorem driverInvariant_index (cgu : ClusterGroupUpgrade) (hinv : DriverInvariant cgu)
    (entry : String × ClusterRemediationProgress)
    (he : entry ∈ cgu.status.status.currentBatchRemediationProgress)
    (hstate : entry.2.state = RemediationState.InProgress) :
    ∃ i, entry.2.policyIndex = some i ∧ ∃ policy, policyAt cgu i = .ok policy := by
  obtain ⟨hiff, hrange⟩ := hinv.2 entry he
  have hsome := hiff.mpr hstate
  cases hi : entry.2.policyIndex with
  | none => simp [hi] at hsome
  | some i =>
    obtain ⟨h0, h1⟩ := hrange i hi
    exact ⟨i, rfl, policyAt_ok cgu i h0 h1⟩

theorem approveInstallPlanLoop_error_read (api : InstallPlanApi) (cgu : ClusterGroupUpgrade)
    (iteration : List (String × ClusterRemediationProgress)) (flag flag1 : Bool) (err : Fault)
    (hentries : ∀ entry ∈ iteration, entry.2.state = RemediationState.InProgress →
      ∃ i, entry.2.policyIndex = some i ∧ ∃ policy, policyAt cgu i = .ok policy)
    (h : approveInstallPlanLoop api cgu iteration flag = (flag1, some err)) :
    ∃ safeName clusterName, api.getManagedClusterView safeName clusterName = .failed err := by
  induction iteration generalizing flag with
  | nil => simp [approveInstallPlanLoop] at h
  | cons entry rest ih =>
    obtain ⟨clusterName, progress⟩ := entry
    have hrest : ∀ entry ∈ rest, entry.2.state = RemediationState.InProgress →
        ∃ i, entry.2.policyIndex = some i ∧ ∃ policy, policyAt cgu i = .ok policy :=
      fun e he => hentries e (List.mem_cons_of_mem _ he)
    unfold approveInstallPlanLoop at h
    by_cases hstate : progress.state ≠ RemediationState.InProgress
    · rw [if_pos hstate] at h
      exact ih flag hrest h
    · rw [if_neg hstate] at h
      obtain ⟨i, hi, policy, hp⟩ := hentries (clusterName, progress) (List.mem_cons_self _ _)
        (not_not.mp hstate)
      simp only [] at hi
      simp only [hi, hp] at h
      cases hc : mapGet? cgu.status.managedPoliciesContent policy.name with
      | none => simp [hc] at h
      | some content =>
        simp only [hc] at h
        cases hsub : subscriptionsLoop api cgu clusterName
            (api.unmarshalPolicyContent content) flag with
        | mk f0 e0 =>
          rw [hsub] at h
          cases e0 with
          | some e =>
            simp only [Prod.mk.injEq, Option.some.injEq] at h
            obtain ⟨h1, h2⟩ := h
            subst h1
            subst h2
            obtain ⟨_, sn, hread⟩ := subscriptionsLoop_error api cgu clusterName _ flag f0 e hsub
            exact ⟨sn, clusterName, hread⟩
          | none =>
            simp only [] at h
            exact ih f0 hrest h

theorem placementRulesLoop_error (api : PlacementApi) (cgu : ClusterGroupUpgrade)
    (policiesToUpdate : List (Int × List String)) (err : Fault)
    (hkeys : ∀ p ∈ policiesToUpdate, ∃ policy, policyAt cgu p.1 = .ok policy)
    (h : placementRulesLoop api cgu policiesToUpdate = some err) :
    (∃ placementRuleName,
      safeNameOf cgu.status.safeResourceNames placementRuleName = none ∧
      err = .error ("placement object name " ++ placementRuleName ++ " not found in CGU " ++
        cgu.name)) ∨
    ∃ clusterNames safeName,
      updatePlacementRuleWithClusters api.rules cgu clusterNames safeName = some err := by
  induction policiesToUpdate with
  | nil => simp [placementRulesLoop] at h
  | cons hd tl ih =>
    obtain ⟨index, clusterNames⟩ := hd
    obtain ⟨policy, hp⟩ := hkeys (index, clusterNames) (List.mem_cons_self _ _)
    simp only [] at hp
    unfold placementRulesLoop at h
    simp only [hp] at h
    cases hs : safeNameOf cgu.status.safeResourceNames
        (api.GetResourceName cgu (policy.name ++ "-placement")) with
    | none =>
      simp only [hs, Option.some.injEq] at h
      exact Or.inl ⟨_, hs, h.symm⟩
    | some safeName =>
      simp only [hs] at h
      cases hu : updatePlacementRuleWithClusters api.rules cgu clusterNames safeName with
      | some e =>
        simp only [hu, Option.some.injEq] at h
        subst h
        exact Or.inr ⟨clusterNames, safeName, hu⟩
      | none =>
        simp only [hu] at h
        exact ih (fun p hp => hkeys p (List.mem_cons_of_mem _ hp)) h

/-- Claim C30: under `1 ≤ currentBatch ≤ |remediationPlan|` the call of
`initializeRemediationPolicyForBatch` succeeds, and in every object that follows its result by
any number of error-free calls of `getNextRemediationPoliciesForBatch` the lookups of the batch
driver succeed: `remediationPlan[currentBatch-1]` is in range, every cluster of the batch has a
progress entry, every InProgress entry has a policy index, which is a position of
`managedPoliciesForUpgrade`, and for every iteration order `updatePlacementRules` and
`approveInstallPlan` index `managedPoliciesForUpgrade` at such positions only: the first loop
of `updatePlacementRules` ends with keys that are all positions of the list, and an error that
one of the two functions returns is the error of a missing placement rule name, of
`updatePlacementRuleWithClusters` or of the read of a ManagedClusterView. -/
theorem batchDriver_lookups_succeed (clusterGroupUpgrade : ClusterGroupUpgrade)
    (hlow : 1 ≤ clusterGroupUpgrade.status.status.currentBatch)
    (hhigh : clusterGroupUpgrade.status.status.currentBatch ≤
      clusterGroupUpgrade.status.remediationPlan.length) :
    ∃ started, initializeRemediationPolicyForBatch clusterGroupUpgrade = .ok started ∧
      ∀ cgu, Advanced started cgu →
        (∃ batch, planBatch cgu (cgu.status.status.currentBatch - 1) = .ok batch ∧
          ∀ c ∈ batch, ∃ progress,
            mapGet? cgu.status.status.currentBatchRemediationProgress c = some progress) ∧
        (∀ entry ∈ cgu.status.status.currentBatchRemediationProgress,
          entry.2.state = RemediationState.InProgress →
          ∃ policyIndex, entry.2.policyIndex = some policyIndex ∧
            0 ≤ policyIndex ∧ policyIndex < cgu.status.managedPoliciesForUpgrade.length ∧
            ∃ managedPolicy, policyAt cgu policyIndex = .ok managedPolicy) ∧
        (∀ iteration : List (String × ClusterRemediationProgress),
          iteration.Perm cgu.status.status.currentBatchRemediationProgress →
          ∃ policiesToUpdate, policiesToUpdateLoop iteration [] = .ok policiesToUpdate ∧
            ∀ p ∈ policiesToUpdate, ∃ managedPolicy, policyAt cgu p.1 = .ok managedPolicy) ∧
        (∀ (api : PlacementApi) (iteration : List (String × ClusterRemediationProgress))
            (reorder : List (Int × List String) → List (Int × List String)) (err : Fault),
          iteration.Perm cgu.status.status.currentBatchRemediationProgress →
          (∀ policiesToUpdate, (reorder policiesToUpdate).Perm policiesToUpdate) →
          updatePlacementRules api cgu iteration reorder = some err →
          (∃ placementRuleName,
            safeNameOf cgu.status.safeResourceNames placementRuleName = none ∧
            err = .error ("placement object name " ++ placementRuleName ++
              " not found in CGU " ++ cgu.name)) ∨
          ∃ clusterNames safeName,
            updatePlacementRuleWithClusters api.rules cgu clusterNames safeName = some err) ∧
        (∀ (api : InstallPlanApi) (iteration : List (String × ClusterRemediationProgress))
            (reconcileSooner : Bool) (err : Fault),
          iteration.Perm cgu.status.status.currentBatchRemediationProgress →
          approveInstallPlan api cgu iteration = (reconcileSooner, some err) →
          ∃ safeName clusterName,
            api.getManagedClusterView safeName clusterName = .failed err) := by
  obtain ⟨batch, hb⟩ := planBatch_ok clusterGroupUpgrade
    (clusterGroupUpgrade.status.status.currentBatch - 1) (by omega) (by omega)
  have hinit : ∃ started, initializeRemediationPolicyForBatch clusterGroupUpgrade =
      .ok started := by
    unfold initializeRemediationPolicyForBatch
    rw [hb]
    exact ⟨_, rfl⟩
  obtain ⟨started, hstarted⟩ := hinit
  refine ⟨started, hstarted, ?_⟩
  intro cgu hadv
  have hinv := driverInvariant_advanced started cgu
    (driverInvariant_initialized clusterGroupUpgrade started hstarted) hadv
  have hloop : ∀ iteration : List (String × ClusterRemediationProgress),
      iteration.Perm cgu.status.status.currentBatchRemediationProgress →
      ∃ policiesToUpdate, policiesToUpdateLoop iteration [] = .ok policiesToUpdate ∧
        ∀ p ∈ policiesToUpdate, ∃ managedPolicy, policyAt cgu p.1 = .ok managedPolicy := by
    intro iteration hperm
    exact policiesToUpdateLoop_keys (fun i => ∃ managedPolicy, policyAt cgu i = .ok managedPolicy)
      iteration []
      (fun entry he hstate =>
        driverInvariant_index cgu hinv entry (hperm.mem_iff.mp he) hstate)
      (by simp)
  refine ⟨hinv.1, ?_, hloop, ?_, ?_⟩
  · intro entry he hstate
    obtain ⟨hiff, hrange⟩ := hinv.2 entry he
    obtain ⟨i, hi, hp⟩ := driverInvariant_index cgu hinv entry he hstate
    exact ⟨i, hi, (hrange i hi).1, (hrange i hi).2, hp⟩
  · intro api iteration reorder err hperm hreorder hrun
    obtain ⟨policiesToUpdate, hfirst, hkeys⟩ := hloop iteration hperm
    unfold updatePlacementRules at hrun
    rw [hfirst] at hrun
    exact placementRulesLoop_error api cgu (reorder policiesToUpdate) err
      (fun p hp => hkeys p ((hreorder policiesToUpdate).mem_iff.mp hp)) hrun
  · intro api iteration reconcileSooner err hperm hrun
    exact approveInstallPlanLoop_error_read api cgu iteration false reconcileSooner err
      (fun entry he hstate =>
        driverInvariant_index cgu hinv entry (hperm.mem_iff.mp he) hstate)
      hrun

theorem batchDriver_lookups_succeed_witness :
    ∃ started, initializeRemediationPolicyForBatch exampleUpgrade = .ok started ∧
      ∀ cgu, Advanced started cgu →
        (∃ batch, planBatch cgu (cgu.status.status.currentBatch - 1) = .ok batch ∧
          ∀ c ∈ batch, ∃ progress,
            mapGet? cgu.status.status.currentBatchRemediationProgress c = some progress) ∧
        (∀ entry ∈ cgu.status.status.currentBatchRemediationProgress,
          entry.2.state = RemediationState.InProgress →
          ∃ policyIndex, entry.2.policyIndex = some policyIndex ∧
            0 ≤ policyIndex ∧ policyIndex < cgu.status.managedPoliciesForUpgrade.length ∧
            ∃ managedPolicy, policyAt cgu policyIndex = .ok managedPolicy) ∧
        (∀ iteration : List (String × ClusterRemediationProgress),
          iteration.Perm cgu.status.status.currentBatchRemediationProgress →
          ∃ policiesToUpdate, policiesToUpdateLoop iteration [] = .ok policiesToUpdate ∧
            ∀ p ∈ policiesToUpdate, ∃ managedPolicy, policyAt cgu p.1 = .ok managedPolicy) ∧
        (∀ (api : PlacementApi) (iteration : List (String × ClusterRemediationProgress))
            (reorder : List (Int × List String) → List (Int × List String)) (err : Fault),
          iteration.Perm cgu.status.status.currentBatchRemediationProgress →
          (∀ policiesToUpdate, (reorder policiesToUpdate).Perm policiesToUpdate) →
          updatePlacementRules api cgu iteration reorder = some err →
          (∃ placementRuleName,
            safeNameOf cgu.status.safeResourceNames placementRuleName = none ∧
            err = .error ("placement object name " ++ placementRuleName ++
              " not found in CGU " ++ cgu.name)) ∨
          ∃ clusterNames safeName,
            updatePlacementRuleWithClusters api.rules cgu clusterNames safeName = some err) ∧
        (∀ (api : InstallPlanApi) (iteration : List (String × ClusterRemediationProgress))
            (reconcileSooner : Bool) (err : Fault),
          iteration.Perm cgu.status.status.currentBatchRemediationProgress →
          approveInstallPlan api cgu iteration = (reconcileSooner, some err) →
          ∃ safeName clusterName,
            api.getManagedClusterView safeName clusterName = .failed err) :=
  batchDriver_lookups_succeed exampleUpgrade (by decide) (by decide)

end Cgu
